import Mathlib

/-!
# Video upload backend: upload and transcode pipeline

A shallow embedding of the Go packages `internal/domain/entity`,
`internal/adapter/repository`, `internal/infrastructure/storage`,
`internal/infrastructure/transcode`, `internal/usecase` and `pkg/config`.

Modelling conventions.

* Go `float64` durations are idealised as exact rationals (`ℚ`).
* Go `error` values are their message strings; `fmt.Errorf("msg: %w", err)` is
  string concatenation.
* Stateful code is a function `World → result × World`.  The rows of the
  `videos` table are a map from id to record, the rows of the `segments` table
  a list in insertion order.
* Everything outside the process (object storage, ffmpeg/ffprobe, the local
  file system, database faults, the clock and the uuid generator) is an
  oracle in `Env`.  An oracle is indexed by the number of collaborator calls
  made so far, so it can answer the same call differently at different times.
* Every collaborator call is appended to `World.trace` together with its
  arguments, its result and the call site it was made from.
* What the calls of a trace leave in the stores is read off the trace:
  `rowsAfter` applies the successful writes to the table `videos`, and every
  program is shown to leave exactly the table so obtained; `artifactsAfter`
  applies the successful uploads to a bucket with `putObject`.
* A goroutine is recorded in `World.spawned` when it is started;
  `uploadAndRun` runs it to its end after `UploadVideo` has returned, with
  nothing else interleaved.  The one record that the goroutine shares with the
  caller of `UploadVideo`, through the returned pointer, is followed by
  `sharedRecord`: a reader of the pointer finds the record as it is after some
  number of the assignments of the goroutine.
* Writes to standard output (`fmt.Printf`) are not modelled.
* `FFmpegService` runs its commands through a `Shell`: the process runner,
  `os.MkdirAll` and `filepath.Glob` are oracles that receive the arguments.
* Go `int` values are integers; where a result can leave the 64-bit range
  (`ListUsers`, `strconv.Atoi`) it is wrapped by `wrapInt`.
* The process environment read by `pkg/config` is a map from variable names
  to values.
-/

namespace VideoBackend

/-! ## internal/domain/entity -/

/-- Raw bytes of a file or object. -/
abbrev Bytes := List Nat

/-- Timestamps as read from the clock. -/
abbrev Time := Nat

/-- Go type `entity.VideoStatus` (a string). -/
abbrev VideoStatus := String

def StatusPending : VideoStatus := "pending"
def StatusUploaded : VideoStatus := "uploaded"
def StatusProcessing : VideoStatus := "processing"
def StatusTranscoded : VideoStatus := "transcoded"
def StatusSegmented : VideoStatus := "segmented"
def StatusComplete : VideoStatus := "complete"
def StatusFailed : VideoStatus := "failed"

/-- Go struct `entity.Video`. -/
structure Video where
  ID : String
  Title : String
  Description : String
  Duration : ℚ
  OriginalURL : String
  ThumbnailURL : String
  Status : VideoStatus
  FileSize : Int
  MimeType : String
  UserID : String
  ResolutionInfo : String
  CreatedAt : Time
  UpdatedAt : Time
  deriving DecidableEq

/-- Go type `entity.Resolution` (a string). -/
abbrev Resolution := String

def Resolution1080p : Resolution := "1080p"
def Resolution720p : Resolution := "720p"

/-- Go struct `entity.Segment`. -/
structure Segment where
  ID : String
  VideoID : String
  FileName : String
  URL : String
  Resolution : Resolution
  StartTime : ℚ
  Duration : ℚ
  SegmentIndex : Int
  CreatedAt : Time
  deriving DecidableEq

/-! ## Standard-library helpers used by the use cases -/

/-- Go `filepath.Base` on a Unix path: the last element of the path, after
trailing slashes are removed; `"."` for the empty path and `"/"` for a path
of slashes only. -/
def filepathBase (path : String) : String :=
  if path = "" then "."
  else
    let stripped := (path.toList.reverse.dropWhile (fun c => c == '/')).reverse
    let last := (stripped.reverse.takeWhile (fun c => c != '/')).reverse
    if last = [] then "/" else String.mk last

/-- Go `filepath.Join(dir, name)` for a clean `dir` that is neither empty nor
the root and a clean relative `name`: the two joined by one separator. -/
def filepathJoin (dir name : String) : String :=
  dir ++ "/" ++ name

/-- Go `fmt.Sprintf("%d", i)`. -/
def fmtInt (i : Int) : String :=
  toString i

/-! ## internal/infrastructure/storage: S3Storage over one bucket -/

/-- An object held by the bucket: body and content type. -/
structure S3Object where
  body : Bytes
  contentType : String
  deriving DecidableEq

/-- The objects of the bucket, by key. -/
abbrev Bucket := String → Option S3Object

/-- Go struct `storage.S3Storage` (the client itself is the bucket state). -/
structure S3Storage where
  bucketName : String
  region : String
  endpoint : String

/-- `s3.PutObjectWithContext`: fails with `fault`, else stores the object
under the key, replacing the object the key held.  The key is taken as it is
given: the S3 client cleans the request path (a key `a/b/..` is sent as
`a`), which is not modelled, so the model is exact for keys that have no empty,
`.` or `..` element. -/
def putObject (fault : Option String) (key : String) (obj : S3Object)
    (b : Bucket) : Option String × Bucket :=
  match fault with
  | some e => (some e, b)
  | none => (none, fun k => if k = key then some obj else b k)

/-- `s3.GetObjectWithContext` followed by `io.ReadAll`: fails with `fault`
or when the bucket holds no object under the key. -/
def getObject (fault : Option String) (key : String) (b : Bucket) :
    Except String Bytes :=
  match fault with
  | some e => .error e
  | none =>
    match b key with
    | none => .error "NoSuchKey"
    | some obj => .ok obj.body

/-- The URL `(*S3Storage).UploadFile` builds for a stored file: under the
custom endpoint if one is configured, else the AWS one. -/
def S3Storage.objectURL (s : S3Storage) (fileName : String) : String :=
  if s.endpoint ≠ "" then
    s.endpoint ++ "/" ++ s.bucketName ++ "/" ++ fileName
  else
    "https://" ++ s.bucketName ++ ".s3." ++ s.region ++ ".amazonaws.com/" ++ fileName

/-- Go `(*S3Storage).UploadFile`. -/
def S3Storage.UploadFile (s : S3Storage) (fault : Option String)
    (fileName : String) (data : Bytes) (contentType : String) (b : Bucket) :
    Except String String × Bucket :=
  match putObject fault fileName ⟨data, contentType⟩ b with
  | (some e, b) => (.error ("failed to upload file: " ++ e), b)
  | (none, b) => (.ok (s.objectURL fileName), b)

/-- Go `(*S3Storage).GetFile`. -/
def S3Storage.GetFile (_s : S3Storage) (fault : Option String)
    (fileName : String) (b : Bucket) : Except String Bytes :=
  match getObject fault fileName b with
  | .error e => .error ("failed to get file: " ++ e)
  | .ok data => .ok data

/-! ## The world outside the use cases -/

/-- Go `context.Context`, as far as the use cases tell contexts apart: the
context of an HTTP request (which may already be cancelled) or
`context.Background()`. -/
inductive Ctx where
  | request (id : Nat) (cancelled : Bool)
  | background
  deriving DecidableEq

/-- The call sites of collaborator calls in `UploadVideo`, its goroutine and
`ProcessVideo`, in source order.  A site inside a loop carries the values of
the loop variables: the resolution of the ladder and the chunk index. -/
inductive Site where
  | storeOriginal
  | createVideo
  | markProcessing
  | loadVideo
  | makeTempDir
  | download
  | writeOriginal
  | probe
  | updateInfo
  | encode (resolution : Resolution)
  | makeSegmentsDir (resolution : Resolution)
  | segment (resolution : Resolution)
  | readChunk (resolution : Resolution) (i : Nat)
  | uploadChunk (resolution : Resolution) (i : Nat)
  | createSegment (resolution : Resolution) (i : Nat)
  | readThumbnail
  | uploadThumbnail
  | markComplete
  | cleanup
  | markFinal
  deriving DecidableEq

/-- One collaborator call: the method, its arguments and what it returned. -/
inductive Event where
  | videoCreate (ctx : Ctx) (video : Video) (err : Option String)
  | videoGetByID (ctx : Ctx) (id : String) (res : Except String Video)
  | videoUpdate (ctx : Ctx) (video : Video) (err : Option String)
  | segmentCreate (ctx : Ctx) (seg : Segment) (err : Option String)
  | uploadFile (ctx : Ctx) (fileName : String) (data : Bytes)
      (contentType : String) (res : Except String String)
  | getFile (ctx : Ctx) (fileName : String) (res : Except String Bytes)
  | transcode (ctx : Ctx) (inputURL outputPath : String)
      (resolution : Resolution) (fps : Int) (err : Option String)
  | segment (ctx : Ctx) (videoPath : String) (segmentDuration : Int)
      (outputPath : String) (res : Except String (List String))
  | getVideoInfo (ctx : Ctx) (videoPath : String)
      (res : Except String (ℚ × Int × Int))
  | mkdirTemp (dir pattern : String) (res : Except String String)
  | writeFile (name : String) (data : Bytes) (perm : Nat) (err : Option String)
  | readFile (name : String) (res : Except String Bytes)
  | mkdirAll (path : String) (perm : Nat) (err : Option String)
  | removeAll (path : String) (err : Option String)

/-- A trace entry: a collaborator call and the site that made it. -/
structure Entry where
  site : Site
  event : Event

/-- The collaborators as oracles.  The first argument of each oracle is the
number of collaborator calls made before this one. -/
structure Env where
  /-- Database fault on `VideoRepository.Create`. -/
  videoCreate : Nat → Ctx → Video → Option String
  /-- Database fault on `VideoRepository.GetByID`. -/
  videoGetByID : Nat → Ctx → String → Option String
  /-- Database fault on `VideoRepository.Update`. -/
  videoUpdate : Nat → Ctx → Video → Option String
  /-- Database fault on `SegmentRepository.Create`. -/
  segmentCreate : Nat → Ctx → Segment → Option String
  /-- `StorageRepository.UploadFile`. -/
  uploadFile : Nat → Ctx → String → Bytes → String → Except String String
  /-- `StorageRepository.GetFile`. -/
  getFile : Nat → Ctx → String → Except String Bytes
  /-- `TranscodeRepository.Transcode`. -/
  transcode : Nat → Ctx → String → String → Resolution → Int → Option String
  /-- `TranscodeRepository.Segment`. -/
  segment : Nat → Ctx → String → Int → String → Except String (List String)
  /-- `TranscodeRepository.GetVideoInfo`. -/
  getVideoInfo : Nat → Ctx → String → Except String (ℚ × Int × Int)
  /-- `os.MkdirTemp`. -/
  mkdirTemp : Nat → String → String → Except String String
  /-- `os.WriteFile`. -/
  writeFile : Nat → String → Bytes → Nat → Option String
  /-- `os.ReadFile`. -/
  readFile : Nat → String → Except String Bytes
  /-- `os.MkdirAll`. -/
  mkdirAll : Nat → String → Nat → Option String
  /-- `os.RemoveAll`. -/
  removeAll : Nat → String → Option String
  /-- The n-th value drawn from `uuid.New().String()`. -/
  uuid : Nat → String
  /-- The n-th reading of `time.Now()`. -/
  now : Nat → Time

/-- The variables captured by the goroutine that `UploadVideo` starts. -/
structure BackgroundTask where
  video : Video
  videoID : String
  uploadURL : String

/-- State of the system. -/
structure World where
  /-- Rows of table `videos`, by id. -/
  videos : String → Option Video
  /-- Rows of table `segments`, oldest first. -/
  segments : List Segment
  /-- Collaborator calls made so far, oldest first. -/
  trace : List Entry
  /-- Number of clock readings so far. -/
  ticks : Nat
  /-- Number of uuids drawn so far. -/
  uuids : Nat
  /-- Goroutines started so far, oldest first. -/
  spawned : List BackgroundTask

/-- A Go function that may return an error, as a state transformer; the state
changes made before the error stay. -/
def M (α : Type) : Type := World → Except String α × World

instance : Monad M where
  pure a := fun w => (.ok a, w)
  bind m f := fun w =>
    match m w with
    | (.ok a, w1) => f a w1
    | (.error e, w1) => (.error e, w1)

/-- Go `if err != nil { return fmt.Errorf(msg + "%w", err) }` around a call. -/
def wrapErr {α : Type} (msg : String) (m : M α) : M α := fun w =>
  match m w with
  | (.ok a, w1) => (.ok a, w1)
  | (.error e, w1) => (.error (msg ++ e), w1)

/-- Go `if err != nil { return fmt.Errorf(msg + "%w", err) }` on an error
value already at hand. -/
def checkErr (msg : String) (err : Option String) : M Unit := fun w =>
  match err with
  | none => (.ok (), w)
  | some e => (.error (msg ++ e), w)

/-- A call whose error the caller inspects instead of returning it. -/
def attempt {α : Type} (m : M α) : M (Except String α) := fun w =>
  match m w with
  | (r, w1) => (.ok r, w1)

/-- Go `defer cleanup()` around the rest of the function body. -/
def withDefer {α : Type} (cleanup : World → World) (body : M α) : M α := fun w =>
  match body w with
  | (r, w1) => (r, cleanup w1)

/-- Append a collaborator call to the trace. -/
def World.log (w : World) (site : Site) (ev : Event) : World :=
  { w with trace := w.trace ++ [⟨site, ev⟩] }

/-- One more clock reading has been made. -/
def World.tick (w : World) : World :=
  { w with ticks := w.ticks + 1 }

/-- One more uuid has been drawn. -/
def World.drawUuid (w : World) : World :=
  { w with uuids := w.uuids + 1 }

/-- `INSERT INTO videos`: the row is stored under its id. -/
def World.insertVideo (w : World) (video : Video) : World :=
  { w with videos := fun id => if id = video.ID then some video else w.videos id }

/-- `INSERT INTO segments`. -/
def World.insertSegment (w : World) (segment : Segment) : World :=
  { w with segments := w.segments ++ [segment] }

/-- A goroutine is started. -/
def World.spawn (w : World) (t : BackgroundTask) : World :=
  { w with spawned := w.spawned ++ [t] }

/-- Go `time.Now()`. -/
def timeNow (env : Env) : M Time := fun w =>
  (.ok (env.now w.ticks), w.tick)

/-- Go `uuid.New().String()`. -/
def uuidNew (env : Env) : M String := fun w =>
  (.ok (env.uuid w.uuids), w.drawUuid)

/-- A Go call that returns its values together with an error value, for the
caller to inspect. -/
def call {α : Type} (f : World → α × World) : M α := fun w =>
  match f w with
  | (a, w1) => (.ok a, w1)

/-- Go `go func() { ... }()`: the goroutine is recorded as started; it runs
later. -/
def goSpawn (t : BackgroundTask) : M Unit := fun w =>
  (.ok (), w.spawn t)

/-! ## internal/adapter/repository -/

/-- Go `(*VideoRepository).Create`: `INSERT INTO videos`. -/
def VideoRepository.Create (env : Env) (site : Site) (ctx : Ctx) (video : Video) :
    M Unit := fun w =>
  let err := env.videoCreate w.trace.length ctx video
  let w1 := w.log site (.videoCreate ctx video err)
  match err with
  | some e => (.error e, w1)
  | none => (.ok (), w1.insertVideo video)

/-- Go `(*VideoRepository).GetByID`: `SELECT ... WHERE id = $1`; the caller
gets its own copy of the row. -/
def VideoRepository.GetByID (env : Env) (site : Site) (ctx : Ctx) (id : String) :
    M Video := fun w =>
  let res : Except String Video :=
    match env.videoGetByID w.trace.length ctx id with
    | some e => .error e
    | none =>
      match w.videos id with
      | none => .error ("video with ID " ++ id ++ " not found")
      | some video => .ok video
  (res, w.log site (.videoGetByID ctx id res))

/-- The `SET` clause of `(*VideoRepository).Update`: every column except
`id`, `user_id` and `created_at` is overwritten. -/
def updateRow (video row : Video) : Video :=
  { row with
    Title := video.Title
    Description := video.Description
    Duration := video.Duration
    OriginalURL := video.OriginalURL
    ThumbnailURL := video.ThumbnailURL
    Status := video.Status
    FileSize := video.FileSize
    MimeType := video.MimeType
    ResolutionInfo := video.ResolutionInfo
    UpdatedAt := video.UpdatedAt }

/-- `UPDATE videos SET ... WHERE id = $11`: the row with the id of `video`, if
there is one, is overwritten. -/
def World.updateVideo (w : World) (video : Video) : World :=
  { w with videos := fun id =>
      if id = video.ID then (w.videos id).map (updateRow video) else w.videos id }

/-- Go `(*VideoRepository).Update`: sets `UpdatedAt` on the caller's record,
then `UPDATE videos SET ... WHERE id = $11`.  Returns the caller's record as
mutated, and the error. -/
def VideoRepository.Update (env : Env) (site : Site) (ctx : Ctx) (video : Video) :
    World → (Video × Option String) × World := fun w =>
  let video := { video with UpdatedAt := env.now w.ticks }
  let w1 := w.tick
  let err := env.videoUpdate w1.trace.length ctx video
  let w2 := w1.log site (.videoUpdate ctx video err)
  match err with
  | some e => ((video, some e), w2)
  | none => ((video, none), w2.updateVideo video)

/-- Go `(*SegmentRepository).Create`: `INSERT INTO segments`. -/
def SegmentRepository.Create (env : Env) (site : Site) (ctx : Ctx) (segment : Segment) :
    M Unit := fun w =>
  let err := env.segmentCreate w.trace.length ctx segment
  let w1 := w.log site (.segmentCreate ctx segment err)
  match err with
  | some e => (.error e, w1)
  | none => (.ok (), w1.insertSegment segment)

/-! ## Collaborators behind interfaces and the `os` package -/

/-- Interface method `StorageRepository.UploadFile`. -/
def StorageRepository.UploadFile (env : Env) (site : Site) (ctx : Ctx)
    (fileName : String) (data : Bytes) (contentType : String) : M String := fun w =>
  let res := env.uploadFile w.trace.length ctx fileName data contentType
  (res, w.log site (.uploadFile ctx fileName data contentType res))

/-- Interface method `StorageRepository.GetFile`. -/
def StorageRepository.GetFile (env : Env) (site : Site) (ctx : Ctx)
    (fileName : String) : M Bytes := fun w =>
  let res := env.getFile w.trace.length ctx fileName
  (res, w.log site (.getFile ctx fileName res))

/-- Turn an error value into a result. -/
def errResult (err : Option String) : Except String Unit :=
  match err with
  | some e => .error e
  | none => .ok ()

/-- Interface method `TranscodeRepository.Transcode`. -/
def TranscodeRepository.Transcode (env : Env) (site : Site) (ctx : Ctx)
    (inputURL outputPath : String) (resolution : Resolution) (fps : Int) :
    M Unit := fun w =>
  let err := env.transcode w.trace.length ctx inputURL outputPath resolution fps
  (errResult err, w.log site (.transcode ctx inputURL outputPath resolution fps err))

/-- Interface method `TranscodeRepository.Segment`. -/
def TranscodeRepository.Segment (env : Env) (site : Site) (ctx : Ctx)
    (videoPath : String) (segmentDuration : Int) (outputPath : String) :
    M (List String) := fun w =>
  let res := env.segment w.trace.length ctx videoPath segmentDuration outputPath
  (res, w.log site (.segment ctx videoPath segmentDuration outputPath res))

/-- Interface method `TranscodeRepository.GetVideoInfo`. -/
def TranscodeRepository.GetVideoInfo (env : Env) (site : Site) (ctx : Ctx)
    (videoPath : String) : M (ℚ × Int × Int) := fun w =>
  let res := env.getVideoInfo w.trace.length ctx videoPath
  (res, w.log site (.getVideoInfo ctx videoPath res))

/-- Go `os.MkdirTemp`. -/
def osMkdirTemp (env : Env) (site : Site) (dir pattern : String) : M String := fun w =>
  let res := env.mkdirTemp w.trace.length dir pattern
  (res, w.log site (.mkdirTemp dir pattern res))

/-- Go `os.WriteFile`. -/
def osWriteFile (env : Env) (site : Site) (name : String) (data : Bytes) (perm : Nat) :
    M Unit := fun w =>
  let err := env.writeFile w.trace.length name data perm
  (errResult err, w.log site (.writeFile name data perm err))

/-- Go `os.ReadFile`. -/
def osReadFile (env : Env) (site : Site) (name : String) : M Bytes := fun w =>
  let res := env.readFile w.trace.length name
  (res, w.log site (.readFile name res))

/-- Go `os.MkdirAll`. -/
def osMkdirAll (env : Env) (site : Site) (path : String) (perm : Nat) : M Unit := fun w =>
  let err := env.mkdirAll w.trace.length path perm
  (errResult err, w.log site (.mkdirAll path perm err))

/-- Go `os.RemoveAll`, its error dropped. -/
def osRemoveAll (env : Env) (site : Site) (path : String) : World → World := fun w =>
  w.log site (.removeAll path (env.removeAll w.trace.length path))

/-! ## internal/infrastructure/transcode: FFmpegService -/

/-- The elements of a path between its separators `/`. -/
def pathElements : List Char → List (List Char)
  | [] => [[]]
  | c :: cs =>
    match pathElements cs with
    | [] => [[c]]
    | e :: es => if c = '/' then [] :: e :: es else (c :: e) :: es

/-- The element stack of Go `filepath.Clean`: empty and `.` elements are
dropped; a `..` element removes the element before it, is dropped at the
root of a rooted path, and is kept otherwise.  The stack is held in reverse. -/
def cleanElements (rooted : Bool) : List (List Char) → List (List Char) → List (List Char)
  | acc, [] => acc.reverse
  | acc, e :: es =>
    if e = [] ∨ e = ['.'] then cleanElements rooted acc es
    else if e = ['.', '.'] then
      match acc with
      | [] => if rooted then cleanElements rooted [] es else cleanElements rooted [e] es
      | a :: rest =>
        if a = ['.', '.'] then cleanElements rooted (e :: a :: rest) es
        else cleanElements rooted rest es
    else cleanElements rooted (e :: acc) es

/-- Go `filepath.Clean` on a Unix path. -/
def filepathClean (path : String) : String :=
  if path = "" then "."
  else
    let rooted := path.toList.head? = some '/'
    let out := "/".intercalate ((cleanElements rooted [] (pathElements path.toList)).map String.mk)
    if rooted then "/" ++ out
    else if out = "" then "."
    else out

/-- Go `filepath.Dir` on a Unix path: the path up to and including its last
separator, cleaned. -/
def filepathDir (path : String) : String :=
  filepathClean (String.mk (path.toList.reverse.dropWhile (fun c => c != '/')).reverse)

/-- Go `strings.Replace(s, old, new, 1)` on the characters of `s`: the first
occurrence of `old` is replaced. -/
def replaceFirst (old new : List Char) : List Char → List Char
  | [] => if old = [] then new else []
  | c :: cs =>
    if old.isPrefixOf (c :: cs) then new ++ (c :: cs).drop old.length
    else c :: replaceFirst old new cs

/-- Go `strings.Replace(s, old, new, 1)`. -/
def stringsReplaceFirst (s old new : String) : String :=
  String.mk (replaceFirst old.toList new.toList s.toList)

/-- Go struct `transcode.FFmpegService`. -/
structure FFmpegService where
  ffmpegPath : String
  ffprobePath : String

/-- The operating system as `FFmpegService` uses it. -/
structure Shell where
  /-- Go `exec.CommandContext(ctx, name, args...).Run()`: the error, if the
  process could not be run or exited non-zero. -/
  run : Ctx → String → List String → Option String
  /-- Go `os.MkdirAll`. -/
  mkdirAll : String → Nat → Option String
  /-- Go `filepath.Glob`, asked after the command has run: the paths that
  match the pattern, or the error for a malformed pattern. -/
  glob : String → Except String (List String)

/-- Go `(*FFmpegService).getResolutionParams`. -/
def FFmpegService.getResolutionParams (_s : FFmpegService) (resolution : Resolution) :
    Int × Int :=
  if resolution = Resolution1080p then (1920, 1080)
  else if resolution = Resolution720p then (1280, 720)
  else (1280, 720)

/-- The argument list `args` that `(*FFmpegService).Transcode` builds. -/
def FFmpegService.transcodeArgs (s : FFmpegService) (inputURL outputPath : String)
    (resolution : Resolution) (fps : Int) : List String :=
  let (width, height) := s.getResolutionParams resolution
  [ "-i", inputURL,
    "-c:v", "libx264",
    "-vf", "scale=" ++ fmtInt width ++ ":" ++ fmtInt height,
    "-r", fmtInt fps,
    "-c:a", "aac",
    "-b:a", "128k",
    "-movflags", "+faststart",
    "-y",
    outputPath ]

/-- Go `(*FFmpegService).Transcode`. -/
def FFmpegService.Transcode (s : FFmpegService) (sh : Shell) (ctx : Ctx)
    (inputURL outputPath : String) (resolution : Resolution) (fps : Int) : Option String :=
  match sh.run ctx s.ffmpegPath (s.transcodeArgs inputURL outputPath resolution fps) with
  | some e => some ("ffmpeg transcode failed: " ++ e)
  | none => none

/-- The argument list `args` that `(*FFmpegService).Segment` builds. -/
def FFmpegService.segmentArgs (_s : FFmpegService) (videoPath : String)
    (segmentDuration : Int) (outputPattern : String) : List String :=
  [ "-i", videoPath,
    "-c", "copy",
    "-map", "0",
    "-f", "segment",
    "-segment_time", fmtInt segmentDuration,
    "-segment_format", "mpegts",
    "-segment_list", filepathJoin (filepathDir outputPattern) "playlist.m3u8",
    "-segment_list_type", "m3u8",
    outputPattern ]

/-- Go `(*FFmpegService).Segment`. -/
def FFmpegService.Segment (s : FFmpegService) (sh : Shell) (ctx : Ctx) (videoPath : String)
    (segmentDuration : Int) (outputPattern : String) : Except String (List String) :=
  match sh.mkdirAll (filepathDir outputPattern) 0o755 with
  | some e => .error ("failed to create output directory: " ++ e)
  | none =>
    match sh.run ctx s.ffmpegPath (s.segmentArgs videoPath segmentDuration outputPattern) with
    | some e => .error ("ffmpeg segment failed: " ++ e)
    | none =>
      let pattern := stringsReplaceFirst outputPattern "%03d" "*"
      match sh.glob pattern with
      | .error e => .error ("failed to list segment files: " ++ e)
      | .ok matched => .ok matched

/-! ## internal/usecase/transcode_usecase.go -/

/-- The record built for chunk `i` of `len` chunks in `ProcessVideo`: start
time `i * 10.0`, duration `10.0`, the last one adjusted if needed.  The source
computes `duration - float64(i)*10.0` in `float64`; the exact difference taken
here is what `float64` gives whenever `5 * i ≤ duration ≤ 20 * i` or `i = 0`
(then the subtraction is exact), which covers the last chunk of a list of
`ceil(duration / 10)` chunks; outside that range `float64` may round. -/
def mkSegment (id videoID segmentFileName segmentURL : String)
    (resolution : Resolution) (duration : ℚ) (len i : Nat) (createdAt : Time) :
    Segment :=
  let segment : Segment :=
    { ID := id
      VideoID := videoID
      FileName := segmentFileName
      URL := segmentURL
      Resolution := resolution
      StartTime := (i : ℚ) * 10
      Duration := 10
      SegmentIndex := (i : Int)
      CreatedAt := createdAt }
  if (i : Int) = (len : Int) - 1 ∧ duration - (i : ℚ) * 10 < 10 then
    { segment with Duration := duration - (i : ℚ) * 10 }
  else
    segment

/-- Go `fmt.Sprintf("videos/%s/%s/%s", videoID, resolution, segmentFileName)`:
the storage path of a chunk. -/
def chunkStoragePath (videoID : String) (resolution : Resolution)
    (segmentFileName : String) : String :=
  "videos/" ++ videoID ++ "/" ++ resolution ++ "/" ++ segmentFileName

/-- The loop `for i, segmentPath := range segmentFiles` of `ProcessVideo`,
from index `i` on; `len` is `len(segmentFiles)`. -/
def segmentLoop (env : Env) (ctx : Ctx) (videoID : String) (resolution : Resolution)
    (duration : ℚ) (len : Nat) : Nat → List String → M Unit
  | _, [] => pure ()
  | i, segmentPath :: rest => do
    let segmentFileName := filepathBase segmentPath
    let segmentData ← wrapErr "failed to read segment file: "
      (osReadFile env (.readChunk resolution i) segmentPath)
    let storagePath := chunkStoragePath videoID resolution segmentFileName
    let segmentURL ← wrapErr "failed to upload segment: "
      (StorageRepository.UploadFile env (.uploadChunk resolution i) ctx storagePath segmentData
        "video/mp2t")
    let id ← uuidNew env
    let createdAt ← timeNow env
    let segment :=
      mkSegment id videoID segmentFileName segmentURL resolution duration len i createdAt
    wrapErr "failed to create segment record: "
      (SegmentRepository.Create env (.createSegment resolution i) ctx segment)
    segmentLoop env ctx videoID resolution duration len (i + 1) rest

/-- The body of the loop `for _, resolution := range resolutions` of
`ProcessVideo`: encode, segment, then upload and record every chunk. -/
def processResolution (env : Env) (ctx : Ctx) (videoID tempDir originalVideoPath : String)
    (duration : ℚ) (resolution : Resolution) : M Unit := do
  let outputPath := filepathJoin tempDir (resolution ++ ".mp4")
  wrapErr ("failed to transcode to " ++ resolution ++ ": ")
    (TranscodeRepository.Transcode env (.encode resolution) ctx originalVideoPath outputPath
      resolution 24)
  let segmentsDirPath := filepathJoin tempDir resolution
  wrapErr "failed to create segments directory: "
    (osMkdirAll env (.makeSegmentsDir resolution) segmentsDirPath 0o755)
  let segmentPattern := filepathJoin segmentsDirPath "segment_%03d.ts"
  let segmentFiles ← wrapErr "failed to segment video: "
    (TranscodeRepository.Segment env (.segment resolution) ctx outputPath 10 segmentPattern)
  segmentLoop env ctx videoID resolution duration segmentFiles.length 0 segmentFiles

/-- The loop `for _, resolution := range resolutions` of `ProcessVideo`. -/
def resolutionLoop (env : Env) (ctx : Ctx) (videoID tempDir originalVideoPath : String)
    (duration : ℚ) : List Resolution → M Unit
  | [] => pure ()
  | resolution :: rest => do
    processResolution env ctx videoID tempDir originalVideoPath duration resolution
    resolutionLoop env ctx videoID tempDir originalVideoPath duration rest

/-- The resolution ladder of `ProcessVideo`. -/
def resolutions : List Resolution := [Resolution1080p, Resolution720p]

/-- Go `fmt.Sprintf("videos/%s/thumbnail.jpg", videoID)`: the storage path of
the thumbnail. -/
def thumbnailStoragePath (videoID : String) : String :=
  "videos/" ++ videoID ++ "/thumbnail.jpg"

/-- The thumbnail step of `ProcessVideo`: the record, with the thumbnail
reference set if both the read and the upload succeed. -/
def thumbnailStep (env : Env) (ctx : Ctx) (videoID tempDir : String) (video : Video) :
    M Video := do
  let thumbnailPath := filepathJoin tempDir "thumbnail.jpg"
  let thumbnailData ← attempt (osReadFile env .readThumbnail thumbnailPath)
  match thumbnailData with
  | .error _ => pure video
  | .ok thumbnailData =>
    let thumbnailURL ← attempt
      (StorageRepository.UploadFile env .uploadThumbnail ctx
        (thumbnailStoragePath videoID) thumbnailData "image/jpeg")
    match thumbnailURL with
    | .error _ => pure video
    | .ok thumbnailURL => pure { video with ThumbnailURL := thumbnailURL }

/-- The body of `ProcessVideo` after `defer os.RemoveAll(tempDir)`. -/
def processInTempDir (env : Env) (ctx : Ctx) (videoID videoURL : String)
    (video : Video) (tempDir : String) : M Unit := do
  let videoData ← wrapErr "failed to download video: "
    (StorageRepository.GetFile env .download ctx videoURL)
  let originalVideoPath := filepathJoin tempDir "original.mp4"
  wrapErr "failed to save video to temp dir: "
    (osWriteFile env .writeOriginal originalVideoPath videoData 0o644)
  let (duration, width, height) ← wrapErr "failed to get video info: "
    (TranscodeRepository.GetVideoInfo env .probe ctx originalVideoPath)
  let video :=
    { video with
      Duration := duration
      ResolutionInfo := fmtInt width ++ "x" ++ fmtInt height
      Status := StatusTranscoded }
  let (video, err) ← call (VideoRepository.Update env .updateInfo ctx video)
  checkErr "failed to update video info: " err
  resolutionLoop env ctx videoID tempDir originalVideoPath duration resolutions
  let video ← thumbnailStep env ctx videoID tempDir video
  let video := { video with Status := StatusComplete }
  let (_, err) ← call (VideoRepository.Update env .markComplete ctx video)
  checkErr "" err

/-- Go `(*TranscodeUseCase).ProcessVideo`. -/
def ProcessVideo (env : Env) (ctx : Ctx) (videoID videoURL : String) : M Unit := do
  let video ← wrapErr "failed to get video: "
    (VideoRepository.GetByID env .loadVideo ctx videoID)
  let tempDir ← wrapErr "failed to create temp directory: "
    (osMkdirTemp env .makeTempDir "" ("video-processing-" ++ videoID))
  withDefer (osRemoveAll env .cleanup tempDir)
    (processInTempDir env ctx videoID videoURL video tempDir)

/-- The part of `ProcessVideo` after the Video record is loaded. -/
def processLoaded (env : Env) (ctx : Ctx) (videoID videoURL : String) (video : Video) :
    M Unit := do
  let tempDir ← wrapErr "failed to create temp directory: "
    (osMkdirTemp env .makeTempDir "" ("video-processing-" ++ videoID))
  withDefer (osRemoveAll env .cleanup tempDir)
    (processInTempDir env ctx videoID videoURL video tempDir)

/-! ## internal/usecase/video_usecase.go -/

/-- Go struct `usecase.VideoUploadInput`. -/
structure VideoUploadInput where
  Title : String
  Description : String
  FileData : Bytes
  FileName : String
  FileSize : Int
  MimeType : String
  UserID : String

/-- Go `fmt.Sprintf("uploads/%s/original/%s", videoID, filepath.Base(input.FileName))`:
the storage path of the original. -/
def originalStoragePath (videoID fileName : String) : String :=
  "uploads/" ++ videoID ++ "/original/" ++ filepathBase fileName

/-- The `entity.Video` literal built by `UploadVideo`. -/
def newVideo (videoID : String) (input : VideoUploadInput) (uploadURL : String)
    (createdAt updatedAt : Time) : Video :=
  { ID := videoID
    Title := input.Title
    Description := input.Description
    Duration := 0
    OriginalURL := uploadURL
    ThumbnailURL := ""
    Status := StatusUploaded
    FileSize := input.FileSize
    MimeType := input.MimeType
    UserID := input.UserID
    ResolutionInfo := ""
    CreatedAt := createdAt
    UpdatedAt := updatedAt }

/-- Go `(*VideoUseCase).UploadVideo`, up to its `return`; the goroutine it
starts is recorded in `World.spawned`.  The value returned here is the
contents of the record `*video` at the `return`.  The source returns the
pointer `video`, and the goroutine goes on assigning to the record behind it:
`sharedRecord` gives the contents of that record after each of these
assignments. -/
def UploadVideo (env : Env) (ctx : Ctx) (input : VideoUploadInput) : M Video := do
  let videoID ← uuidNew env
  let originalVideoPath := originalStoragePath videoID input.FileName
  let uploadURL ← wrapErr "failed to upload video: "
    (StorageRepository.UploadFile env .storeOriginal ctx originalVideoPath
      input.FileData input.MimeType)
  let createdAt ← timeNow env
  let updatedAt ← timeNow env
  let video := newVideo videoID input uploadURL createdAt updatedAt
  wrapErr "failed to create video record: "
    (VideoRepository.Create env .createVideo ctx video)
  goSpawn ⟨video, videoID, uploadURL⟩
  pure video

/-- The body of the goroutine started by `UploadVideo`. -/
def backgroundRun (env : Env) (t : BackgroundTask) : M Unit := do
  let bgCtx := Ctx.background
  let video := { t.video with Status := StatusProcessing }
  let (video, _) ← call (VideoRepository.Update env .markProcessing bgCtx video)
  let err ← attempt (ProcessVideo env bgCtx t.videoID t.uploadURL)
  let video :=
    match err with
    | .error _ => { video with Status := StatusFailed }
    | .ok _ => { video with Status := StatusComplete }
  let (_, _) ← call (VideoRepository.Update env .markFinal bgCtx video)
  pure ()

/-- Run goroutines to their end, one after the other. -/
def runAll (env : Env) (tasks : List BackgroundTask) (w : World) : World :=
  tasks.foldl (fun w1 t => (backgroundRun env t w1).2) w

/-- An upload followed by the complete run of the goroutine it started. -/
def uploadAndRun (env : Env) (ctx : Ctx) (input : VideoUploadInput) (w : World) :
    Except String Video × World :=
  match UploadVideo env ctx input w with
  | (r, w1) => (r, runAll env (w1.spawned.drop w.spawned.length) w1)

/-! ## Observations on runs -/

/-- Whether a result is an error. -/
def resFailed {α : Type} : Except String α → Bool
  | .ok _ => false
  | .error _ => true

/-- Whether the call returned an error. -/
def Event.failed : Event → Bool
  | .videoCreate _ _ err => err.isSome
  | .videoGetByID _ _ res => resFailed res
  | .videoUpdate _ _ err => err.isSome
  | .segmentCreate _ _ err => err.isSome
  | .uploadFile _ _ _ _ res => resFailed res
  | .getFile _ _ res => resFailed res
  | .transcode _ _ _ _ _ err => err.isSome
  | .segment _ _ _ _ res => resFailed res
  | .getVideoInfo _ _ res => resFailed res
  | .mkdirTemp _ _ res => resFailed res
  | .writeFile _ _ _ err => err.isSome
  | .readFile _ res => resFailed res
  | .mkdirAll _ _ err => err.isSome
  | .removeAll _ err => err.isSome

/-- Whether the call of the entry returned an error. -/
def Entry.failed (e : Entry) : Bool := e.event.failed

/-- Sites whose error the code logs or drops instead of returning it: the
status write to `processing`, the thumbnail read and upload, the removal of
the workspace and the last status write of the goroutine. -/
def Site.bestEffort : Site → Bool
  | .markProcessing => true
  | .readThumbnail => true
  | .uploadThumbnail => true
  | .cleanup => true
  | .markFinal => true
  | _ => false

/-- The critical-path steps of the pipeline: download, workspace write,
probe, the update after the probe, encode, segment, chunk read, chunk upload
and Segment persist. -/
def Site.critical : Site → Bool
  | .download => true
  | .writeOriginal => true
  | .probe => true
  | .updateInfo => true
  | .encode _ => true
  | .segment _ => true
  | .readChunk _ _ => true
  | .uploadChunk _ _ => true
  | .createSegment _ _ => true
  | _ => false

/-- The status a call writes to the row of video `id`, if it is a write to
that row that succeeded. -/
def Event.statusWritten (id : String) : Event → Option VideoStatus
  | .videoCreate _ video none => if video.ID = id then some video.Status else none
  | .videoUpdate _ video none => if video.ID = id then some video.Status else none
  | _ => none

/-- The statuses stored for video `id` by the calls of a trace, in order. -/
def statusWrites (id : String) (l : List Entry) : List VideoStatus :=
  l.filterMap (fun e => e.event.statusWritten id)

/-- An entry made by the ladder iteration for resolution `r`: an encode, a
directory creation, a segment call, or a chunk read, upload or record. -/
def Entry.ladderStep (r : Resolution) (e : Entry) : Bool :=
  match e.site, e.event with
  | .encode r1, .transcode _ _ _ _ _ _ => r1 = r
  | .makeSegmentsDir r1, .mkdirAll _ _ _ => r1 = r
  | .segment r1, .segment _ _ _ _ _ => r1 = r
  | .readChunk r1 _, .readFile _ _ => r1 = r
  | .uploadChunk r1 _, .uploadFile _ _ _ _ _ => r1 = r
  | .createSegment r1 _, .segmentCreate _ _ _ => r1 = r
  | _, _ => false

/-- An entry made by the chunk loop for resolution `r`. -/
def Entry.chunkStep (r : Resolution) (e : Entry) : Bool :=
  match e.site, e.event with
  | .readChunk r1 _, .readFile _ _ => r1 = r
  | .uploadChunk r1 _, .uploadFile _ _ _ _ _ => r1 = r
  | .createSegment r1 _, .segmentCreate _ _ _ => r1 = r
  | _, _ => false

/-- The chunk list, if the entry is a successful Segmenter call of the ladder
iteration for resolution `r`. -/
def Entry.chunks (r : Resolution) (e : Entry) : Option (List String) :=
  match e.site, e.event with
  | .segment r1, .segment _ _ _ _ (.ok cs) => if r1 = r then some cs else none
  | _, _ => none

/-- The chunk list the Segmenter returned for resolution `r` in a trace. -/
def segmenterResult (l : List Entry) (r : Resolution) : Option (List String) :=
  (l.filterMap (Entry.chunks r)).head?

/-- The probe result, if the entry is a successful probe. -/
def Entry.probed (e : Entry) : Option (ℚ × Int × Int) :=
  match e.site, e.event with
  | .probe, .getVideoInfo _ _ (.ok x) => some x
  | _, _ => none

/-- The result `(duration, width, height)` of the probe in a trace. -/
def probeResult (l : List Entry) : Option (ℚ × Int × Int) :=
  (l.filterMap Entry.probed).head?

/-- The collaborator calls made between world `w` and a later world `w1`. -/
def newTrace (w w1 : World) : List Entry := w1.trace.drop w.trace.length

/-- The Segment records created between world `w` and a later world `w1`. -/
def newSegments (w w1 : World) : List Segment := w1.segments.drop w.segments.length

/-- The test `createdFor` filters with: the record belongs to the (video,
resolution) pair. -/
def segTag (videoID : String) (r : Resolution) (s : Segment) : Bool :=
  decide (s.VideoID = videoID ∧ s.Resolution = r)

/-- The Segment records created between `w` and `w1` for one (video,
resolution) pair, in creation order. -/
def createdFor (w w1 : World) (videoID : String) (r : Resolution) : List Segment :=
  (newSegments w w1).filter (segTag videoID r)

/-- Every collaborator call succeeds, whenever it is made. -/
structure Env.AllSucceed (env : Env) : Prop where
  videoCreate : ∀ n ctx v, env.videoCreate n ctx v = none
  videoGetByID : ∀ n ctx id, env.videoGetByID n ctx id = none
  videoUpdate : ∀ n ctx v, env.videoUpdate n ctx v = none
  segmentCreate : ∀ n ctx s, env.segmentCreate n ctx s = none
  uploadFile : ∀ n ctx f d c, ∃ url, env.uploadFile n ctx f d c = .ok url
  getFile : ∀ n ctx f, ∃ d, env.getFile n ctx f = .ok d
  transcode : ∀ n ctx i o r f, env.transcode n ctx i o r f = none
  segment : ∀ n ctx v d o, ∃ cs, env.segment n ctx v d o = .ok cs
  getVideoInfo : ∀ n ctx v, ∃ x, env.getVideoInfo n ctx v = .ok x
  mkdirTemp : ∀ n d p, ∃ t, env.mkdirTemp n d p = .ok t
  writeFile : ∀ n f d p, env.writeFile n f d p = none
  readFile : ∀ n f, ∃ d, env.readFile n f = .ok d
  mkdirAll : ∀ n p m, env.mkdirAll n p m = none
  removeAll : ∀ n p, env.removeAll n p = none

/-- Some call of the Segmenter returns the chunk list `cs`. -/
def Env.returnsChunks (env : Env) (cs : List String) : Prop :=
  ∃ n ctx videoPath d pattern, env.segment n ctx videoPath d pattern = .ok cs

/-- Some call of the probe returns `x`. -/
def Env.returnsProbe (env : Env) (x : ℚ × Int × Int) : Prop :=
  ∃ n ctx videoPath, env.getVideoInfo n ctx videoPath = .ok x

/-- The records `recs` are those `ProcessVideo` builds for the first chunks
of `files`, in order, the first of them at index `i`. -/
def RecordsFrom (videoID : String) (r : Resolution) (D : ℚ) (len i : Nat)
    (files : List String) (recs : List Segment) : Prop :=
  recs.length ≤ files.length ∧
  ∀ k seg, recs[k]? = some seg →
    ∃ p id url t, files[k]? = some p ∧
      seg = mkSegment id videoID (filepathBase p) url r D len (i + k) t

/-- How a run ends: with no error, every failed call was at a best-effort
site; with an error, the last call failed at a site that is not best-effort
and before it every failed call was at a best-effort site. -/
def Stops {α : Type} (new : List Entry) (res : Except String α) : Prop :=
  match res with
  | .ok _ => ∀ e ∈ new, e.failed = true → e.site.bestEffort = true
  | .error _ =>
    ∃ pre e, new = pre ++ [e] ∧ e.failed = true ∧ e.site.bestEffort = false ∧
      ∀ x ∈ pre, x.failed = true → x.site.bestEffort = true

/-- The chunk index carried by a site of the chunk loop for resolution `r`. -/
def Site.chunkIndex (r : Resolution) : Site → Option Nat
  | .readChunk r1 i => if r1 = r then some i else none
  | .uploadChunk r1 i => if r1 = r then some i else none
  | .createSegment r1 i => if r1 = r then some i else none
  | _ => none

/-- The resolution tag and frame rate, if the entry is a call of the Encoder. -/
def Entry.encodeCall (e : Entry) : Option (Resolution × Int) :=
  match e.event with
  | .transcode _ _ _ resolution fps _ => some (resolution, fps)
  | _ => none

/-- The Encoder calls of a trace: resolution tag and frame rate, in order. -/
def encodeCalls (l : List Entry) : List (Resolution × Int) :=
  l.filterMap Entry.encodeCall

/-- The chunk length asked for, if the entry is a call of the Segmenter. -/
def Entry.segmentCall (e : Entry) : Option Int :=
  match e.event with
  | .segment _ _ segmentDuration _ _ => some segmentDuration
  | _ => none

/-- The Segmenter calls of a trace: the chunk length asked for, in order. -/
def segmentCalls (l : List Entry) : List Int :=
  l.filterMap Entry.segmentCall

/-- The record, if the entry is a creation of a Segment record that
succeeded. -/
def Entry.created (e : Entry) : Option Segment :=
  match e.event with
  | .segmentCreate _ seg none => some seg
  | _ => none

/-- The Segment records stored by the calls of a trace, in order. -/
def createdIn (l : List Entry) : List Segment :=
  l.filterMap Entry.created

/-- The status a call asks the metadata store to write, whether the write
succeeds or not. -/
def Entry.statusAttempted (e : Entry) : Option VideoStatus :=
  match e.event with
  | .videoCreate _ video _ => some video.Status
  | .videoUpdate _ video _ => some video.Status
  | _ => none

/-- The statuses the video writes of a trace carry, in order. -/
def statusAttempts (l : List Entry) : List VideoStatus :=
  l.filterMap Entry.statusAttempted

/-- What a run of the chunk loop leaves behind. -/
structure LoopPost (env : Env) (videoID : String) (r : Resolution) (D : ℚ) (len i : Nat)
    (files : List String) (w : World) (out : Except String Unit × World)
    (new : List Entry) (recs : List Segment) : Prop where
  trace : out.2.trace = w.trace ++ new
  segments : out.2.segments = w.segments ++ recs
  videos : out.2.videos = w.videos
  spawned : out.2.spawned = w.spawned
  steps : ∀ e ∈ new, e.chunkStep r = true
  records : RecordsFrom videoID r D len i files recs
  complete : out.1 = .ok () → recs.length = files.length
  stops : Stops new out.1
  succeeds : env.AllSucceed → out.1 = .ok ()
  created : recs = createdIn new
  bounded : ∀ e ∈ new, ∀ k, e.site.chunkIndex r = some k → i ≤ k ∧ k < i + files.length
  short : ∀ msg, out.1 = .error msg → recs.length < files.length

/-- The calls of one iteration of the resolution ladder, for resolution `r`;
`ok` tells whether the iteration ended without an error. -/
structure BlockTrace (r : Resolution) (l : List Entry) (ok : Bool) : Prop where
  steps : ∀ e ∈ l, e.ladderStep r = true
  encodes : encodeCalls l = [(r, 24)]
  segments : ok = true → segmentCalls l = [10]
  bounded : ∀ cs, segmenterResult l r = some cs →
    ∀ e ∈ l, ∀ k, e.site.chunkIndex r = some k → k < cs.length
  done : ok = true ↔ ∃ cs, segmenterResult l r = some cs ∧ (createdIn l).length = cs.length
  aborted : ∀ e ∈ l, (e.site = .encode r ∨ e.site = .segment r) → e.failed = true →
    segmenterResult l r = none
  unsegmented : segmenterResult l r = none → createdIn l = []

/-- The calls of the resolution loop over the ladder `rs`: one block of calls
per resolution, in ladder order, the loop ending with the first block that
ends with an error. -/
def LadderTrace : List Resolution → List Entry → Bool → Prop
  | [], l, ok => l = [] ∧ ok = true
  | r :: rest, l, ok =>
    ∃ l1 l2 ok1, l = l1 ++ l2 ∧ BlockTrace r l1 ok1 ∧
      (if ok1 = true then LadderTrace rest l2 ok else l2 = [] ∧ ok = false)

/-- What one iteration of the resolution ladder leaves behind. -/
structure LadderPost (env : Env) (videoID : String) (r : Resolution) (D : ℚ)
    (w : World) (out : Except String Unit × World)
    (new : List Entry) (recs : List Segment) : Prop where
  trace : out.2.trace = w.trace ++ new
  segments : out.2.segments = w.segments ++ recs
  videos : out.2.videos = w.videos
  spawned : out.2.spawned = w.spawned
  steps : ∀ e ∈ new, e.ladderStep r = true
  records :
    match segmenterResult new r with
    | none => recs = []
    | some cs => RecordsFrom videoID r D cs.length 0 cs recs
  complete : out.1 = .ok () → ∃ cs, segmenterResult new r = some cs ∧ recs.length = cs.length
  oracle : ∀ cs, segmenterResult new r = some cs → env.returnsChunks cs
  stops : Stops new out.1
  succeeds : env.AllSucceed → out.1 = .ok ()
  created : recs = createdIn new
  block : BlockTrace r new (!resFailed out.1)

/-- The records of one (video, resolution) pair against the chunk list the
Segmenter returned for the resolution in the trace. -/
def SegFacts (videoID : String) (D : ℚ) (new : List Entry) (r : Resolution)
    (recs : List Segment) : Prop :=
  match segmenterResult new r with
  | none => recs = []
  | some cs => RecordsFrom videoID r D cs.length 0 cs recs

/-- What the resolution loop leaves behind. -/
structure LadderLoopPost (env : Env) (videoID : String) (rs : List Resolution) (D : ℚ)
    (w : World) (out : Except String Unit × World)
    (new : List Entry) (recs : List Segment) : Prop where
  trace : out.2.trace = w.trace ++ new
  segments : out.2.segments = w.segments ++ recs
  videos : out.2.videos = w.videos
  spawned : out.2.spawned = w.spawned
  steps : ∀ e ∈ new, ∃ r ∈ rs, e.ladderStep r = true
  tagged : ∀ s ∈ recs, ∃ r ∈ rs, segTag videoID r s = true
  records : ∀ r, SegFacts videoID D new r (recs.filter (segTag videoID r))
  oracle : ∀ r cs, segmenterResult new r = some cs → env.returnsChunks cs
  complete : out.1 = .ok () → ∀ r ∈ rs,
    ∃ cs, segmenterResult new r = some cs ∧ (recs.filter (segTag videoID r)).length = cs.length
  stops : Stops new out.1
  succeeds : env.AllSucceed → out.1 = .ok ()
  created : recs = createdIn new
  blocks : LadderTrace rs new (!resFailed out.1)

/-- An entry made by the thumbnail step. -/
def Entry.thumbStep (e : Entry) : Bool :=
  match e.site, e.event with
  | .readThumbnail, .readFile _ _ => true
  | .uploadThumbnail, .uploadFile _ _ _ _ _ => true
  | _, _ => false

/-- An entry made by `ProcessVideo` before the resolution ladder: the load of
the record, the creation of the workspace, the download, the workspace
write, the probe, or the update after the probe. -/
def Entry.preStep (e : Entry) : Bool :=
  match e.site, e.event with
  | .loadVideo, .videoGetByID _ _ _ => true
  | .makeTempDir, .mkdirTemp _ _ _ => true
  | .download, .getFile _ _ _ => true
  | .writeOriginal, .writeFile _ _ _ _ => true
  | .probe, .getVideoInfo _ _ _ => true
  | .updateInfo, .videoUpdate _ _ _ => true
  | _, _ => false

/-- An entry made by `ProcessVideo` after the resolution ladder: a thumbnail
read or upload, the status write to `complete`, or the removal of the
workspace. -/
def Entry.postStep (e : Entry) : Bool :=
  match e.site, e.event with
  | .readThumbnail, .readFile _ _ => true
  | .uploadThumbnail, .uploadFile _ _ _ _ _ => true
  | .markComplete, .videoUpdate _ _ _ => true
  | .cleanup, .removeAll _ _ => true
  | _, _ => false

/-- The calls of a run of `ProcessVideo`, in order: the calls before the
ladder, the blocks of the ladder, the calls after it.  Either the ladder is
not reached, and then the run fails and only the removal of the workspace
follows; or the update after the probe has asked for status `transcoded`,
every call before the ladder succeeded, and a ladder that fails is followed
by the removal of the workspace only.  `ok` tells whether the run ended
without an error; if it did, the status write to `complete` was made. -/
def PipelineTrace (new : List Entry) (ok : Bool) : Prop :=
  ∃ pre ladder post,
    new = pre ++ ladder ++ post ∧
    (∀ e ∈ pre, e.preStep = true) ∧
    (∀ e ∈ post, e.postStep = true) ∧
    statusAttempts post <+: [StatusComplete] ∧
    (ok = true → statusAttempts post = [StatusComplete]) ∧
    ((ladder = [] ∧ statusAttempts pre <+: [StatusTranscoded] ∧
        (∀ e ∈ post, e.site = .cleanup) ∧ ok = false) ∨
      ∃ okL, LadderTrace resolutions ladder okL ∧
        statusAttempts pre = [StatusTranscoded] ∧
        (∀ e ∈ pre, e.failed = false) ∧
        (okL = false → (∀ e ∈ post, e.site = .cleanup) ∧ ok = false))

/-- The calls of a run of `ProcessVideo` that reached the resolution ladder:
the calls `pre` before the ladder, which all succeeded, the block `l1` of
1080p, the block `l2` of 720p, which is empty if the block of 1080p ended
with an error, and the calls `post` after the ladder, which are the removal
of the workspace only if a block ended with an error. -/
structure LadderReached (new : List Entry) (ok : Bool) (pre l1 l2 post : List Entry)
    (ok1 : Bool) : Prop where
  split : new = pre ++ (l1 ++ l2) ++ post
  before : ∀ e ∈ pre, e.preStep = true
  beforeOk : ∀ e ∈ pre, e.failed = false
  after : ∀ e ∈ post, e.postStep = true
  first : BlockTrace Resolution1080p l1 ok1
  second : ok1 = true → ∃ ok2, BlockTrace Resolution720p l2 ok2 ∧
    (ok2 = false → (∀ e ∈ post, e.site = .cleanup) ∧ ok = false)
  stopped : ok1 = false → l2 = [] ∧ (∀ e ∈ post, e.site = .cleanup) ∧ ok = false
  attempts : statusAttempts pre = [StatusTranscoded] ∧ statusAttempts post <+: [StatusComplete]
  finished : ok = true → statusAttempts post = [StatusComplete]

/-- What the body of `ProcessVideo` run in its workspace leaves behind;
`video` is the record loaded before. -/
structure BodyPost (env : Env) (videoID : String) (video : Video)
    (w : World) (out : Except String Unit × World)
    (new : List Entry) (recs : List Segment) : Prop where
  trace : out.2.trace = w.trace ++ new
  segments : out.2.segments = w.segments ++ recs
  spawned : out.2.spawned = w.spawned
  rows : ∀ id, (out.2.videos id).isSome = (w.videos id).isSome
  absent : ∀ r, segmenterResult new r = none → recs.filter (segTag videoID r) = []
  ladder : ∀ r cs, segmenterResult new r = some cs → r ∈ resolutions
  oracle : ∀ r cs, segmenterResult new r = some cs → env.returnsChunks cs
  probed : ∀ x, probeResult new = some x → env.returnsProbe x
  tagged : ∀ s ∈ recs, ∃ r ∈ resolutions, segTag videoID r s = true
  records : ∀ r cs, segmenterResult new r = some cs →
    ∃ D wd ht, probeResult new = some (D, wd, ht) ∧
      RecordsFrom videoID r D cs.length 0 cs (recs.filter (segTag videoID r))
  complete : out.1 = .ok () → ∀ r ∈ resolutions,
    ∃ cs, segmenterResult new r = some cs ∧ (recs.filter (segTag videoID r)).length = cs.length
  stops : Stops new out.1
  statuses : out.1 = .ok () → ∀ id,
    statusWrites id new = if video.ID = id then [StatusTranscoded, StatusComplete] else []
  succeeds : env.AllSucceed → out.1 = .ok ()
  created : recs = createdIn new
  shape : PipelineTrace new (!resFailed out.1)

/-- What a run of `ProcessVideo` leaves behind. -/
structure PipelinePost (env : Env) (videoID : String)
    (w : World) (out : Except String Unit × World)
    (new : List Entry) (recs : List Segment) : Prop where
  trace : out.2.trace = w.trace ++ new
  segments : out.2.segments = w.segments ++ recs
  spawned : out.2.spawned = w.spawned
  rows : ∀ id, (out.2.videos id).isSome = (w.videos id).isSome
  absent : ∀ r, segmenterResult new r = none → recs.filter (segTag videoID r) = []
  ladder : ∀ r cs, segmenterResult new r = some cs → r ∈ resolutions
  oracle : ∀ r cs, segmenterResult new r = some cs → env.returnsChunks cs
  probed : ∀ x, probeResult new = some x → env.returnsProbe x
  tagged : ∀ s ∈ recs, ∃ r ∈ resolutions, segTag videoID r s = true
  records : ∀ r cs, segmenterResult new r = some cs →
    ∃ D wd ht, probeResult new = some (D, wd, ht) ∧
      RecordsFrom videoID r D cs.length 0 cs (recs.filter (segTag videoID r))
  complete : out.1 = .ok () → ∀ r ∈ resolutions,
    ∃ cs, segmenterResult new r = some cs ∧ (recs.filter (segTag videoID r)).length = cs.length
  halts :
    (∃ body path err, new = body ++ [⟨.cleanup, .removeAll path err⟩] ∧ Stops body out.1) ∨
    (Stops new out.1 ∧ ∀ e ∈ new, e.site = .loadVideo ∨ e.site = .makeTempDir)
  statuses : out.1 = .ok () → ∀ video, w.videos videoID = some video → ∀ id,
    statusWrites id new = if video.ID = id then [StatusTranscoded, StatusComplete] else []
  succeeds : env.AllSucceed → (w.videos videoID).isSome = true → out.1 = .ok ()
  created : recs = createdIn new
  shape : PipelineTrace new (!resFailed out.1)

/-- What a run of the goroutine of `UploadVideo` leaves behind: the record
`v1` of its first status write and the world `wA` after it, the outcome `outP`
of `ProcessVideo` with its calls `newP` and records `recs`, and the record
`vF` of its last status write. -/
structure BackgroundPost (env : Env) (t : BackgroundTask) (w : World)
    (out : Except String Unit × World) (v1 : Video) (err1 : Option String) (wA : World)
    (outP : Except String Unit × World) (newP : List Entry) (recs : List Segment)
    (vF : Video) (errF : Option String) : Prop where
  result : out.1 = .ok ()
  first : v1 = { t.video with Status := StatusProcessing, UpdatedAt := env.now w.ticks }
  firstTrace : wA.trace = w.trace ++ [⟨.markProcessing, .videoUpdate .background v1 err1⟩]
  firstVideos : err1 = none → wA.videos = (w.updateVideo v1).videos
  firstRows : ∀ id, (wA.videos id).isSome = (w.videos id).isSome
  pipeline : ProcessVideo env .background t.videoID t.uploadURL wA = outP
  post : PipelinePost env t.videoID wA outP newP recs
  last : vF =
    { v1 with
      Status := if resFailed outP.1 then StatusFailed else StatusComplete
      UpdatedAt := env.now outP.2.ticks }
  trace : out.2.trace = w.trace ++
    ([⟨.markProcessing, .videoUpdate .background v1 err1⟩] ++ newP ++
      [⟨.markFinal, .videoUpdate .background vF errF⟩])
  segments : out.2.segments = w.segments ++ recs
  videos : errF = none → out.2.videos = (outP.2.updateVideo vF).videos
  succeeds : env.AllSucceed → err1 = none ∧ errF = none
  start : ((v1, err1), wA) =
    VideoRepository.Update env .markProcessing .background
      { t.video with Status := StatusProcessing } w

/-! ## Two runs side by side -/

/-- What a collaborator call returned; for a load of a Video record, whether
it succeeded or the error, the record itself left out. -/
inductive Answer where
  | err (e : Option String)
  | bytes (r : Except String Bytes)
  | text (r : Except String String)
  | list (r : Except String (List String))
  | info (r : Except String (ℚ × Int × Int))
  | loaded (r : Except String Unit)

/-- The answer a call got. -/
def Event.answer : Event → Answer
  | .videoCreate _ _ err => .err err
  | .videoGetByID _ _ res => .loaded (res.map (fun _ => ()))
  | .videoUpdate _ _ err => .err err
  | .segmentCreate _ _ err => .err err
  | .uploadFile _ _ _ _ res => .text res
  | .getFile _ _ res => .bytes res
  | .transcode _ _ _ _ _ err => .err err
  | .segment _ _ _ _ res => .list res
  | .getVideoInfo _ _ res => .info res
  | .mkdirTemp _ _ res => .text res
  | .writeFile _ _ _ err => .err err
  | .readFile _ res => .bytes res
  | .mkdirAll _ _ err => .err err
  | .removeAll _ err => .err err

/-- Two runs differ at most in what their best-effort calls return: whenever
both make a call at the same site and the site is not best-effort, the two
calls got the same answer. -/
def AgreeOutside (na nb : List Entry) : Prop :=
  ∀ e1 ∈ na, ∀ e2 ∈ nb, e1.site = e2.site → e1.site.bestEffort = false →
    e1.event.answer = e2.event.answer

/-- The critical-path calls of a trace, with their arguments and results, in
order. -/
def criticalCalls (l : List Entry) : List Entry :=
  l.filter (fun e => e.site.critical)

/-- The clock and the uuid generator have been read equally often in two
worlds. -/
def Sync (wa wb : World) : Prop :=
  wa.ticks = wb.ticks ∧ wa.uuids = wb.uuids

/-- Two results are both errors with the same message, or both values, related
by `Q`. -/
def ResRel {α β : Type} (Q : α → β → Prop) : Except String α → Except String β → Prop
  | .ok a, .ok b => Q a b
  | .error x, .error y => x = y
  | _, _ => False

/-- Two programs run side by side, under the assumption `c` on their
arguments: each only appends to the trace, and from worlds in `Sync`, if the
calls they make agree outside the best-effort steps, their results are related
by `Q`, the worlds they leave are in `Sync`, and they make the same
critical-path calls. -/
def SimIf {α β : Type} (c : Prop) (Q : α → β → Prop) (pa : M α) (pb : M β) : Prop :=
  (∀ w, ∃ n, (pa w).2.trace = w.trace ++ n) ∧
  (∀ w, ∃ n, (pb w).2.trace = w.trace ++ n) ∧
  (c → ∀ wa wb, Sync wa wb →
    AgreeOutside (newTrace wa (pa wa).2) (newTrace wb (pb wb).2) →
    ResRel Q (pa wa).1 (pb wb).1 ∧ Sync (pa wa).2 (pb wb).2 ∧
      criticalCalls (newTrace wa (pa wa).2) = criticalCalls (newTrace wb (pb wb).2))

/-- Two Video records that differ at most in the columns `ProcessVideo`
overwrites before it first writes the record back: duration, resolution
info, status and the time of the last update. -/
def Video.sameCore (a b : Video) : Prop :=
  ∀ (duration : ℚ) (info : String) (status : VideoStatus) (updatedAt : Time),
    ({ a with
        Duration := duration
        ResolutionInfo := info
        Status := status
        UpdatedAt := updatedAt } : Video) =
      { b with
        Duration := duration
        ResolutionInfo := info
        Status := status
        UpdatedAt := updatedAt }

/-- The result `ProcessVideo` returns to the goroutine of `UploadVideo`. -/
def pipelineResult (env : Env) (t : BackgroundTask) (w : World) : Except String Unit :=
  (ProcessVideo env .background t.videoID t.uploadURL
    (VideoRepository.Update env .markProcessing .background
      { t.video with Status := StatusProcessing } w).2).1

/-- The status that the last status write of the goroutine carries. -/
def finalStatus (l : List Entry) : Option VideoStatus :=
  (l.filterMap (fun e => if e.site = .markFinal then e.statusAttempted else none)).head?

/-! ## Concrete collaborators and inputs -/

/-- Collaborators that all succeed: the probe reports duration `D` and a
1920x1080 frame, the Segmenter returns the chunk list `chunks` at every
call, the store answers an upload with the path behind a fixed prefix. -/
def demoEnv (D : ℚ) (chunks : List String) : Env where
  videoCreate := fun _ _ _ => none
  videoGetByID := fun _ _ _ => none
  videoUpdate := fun _ _ _ => none
  segmentCreate := fun _ _ _ => none
  uploadFile := fun _ _ fileName _ _ => .ok ("http://store/bucket/" ++ fileName)
  getFile := fun _ _ _ => .ok [0, 0, 0, 24]
  transcode := fun _ _ _ _ _ _ => none
  segment := fun _ _ _ _ _ => .ok chunks
  getVideoInfo := fun _ _ _ => .ok (D, 1920, 1080)
  mkdirTemp := fun _ _ pattern => .ok ("/tmp/" ++ pattern)
  writeFile := fun _ _ _ _ => none
  readFile := fun _ _ => .ok [71]
  mkdirAll := fun _ _ _ => none
  removeAll := fun _ _ => none
  uuid := fun n => "id-" ++ toString n
  now := fun n => n

/-- A stored video in status `uploaded`. -/
def demoVideo : Video :=
  { ID := "v1"
    Title := "clip"
    Description := ""
    Duration := 0
    OriginalURL := "http://store/bucket/uploads/v1/original/clip.mp4"
    ThumbnailURL := ""
    Status := StatusUploaded
    FileSize := 4
    MimeType := "video/mp4"
    UserID := "u1"
    ResolutionInfo := ""
    CreatedAt := 0
    UpdatedAt := 0 }

/-- There is a Video record. -/
instance : Nonempty Video := ⟨demoVideo⟩

/-- A world whose only row is `demoVideo`. -/
def demoWorld : World :=
  { videos := fun id => if id = "v1" then some demoVideo else none
    segments := []
    trace := []
    ticks := 0
    uuids := 0
    spawned := [] }

/-- A world with no rows at all. -/
def emptyWorld : World :=
  { videos := fun _ => none
    segments := []
    trace := []
    ticks := 0
    uuids := 0
    spawned := [] }

/-- An upload request. -/
def demoInput : VideoUploadInput :=
  { Title := "clip"
    Description := ""
    FileData := [0, 0, 0, 24]
    FileName := "clip.mp4"
    FileSize := 4
    MimeType := "video/mp4"
    UserID := "u1" }

/-- One chunk file. -/
def oneChunk : List String := ["/tmp/w/segment_000.ts"]

/-- Three chunk files. -/
def threeChunks : List String :=
  ["/tmp/w/segment_000.ts", "/tmp/w/segment_001.ts", "/tmp/w/segment_002.ts"]

/-- The run of `ProcessVideo` on `demoWorld` with the collaborators
`demoEnv D chunks`. -/
def demoRun (D : ℚ) (chunks : List String) : Except String Unit × World :=
  ProcessVideo (demoEnv D chunks) .background "v1" demoVideo.OriginalURL demoWorld

/-- The goroutine `UploadVideo` starts for `demoVideo`. -/
def demoTask : BackgroundTask :=
  { video := demoVideo
    videoID := "v1"
    uploadURL := demoVideo.OriginalURL }

/-- Collaborators as in `demoEnv 25 threeChunks`, except that the store finds
no object under the reference it is asked for. -/
def downloadFailsEnv : Env :=
  { demoEnv 25 threeChunks with getFile := fun _ _ _ => .error "NoSuchKey" }

/-- Collaborators as in `demoEnv 25 threeChunks`, except that the store
refuses every write. -/
def uploadFailsEnv : Env :=
  { demoEnv 25 threeChunks with uploadFile := fun _ _ _ _ _ => .error "store down" }

/-- Collaborators as in `demoEnv 25 threeChunks`, except that the database
refuses every insert of a video. -/
def createFailsEnv : Env :=
  { demoEnv 25 threeChunks with videoCreate := fun _ _ _ => some "database down" }

/-- An ffmpeg installation. -/
def demoFFmpeg : FFmpegService :=
  { ffmpegPath := "ffmpeg", ffprobePath := "ffprobe" }

/-- A system on which ffmpeg exits with status zero and has written no chunk
file: no path matches any pattern. -/
def noChunksShell : Shell :=
  { run := fun _ _ _ => none
    mkdirAll := fun _ _ => none
    glob := fun _ => .ok [] }

/-- A system on which ffmpeg exits non-zero. -/
def ffmpegFailsShell : Shell :=
  { run := fun _ _ _ => some "exit status 1"
    mkdirAll := fun _ _ => none
    glob := fun _ => .ok [] }

/-- The place of a status in the order in which `entity/video.go` declares
the statuses: pending, uploaded, processing, transcoded, segmented, complete,
failed. -/
def statusRank (s : VideoStatus) : Nat :=
  if s = StatusPending then 0
  else if s = StatusUploaded then 1
  else if s = StatusProcessing then 2
  else if s = StatusTranscoded then 3
  else if s = StatusSegmented then 4
  else if s = StatusComplete then 5
  else if s = StatusFailed then 6
  else 7

/-- A world whose only row is `demoVideo` in the given status. -/
def worldAt (status : VideoStatus) : World :=
  { videos := fun id => if id = "v1" then some { demoVideo with Status := status } else none
    segments := []
    trace := []
    ticks := 0
    uuids := 0
    spawned := [] }

/-- A run of `ProcessVideo` followed by a second run for the same video id,
possibly with other collaborators. -/
def rerun (env1 env2 : Env) (ctx1 ctx2 : Ctx) (videoID url1 url2 : String) (w : World) :
    Except String Unit × World :=
  ProcessVideo env2 ctx2 videoID url2 (ProcessVideo env1 ctx1 videoID url1 w).2

/-- Collaborators as in `demoEnv 25 threeChunks`, except that the Encoder
fails at every call. -/
def encodeFailsEnv : Env :=
  { demoEnv 25 threeChunks with transcode := fun _ _ _ _ _ _ => some "exit status 1" }


/-- Collaborators as in `demoEnv 25 []`, except that the first status write
(the one to `processing`) fails and the thumbnail cannot be read. -/
def flakyEnv : Env :=
  { demoEnv 25 [] with
    videoUpdate := fun n _ _ => if n = 0 then some "database busy" else none
    readFile := fun _ _ => .error "no thumbnail" }


/-! ## Storage paths -/

/-- The artifact paths `UploadVideo` and `ProcessVideo` write for a video id:
the path of the original, for some file name; the path of a chunk, for some
resolution and chunk file name; the path of the thumbnail. -/
inductive ArtifactPath (videoID : String) : String → Prop where
  | original (fileName : String) : ArtifactPath videoID (originalStoragePath videoID fileName)
  | chunk (resolution : Resolution) (segmentFileName : String) :
      ArtifactPath videoID (chunkStoragePath videoID resolution segmentFileName)
  | thumbnail : ArtifactPath videoID (thumbnailStoragePath videoID)


/-! ## pkg/config -/

/-- The process environment: the value of every variable that is set. -/
abbrev Environ := String → Option String

/-- Go `os.Getenv`: the value of the variable, empty if the variable is not
set. -/
def osGetenv (environ : Environ) (key : String) : String :=
  (environ key).getD ""

/-- Go `strconv.ParseBool`: the six spellings of true and the six of false;
anything else is an error (`none`). -/
def strconvParseBool (str : String) : Option Bool :=
  if str ∈ ["1", "t", "T", "true", "TRUE", "True"] then some true
  else if str ∈ ["0", "f", "F", "false", "FALSE", "False"] then some false
  else none

/-- Go `strings.ToLower`, idealised on ASCII: the letters `A` to `Z` are
lowered, every other character is kept. -/
def stringsToLower (s : String) : String :=
  String.mk (s.toList.map Char.toLower)

/-- The value of a Go `int` expression on a 64-bit platform: the exact result
wrapped into `[-2^63, 2^63)`. -/
def wrapInt (x : Int) : Int :=
  (x + 2 ^ 63) % 2 ^ 64 - 2 ^ 63

/-- Go `strconv.Atoi` of a string of decimal digits with an optional sign; an
error (`none`) for any other string and for a value outside the range of
`int`. -/
def strconvAtoi (s : String) : Option Int :=
  let signed : Bool × List Char :=
    match s.toList with
    | '+' :: digits => (false, digits)
    | '-' :: digits => (true, digits)
    | digits => (false, digits)
  if signed.2 = [] ∨ signed.2.all Char.isDigit = false then
    none
  else
    let n : Int := signed.2.foldl (fun acc c => 10 * acc + ((c.toNat : Int) - 48)) 0
    let value : Int := if signed.1 then -n else n
    if wrapInt value = value then some value else none

/-- Go `config.getEnvOrDefault`. -/
def getEnvOrDefault (environ : Environ) (key defaultValue : String) : String :=
  let value := osGetenv environ key
  if value = "" then defaultValue else value

/-- Go `config.getEnvIntOrDefault`. -/
def getEnvIntOrDefault (environ : Environ) (key : String) (defaultValue : Int) : Int :=
  let valueStr := osGetenv environ key
  if valueStr = "" then defaultValue
  else
    match strconvAtoi valueStr with
    | none => defaultValue
    | some value => value

/-- Go `config.getEnvBoolOrDefault`. -/
def getEnvBoolOrDefault (environ : Environ) (key : String) (defaultValue : Bool) : Bool :=
  let valueStr := osGetenv environ key
  if valueStr = "" then defaultValue
  else
    match strconvParseBool valueStr with
    | none =>
      if stringsToLower valueStr ∈ ["yes", "y", "true", "t", "1"] then true
      else false
    | some value => value

/-- An environment in which `FEATURE_FLAG` is set to `maybe` and nothing else
is set. -/
def maybeEnviron : Environ :=
  fun key => if key = "FEATURE_FLAG" then some "maybe" else none


/-! ## internal/usecase/user_usecase.go -/

/-- Go struct `entity.User`. -/
structure User where
  ID : String
  Username : String
  Email : String
  PasswordHash : String
  FullName : String
  AvatarURL : String
  Role : String
  CreatedAt : Time
  UpdatedAt : Time
  deriving DecidableEq

/-- Go struct `usecase.UserListOutput`. -/
structure UserListOutput where
  Users : List User
  TotalCount : Int
  Page : Int
  Limit : Int
  TotalPages : Int
  deriving DecidableEq

/-- Interface method `UserRepository.List`: asked with a context, a limit and
an offset, it returns a page of users and the total count, or an error. -/
abbrev UserLister := Ctx → Int → Int → Except String (List User × Int)

/-- Go `(*UserUseCase).ListUsers`; `page` and `limit` are Go `int` values, the
arithmetic on them wraps at 64 bits. -/
def ListUsers (userRepo : UserLister) (ctx : Ctx) (page limit : Int) :
    Except String UserListOutput :=
  let page := if page < 1 then 1 else page
  let limit := if limit < 1 then 10 else limit
  let offset := wrapInt (wrapInt (page - 1) * limit)
  match userRepo ctx limit offset with
  | .error err => .error err
  | .ok (users, totalCount) =>
    let totalPages := wrapInt (Int.tdiv totalCount limit)
    let totalPages := if Int.tmod totalCount limit ≠ 0 then wrapInt (totalPages + 1) else totalPages
    .ok
      { Users := users
        TotalCount := totalCount
        Page := page
        Limit := limit
        TotalPages := totalPages }

/-- A user table of 25 rows behind `UserRepository.List`: no page content is
modelled, the total count is 25. -/
def demoUsers : UserLister :=
  fun _ _ _ => .ok ([], 25)

/-- A user table of 25 rows behind a database that, like PostgreSQL, rejects
a query with a negative `OFFSET`. -/
def strictUsers : UserLister :=
  fun _ _ offset => if offset < 0 then .error "OFFSET must not be negative" else .ok ([], 25)


/-! ## Chunk files on disk -/

/-- Go `fmt.Sprintf("%03d", k)` for `k ≥ 0`, as ffmpeg expands the output
pattern: three decimal digits, padded with zeros, for `k < 1000`; the decimal
digits of `k` otherwise. -/
def fmtPad3 (k : Nat) : String :=
  if k < 1000 then
    String.mk [Nat.digitChar (k / 100), Nat.digitChar (k / 10 % 10), Nat.digitChar (k % 10)]
  else toString k

/-- The file ffmpeg writes for chunk `k` under the output pattern
`dir/segment_%03d.ts`. -/
def chunkFile (dir : String) (k : Nat) : String :=
  filepathJoin dir ("segment_" ++ fmtPad3 k ++ ".ts")

/-- Go `sort.Strings`: the strings in increasing byte-wise order. -/
def sortStrings (l : List String) : List String :=
  l.insertionSort (fun a b => a ≤ b)

/-- A system on which ffmpeg exits with status zero after it has written `n`
chunk files, numbered from 0, under the output pattern `dir/segment_%03d.ts`;
`filepath.Glob` lists the chunk files of `dir` sorted by name. -/
def chunkShell (dir : String) (n : Nat) : Shell :=
  { run := fun _ _ _ => none
    mkdirAll := fun _ _ => none
    glob := fun pattern =>
      if pattern = filepathJoin dir "segment_*.ts" then
        .ok (sortStrings ((List.range n).map (chunkFile dir)))
      else .ok [] }

/-- The directory of the 1080p chunks in the workspace of video `v1`. -/
def chunkDir : String := "/tmp/video-processing-v1/1080p"


/-! ## The calls of a run, one by one -/

/-- The part of `ProcessVideo` after the update that follows the probe: the
resolution ladder, the thumbnail step and the status write to `complete`. -/
def processUpdated (env : Env) (ctx : Ctx) (videoID tempDir originalVideoPath : String)
    (duration : ℚ) (video : Video) : M Unit := do
  resolutionLoop env ctx videoID tempDir originalVideoPath duration resolutions
  let video ← thumbnailStep env ctx videoID tempDir video
  let video := { video with Status := StatusComplete }
  let (_, err) ← call (VideoRepository.Update env .markComplete ctx video)
  checkErr "" err

/-- The part of `ProcessVideo` after the probe has returned `(duration, width,
height)`: the update of the record, then the rest of the pipeline. -/
def processProbed (env : Env) (ctx : Ctx) (videoID tempDir originalVideoPath : String)
    (video : Video) (duration : ℚ) (width height : Int) : M Unit := do
  let video :=
    { video with
      Duration := duration
      ResolutionInfo := fmtInt width ++ "x" ++ fmtInt height
      Status := StatusTranscoded }
  let (video, err) ← call (VideoRepository.Update env .updateInfo ctx video)
  checkErr "failed to update video info: " err
  processUpdated env ctx videoID tempDir originalVideoPath duration video

/-- The context a collaborator call was given, if the call takes one. -/
def Event.ctx : Event → Option Ctx
  | .videoCreate ctx _ _ => some ctx
  | .videoGetByID ctx _ _ => some ctx
  | .videoUpdate ctx _ _ => some ctx
  | .segmentCreate ctx _ _ => some ctx
  | .uploadFile ctx _ _ _ _ => some ctx
  | .getFile ctx _ _ => some ctx
  | .transcode ctx _ _ _ _ _ => some ctx
  | .segment ctx _ _ _ _ => some ctx
  | .getVideoInfo ctx _ _ => some ctx
  | .mkdirTemp _ _ _ => none
  | .writeFile _ _ _ _ => none
  | .readFile _ _ => none
  | .mkdirAll _ _ _ => none
  | .removeAll _ _ => none

/-- A call that `ProcessVideo` makes inside its workspace, between the
creation of the workspace and its removal, with context `ctx` if the call
takes a context. -/
def Entry.bodyCall (ctx : Ctx) (e : Entry) : Bool :=
  match e.site, e.event with
  | .download, .getFile c _ _ => decide (c = ctx)
  | .writeOriginal, .writeFile _ _ _ _ => true
  | .probe, .getVideoInfo c _ _ => decide (c = ctx)
  | .updateInfo, .videoUpdate c _ _ => decide (c = ctx)
  | .encode _, .transcode c _ _ _ _ _ => decide (c = ctx)
  | .makeSegmentsDir _, .mkdirAll _ _ _ => true
  | .segment _, .segment c _ _ _ _ => decide (c = ctx)
  | .readChunk _ _, .readFile _ _ => true
  | .uploadChunk _ _, .uploadFile c _ _ _ _ => decide (c = ctx)
  | .createSegment _ _, .segmentCreate c _ _ => decide (c = ctx)
  | .readThumbnail, .readFile _ _ => true
  | .uploadThumbnail, .uploadFile c _ _ _ _ => decide (c = ctx)
  | .markComplete, .videoUpdate c _ _ => decide (c = ctx)
  | _, _ => false

/-- A call made with context `ctx`, if it takes a context at all. -/
def Entry.usesCtx (ctx : Ctx) (e : Entry) : Prop :=
  ∀ c, e.event.ctx = some c → c = ctx

/-- Two worlds that differ at most in the entries of their traces, not in the
number of entries. -/
def World.alike (wa wb : World) : Prop :=
  wa.videos = wb.videos ∧ wa.segments = wb.segments ∧ wa.trace.length = wb.trace.length ∧
    wa.ticks = wb.ticks ∧ wa.uuids = wb.uuids ∧ wa.spawned = wb.spawned

/-- A program that only appends calls to the trace, each of which satisfies
`P`, and that does not depend on the entries of the trace it starts from:
from alike worlds it returns the same result, makes the same calls and leaves
alike worlds. -/
def Emits {α : Type} (P : Entry → Prop) (p : M α) : Prop :=
  ∀ wa wb, World.alike wa wb →
    ∃ n, (p wa).2.trace = wa.trace ++ n ∧ (p wb).2.trace = wb.trace ++ n ∧
      (p wa).1 = (p wb).1 ∧ World.alike (p wa).2 (p wb).2 ∧ ∀ e ∈ n, P e

/-- The workspaces held after one more call: a directory that `os.MkdirTemp`
created is held from then on; a directory that `os.RemoveAll` removed without
an error is held no longer. -/
def heldAfter (held : List String) (e : Entry) : List String :=
  match e.event with
  | .mkdirTemp _ _ (.ok dir) => held ++ [dir]
  | .removeAll path none => held.filter (fun d => d != path)
  | _ => held

/-- The workspaces a trace leaves behind. -/
def workspacesHeld (l : List Entry) : List String :=
  l.foldl heldAfter []

/-- Collaborators as in `demoEnv 25 []`, except that the removal of a
directory fails. -/
def removeFailsEnv : Env :=
  { demoEnv 25 [] with removeAll := fun _ _ => some "device or resource busy" }


/-- Collaborators as in `demoEnv 25 threeChunks`, except that the database
refuses every update of a video. -/
def updateFailsEnv : Env :=
  { demoEnv 25 threeChunks with videoUpdate := fun _ _ _ => some "database down" }


/-- A call that, if it is a write to the artifact store, writes at an
artifact path of video `videoID`. -/
def Entry.writesUnder (videoID : String) (e : Entry) : Prop :=
  ∀ ctx fileName data contentType res,
    e.event = .uploadFile ctx fileName data contentType res → ArtifactPath videoID fileName


/-- A system on which the output directory cannot be created. -/
def mkdirFailsShell : Shell :=
  { run := fun _ _ _ => none
    mkdirAll := fun _ _ => some "permission denied"
    glob := fun _ => .ok [] }

/-- A system on which ffmpeg exits with status zero and the listing of a
pattern fails. -/
def globFailsShell : Shell :=
  { run := fun _ _ _ => none
    mkdirAll := fun _ _ => none
    glob := fun _ => .error "syntax error in pattern" }


/-- Field `Storage.UseSSL` of the configuration built by `Load`:
`getEnvBoolOrDefault("STORAGE_USE_SSL", false)`, the only call of
`getEnvBoolOrDefault` in the program. -/
def loadUseSSL (environ : Environ) : Bool :=
  getEnvBoolOrDefault environ "STORAGE_USE_SSL" false


/-! ## The rows of `videos`, write by write -/

/-- The table `videos` after one more call: a successful `Create` has inserted
its record (`World.insertVideo`), a successful `Update` has overwritten the row
of its record (`World.updateVideo`); every other call leaves the table as it
is. -/
def rowsAfter (videos : String → Option Video) (e : Entry) : String → Option Video :=
  match e.event with
  | .videoCreate _ video none =>
    fun id => if id = video.ID then some video else videos id
  | .videoUpdate _ video none =>
    fun id => if id = video.ID then (videos id).map (updateRow video) else videos id
  | _ => videos

/-- The status held by the row of video `id` after each successful write to
that row, oldest first; `videos` is the table before the calls `l`.  A write
to a row that does not exist stores nothing. -/
def storedStatuses (id : String) : (String → Option Video) → List Entry → List VideoStatus
  | _, [] => []
  | videos, e :: rest =>
    (if (e.event.statusWritten id).isSome then
        ((rowsAfter videos e id).map (fun row => row.Status)).toList
      else []) ++ storedStatuses id (rowsAfter videos e) rest

/-- A program that only appends calls to the trace and leaves the table
`videos` that results from applying the successful writes among these calls,
in order, to the table it started from. -/
def Replays {α : Type} (p : M α) : Prop :=
  ∀ w, ∃ n, (p w).2.trace = w.trace ++ n ∧ (p w).2.videos = n.foldl rowsAfter w.videos


/-! ## The artifact store, write by write -/

/-- The storage path and the object, if the call is a write to the artifact
store that succeeded. -/
def Entry.stored (e : Entry) : Option (String × S3Object) :=
  match e.event with
  | .uploadFile _ fileName data contentType (.ok _) => some (fileName, ⟨data, contentType⟩)
  | _ => none

/-- The bucket after the calls of a trace, `b` being the bucket before them:
each successful `UploadFile` has put its object under its storage path
(`S3Storage.UploadFile`), in order.  No other call changes the bucket: the
use cases call `UploadFile` and `GetFile` only. -/
def artifactsAfter (b : Bucket) (l : List Entry) : Bucket :=
  (l.filterMap Entry.stored).foldl (fun b1 x => (putObject none x.1 x.2 b1).2) b

/-- Collaborators as in `demoEnv 25 oneChunk`, except that every file read
from the workspace holds the bytes `bytes`. -/
def chunkBytesEnv (bytes : Bytes) : Env :=
  { demoEnv 25 oneChunk with readFile := fun _ _ => .ok bytes }


/-! ## The record shared by `UploadVideo` and its goroutine -/

/-- The contents of the record `*video` of `UploadVideo` after each assignment
that the goroutine makes to it, oldest first: after
`video.Status = entity.StatusProcessing`; after `video.UpdatedAt = time.Now()`
in the first `Update`; after `video.Status = entity.StatusFailed` or
`entity.StatusComplete`; after `video.UpdatedAt = time.Now()` in the last
`Update`.  `UploadVideo` returns the pointer `video` itself, so this is the
record its caller holds.  `w` is the world in which the goroutine starts. -/
def sharedRecord (env : Env) (t : BackgroundTask) (w : World) : List Video :=
  let bgCtx := Ctx.background
  let v1 := { t.video with Status := StatusProcessing }
  let outA := VideoRepository.Update env .markProcessing bgCtx v1 w
  let v2 := outA.1.1
  let outP := ProcessVideo env bgCtx t.videoID t.uploadURL outA.2
  let v3 :=
    match outP.1 with
    | .error _ => { v2 with Status := StatusFailed }
    | .ok _ => { v2 with Status := StatusComplete }
  let outF := VideoRepository.Update env .markFinal bgCtx v3 outP.2
  [v1, v2, v3, outF.1.1]

/-- The fields `videoId` and `status` of the JSON body with which
`(*VideoHandler).UploadVideo` answers a successful upload. -/
structure UploadResponse where
  videoId : String
  status : VideoStatus
  deriving DecidableEq

/-- The end of Go `(*VideoHandler).UploadVideo`, from the call of the use case
on.  After `UploadVideo` has returned, the handler reads `video.ID` and
`video.Status` through the returned pointer, while the goroutine that
`UploadVideo` started runs; `k` is the number of assignments the goroutine has
made to the record when the handler reads it. -/
def VideoHandler.UploadVideo (env : Env) (ctx : Ctx) (input : VideoUploadInput) (k : Nat)
    (w : World) : Except String UploadResponse :=
  match VideoBackend.UploadVideo env ctx input w with
  | (.error e, _) => .error ("Failed to process video: " ++ e)
  | (.ok video, w1) =>
    let record :=
      match (w1.spawned.drop w.spawned.length).head? with
      | none => video
      | some t => ((video :: sharedRecord env t w1).take (k + 1)).getLastD video
    .ok { videoId := record.ID, status := record.Status }


/-! # Proofs -/

theorem bind_apply {α β : Type} (m : M α) (f : α → M β) (w : World) :
    (m >>= f) w =
      match m w with
      | (.ok a, w1) => f a w1
      | (.error e, w1) => (.error e, w1) := rfl

theorem pure_apply {α : Type} (a : α) (w : World) : (pure a : M α) w = (.ok a, w) := rfl

@[simp] theorem log_videos (w : World) (s : Site) (ev : Event) :
    (w.log s ev).videos = w.videos := rfl

@[simp] theorem log_segments (w : World) (s : Site) (ev : Event) :
    (w.log s ev).segments = w.segments := rfl

@[simp] theorem log_trace (w : World) (s : Site) (ev : Event) :
    (w.log s ev).trace = w.trace ++ [⟨s, ev⟩] := rfl

@[simp] theorem log_ticks (w : World) (s : Site) (ev : Event) :
    (w.log s ev).ticks = w.ticks := rfl

@[simp] theorem log_uuids (w : World) (s : Site) (ev : Event) :
    (w.log s ev).uuids = w.uuids := rfl

@[simp] theorem log_spawned (w : World) (s : Site) (ev : Event) :
    (w.log s ev).spawned = w.spawned := rfl

@[simp] theorem tick_videos (w : World) :
    (w.tick).videos = w.videos := rfl

@[simp] theorem tick_segments (w : World) :
    (w.tick).segments = w.segments := rfl

@[simp] theorem tick_trace (w : World) :
    (w.tick).trace = w.trace := rfl

@[simp] theorem tick_ticks (w : World) :
    (w.tick).ticks = w.ticks + 1 := rfl

@[simp] theorem tick_uuids (w : World) :
    (w.tick).uuids = w.uuids := rfl

@[simp] theorem tick_spawned (w : World) :
    (w.tick).spawned = w.spawned := rfl

@[simp] theorem drawUuid_videos (w : World) :
    (w.drawUuid).videos = w.videos := rfl

@[simp] theorem drawUuid_segments (w : World) :
    (w.drawUuid).segments = w.segments := rfl

@[simp] theorem drawUuid_trace (w : World) :
    (w.drawUuid).trace = w.trace := rfl

@[simp] theorem drawUuid_ticks (w : World) :
    (w.drawUuid).ticks = w.ticks := rfl

@[simp] theorem drawUuid_uuids (w : World) :
    (w.drawUuid).uuids = w.uuids + 1 := rfl

@[simp] theorem drawUuid_spawned (w : World) :
    (w.drawUuid).spawned = w.spawned := rfl

@[simp] theorem insertVideo_videos (w : World) (v : Video) :
    (w.insertVideo v).videos = fun id => if id = v.ID then some v else w.videos id := rfl

@[simp] theorem insertVideo_segments (w : World) (v : Video) :
    (w.insertVideo v).segments = w.segments := rfl

@[simp] theorem insertVideo_trace (w : World) (v : Video) :
    (w.insertVideo v).trace = w.trace := rfl

@[simp] theorem insertVideo_ticks (w : World) (v : Video) :
    (w.insertVideo v).ticks = w.ticks := rfl

@[simp] theorem insertVideo_uuids (w : World) (v : Video) :
    (w.insertVideo v).uuids = w.uuids := rfl

@[simp] theorem insertVideo_spawned (w : World) (v : Video) :
    (w.insertVideo v).spawned = w.spawned := rfl

@[simp] theorem insertSegment_videos (w : World) (x : Segment) :
    (w.insertSegment x).videos = w.videos := rfl

@[simp] theorem insertSegment_segments (w : World) (x : Segment) :
    (w.insertSegment x).segments = w.segments ++ [x] := rfl

@[simp] theorem insertSegment_trace (w : World) (x : Segment) :
    (w.insertSegment x).trace = w.trace := rfl

@[simp] theorem insertSegment_ticks (w : World) (x : Segment) :
    (w.insertSegment x).ticks = w.ticks := rfl

@[simp] theorem insertSegment_uuids (w : World) (x : Segment) :
    (w.insertSegment x).uuids = w.uuids := rfl

@[simp] theorem insertSegment_spawned (w : World) (x : Segment) :
    (w.insertSegment x).spawned = w.spawned := rfl

@[simp] theorem spawn_videos (w : World) (t : BackgroundTask) :
    (w.spawn t).videos = w.videos := rfl

@[simp] theorem spawn_segments (w : World) (t : BackgroundTask) :
    (w.spawn t).segments = w.segments := rfl

@[simp] theorem spawn_trace (w : World) (t : BackgroundTask) :
    (w.spawn t).trace = w.trace := rfl

@[simp] theorem spawn_ticks (w : World) (t : BackgroundTask) :
    (w.spawn t).ticks = w.ticks := rfl

@[simp] theorem spawn_uuids (w : World) (t : BackgroundTask) :
    (w.spawn t).uuids = w.uuids := rfl

@[simp] theorem spawn_spawned (w : World) (t : BackgroundTask) :
    (w.spawn t).spawned = w.spawned ++ [t] := rfl

@[simp] theorem updateVideo_videos (w : World) (v : Video) :
    (w.updateVideo v).videos = fun id => if id = v.ID then (w.videos id).map (updateRow v) else w.videos id := rfl

@[simp] theorem updateVideo_segments (w : World) (v : Video) :
    (w.updateVideo v).segments = w.segments := rfl

@[simp] theorem updateVideo_trace (w : World) (v : Video) :
    (w.updateVideo v).trace = w.trace := rfl

@[simp] theorem updateVideo_ticks (w : World) (v : Video) :
    (w.updateVideo v).ticks = w.ticks := rfl

@[simp] theorem updateVideo_uuids (w : World) (v : Video) :
    (w.updateVideo v).uuids = w.uuids := rfl

@[simp] theorem updateVideo_spawned (w : World) (v : Video) :
    (w.updateVideo v).spawned = w.spawned := rfl

theorem RecordsFrom_nil (videoID : String) (r : Resolution) (D : ℚ) (len i : Nat)
    (files : List String) : RecordsFrom videoID r D len i files [] := by
  simp [RecordsFrom]

theorem RecordsFrom_cons {videoID : String} {r : Resolution} {D : ℚ} {len i : Nat}
    {rest : List String} {recs : List Segment} (p id url : String) (t : Time)
    (h : RecordsFrom videoID r D len (i + 1) rest recs) :
    RecordsFrom videoID r D len i (p :: rest)
      (mkSegment id videoID (filepathBase p) url r D len i t :: recs) := by
  refine ⟨by simpa using h.1, ?_⟩
  intro k seg hk
  cases k with
  | zero =>
    simp only [List.getElem?_cons_zero, Option.some.injEq] at hk
    exact ⟨p, id, url, t, by simp, by simp [← hk]⟩
  | succ k =>
    simp only [List.getElem?_cons_succ] at hk
    obtain ⟨q, id1, url1, t1, hq, hs⟩ := h.2 k seg hk
    exact ⟨q, id1, url1, t1, by simpa using hq, by rw [hs]; congr 1; omega⟩

theorem Stops_nil {α : Type} (a : α) : Stops [] (Except.ok a : Except String α) := by
  simp [Stops]

theorem Stops_fail {α : Type} (pre : List Entry) (e : Entry) (msg : String)
    (hpre : ∀ x ∈ pre, x.failed = true → x.site.bestEffort = true)
    (hf : e.failed = true) (hs : e.site.bestEffort = false) :
    Stops (pre ++ [e]) (Except.error msg : Except String α) :=
  ⟨pre, e, rfl, hf, hs, hpre⟩

theorem Stops_append {α : Type} {a b : List Entry} {res : Except String α}
    (ha : ∀ x ∈ a, x.failed = true → x.site.bestEffort = true) (hb : Stops b res) :
    Stops (a ++ b) res := by
  cases res with
  | ok v =>
    intro e he
    rcases List.mem_append.mp he with h | h
    · exact ha e h
    · exact hb e h
  | error msg =>
    obtain ⟨pre, e, rfl, hf, hs, hpre⟩ := hb
    refine ⟨a ++ pre, e, by simp, hf, hs, ?_⟩
    intro x hx
    rcases List.mem_append.mp hx with h | h
    · exact ha x h
    · exact hpre x h

theorem segmentLoop_spec (env : Env) (ctx : Ctx) (videoID : String) (r : Resolution)
    (D : ℚ) (len : Nat) :
    ∀ (files : List String) (i : Nat) (w : World) (out : Except String Unit × World),
      segmentLoop env ctx videoID r D len i files w = out →
      ∃ new recs, LoopPost env videoID r D len i files w out new recs := by
  intro files
  induction files with
  | nil =>
    intro i w out h
    subst h
    exact ⟨[], [],
      { trace := by simp [segmentLoop, pure_apply]
        segments := by simp [segmentLoop, pure_apply]
        videos := rfl
        spawned := rfl
        steps := by simp
        records := RecordsFrom_nil _ _ _ _ _ _
        complete := by simp
        stops := Stops_nil ()
        succeeds := fun _ => rfl
        created := rfl
        bounded := by simp
        short := fun msg hm => by cases hm }⟩
  | cons p rest ih =>
    intro i w out h
    simp only [segmentLoop, bind_apply, wrapErr, osReadFile, StorageRepository.UploadFile,
      uuidNew, timeNow, SegmentRepository.Create] at h
    rcases h1 : env.readFile w.trace.length p with e | d
    · simp only [h1] at h
      subst h
      exact ⟨[⟨.readChunk r i, .readFile p (.error e)⟩], [],
        { trace := rfl
          segments := by simp
          videos := rfl
          spawned := rfl
          steps := by simp [Entry.chunkStep]
          records := RecordsFrom_nil _ _ _ _ _ _
          complete := by simp
          stops := Stops_fail [] _ _ (by simp) rfl rfl
          succeeds := fun hall => by
            obtain ⟨d, hd⟩ := hall.readFile w.trace.length p
            simp [hd] at h1
          created := by simp [createdIn, Entry.created]
          bounded := by
            intro x hx k hk
            simp only [List.mem_singleton] at hx
            subst hx
            simp only [Site.chunkIndex, if_true, Option.some.injEq] at hk
            simp only [List.length_cons]
            omega
          short := fun _ _ => by simp }⟩
    · simp only [h1, log_trace, List.length_append, List.length_singleton] at h
      rcases h2 : env.uploadFile (w.trace.length + 1) ctx
          (chunkStoragePath videoID r (filepathBase p)) d "video/mp2t" with e | url
      · simp only [h2] at h
        subst h
        exact ⟨[⟨.readChunk r i, .readFile p (.ok d)⟩,
            ⟨.uploadChunk r i, .uploadFile ctx (chunkStoragePath videoID r (filepathBase p)) d "video/mp2t" (.error e)⟩], [],
          { trace := by simp
            segments := by simp
            videos := rfl
            spawned := rfl
            steps := by simp [Entry.chunkStep]
            records := RecordsFrom_nil _ _ _ _ _ _
            complete := by simp
            stops := Stops_fail [_] _ _ (by simp [Entry.failed, Event.failed, resFailed]) rfl rfl
            succeeds := fun hall => by
              obtain ⟨u, hu⟩ := hall.uploadFile (w.trace.length + 1) ctx
                (chunkStoragePath videoID r (filepathBase p)) d "video/mp2t"
              simp [hu] at h2
            created := by simp [createdIn, Entry.created]
            bounded := by
              intro x hx k hk
              simp only [List.mem_cons, List.mem_singleton, List.not_mem_nil, or_false] at hx
              rcases hx with rfl | rfl <;>
                simp only [Site.chunkIndex, if_true, Option.some.injEq] at hk <;>
                simp only [List.length_cons] <;> omega
            short := fun _ _ => by simp }⟩
      · simp only [h2, log_trace, List.length_append, List.length_singleton, log_uuids,
          log_ticks, drawUuid_ticks, drawUuid_trace, tick_trace] at h
        generalize hseg : mkSegment (env.uuid w.uuids) videoID (filepathBase p) url r D len i
          (env.now w.ticks) = seg at h
        rcases h3 : env.segmentCreate (w.trace.length + 1 + 1) ctx seg with _ | e
        · simp only [h3] at h
          generalize hout : segmentLoop env ctx videoID r D len (i + 1) rest _ = out1 at h
          obtain ⟨new, recs, post⟩ := ih (i + 1) _ out1 hout
          subst h
          refine ⟨[⟨.readChunk r i, .readFile p (.ok d)⟩,
              ⟨.uploadChunk r i, .uploadFile ctx (chunkStoragePath videoID r (filepathBase p)) d "video/mp2t" (.ok url)⟩,
              ⟨.createSegment r i, .segmentCreate ctx seg none⟩] ++ new, seg :: recs, ?_⟩
          have hsteps : ∀ e ∈ [(⟨.readChunk r i, .readFile p (.ok d)⟩ : Entry),
              ⟨.uploadChunk r i, .uploadFile ctx
                (chunkStoragePath videoID r (filepathBase p)) d "video/mp2t" (.ok url)⟩,
              ⟨.createSegment r i, .segmentCreate ctx seg none⟩],
              e.failed = true → e.site.bestEffort = true := by
            simp [Entry.failed, Event.failed, resFailed]
          exact
            { trace := by simp [post.trace]
              segments := by simp [post.segments]
              videos := by simp [post.videos]
              spawned := by simp [post.spawned]
              steps := by
                intro e he
                rcases List.mem_append.mp he with h | h
                · simp only [List.mem_cons, List.mem_singleton, List.not_mem_nil, or_false] at h
                  rcases h with rfl | rfl | rfl <;> simp [Entry.chunkStep]
                · exact post.steps e h
              records := by
                rw [← hseg]
                exact RecordsFrom_cons _ _ _ _ post.records
              complete := fun hok => by simp [post.complete hok]
              stops := Stops_append hsteps post.stops
              succeeds := post.succeeds
              created := by
                rw [post.created]
                simp [createdIn, Entry.created, List.filterMap_append]
              bounded := by
                intro x hx k hk
                rcases List.mem_append.mp hx with h | h
                · simp only [List.mem_cons, List.mem_singleton, List.not_mem_nil, or_false] at h
                  rcases h with rfl | rfl | rfl <;>
                    simp only [Site.chunkIndex, if_true, Option.some.injEq] at hk <;>
                    simp only [List.length_cons] <;> omega
                · have := post.bounded x h k hk
                  simp only [List.length_cons]
                  omega
              short := fun msg hm => by
                have := post.short msg hm
                simp only [List.length_cons]
                omega }
        · simp only [h3] at h
          subst h
          exact ⟨[⟨.readChunk r i, .readFile p (.ok d)⟩,
              ⟨.uploadChunk r i, .uploadFile ctx (chunkStoragePath videoID r (filepathBase p)) d "video/mp2t" (.ok url)⟩,
              ⟨.createSegment r i, .segmentCreate ctx seg (some e)⟩], [],
            { trace := by simp
              segments := by simp
              videos := rfl
              spawned := rfl
              steps := by simp [Entry.chunkStep]
              records := RecordsFrom_nil _ _ _ _ _ _
              complete := by simp
              stops := Stops_fail [_, _] _ _ (by simp [Entry.failed, Event.failed, resFailed])
                rfl rfl
              succeeds := fun hall => by
                simp [hall.segmentCreate] at h3
              created := by simp [createdIn, Entry.created]
              bounded := by
                intro x hx k hk
                simp only [List.mem_cons, List.mem_singleton, List.not_mem_nil, or_false] at hx
                rcases hx with rfl | rfl | rfl <;>
                  simp only [Site.chunkIndex, if_true, Option.some.injEq] at hk <;>
                  simp only [List.length_cons] <;> omega
              short := fun _ _ => by simp }⟩


theorem mkSegment_VideoID (id videoID name url : String) (r : Resolution) (D : ℚ)
    (len i : Nat) (t : Time) : (mkSegment id videoID name url r D len i t).VideoID = videoID := by
  unfold mkSegment; split <;> rfl

theorem mkSegment_Resolution (id videoID name url : String) (r : Resolution) (D : ℚ)
    (len i : Nat) (t : Time) : (mkSegment id videoID name url r D len i t).Resolution = r := by
  unfold mkSegment; split <;> rfl

theorem mkSegment_FileName (id videoID name url : String) (r : Resolution) (D : ℚ)
    (len i : Nat) (t : Time) : (mkSegment id videoID name url r D len i t).FileName = name := by
  unfold mkSegment; split <;> rfl

theorem mkSegment_SegmentIndex (id videoID name url : String) (r : Resolution) (D : ℚ)
    (len i : Nat) (t : Time) :
    (mkSegment id videoID name url r D len i t).SegmentIndex = (i : Int) := by
  unfold mkSegment; split <;> rfl

theorem mkSegment_StartTime (id videoID name url : String) (r : Resolution) (D : ℚ)
    (len i : Nat) (t : Time) :
    (mkSegment id videoID name url r D len i t).StartTime = (i : ℚ) * 10 := by
  unfold mkSegment; split <;> rfl

theorem mkSegment_Duration (id videoID name url : String) (r : Resolution) (D : ℚ)
    (len i : Nat) (t : Time) :
    (mkSegment id videoID name url r D len i t).Duration =
      if (i : Int) = (len : Int) - 1 ∧ D - (i : ℚ) * 10 < 10 then D - (i : ℚ) * 10 else 10 := by
  unfold mkSegment; split <;> rfl

theorem RecordsFrom_tagged {videoID : String} {r : Resolution} {D : ℚ} {len i : Nat}
    {files : List String} {recs : List Segment}
    (h : RecordsFrom videoID r D len i files recs) :
    ∀ s ∈ recs, segTag videoID r s = true := by
  intro s hs
  obtain ⟨k, hk⟩ := List.mem_iff_getElem?.mp hs
  obtain ⟨p, id, url, t, _, rfl⟩ := h.2 k s hk
  simp [segTag, mkSegment_VideoID, mkSegment_Resolution]

theorem chunks_of_ladderStep {r1 r : Resolution} (hne : r1 ≠ r) (e : Entry)
    (h : e.ladderStep r1 = true) : e.chunks r = none := by
  rcases e with ⟨site, ev⟩
  cases site <;> cases ev <;> simp_all [Entry.ladderStep, Entry.chunks]
  split <;> simp_all

theorem chunks_of_chunkStep {r1 r : Resolution} (e : Entry)
    (h : e.chunkStep r1 = true) : e.chunks r = none := by
  rcases e with ⟨site, ev⟩
  cases site <;> cases ev <;> simp_all [Entry.chunkStep, Entry.chunks]

theorem ladderStep_of_chunkStep {r : Resolution} (e : Entry)
    (h : e.chunkStep r = true) : e.ladderStep r = true := by
  rcases e with ⟨site, ev⟩
  cases site <;> cases ev <;> simp_all [Entry.chunkStep, Entry.ladderStep]

theorem ladderStep_not_bestEffort {r : Resolution} (e : Entry)
    (h : e.ladderStep r = true) : e.site.bestEffort = false := by
  rcases e with ⟨site, ev⟩
  cases site <;> simp_all [Entry.ladderStep, Site.bestEffort]

theorem filterMap_chunks_eq_nil {r : Resolution} {l : List Entry}
    (h : ∀ e ∈ l, e.chunks r = none) : l.filterMap (Entry.chunks r) = [] := by
  simpa [List.filterMap_eq_nil_iff] using h

theorem chunkStep_calls {r : Resolution} (e : Entry) (h : e.chunkStep r = true) :
    e.encodeCall = none ∧ e.segmentCall = none ∧
      ∀ r1, e.site ≠ .encode r1 ∧ e.site ≠ .segment r1 := by
  rcases e with ⟨site, ev⟩
  cases site <;> cases ev <;>
    simp_all [Entry.chunkStep, Entry.encodeCall, Entry.segmentCall]

theorem createdIn_append (a b : List Entry) : createdIn (a ++ b) = createdIn a ++ createdIn b := by
  simp [createdIn, List.filterMap_append]

theorem encodeCalls_append (a b : List Entry) :
    encodeCalls (a ++ b) = encodeCalls a ++ encodeCalls b := by
  simp [encodeCalls, List.filterMap_append]

theorem segmentCalls_append (a b : List Entry) :
    segmentCalls (a ++ b) = segmentCalls a ++ segmentCalls b := by
  simp [segmentCalls, List.filterMap_append]

theorem statusAttempts_append (a b : List Entry) :
    statusAttempts (a ++ b) = statusAttempts a ++ statusAttempts b := by
  simp [statusAttempts, List.filterMap_append]

theorem encodeCalls_eq_nil {l : List Entry} (h : ∀ e ∈ l, e.encodeCall = none) :
    encodeCalls l = [] := by
  simpa [encodeCalls, List.filterMap_eq_nil_iff] using h

theorem segmentCalls_eq_nil {l : List Entry} (h : ∀ e ∈ l, e.segmentCall = none) :
    segmentCalls l = [] := by
  simpa [segmentCalls, List.filterMap_eq_nil_iff] using h

theorem createdIn_eq_nil {l : List Entry} (h : ∀ e ∈ l, e.created = none) :
    createdIn l = [] := by
  simpa [createdIn, List.filterMap_eq_nil_iff] using h

theorem statusAttempts_eq_nil {l : List Entry} (h : ∀ e ∈ l, e.statusAttempted = none) :
    statusAttempts l = [] := by
  simpa [statusAttempts, List.filterMap_eq_nil_iff] using h

/-- The calls of a ladder iteration that ended before the Segmenter returned
a chunk list. -/
theorem BlockTrace_unsegmented {r : Resolution} {l : List Entry}
    (hsteps : ∀ e ∈ l, e.ladderStep r = true) (henc : encodeCalls l = [(r, 24)])
    (hseg : segmenterResult l r = none) (hcr : createdIn l = []) :
    BlockTrace r l false :=
  { steps := hsteps
    encodes := henc
    segments := by simp
    bounded := fun cs hcs => by rw [hseg] at hcs; cases hcs
    done := by simp [hseg]
    aborted := fun _ _ _ _ => hseg
    unsegmented := fun _ => hcr }

theorem processResolution_spec (env : Env) (ctx : Ctx) (videoID tempDir orig : String)
    (D : ℚ) (r : Resolution) (w : World) (out : Except String Unit × World)
    (h : processResolution env ctx videoID tempDir orig D r w = out) :
    ∃ new recs, LadderPost env videoID r D w out new recs := by
  simp only [processResolution, bind_apply, wrapErr, TranscodeRepository.Transcode, osMkdirAll,
    TranscodeRepository.Segment] at h
  rcases h1 : env.transcode w.trace.length ctx orig (filepathJoin tempDir (r ++ ".mp4")) r 24
    with _ | e
  · simp only [h1, errResult, log_trace, List.length_append, List.length_singleton] at h
    rcases h2 : env.mkdirAll (w.trace.length + 1) (filepathJoin tempDir r) 0o755 with _ | e
    · simp only [h2, log_trace, List.length_append, List.length_singleton] at h
      rcases h3 : env.segment (w.trace.length + 1 + 1) ctx (filepathJoin tempDir (r ++ ".mp4")) 10
        (filepathJoin (filepathJoin tempDir r) "segment_%03d.ts") with e | cs
      · simp only [h3] at h
        subst h
        exact ⟨[⟨.encode r, .transcode ctx orig (filepathJoin tempDir (r ++ ".mp4")) r 24 none⟩,
            ⟨.makeSegmentsDir r, .mkdirAll (filepathJoin tempDir r) 0o755 none⟩,
            ⟨.segment r, .segment ctx (filepathJoin tempDir (r ++ ".mp4")) 10
              (filepathJoin (filepathJoin tempDir r) "segment_%03d.ts") (.error e)⟩], [],
          { trace := by simp
            segments := by simp
            videos := rfl
            spawned := rfl
            steps := by simp [Entry.ladderStep]
            records := by simp [segmenterResult, Entry.chunks]
            oracle := by simp [segmenterResult, Entry.chunks]
            complete := by simp
            stops := Stops_fail [_, _] _ _ (by simp [Entry.failed, Event.failed]) rfl rfl
            succeeds := fun hall => by
              obtain ⟨x, hx⟩ := hall.segment (w.trace.length + 1 + 1) ctx
                (filepathJoin tempDir (r ++ ".mp4")) 10
                (filepathJoin (filepathJoin tempDir r) "segment_%03d.ts")
              simp [hx] at h3
            created := by simp [createdIn, Entry.created]
            block := BlockTrace_unsegmented (by simp [Entry.ladderStep])
              (by simp [encodeCalls, Entry.encodeCall]) (by simp [segmenterResult, Entry.chunks])
              (by simp [createdIn, Entry.created]) }⟩
      · simp only [h3] at h
        generalize hout : segmentLoop env ctx videoID r D cs.length 0 cs _ = out1 at h
        obtain ⟨new, recs, post⟩ := segmentLoop_spec env ctx videoID r D cs.length cs 0 _ out1 hout
        subst h
        have hres : segmenterResult
            ([⟨.encode r, .transcode ctx orig (filepathJoin tempDir (r ++ ".mp4")) r 24 none⟩,
              ⟨.makeSegmentsDir r, .mkdirAll (filepathJoin tempDir r) 0o755 none⟩,
              ⟨.segment r, .segment ctx (filepathJoin tempDir (r ++ ".mp4")) 10
                (filepathJoin (filepathJoin tempDir r) "segment_%03d.ts") (.ok cs)⟩] ++ new) r
            = some cs := by
          simp [segmenterResult, Entry.chunks]
        refine ⟨_, recs,
          { trace := by simp [post.trace]
            segments := by simp [post.segments]
            videos := by simp [post.videos]
            spawned := by simp [post.spawned]
            steps := ?_
            records := by rw [hres]; exact post.records
            oracle := fun cs1 h1 => by
              rw [hres] at h1
              cases h1
              exact ⟨_, _, _, _, _, h3⟩
            complete := fun hok => ⟨cs, hres, post.complete hok⟩
            stops := Stops_append (by simp [Entry.failed, Event.failed, resFailed]) post.stops
            succeeds := post.succeeds
            created := ?_
            block := ?_ }⟩
        · intro e he
          rcases List.mem_append.mp he with h | h
          · simp only [List.mem_cons, List.mem_singleton, List.not_mem_nil, or_false] at h
            rcases h with rfl | rfl | rfl <;> simp [Entry.ladderStep]
          · exact ladderStep_of_chunkStep e (post.steps e h)
        · rw [createdIn_append, ← post.created]
          simp [createdIn, Entry.created]
        · have hcr : createdIn
              ([⟨.encode r, .transcode ctx orig (filepathJoin tempDir (r ++ ".mp4")) r 24 none⟩,
                ⟨.makeSegmentsDir r, .mkdirAll (filepathJoin tempDir r) 0o755 none⟩,
                ⟨.segment r, .segment ctx (filepathJoin tempDir (r ++ ".mp4")) 10
                  (filepathJoin (filepathJoin tempDir r) "segment_%03d.ts") (.ok cs)⟩] ++ new)
              = recs := by
            rw [createdIn_append, ← post.created]
            simp [createdIn, Entry.created]
          exact
            { steps := by
                intro e he
                rcases List.mem_append.mp he with h | h
                · simp only [List.mem_cons, List.mem_singleton, List.not_mem_nil, or_false] at h
                  rcases h with rfl | rfl | rfl <;> simp [Entry.ladderStep]
                · exact ladderStep_of_chunkStep e (post.steps e h)
              encodes := by
                rw [encodeCalls_append,
                  encodeCalls_eq_nil (fun e he => (chunkStep_calls e (post.steps e he)).1)]
                simp [encodeCalls, Entry.encodeCall]
              segments := fun _ => by
                rw [segmentCalls_append,
                  segmentCalls_eq_nil (fun e he => (chunkStep_calls e (post.steps e he)).2.1)]
                simp [segmentCalls, Entry.segmentCall]
              bounded := by
                intro cs1 hcs1 e he k hk
                rw [hres] at hcs1
                cases hcs1
                rcases List.mem_append.mp he with h | h
                · simp only [List.mem_cons, List.mem_singleton, List.not_mem_nil, or_false] at h
                  rcases h with rfl | rfl | rfl <;> simp [Site.chunkIndex] at hk
                · have := post.bounded e h k hk
                  omega
              done := by
                rw [hcr, hres]
                constructor
                · intro hok
                  refine ⟨cs, rfl, post.complete ?_⟩
                  cases hres1 : out1.1 with
                  | ok u => rfl
                  | error msg => simp [hres1, resFailed] at hok
                · rintro ⟨cs1, hcs1, hlen⟩
                  cases hcs1
                  cases hres1 : out1.1 with
                  | ok u => simp [resFailed]
                  | error msg =>
                    have := post.short msg hres1
                    omega
              aborted := by
                intro e he hsite hf
                rcases List.mem_append.mp he with h | h
                · simp only [List.mem_cons, List.mem_singleton, List.not_mem_nil, or_false] at h
                  rcases h with rfl | rfl | rfl <;>
                    simp [Entry.failed, Event.failed, resFailed] at hf hsite
                · have := (chunkStep_calls e (post.steps e h)).2.2 r
                  rcases hsite with hs | hs
                  · exact absurd hs this.1
                  · exact absurd hs this.2
              unsegmented := fun hn => by rw [hres] at hn; cases hn }
    · simp only [h2] at h
      subst h
      exact ⟨[⟨.encode r, .transcode ctx orig (filepathJoin tempDir (r ++ ".mp4")) r 24 none⟩,
          ⟨.makeSegmentsDir r, .mkdirAll (filepathJoin tempDir r) 0o755 (some e)⟩], [],
        { trace := by simp
          segments := by simp
          videos := rfl
          spawned := rfl
          steps := by simp [Entry.ladderStep]
          records := by simp [segmenterResult, Entry.chunks]
          oracle := by simp [segmenterResult, Entry.chunks]
          complete := by simp [errResult]
          stops := Stops_fail [_] _ _ (by simp [Entry.failed, Event.failed]) rfl rfl
          succeeds := fun hall => by simp [hall.mkdirAll] at h2
          created := by simp [createdIn, Entry.created]
          block := BlockTrace_unsegmented (by simp [Entry.ladderStep])
            (by simp [encodeCalls, Entry.encodeCall]) (by simp [segmenterResult, Entry.chunks])
            (by simp [createdIn, Entry.created]) }⟩
  · simp only [h1, errResult] at h
    subst h
    exact ⟨[⟨.encode r, .transcode ctx orig (filepathJoin tempDir (r ++ ".mp4")) r 24 (some e)⟩], [],
      { trace := by simp
        segments := by simp
        videos := rfl
        spawned := rfl
        steps := by simp [Entry.ladderStep]
        records := by simp [segmenterResult, Entry.chunks]
        oracle := by simp [segmenterResult, Entry.chunks]
        complete := by simp
        stops := Stops_fail [] _ _ (by simp) rfl rfl
        succeeds := fun hall => by simp [hall.transcode] at h1
        created := by simp [createdIn, Entry.created]
        block := BlockTrace_unsegmented (by simp [Entry.ladderStep])
          (by simp [encodeCalls, Entry.encodeCall]) (by simp [segmenterResult, Entry.chunks])
          (by simp [createdIn, Entry.created]) }⟩

theorem segTag_ne {videoID : String} {r1 r : Resolution} {s : Segment}
    (h : segTag videoID r1 s = true) (hne : r1 ≠ r) : segTag videoID r s = false := by
  simp only [segTag, decide_eq_true_eq, decide_eq_false_iff_not, not_and] at *
  intro _ hr
  exact hne (h.2.symm.trans hr)

theorem segmenterResult_append_left {a b : List Entry} {r : Resolution}
    (h : ∀ e ∈ b, e.chunks r = none) : segmenterResult (a ++ b) r = segmenterResult a r := by
  simp [segmenterResult, List.filterMap_append, filterMap_chunks_eq_nil h]

theorem segmenterResult_append_right {a b : List Entry} {r : Resolution}
    (h : ∀ e ∈ a, e.chunks r = none) : segmenterResult (a ++ b) r = segmenterResult b r := by
  simp [segmenterResult, List.filterMap_append, filterMap_chunks_eq_nil h]

theorem segmenterResult_eq_none {l : List Entry} {r : Resolution}
    (h : ∀ e ∈ l, e.chunks r = none) : segmenterResult l r = none := by
  simp [segmenterResult, filterMap_chunks_eq_nil h]

theorem mem_of_segmenterResult {new : List Entry} {rs : List Resolution} {r : Resolution}
    {cs : List String} (hsteps : ∀ e ∈ new, ∃ r1 ∈ rs, e.ladderStep r1 = true)
    (h : segmenterResult new r = some cs) : r ∈ rs := by
  by_contra hr
  have hnone : segmenterResult new r = none :=
    segmenterResult_eq_none (fun e he => by
      obtain ⟨r1, hr1, hs⟩ := hsteps e he
      exact chunks_of_ladderStep (fun heq => hr (by rw [← heq]; exact hr1)) e hs)
  rw [hnone] at h
  cases h

theorem filter_segTag_eq_self {videoID : String} {r : Resolution} {recs : List Segment}
    (h : ∀ s ∈ recs, segTag videoID r s = true) : recs.filter (segTag videoID r) = recs :=
  List.filter_eq_self.mpr h

theorem filter_segTag_eq_nil {videoID : String} {r : Resolution} {recs : List Segment}
    (h : ∀ s ∈ recs, segTag videoID r s = false) : recs.filter (segTag videoID r) = [] := by
  rw [List.filter_eq_nil_iff]
  intro s hs
  simp [h s hs]

theorem LadderPost_tagged {env : Env} {videoID : String} {r : Resolution} {D : ℚ}
    {w : World} {out : Except String Unit × World} {new : List Entry} {recs : List Segment}
    (post : LadderPost env videoID r D w out new recs) :
    ∀ s ∈ recs, segTag videoID r s = true := by
  have h := post.records
  cases hres : segmenterResult new r with
  | none => rw [hres] at h; simp only at h; subst h; simp
  | some cs => rw [hres] at h; exact RecordsFrom_tagged h

theorem resolutionLoop_spec (env : Env) (ctx : Ctx) (videoID tempDir orig : String) (D : ℚ) :
    ∀ (rs : List Resolution), rs.Nodup →
    ∀ (w : World) (out : Except String Unit × World),
      resolutionLoop env ctx videoID tempDir orig D rs w = out →
      ∃ new recs, LadderLoopPost env videoID rs D w out new recs := by
  intro rs
  induction rs with
  | nil =>
    intro _ w out h
    subst h
    exact ⟨[], [],
      { trace := by simp [resolutionLoop, pure_apply]
        segments := by simp [resolutionLoop, pure_apply]
        videos := rfl
        spawned := rfl
        steps := by simp
        tagged := by simp
        records := fun r => by simp [SegFacts, segmenterResult]
        oracle := by simp [segmenterResult]
        complete := by simp
        stops := Stops_nil ()
        succeeds := fun _ => rfl
        created := rfl
        blocks := ⟨rfl, rfl⟩ }⟩
  | cons r0 rest ih =>
    intro hnd w out h
    have hr0 : r0 ∉ rest := (List.nodup_cons.mp hnd).1
    simp only [resolutionLoop, bind_apply] at h
    generalize hout0 : processResolution env ctx videoID tempDir orig D r0 w = out0 at h
    obtain ⟨new0, recs0, post0⟩ := processResolution_spec env ctx videoID tempDir orig D r0 w out0 hout0
    have hnone0 : ∀ r, r0 ≠ r → ∀ e ∈ new0, e.chunks r = none :=
      fun r hne e he => chunks_of_ladderStep hne e (post0.steps e he)
    have hfil0 : ∀ r, r0 ≠ r → recs0.filter (segTag videoID r) = [] :=
      fun r hne => filter_segTag_eq_nil (fun s hs => segTag_ne ((LadderPost_tagged post0) s hs) hne)
    rcases out0 with ⟨res0, w0⟩
    cases res0 with
    | error e =>
      simp only at h
      subst h
      refine ⟨new0, recs0,
        { trace := post0.trace
          segments := post0.segments
          videos := post0.videos
          spawned := post0.spawned
          steps := fun e he => ⟨r0, by simp, post0.steps e he⟩
          tagged := fun s hs => ⟨r0, by simp, (LadderPost_tagged post0) s hs⟩
          records := ?_
          oracle := ?_
          complete := by simp
          stops := post0.stops
          succeeds := post0.succeeds
          created := post0.created
          blocks := ⟨new0, [], false, by simp, post0.block, by simp [resFailed]⟩ }⟩
      · intro r
        by_cases hr : r0 = r
        · subst hr
          rw [filter_segTag_eq_self (LadderPost_tagged post0)]
          exact post0.records
        · simp [SegFacts, segmenterResult_eq_none (hnone0 r hr), hfil0 r hr]
      · intro r cs hs
        by_cases hr : r0 = r
        · subst hr
          exact post0.oracle cs hs
        · rw [segmenterResult_eq_none (hnone0 r hr)] at hs
          cases hs
    | ok u =>
      simp only at h
      generalize hout1 : resolutionLoop env ctx videoID tempDir orig D rest w0 = out1 at h
      obtain ⟨new1, recs1, post1⟩ := ih (List.nodup_cons.mp hnd).2 w0 out1 hout1
      subst h
      have hnone1 : ∀ e ∈ new1, e.chunks r0 = none := by
        intro e he
        obtain ⟨r, hr, hstep⟩ := post1.steps e he
        exact chunks_of_ladderStep (fun h => hr0 (by rw [← h]; exact hr)) e hstep
      have hfil1 : recs1.filter (segTag videoID r0) = [] := by
        apply filter_segTag_eq_nil
        intro s hs
        obtain ⟨r, hr, htag⟩ := post1.tagged s hs
        exact segTag_ne htag (fun h => hr0 (by rw [← h]; exact hr))
      have hrec : ∀ r, SegFacts videoID D (new0 ++ new1) r
          ((recs0 ++ recs1).filter (segTag videoID r)) := by
        intro r
        by_cases hr : r0 = r
        · subst hr
          rw [List.filter_append, hfil1, List.append_nil, filter_segTag_eq_self (LadderPost_tagged post0)]
          simp only [SegFacts, segmenterResult_append_left hnone1]
          exact post0.records
        · rw [List.filter_append, hfil0 r hr, List.nil_append]
          simp only [SegFacts, segmenterResult_append_right (hnone0 r hr)]
          exact post1.records r
      refine ⟨new0 ++ new1, recs0 ++ recs1,
        { trace := by rw [post1.trace, post0.trace, List.append_assoc]
          segments := by rw [post1.segments, post0.segments, List.append_assoc]
          videos := by rw [post1.videos, post0.videos]
          spawned := by rw [post1.spawned, post0.spawned]
          steps := ?_
          tagged := ?_
          records := hrec
          oracle := ?_
          complete := ?_
          stops := Stops_append ?_ post1.stops
          succeeds := post1.succeeds
          created := by rw [createdIn_append, ← post0.created, ← post1.created]
          blocks := ⟨new0, new1, true, rfl, post0.block, by simpa using post1.blocks⟩ }⟩
      · intro e he
        rcases List.mem_append.mp he with h | h
        · exact ⟨r0, by simp, post0.steps e h⟩
        · obtain ⟨r, hr, hstep⟩ := post1.steps e h
          exact ⟨r, List.mem_cons_of_mem _ hr, hstep⟩
      · intro s hs
        rcases List.mem_append.mp hs with h | h
        · exact ⟨r0, by simp, (LadderPost_tagged post0) s h⟩
        · obtain ⟨r, hr, htag⟩ := post1.tagged s h
          exact ⟨r, List.mem_cons_of_mem _ hr, htag⟩
      · intro r cs hs
        by_cases hr : r0 = r
        · subst hr
          rw [segmenterResult_append_left hnone1] at hs
          exact post0.oracle cs hs
        · rw [segmenterResult_append_right (hnone0 r hr)] at hs
          exact post1.oracle r cs hs
      · intro hok r hr
        rcases List.mem_cons.mp hr with rfl | hmem
        · obtain ⟨cs, hcs, hlen⟩ := post0.complete rfl
          refine ⟨cs, ?_, ?_⟩
          · rw [segmenterResult_append_left hnone1]; exact hcs
          · rw [List.filter_append, hfil1, List.append_nil,
              filter_segTag_eq_self (LadderPost_tagged post0)]; exact hlen
        · have hne : r0 ≠ r := fun h => hr0 (by rw [h]; exact hmem)
          obtain ⟨cs, hcs, hlen⟩ := post1.complete hok r hmem
          refine ⟨cs, ?_, ?_⟩
          · rw [segmenterResult_append_right (hnone0 r hne)]; exact hcs
          · rw [List.filter_append, hfil0 r hne, List.nil_append]; exact hlen
      · intro x hx hf
        have := post0.stops
        exact this x hx hf

theorem thumbStep_facts (e : Entry) (h : e.thumbStep = true) :
    e.site.bestEffort = true ∧ (∀ r, e.chunks r = none) ∧ e.probed = none ∧
      ∀ id, e.event.statusWritten id = none := by
  rcases e with ⟨site, ev⟩
  cases site <;> cases ev <;>
    simp_all [Entry.thumbStep, Site.bestEffort, Entry.chunks, Entry.probed, Event.statusWritten]

theorem ladderStep_facts {r : Resolution} (e : Entry) (h : e.ladderStep r = true) :
    e.probed = none ∧ ∀ id, e.event.statusWritten id = none := by
  rcases e with ⟨site, ev⟩
  cases site <;> cases ev <;>
    simp_all [Entry.ladderStep, Entry.probed, Event.statusWritten]

theorem statusWrites_eq_nil {id : String} {l : List Entry}
    (h : ∀ e ∈ l, e.event.statusWritten id = none) : statusWrites id l = [] := by
  simpa [statusWrites, List.filterMap_eq_nil_iff] using h

theorem statusWrites_append (id : String) (a b : List Entry) :
    statusWrites id (a ++ b) = statusWrites id a ++ statusWrites id b := by
  simp [statusWrites, List.filterMap_append]

theorem updateVideo_isSome (w : World) (v : Video) (id : String) :
    ((w.updateVideo v).videos id).isSome = (w.videos id).isSome := by
  simp only [updateVideo_videos]
  split <;> simp

theorem thumbnailStep_spec (env : Env) (ctx : Ctx) (videoID tempDir : String) (video : Video)
    (w : World) (out : Except String Video × World)
    (h : thumbnailStep env ctx videoID tempDir video w = out) :
    ∃ new url, out.1 = .ok { video with ThumbnailURL := url } ∧
      out.2.trace = w.trace ++ new ∧ out.2.segments = w.segments ∧ out.2.videos = w.videos ∧
      out.2.spawned = w.spawned ∧ ∀ e ∈ new, e.thumbStep = true := by
  simp only [thumbnailStep, bind_apply, attempt, osReadFile, StorageRepository.UploadFile,
    pure_apply] at h
  rcases h1 : env.readFile w.trace.length (filepathJoin tempDir "thumbnail.jpg") with e | d
  · simp only [h1, pure_apply] at h
    subst h
    exact ⟨[⟨.readThumbnail, .readFile (filepathJoin tempDir "thumbnail.jpg") (.error e)⟩],
      video.ThumbnailURL, rfl, by simp, rfl, rfl, rfl, by simp [Entry.thumbStep]⟩
  · simp only [h1, log_trace, List.length_append, List.length_singleton, bind_apply, attempt,
      StorageRepository.UploadFile] at h
    rcases h2 : env.uploadFile (w.trace.length + 1) ctx (thumbnailStoragePath videoID)
      d "image/jpeg" with e | url
    · simp only [h2, pure_apply] at h
      subst h
      exact ⟨[⟨.readThumbnail, .readFile (filepathJoin tempDir "thumbnail.jpg") (.ok d)⟩,
          ⟨.uploadThumbnail, .uploadFile ctx (thumbnailStoragePath videoID) d
            "image/jpeg" (.error e)⟩],
        video.ThumbnailURL, rfl, by simp, rfl, rfl, rfl, by simp [Entry.thumbStep]⟩
    · simp only [h2, pure_apply] at h
      subst h
      exact ⟨[⟨.readThumbnail, .readFile (filepathJoin tempDir "thumbnail.jpg") (.ok d)⟩,
          ⟨.uploadThumbnail, .uploadFile ctx (thumbnailStoragePath videoID) d
            "image/jpeg" (.ok url)⟩],
        url, rfl, by simp, rfl, rfl, rfl, by simp [Entry.thumbStep]⟩

theorem preStep_facts (e : Entry) (h : e.preStep = true) :
    e.created = none ∧ e.encodeCall = none ∧ e.segmentCall = none ∧
      (∀ r, e.ladderStep r = false) ∧ (∀ r, e.site.chunkIndex r = none) ∧
      (∀ r, e.chunks r = none) ∧ e.site ≠ .cleanup ∧ e.site ≠ .markComplete := by
  rcases e with ⟨site, ev⟩
  cases site <;> cases ev <;>
    simp_all [Entry.preStep, Entry.created, Entry.encodeCall, Entry.segmentCall,
      Entry.ladderStep, Site.chunkIndex, Entry.chunks]

theorem postStep_facts (e : Entry) (h : e.postStep = true) :
    e.created = none ∧ e.encodeCall = none ∧ e.segmentCall = none ∧
      (∀ r, e.ladderStep r = false) ∧ (∀ r, e.site.chunkIndex r = none) ∧
      (∀ r, e.chunks r = none) := by
  rcases e with ⟨site, ev⟩
  cases site <;> cases ev <;>
    simp_all [Entry.postStep, Entry.created, Entry.encodeCall, Entry.segmentCall,
      Entry.ladderStep, Site.chunkIndex, Entry.chunks]

theorem postStep_of_thumbStep (e : Entry) (h : e.thumbStep = true) :
    e.postStep = true ∧ e.statusAttempted = none := by
  rcases e with ⟨site, ev⟩
  cases site <;> cases ev <;>
    simp_all [Entry.postStep, Entry.thumbStep, Entry.statusAttempted]

theorem ladderStep_calls {r : Resolution} (e : Entry) (h : e.ladderStep r = true) :
    e.statusAttempted = none ∧ e.preStep = false ∧ e.postStep = false ∧
      e.site ≠ .cleanup ∧ e.site ≠ .markComplete := by
  rcases e with ⟨site, ev⟩
  cases site <;> cases ev <;>
    simp_all [Entry.ladderStep, Entry.statusAttempted, Entry.preStep, Entry.postStep]

/-- The calls of a run that ends before the resolution ladder. -/
theorem PipelineTrace_early {new : List Entry} (hpre : ∀ e ∈ new, e.preStep = true)
    (hatt : statusAttempts new <+: [StatusTranscoded]) : PipelineTrace new false :=
  ⟨new, [], [], by simp, hpre, by simp, by simp [statusAttempts], by simp,
    Or.inl ⟨rfl, hatt, by simp, rfl⟩⟩

/-- The calls of `ProcessVideo` around those of its body: the load of the
record and the creation of the workspace before, the removal of the workspace
after. -/
theorem PipelineTrace_wrap {new a c : List Entry} {ok : Bool} (h : PipelineTrace new ok)
    (ha : ∀ e ∈ a, e.preStep = true ∧ e.statusAttempted = none ∧ e.failed = false)
    (hc : ∀ e ∈ c, e.postStep = true ∧ e.statusAttempted = none ∧ e.site = .cleanup) :
    PipelineTrace (a ++ new ++ c) ok := by
  obtain ⟨pre, ladder, post, hnew, hpre, hpost, hatt, hdone, hcase⟩ := h
  have hsa : statusAttempts a = [] := statusAttempts_eq_nil (fun e he => (ha e he).2.1)
  have hsc : statusAttempts c = [] := statusAttempts_eq_nil (fun e he => (hc e he).2.1)
  refine ⟨a ++ pre, ladder, post ++ c, by simp [hnew], ?_, ?_, ?_,
    fun hok => by rw [statusAttempts_append, hsc, List.append_nil]; exact hdone hok, ?_⟩
  · intro e he
    rcases List.mem_append.mp he with h | h
    · exact (ha e h).1
    · exact hpre e h
  · intro e he
    rcases List.mem_append.mp he with h | h
    · exact hpost e h
    · exact (hc e h).1
  · rw [statusAttempts_append, hsc, List.append_nil]
    exact hatt
  · rcases hcase with ⟨hl, hp, hcl, hok⟩ | ⟨okL, hl, hp, hf, hfail⟩
    · refine Or.inl ⟨hl, by rw [statusAttempts_append, hsa]; exact hp, ?_, hok⟩
      intro e he
      rcases List.mem_append.mp he with h | h
      · exact hcl e h
      · exact (hc e h).2.2
    · refine Or.inr ⟨okL, hl, by rw [statusAttempts_append, hsa]; exact hp, ?_, ?_⟩
      · intro e he
        rcases List.mem_append.mp he with h | h
        · exact (ha e h).2.2
        · exact hf e h
      · intro hk
        refine ⟨?_, (hfail hk).2⟩
        intro e he
        rcases List.mem_append.mp he with h | h
        · exact (hfail hk).1 e h
        · exact (hc e h).2.2

/-- A run of the body that fails before the resolution ladder. -/
theorem BodyPost_early (env : Env) (videoID : String) (video : Video) (w w1 : World)
    (msg : String) (new : List Entry)
    (htrace : w1.trace = w.trace ++ new) (hseg : w1.segments = w.segments)
    (hsp : w1.spawned = w.spawned) (hrows : ∀ id, (w1.videos id).isSome = (w.videos id).isSome)
    (hch : ∀ e ∈ new, ∀ r, e.chunks r = none)
    (hprobed : ∀ x, probeResult new = some x → env.returnsProbe x)
    (hstops : Stops new (Except.error msg : Except String Unit))
    (hfail : ¬ env.AllSucceed)
    (hpre : ∀ e ∈ new, e.preStep = true)
    (hatt : statusAttempts new <+: [StatusTranscoded]) :
    BodyPost env videoID video w (.error msg, w1) new [] :=
  { trace := htrace
    segments := by simp [hseg]
    spawned := hsp
    rows := hrows
    absent := by simp
    ladder := fun r cs h => by
      rw [segmenterResult_eq_none (fun e he => hch e he r)] at h
      exact absurd h (by simp)
    oracle := fun r cs h => by
      rw [segmenterResult_eq_none (fun e he => hch e he r)] at h
      exact absurd h (by simp)
    probed := hprobed
    tagged := by simp
    records := fun r cs h => by
      rw [segmenterResult_eq_none (fun e he => hch e he r)] at h
      exact absurd h (by simp)
    complete := by simp
    stops := hstops
    statuses := by simp
    succeeds := fun hall => absurd hall hfail
    created := (createdIn_eq_nil (fun e he => (preStep_facts e (hpre e he)).1)).symm
    shape := PipelineTrace_early hpre hatt }

theorem resolutions_nodup : resolutions.Nodup := by
  simp [resolutions, Resolution1080p, Resolution720p]

theorem probeResult_append_of_some {a b : List Entry} {x : ℚ × Int × Int}
    (h : probeResult a = some x) : probeResult (a ++ b) = some x := by
  simp only [probeResult, List.filterMap_append] at *
  cases hl : a.filterMap Entry.probed with
  | nil => simp [hl] at h
  | cons y ys => simp_all

theorem SegFacts_absent {videoID : String} {D : ℚ} {new : List Entry} {r : Resolution}
    {recs : List Segment} (h : SegFacts videoID D new r recs)
    (hn : segmenterResult new r = none) : recs = [] := by
  simpa [SegFacts, hn] using h

theorem SegFacts_records {videoID : String} {D : ℚ} {new : List Entry} {r : Resolution}
    {recs : List Segment} {cs : List String} (h : SegFacts videoID D new r recs)
    (hn : segmenterResult new r = some cs) : RecordsFrom videoID r D cs.length 0 cs recs := by
  simpa [SegFacts, hn] using h

theorem segmenterResult_middle {a b c : List Entry} {r : Resolution}
    (ha : ∀ e ∈ a, e.chunks r = none) (hc : ∀ e ∈ c, e.chunks r = none) :
    segmenterResult (a ++ b ++ c) r = segmenterResult b r := by
  rw [segmenterResult_append_left hc, segmenterResult_append_right ha]

theorem Update_spec (env : Env) (site : Site) (ctx : Ctx) (video : Video) (w : World)
    (out : (Video × Option String) × World)
    (h : VideoRepository.Update env site ctx video w = out) :
    out.1.1 = { video with UpdatedAt := env.now w.ticks } ∧
    out.2.trace = w.trace ++ [⟨site, .videoUpdate ctx out.1.1 out.1.2⟩] ∧
    out.2.segments = w.segments ∧ out.2.spawned = w.spawned ∧
    (∀ id, (out.2.videos id).isSome = (w.videos id).isSome) ∧
    (out.1.2 = none → out.2.videos = (w.updateVideo out.1.1).videos) ∧
    (out.1.2 ≠ none → out.2.videos = w.videos) ∧
    (env.AllSucceed → out.1.2 = none) := by
  simp only [VideoRepository.Update] at h
  rcases h1 : env.videoUpdate w.tick.trace.length ctx { video with UpdatedAt := env.now w.ticks }
    with _ | e
  · simp only [h1] at h
    subst h
    exact ⟨rfl, rfl, rfl, rfl, fun id => updateVideo_isSome _ _ id, fun _ => rfl,
      fun hne => absurd rfl hne, fun _ => rfl⟩
  · simp only [h1] at h
    subst h
    exact ⟨rfl, rfl, rfl, rfl, fun _ => rfl, by simp, fun _ => rfl,
      fun hall => by simp [hall.videoUpdate] at h1⟩

theorem processInTempDir_spec (env : Env) (ctx : Ctx) (videoID videoURL : String)
    (video : Video) (tempDir : String) (w : World) (out : Except String Unit × World)
    (h : processInTempDir env ctx videoID videoURL video tempDir w = out) :
    ∃ new recs, BodyPost env videoID video w out new recs := by
  simp only [processInTempDir, bind_apply, wrapErr, StorageRepository.GetFile, osWriteFile,
    TranscodeRepository.GetVideoInfo, call] at h
  rcases h1 : env.getFile w.trace.length ctx videoURL with e | data
  · simp only [h1] at h
    subst h
    exact ⟨[⟨.download, .getFile ctx videoURL (.error e)⟩], [],
      BodyPost_early env videoID video w _ _ _ (by simp) rfl rfl (fun _ => rfl)
        (by simp [Entry.chunks]) (by simp [probeResult, Entry.probed])
        (Stops_fail [] _ _ (by simp) rfl rfl)
        (fun hall => by
          obtain ⟨d, hd⟩ := hall.getFile w.trace.length ctx videoURL
          simp [hd] at h1)
        (by simp [Entry.preStep]) (by simp [statusAttempts, Entry.statusAttempted])⟩
  simp only [h1, log_trace, List.length_append, List.length_singleton] at h
  rcases h2 : env.writeFile (w.trace.length + 1) (filepathJoin tempDir "original.mp4") data 0o644
    with _ | e
  swap
  · simp only [h2, errResult] at h
    subst h
    exact ⟨[⟨.download, .getFile ctx videoURL (.ok data)⟩,
        ⟨.writeOriginal, .writeFile (filepathJoin tempDir "original.mp4") data 0o644 (some e)⟩], [],
      BodyPost_early env videoID video w _ _ _ (by simp) rfl rfl (fun _ => rfl)
        (by simp [Entry.chunks]) (by simp [probeResult, Entry.probed])
        (Stops_fail [_] _ _ (by simp [Entry.failed, Event.failed, resFailed]) rfl rfl)
        (fun hall => by simp [hall.writeFile] at h2)
        (by simp [Entry.preStep]) (by simp [statusAttempts, Entry.statusAttempted])⟩
  simp only [h2, errResult, log_trace, List.length_append, List.length_singleton] at h
  rcases h3 : env.getVideoInfo (w.trace.length + 1 + 1) ctx (filepathJoin tempDir "original.mp4")
    with e | ⟨D, wd, ht⟩
  · simp only [h3] at h
    subst h
    exact ⟨[⟨.download, .getFile ctx videoURL (.ok data)⟩,
        ⟨.writeOriginal, .writeFile (filepathJoin tempDir "original.mp4") data 0o644 none⟩,
        ⟨.probe, .getVideoInfo ctx (filepathJoin tempDir "original.mp4") (.error e)⟩], [],
      BodyPost_early env videoID video w _ _ _ (by simp) rfl rfl (fun _ => rfl)
        (by simp [Entry.chunks]) (by simp [probeResult, Entry.probed])
        (Stops_fail [_, _] _ _ (by simp [Entry.failed, Event.failed, resFailed]) rfl rfl)
        (fun hall => by
          obtain ⟨x, hx⟩ := hall.getVideoInfo (w.trace.length + 1 + 1) ctx
            (filepathJoin tempDir "original.mp4")
          simp [hx] at h3)
        (by simp [Entry.preStep]) (by simp [statusAttempts, Entry.statusAttempted])⟩
  simp only [h3] at h
  generalize hU : VideoRepository.Update env Site.updateInfo ctx _ _ = outU at h
  obtain ⟨hv1, htr4, hseg4, hsp4, hrows4, -, -, hall4⟩ := Update_spec _ _ _ _ _ _ hU
  rcases outU with ⟨⟨v1, err⟩, w4⟩
  simp only [log_trace, log_segments, log_spawned, log_videos, log_ticks] at hv1 htr4 hseg4
  simp only [log_spawned, log_videos] at hsp4 hrows4 hall4
  obtain ⟨pre, hpre⟩ : ∃ pre : List Entry, pre =
      [⟨.download, .getFile ctx videoURL (.ok data)⟩,
        ⟨.writeOriginal, .writeFile (filepathJoin tempDir "original.mp4") data 0o644 none⟩,
        ⟨.probe, .getVideoInfo ctx (filepathJoin tempDir "original.mp4") (.ok (D, wd, ht))⟩,
        ⟨.updateInfo, .videoUpdate ctx v1 err⟩] := ⟨_, rfl⟩
  have htr : w4.trace = w.trace ++ pre := by simp [htr4, hpre]
  have hprech : ∀ e ∈ pre, ∀ r, e.chunks r = none := by simp [hpre, Entry.chunks]
  have hprobe : probeResult pre = some (D, wd, ht) := by simp [hpre, probeResult, Entry.probed]
  have hv1id : v1.ID = video.ID := by rw [hv1]
  have hv1st : v1.Status = StatusTranscoded := by rw [hv1]
  have hprestep : ∀ e ∈ pre, e.preStep = true := by simp [hpre, Entry.preStep]
  have hpreatt : statusAttempts pre = [StatusTranscoded] := by
    simp [hpre, statusAttempts, Entry.statusAttempted, hv1st]
  clear hv1 htr4 hU
  cases err with
  | some e =>
    simp only [checkErr] at h
    subst h
    exact ⟨pre, [],
      BodyPost_early env videoID video w _ _ _ htr hseg4 hsp4 hrows4 hprech
        (fun x hx => by
          rw [hprobe] at hx
          cases hx
          exact ⟨_, _, _, h3⟩)
        (by
          rw [hpre]
          exact Stops_fail [_, _, _] _ _ (by simp [Entry.failed, Event.failed, resFailed]) rfl rfl)
        (fun hall => by simpa using hall4 hall)
        hprestep (by rw [hpreatt])⟩
  | none =>
    have hpreok : ∀ x ∈ pre, x.failed = true → x.site.bestEffort = true := by
      simp [hpre, Entry.failed, Event.failed, resFailed]
    have hprenf : ∀ x ∈ pre, x.failed = false := by
      simp [hpre, Entry.failed, Event.failed, resFailed]
    have hprecr : createdIn pre = [] :=
      createdIn_eq_nil (fun e he => (preStep_facts e (hprestep e he)).1)
    have hprest : ∀ id, statusWrites id pre = if video.ID = id then [StatusTranscoded] else [] := by
      intro id
      simp only [hpre, statusWrites, List.filterMap_cons, Event.statusWritten, hv1id, hv1st,
        List.filterMap_nil]
      split <;> simp_all
    simp only [checkErr] at h
    generalize hL : resolutionLoop env ctx videoID tempDir _ D resolutions w4 = outL at h
    obtain ⟨newL, recs, postL⟩ :=
      resolutionLoop_spec env ctx videoID tempDir _ D resolutions resolutions_nodup w4 outL hL
    have hLch : ∀ e ∈ newL, e.probed = none ∧ ∀ id, e.event.statusWritten id = none := by
      intro e he
      obtain ⟨r, _, hstep⟩ := postL.steps e he
      exact ladderStep_facts e hstep
    have hlad : ∀ r cs, segmenterResult newL r = some cs → r ∈ resolutions :=
      fun r cs hs => mem_of_segmenterResult postL.steps hs
    have hLbe : ∀ e ∈ newL, e.site.bestEffort = false := by
      intro e he
      obtain ⟨r, _, hstep⟩ := postL.steps e he
      exact ladderStep_not_bestEffort e hstep
    rcases outL with ⟨resL, w5⟩
    cases resL with
    | error msg =>
      simp only at h
      subst h
      have hsr : ∀ r, segmenterResult (pre ++ newL) r = segmenterResult newL r :=
        fun r => segmenterResult_append_right (fun e he => hprech e he r)
      exact ⟨pre ++ newL, recs,
        { trace := by rw [postL.trace, htr, List.append_assoc]
          segments := by rw [postL.segments, hseg4]
          spawned := by rw [postL.spawned, hsp4]
          rows := fun id => by rw [postL.videos]; exact hrows4 id
          absent := fun r hn => SegFacts_absent (postL.records r) (by rw [← hsr r]; exact hn)
          ladder := fun r cs hs => hlad r cs (by rw [← hsr r]; exact hs)
          oracle := fun r cs hs => postL.oracle r cs (by rw [← hsr r]; exact hs)
          probed := fun x hx => by
            rw [probeResult_append_of_some hprobe] at hx
            cases hx
            exact ⟨_, _, _, h3⟩
          tagged := postL.tagged
          records := fun r cs hs =>
            ⟨D, wd, ht, probeResult_append_of_some hprobe,
              SegFacts_records (postL.records r) (by rw [← hsr r]; exact hs)⟩
          complete := by simp
          stops := Stops_append hpreok postL.stops
          statuses := by simp
          succeeds := postL.succeeds
          created := by rw [createdIn_append, hprecr, List.nil_append]; exact postL.created
          shape := ⟨pre, newL, [], by simp, hprestep, by simp, by simp [statusAttempts],
            by simp [resFailed], Or.inr ⟨false, postL.blocks, hpreatt, hprenf, fun _ => ⟨by simp, rfl⟩⟩⟩ }⟩
    | ok u =>
      simp only at h
      generalize hT : thumbnailStep env ctx videoID tempDir v1 w5 = outT at h
      obtain ⟨newT, url, hTres, hTtr, hTseg, hTvid, hTsp, hTsteps⟩ :=
        thumbnailStep_spec env ctx videoID tempDir v1 w5 outT hT
      rcases outT with ⟨resT, w6⟩
      simp only at hTres hTtr hTseg hTvid hTsp
      subst hTres
      simp only at h
      generalize hF : VideoRepository.Update env Site.markComplete ctx _ w6 = outF at h
      obtain ⟨hv2, htr7, hseg7, hsp7, hrows7, -, -, hall7⟩ := Update_spec _ _ _ _ _ _ hF
      rcases outF with ⟨⟨v2, errF⟩, w7⟩
      simp only at h hv2 htr7 hseg7 hsp7 hrows7 hall7
      have hv2id : v2.ID = video.ID := by rw [hv2]; exact hv1id
      have hv2st : v2.Status = StatusComplete := by rw [hv2]
      clear hv2 hF hT hL
      have hsr : ∀ r, segmenterResult
          (pre ++ newL ++ (newT ++ [⟨.markComplete, .videoUpdate ctx v2 errF⟩])) r =
          segmenterResult newL r := by
        intro r
        apply segmenterResult_middle (fun e he => hprech e he r)
        intro e he
        rcases List.mem_append.mp he with h | h
        · exact (thumbStep_facts e (hTsteps e h)).2.1 r
        · simp only [List.mem_singleton] at h
          subst h
          rfl
      have htrace : w7.trace = w.trace ++
          (pre ++ newL ++ (newT ++ [⟨.markComplete, .videoUpdate ctx v2 errF⟩])) := by
        rw [htr7, hTtr, postL.trace, htr]
        simp only [List.append_assoc]
      have hsegs : w7.segments = w.segments ++ recs := by
        rw [hseg7, hTseg, postL.segments, hseg4]
      have hspawn : w7.spawned = w.spawned := by
        rw [hsp7, hTsp, postL.spawned, hsp4]
      have hrows : ∀ id, (w7.videos id).isSome = (w.videos id).isSome := by
        intro id
        rw [hrows7, hTvid, postL.videos]
        exact hrows4 id
      have hprobeAll : probeResult
          (pre ++ newL ++ (newT ++ [⟨.markComplete, .videoUpdate ctx v2 errF⟩])) =
          some (D, wd, ht) := by
        rw [List.append_assoc]
        exact probeResult_append_of_some hprobe
      have hbe : ∀ x ∈ pre ++ newL ++ newT, x.failed = true → x.site.bestEffort = true := by
        intro x hx hf
        rcases List.mem_append.mp hx with h | h
        · rcases List.mem_append.mp h with h | h
          · exact hpreok x h hf
          · exact postL.stops x h hf
        · exact (thumbStep_facts x (hTsteps x h)).1
      have hpostcr : createdIn (newT ++ [⟨.markComplete, .videoUpdate ctx v2 errF⟩]) = [] := by
        apply createdIn_eq_nil
        intro e he
        rcases List.mem_append.mp he with h | h
        · exact (postStep_facts e (postStep_of_thumbStep e (hTsteps e h)).1).1
        · simp only [List.mem_singleton] at h
          subst h
          rfl
      have hcreated : recs = createdIn
          (pre ++ newL ++ (newT ++ [⟨.markComplete, .videoUpdate ctx v2 errF⟩])) := by
        rw [createdIn_append, createdIn_append, hprecr, List.nil_append, hpostcr,
          List.append_nil]
        exact postL.created
      have hshape : ∀ ok : Bool, PipelineTrace
          (pre ++ newL ++ (newT ++ [⟨.markComplete, .videoUpdate ctx v2 errF⟩])) ok := by
        intro ok
        have hpostatt : statusAttempts
            (newT ++ [⟨.markComplete, .videoUpdate ctx v2 errF⟩]) = [StatusComplete] := by
          rw [statusAttempts_append,
            statusAttempts_eq_nil (fun e he => (postStep_of_thumbStep e (hTsteps e he)).2)]
          simp [statusAttempts, Entry.statusAttempted, hv2st]
        refine ⟨pre, newL, newT ++ [⟨.markComplete, .videoUpdate ctx v2 errF⟩], rfl, hprestep,
          ?_, by rw [hpostatt], fun _ => hpostatt,
          Or.inr ⟨true, postL.blocks, hpreatt, hprenf, by simp⟩⟩
        intro e he
        rcases List.mem_append.mp he with h | h
        · exact (postStep_of_thumbStep e (hTsteps e h)).1
        · simp only [List.mem_singleton] at h
          subst h
          rfl
      refine ⟨pre ++ newL ++ (newT ++ [⟨.markComplete, .videoUpdate ctx v2 errF⟩]), recs, ?_⟩
      cases errF with
      | some e =>
        simp only [checkErr] at h
        subst h
        exact
          { trace := htrace
            segments := hsegs
            spawned := hspawn
            rows := hrows
            absent := fun r hn => SegFacts_absent (postL.records r) (by rw [← hsr r]; exact hn)
            ladder := fun r cs hs => hlad r cs (by rw [← hsr r]; exact hs)
            oracle := fun r cs hs => postL.oracle r cs (by rw [← hsr r]; exact hs)
            probed := fun x hx => by
              rw [hprobeAll] at hx
              cases hx
              exact ⟨_, _, _, h3⟩
            tagged := postL.tagged
            records := fun r cs hs =>
              ⟨D, wd, ht, hprobeAll, SegFacts_records (postL.records r) (by rw [← hsr r]; exact hs)⟩
            complete := by simp
            stops := by
              rw [← List.append_assoc]
              exact Stops_fail _ _ _ hbe rfl rfl
            statuses := by simp
            succeeds := fun hall => by simpa using hall7 hall
            created := hcreated
            shape := hshape _ }
      | none =>
        simp only [checkErr] at h
        subst h
        exact
          { trace := htrace
            segments := hsegs
            spawned := hspawn
            rows := hrows
            absent := fun r hn => SegFacts_absent (postL.records r) (by rw [← hsr r]; exact hn)
            ladder := fun r cs hs => hlad r cs (by rw [← hsr r]; exact hs)
            oracle := fun r cs hs => postL.oracle r cs (by rw [← hsr r]; exact hs)
            probed := fun x hx => by
              rw [hprobeAll] at hx
              cases hx
              exact ⟨_, _, _, h3⟩
            tagged := postL.tagged
            records := fun r cs hs =>
              ⟨D, wd, ht, hprobeAll, SegFacts_records (postL.records r) (by rw [← hsr r]; exact hs)⟩
            complete := fun _ r hr => by
              obtain ⟨cs, hcs, hlen⟩ := postL.complete rfl r hr
              exact ⟨cs, by rw [hsr r]; exact hcs, hlen⟩
            stops := by
              intro x hx hf
              rw [← List.append_assoc] at hx
              rcases List.mem_append.mp hx with h | h
              · exact hbe x h hf
              · simp only [List.mem_singleton] at h
                subst h
                simp [Entry.failed, Event.failed] at hf
            statuses := fun _ id => by
              rw [statusWrites_append, statusWrites_append, statusWrites_append, hprest id,
                statusWrites_eq_nil (fun e he => (hLch e he).2 id),
                statusWrites_eq_nil (fun e he => (thumbStep_facts e (hTsteps e he)).2.2.2 id)]
              simp only [statusWrites, List.filterMap_cons, Event.statusWritten, hv2id, hv2st,
                List.filterMap_nil]
              split <;> simp_all
            succeeds := fun _ => rfl
            created := hcreated
            shape := hshape _ }

theorem probeResult_append_right {a b : List Entry} (h : ∀ e ∈ a, e.probed = none) :
    probeResult (a ++ b) = probeResult b := by
  have : a.filterMap Entry.probed = [] := by simpa [List.filterMap_eq_nil_iff] using h
  simp [probeResult, List.filterMap_append, this]

/-- A run of `ProcessVideo` that fails before the workspace exists. -/
theorem PipelinePost_early (env : Env) (videoID : String) (w w1 : World)
    (msg : String) (new : List Entry)
    (htrace : w1.trace = w.trace ++ new) (hseg : w1.segments = w.segments)
    (hsp : w1.spawned = w.spawned) (hrows : ∀ id, (w1.videos id).isSome = (w.videos id).isSome)
    (hch : ∀ e ∈ new, ∀ r, e.chunks r = none)
    (hsite : ∀ e ∈ new, e.site = .loadVideo ∨ e.site = .makeTempDir)
    (hprobed : ∀ x, probeResult new = some x → env.returnsProbe x)
    (hstops : Stops new (Except.error msg : Except String Unit))
    (hfail : env.AllSucceed → (w.videos videoID).isSome = true → False)
    (hpre : ∀ e ∈ new, e.preStep = true)
    (hatt : statusAttempts new <+: [StatusTranscoded]) :
    PipelinePost env videoID w (.error msg, w1) new [] :=
  { trace := htrace
    segments := by simp [hseg]
    spawned := hsp
    rows := hrows
    absent := by simp
    ladder := fun r cs h => by
      rw [segmenterResult_eq_none (fun e he => hch e he r)] at h
      exact absurd h (by simp)
    oracle := fun r cs h => by
      rw [segmenterResult_eq_none (fun e he => hch e he r)] at h
      exact absurd h (by simp)
    probed := hprobed
    tagged := by simp
    records := fun r cs h => by
      rw [segmenterResult_eq_none (fun e he => hch e he r)] at h
      exact absurd h (by simp)
    complete := by simp
    halts := Or.inr ⟨hstops, hsite⟩
    statuses := by simp
    succeeds := fun hall hrow => absurd (hfail hall hrow) id
    created := (createdIn_eq_nil (fun e he => (preStep_facts e (hpre e he)).1)).symm
    shape := PipelineTrace_early hpre hatt }

theorem ProcessVideo_spec (env : Env) (ctx : Ctx) (videoID videoURL : String)
    (w : World) (out : Except String Unit × World)
    (h : ProcessVideo env ctx videoID videoURL w = out) :
    ∃ new recs, PipelinePost env videoID w out new recs := by
  simp only [ProcessVideo, bind_apply, wrapErr, VideoRepository.GetByID, osMkdirTemp, withDefer,
    osRemoveAll] at h
  rcases h1 : env.videoGetByID w.trace.length ctx videoID with _ | e
  swap
  · simp only [h1] at h
    subst h
    exact ⟨[⟨.loadVideo, .videoGetByID ctx videoID (.error e)⟩], [],
      PipelinePost_early env videoID w _ _ _ rfl rfl rfl (fun _ => rfl)
        (by simp [Entry.chunks]) (by simp) (by simp [probeResult, Entry.probed])
        (Stops_fail [] _ _ (by simp) rfl rfl)
        (fun hall _ => by simp [hall.videoGetByID] at h1)
        (by simp [Entry.preStep]) (by simp [statusAttempts, Entry.statusAttempted])⟩
  simp only [h1] at h
  rcases hrow : w.videos videoID with _ | video
  · simp only [hrow] at h
    subst h
    exact ⟨[⟨.loadVideo, .videoGetByID ctx videoID
        (.error ("video with ID " ++ videoID ++ " not found"))⟩], [],
      PipelinePost_early env videoID w _ _ _ rfl rfl rfl (fun _ => rfl)
        (by simp [Entry.chunks]) (by simp) (by simp [probeResult, Entry.probed])
        (Stops_fail [] _ _ (by simp) rfl rfl)
        (fun _ hsome => by simp [hrow] at hsome)
        (by simp [Entry.preStep]) (by simp [statusAttempts, Entry.statusAttempted])⟩
  simp only [hrow, log_trace, List.length_append, List.length_singleton] at h
  rcases h2 : env.mkdirTemp (w.trace.length + 1) "" ("video-processing-" ++ videoID)
    with e | tempDir
  · simp only [h2] at h
    subst h
    exact ⟨[⟨.loadVideo, .videoGetByID ctx videoID (.ok video)⟩,
        ⟨.makeTempDir, .mkdirTemp "" ("video-processing-" ++ videoID) (.error e)⟩], [],
      PipelinePost_early env videoID w _ _ _ (by simp) rfl rfl (fun _ => rfl)
        (by simp [Entry.chunks]) (by simp) (by simp [probeResult, Entry.probed])
        (Stops_fail [_] _ _ (by simp [Entry.failed, Event.failed, resFailed]) rfl rfl)
        (fun hall _ => by
          obtain ⟨t, ht⟩ := hall.mkdirTemp (w.trace.length + 1) "" ("video-processing-" ++ videoID)
          simp [ht] at h2)
        (by simp [Entry.preStep]) (by simp [statusAttempts, Entry.statusAttempted])⟩
  simp only [h2] at h
  generalize hB : processInTempDir env ctx videoID videoURL video tempDir _ = outB at h
  obtain ⟨newB, recs, postB⟩ := processInTempDir_spec env ctx videoID videoURL video tempDir _ outB hB
  obtain ⟨pre, hpre⟩ : ∃ pre : List Entry, pre =
      [⟨.loadVideo, .videoGetByID ctx videoID (.ok video)⟩,
        ⟨.makeTempDir, .mkdirTemp "" ("video-processing-" ++ videoID) (.ok tempDir)⟩] :=
    ⟨_, rfl⟩
  obtain ⟨post, hpost⟩ : ∃ post : List Entry, post =
      [⟨.cleanup, .removeAll tempDir (env.removeAll outB.2.trace.length tempDir)⟩] := ⟨_, rfl⟩
  have hprech : ∀ e ∈ pre, ∀ r, e.chunks r = none := by simp [hpre, Entry.chunks]
  have hpostch : ∀ e ∈ post, ∀ r, e.chunks r = none := by simp [hpost, Entry.chunks]
  have hprepr : ∀ e ∈ pre, e.probed = none := by simp [hpre, Entry.probed]
  have hpreok : ∀ x ∈ pre, x.failed = true → x.site.bestEffort = true := by
    simp [hpre, Entry.failed, Event.failed, resFailed]
  have hsr : ∀ r, segmenterResult (pre ++ newB ++ post) r = segmenterResult newB r :=
    fun r => segmenterResult_middle (fun e he => hprech e he r) (fun e he => hpostch e he r)
  have hpr2 : probeResult (pre ++ newB ++ post) = probeResult newB := by
    rw [List.append_assoc, probeResult_append_right hprepr]
    have hpostpr : post.filterMap Entry.probed = [] := by simp [hpost, Entry.probed]
    simp [probeResult, List.filterMap_append, hpostpr]
  have hpr : ∀ x, probeResult newB = some x → probeResult (pre ++ newB ++ post) = some x := by
    intro x hx
    rw [List.append_assoc, probeResult_append_right hprepr]
    exact probeResult_append_of_some hx
  have htrB := postB.trace
  have hsegB := postB.segments
  have hspB := postB.spawned
  have hrowsB := postB.rows
  simp only [log_trace, log_segments, log_spawned, log_videos] at htrB hsegB hspB hrowsB
  subst h
  refine ⟨pre ++ newB ++ post, recs,
    { trace := by simp [htrB, hpre, hpost]
      segments := by simp [hsegB]
      spawned := by simp [hspB]
      rows := fun id => by simp [hrowsB]
      absent := fun r hn => postB.absent r (by rw [← hsr r]; exact hn)
      ladder := fun r cs hs => postB.ladder r cs (by rw [← hsr r]; exact hs)
      oracle := fun r cs hs => postB.oracle r cs (by rw [← hsr r]; exact hs)
      probed := fun x hx => postB.probed x (by rw [← hpr2]; exact hx)
      tagged := postB.tagged
      records := fun r cs hs => by
        obtain ⟨D, wd, ht, hp, hrec⟩ := postB.records r cs (by rw [← hsr r]; exact hs)
        exact ⟨D, wd, ht, hpr _ hp, hrec⟩
      complete := fun hok r hr => by
        obtain ⟨cs, hcs, hlen⟩ := postB.complete hok r hr
        exact ⟨cs, by rw [hsr r]; exact hcs, hlen⟩
      halts := Or.inl ⟨pre ++ newB, tempDir, _, by rw [hpost], Stops_append hpreok postB.stops⟩
      statuses := fun hok video1 hv id => by
        rw [hrow] at hv
        cases hv
        rw [statusWrites_append, statusWrites_append, postB.statuses hok id]
        simp [hpre, hpost, statusWrites, Event.statusWritten]
      succeeds := fun hall _ => postB.succeeds hall
      created := by
        rw [createdIn_append, createdIn_append, ← postB.created]
        simp [hpre, hpost, createdIn, Entry.created]
      shape := PipelineTrace_wrap postB.shape
        (by simp [hpre, Entry.preStep, Entry.statusAttempted, Entry.failed, Event.failed,
          resFailed])
        (by simp [hpost, Entry.postStep, Entry.statusAttempted]) }⟩

theorem backgroundRun_spec (env : Env) (t : BackgroundTask) (w : World)
    (out : Except String Unit × World) (h : backgroundRun env t w = out) :
    ∃ v1 err1 wA outP newP recs vF errF,
      BackgroundPost env t w out v1 err1 wA outP newP recs vF errF := by
  simp only [backgroundRun, bind_apply, call, attempt, pure_apply] at h
  generalize hA : VideoRepository.Update env Site.markProcessing Ctx.background _ w = outA at h
  obtain ⟨hv1, htrA, hsegA, hspA, hrowsA, hvidA, -, hallA⟩ := Update_spec _ _ _ _ _ _ hA
  rcases outA with ⟨⟨v1, err1⟩, wA⟩
  simp only at h hv1 htrA hsegA hspA hrowsA hvidA hallA
  generalize hP : ProcessVideo env Ctx.background t.videoID t.uploadURL wA = outP at h
  obtain ⟨newP, recs, postP⟩ := ProcessVideo_spec env .background t.videoID t.uploadURL wA outP hP
  rcases outP with ⟨resP, wP⟩
  simp only at h
  generalize hF : VideoRepository.Update env Site.markFinal Ctx.background _ wP = outF at h
  obtain ⟨hvF, htrF, hsegF, -, -, hvidF, -, hallF⟩ := Update_spec _ _ _ _ _ _ hF
  rcases outF with ⟨⟨vF, errF⟩, wF⟩
  simp only at h hvF htrF hsegF hvidF hallF
  subst h
  have htrP : wP.trace = wA.trace ++ newP := postP.trace
  have hsegP : wP.segments = wA.segments ++ recs := postP.segments
  refine ⟨v1, err1, wA, (resP, wP), newP, recs, vF, errF,
    { result := rfl
      first := hv1
      firstTrace := htrA
      firstVideos := hvidA
      firstRows := hrowsA
      pipeline := hP
      post := postP
      last := ?_
      trace := by
        simp only [htrF, htrP, htrA, List.append_assoc]
      segments := by
        simp only [hsegF, hsegP, hsegA]
      videos := hvidF
      succeeds := fun hall => ⟨hallA hall, hallF hall⟩
      start := hA.symm }⟩
  rw [hvF]
  cases resP <;> rfl

theorem append_ne_right (p f : String) (hp : p ≠ "") : p ++ f ≠ f := by
  intro h
  have hd := congrArg String.data h
  rw [String.data_append, List.append_left_eq_self] at hd
  exact hp (String.ext hd)

theorem objectURL_ne (s : S3Storage) (fileName : String) : s.objectURL fileName ≠ fileName := by
  unfold S3Storage.objectURL
  have h0 : "".length = 0 := by decide
  split
  · apply append_ne_right
    intro h
    have hl := congrArg String.length h
    simp only [String.length_append] at hl
    have h1 : "/".length = 1 := by decide
    omega
  · apply append_ne_right
    intro h
    have hl := congrArg String.length h
    simp only [String.length_append] at hl
    have h1 : "https://".length = 8 := by decide
    omega

/-- C2 (artifact store round trip).  On a bucket that holds nothing yet, an
upload that the store accepts puts the bytes under the key `fileName` and
returns the URL of the object as reference; `GetFile` of that reference on
the resulting bucket fails with `NoSuchKey` instead of returning the bytes,
because it looks the whole URL up as a key. -/
theorem S3Storage_reference_is_not_a_key (s : S3Storage) (fileName : String) (data : Bytes)
    (contentType : String) :
    (s.UploadFile none fileName data contentType (fun _ => none)).1 =
        .ok (s.objectURL fileName) ∧
      (s.UploadFile none fileName data contentType (fun _ => none)).2 fileName =
        some ⟨data, contentType⟩ ∧
      s.GetFile none (s.objectURL fileName)
          (s.UploadFile none fileName data contentType (fun _ => none)).2 =
        .error "failed to get file: NoSuchKey" := by
  refine ⟨rfl, by simp [S3Storage.UploadFile, putObject], ?_⟩
  simp [S3Storage.UploadFile, putObject, S3Storage.GetFile, getObject, objectURL_ne]

theorem demoEnv_allSucceed (D : ℚ) (chunks : List String) : (demoEnv D chunks).AllSucceed :=
  { videoCreate := fun _ _ _ => rfl
    videoGetByID := fun _ _ _ => rfl
    videoUpdate := fun _ _ _ => rfl
    segmentCreate := fun _ _ _ => rfl
    uploadFile := fun _ _ _ _ _ => ⟨_, rfl⟩
    getFile := fun _ _ _ => ⟨_, rfl⟩
    transcode := fun _ _ _ _ _ _ => rfl
    segment := fun _ _ _ _ _ => ⟨_, rfl⟩
    getVideoInfo := fun _ _ _ => ⟨_, rfl⟩
    mkdirTemp := fun _ _ _ => ⟨_, rfl⟩
    writeFile := fun _ _ _ _ => rfl
    readFile := fun _ _ => ⟨_, rfl⟩
    mkdirAll := fun _ _ _ => rfl
    removeAll := fun _ _ => rfl }

theorem newTrace_eq {w w1 : World} {new : List Entry} (h : w1.trace = w.trace ++ new) :
    newTrace w w1 = new := by
  simp [newTrace, h]

theorem createdFor_eq {w w1 : World} {recs : List Segment} (videoID : String) (r : Resolution)
    (h : w1.segments = w.segments ++ recs) :
    createdFor w w1 videoID r = recs.filter (segTag videoID r) := by
  simp [createdFor, newSegments, h]

theorem ProcessVideo_created (env : Env) (ctx : Ctx) (videoID videoURL : String) (w : World)
    (r : Resolution) (cs : List String) (D : ℚ) (wd ht : Int)
    (hp : probeResult (newTrace w (ProcessVideo env ctx videoID videoURL w).2) = some (D, wd, ht))
    (h : segmenterResult (newTrace w (ProcessVideo env ctx videoID videoURL w).2) r = some cs) :
    RecordsFrom videoID r D cs.length 0 cs
      (createdFor w (ProcessVideo env ctx videoID videoURL w).2 videoID r) := by
  obtain ⟨new, recs, post⟩ := ProcessVideo_spec env ctx videoID videoURL w _ rfl
  rw [newTrace_eq post.trace] at h hp
  rw [createdFor_eq videoID r post.segments]
  obtain ⟨D1, wd1, ht1, hp1, hrec⟩ := post.records r cs h
  rw [hp] at hp1
  cases hp1
  exact hrec

theorem ProcessVideo_probed_of_chunks (env : Env) (ctx : Ctx) (videoID videoURL : String)
    (w : World) (r : Resolution) (cs : List String)
    (h : segmenterResult (newTrace w (ProcessVideo env ctx videoID videoURL w).2) r = some cs) :
    ∃ D wd ht, probeResult (newTrace w (ProcessVideo env ctx videoID videoURL w).2) =
      some (D, wd, ht) := by
  obtain ⟨new, recs, post⟩ := ProcessVideo_spec env ctx videoID videoURL w _ rfl
  rw [newTrace_eq post.trace] at h ⊢
  obtain ⟨D1, wd1, ht1, hp1, -⟩ := post.records r cs h
  exact ⟨D1, wd1, ht1, hp1⟩

theorem ProcessVideo_complete (env : Env) (ctx : Ctx) (videoID videoURL : String) (w : World)
    (r : Resolution) (cs : List String)
    (hok : (ProcessVideo env ctx videoID videoURL w).1 = .ok ())
    (h : segmenterResult (newTrace w (ProcessVideo env ctx videoID videoURL w).2) r = some cs) :
    (createdFor w (ProcessVideo env ctx videoID videoURL w).2 videoID r).length = cs.length := by
  obtain ⟨new, recs, post⟩ := ProcessVideo_spec env ctx videoID videoURL w _ rfl
  rw [newTrace_eq post.trace] at h
  rw [createdFor_eq videoID r post.segments]
  obtain ⟨cs1, hcs1, hlen⟩ := post.complete hok r (post.ladder r cs h)
  rw [h] at hcs1
  cases hcs1
  exact hlen

theorem ProcessVideo_ladder (env : Env) (ctx : Ctx) (videoID videoURL : String) (w : World)
    (r : Resolution) (hr : r ∈ resolutions)
    (hok : (ProcessVideo env ctx videoID videoURL w).1 = .ok ()) :
    ∃ cs, segmenterResult (newTrace w (ProcessVideo env ctx videoID videoURL w).2) r = some cs := by
  obtain ⟨new, recs, post⟩ := ProcessVideo_spec env ctx videoID videoURL w _ rfl
  rw [newTrace_eq post.trace]
  obtain ⟨cs1, hcs1, -⟩ := post.complete hok r hr
  exact ⟨cs1, hcs1⟩

theorem ProcessVideo_oracle (env : Env) (ctx : Ctx) (videoID videoURL : String) (w : World) :
    (∀ r cs, segmenterResult (newTrace w (ProcessVideo env ctx videoID videoURL w).2) r = some cs →
      env.returnsChunks cs) ∧
    (∀ x, probeResult (newTrace w (ProcessVideo env ctx videoID videoURL w).2) = some x →
      env.returnsProbe x) := by
  obtain ⟨new, recs, post⟩ := ProcessVideo_spec env ctx videoID videoURL w _ rfl
  rw [newTrace_eq post.trace]
  exact ⟨post.oracle, post.probed⟩

theorem ProcessVideo_succeeds (env : Env) (ctx : Ctx) (videoID videoURL : String) (w : World)
    (hall : env.AllSucceed) (hrow : (w.videos videoID).isSome = true) :
    (ProcessVideo env ctx videoID videoURL w).1 = .ok () := by
  obtain ⟨new, recs, post⟩ := ProcessVideo_spec env ctx videoID videoURL w _ rfl
  exact post.succeeds hall hrow

theorem demoRun_ok (D : ℚ) (chunks : List String) : (demoRun D chunks).1 = .ok () :=
  ProcessVideo_succeeds _ _ _ _ _ (demoEnv_allSucceed D chunks) (by simp [demoWorld])

theorem demoRun_chunks (D : ℚ) (chunks : List String) (r : Resolution) (hr : r ∈ resolutions) :
    segmenterResult (newTrace demoWorld (demoRun D chunks).2) r = some chunks := by
  obtain ⟨cs, hcs⟩ := ProcessVideo_ladder (demoEnv D chunks) .background "v1"
    demoVideo.OriginalURL demoWorld r hr (demoRun_ok D chunks)
  obtain ⟨n, ctx, vp, d, pat, h⟩ := (ProcessVideo_oracle (demoEnv D chunks) .background "v1"
    demoVideo.OriginalURL demoWorld).1 r cs hcs
  have : chunks = cs := by simpa [demoEnv] using h
  subst this
  exact hcs

theorem demoRun_probe (D : ℚ) (chunks : List String) :
    probeResult (newTrace demoWorld (demoRun D chunks).2) = some (D, 1920, 1080) := by
  have hr : Resolution1080p ∈ resolutions := by simp [resolutions]
  obtain ⟨D1, wd, ht, hp⟩ := ProcessVideo_probed_of_chunks (demoEnv D chunks) .background "v1"
    demoVideo.OriginalURL demoWorld Resolution1080p chunks (demoRun_chunks D chunks _ hr)
  obtain ⟨n, ctx, vp, h⟩ := (ProcessVideo_oracle (demoEnv D chunks) .background "v1"
    demoVideo.OriginalURL demoWorld).2 _ hp
  have : (D, (1920 : Int), (1080 : Int)) = (D1, wd, ht) := by simpa [demoEnv] using h
  rw [this]
  exact hp

theorem demoRun_length (D : ℚ) (chunks : List String) (r : Resolution) (hr : r ∈ resolutions) :
    (createdFor demoWorld (demoRun D chunks).2 "v1" r).length = chunks.length :=
  ProcessVideo_complete (demoEnv D chunks) .background "v1" demoVideo.OriginalURL demoWorld r
    chunks (demoRun_ok D chunks) (demoRun_chunks D chunks r hr)

theorem RecordsFrom_map_eq {α : Type} {videoID : String} {r : Resolution} {D : ℚ} {len : Nat}
    {cs : List String} {recs : List Segment} (f : Segment → α) (g : Nat → α)
    (hfg : ∀ id name url t k, f (mkSegment id videoID name url r D len k t) = g k)
    (h : RecordsFrom videoID r D len 0 cs recs) (hlen : recs.length = cs.length) :
    recs.map f = (List.range cs.length).map g := by
  apply List.ext_getElem
  · simp [hlen]
  · intro n h1 h2
    simp only [List.getElem_map, List.getElem_range]
    have hn : n < recs.length := by simpa using h1
    obtain ⟨p, id, url, t, -, hs⟩ := h.2 n recs[n] (List.getElem?_eq_getElem hn)
    rw [hs, hfg, Nat.zero_add]

theorem ladder_1080p : Resolution1080p ∈ resolutions := by simp [resolutions]

theorem ceil_25_div_10 : ⌈(25 : ℚ) / 10⌉₊ = 3 := by
  rw [Nat.ceil_eq_iff (by norm_num)]
  norm_num

/-- C3, as stated, fails: with a probed duration of 25 s and a Segmenter that
returns one chunk, the run succeeds and creates one Segment record for 1080p,
not `ceil(25 / 10) = 3`. -/
theorem segment_count_not_ceil_of_duration :
    (demoRun 25 oneChunk).1 = .ok () ∧
    probeResult (newTrace demoWorld (demoRun 25 oneChunk).2) = some (25, 1920, 1080) ∧
    Resolution1080p ∈ resolutions ∧
    (createdFor demoWorld (demoRun 25 oneChunk).2 "v1" Resolution1080p).length = 1 ∧
    (createdFor demoWorld (demoRun 25 oneChunk).2 "v1" Resolution1080p).length ≠
      ⌈(25 : ℚ) / 10⌉₊ := by
  have hlen := demoRun_length 25 oneChunk _ ladder_1080p
  refine ⟨demoRun_ok _ _, demoRun_probe _ _, ladder_1080p, hlen, ?_⟩
  rw [hlen, ceil_25_div_10]
  decide

/-- C3, amended (segment count).  For every successful run of `ProcessVideo`
and every resolution `r` of the ladder, the Segmenter returned a chunk list
for `r`, and the number of Segment records created for `(videoID, r)` equals
the length of that list. -/
theorem segment_count_is_chunk_count (env : Env) (ctx : Ctx) (videoID videoURL : String)
    (w : World) (r : Resolution)
    (hok : (ProcessVideo env ctx videoID videoURL w).1 = .ok ())
    (hr : r ∈ resolutions) :
    ∃ cs, segmenterResult (newTrace w (ProcessVideo env ctx videoID videoURL w).2) r = some cs ∧
      (createdFor w (ProcessVideo env ctx videoID videoURL w).2 videoID r).length = cs.length := by
  obtain ⟨cs, hcs⟩ := ProcessVideo_ladder env ctx videoID videoURL w r hr hok
  exact ⟨cs, hcs, ProcessVideo_complete env ctx videoID videoURL w r cs hok hcs⟩

/-- Witness of the amended C3: the run with one chunk. -/
theorem segment_count_is_chunk_count_witness :
    (ProcessVideo (demoEnv 25 oneChunk) .background "v1" demoVideo.OriginalURL demoWorld).1 =
      .ok () ∧
    Resolution1080p ∈ resolutions ∧
    ∃ cs, segmenterResult (newTrace demoWorld (ProcessVideo (demoEnv 25 oneChunk) .background
        "v1" demoVideo.OriginalURL demoWorld).2) Resolution1080p = some cs ∧
      (createdFor demoWorld (ProcessVideo (demoEnv 25 oneChunk) .background "v1"
        demoVideo.OriginalURL demoWorld).2 "v1" Resolution1080p).length = cs.length :=
  ⟨demoRun_ok 25 oneChunk, ladder_1080p,
    segment_count_is_chunk_count (demoEnv 25 oneChunk) .background "v1" demoVideo.OriginalURL
      demoWorld Resolution1080p (demoRun_ok 25 oneChunk) ladder_1080p⟩

/-- C4 (start time and nominal duration).  In every run of `ProcessVideo`, for
every resolution `r`, the chunk list `cs` the Segmenter returned for it and
every index `i` of a Segment record created for `(videoID, r)`: the record
belongs to chunk `i` of the list (`i < cs.length`), has `StartTime = i * 10`,
and, unless it is the last of the list (`i + 1 < cs.length`), has
`Duration = 10`, whatever the probe reported. -/
theorem segment_start_time_and_nominal_duration (env : Env) (ctx : Ctx)
    (videoID videoURL : String) (w : World) (r : Resolution) (cs : List String) (i : Nat)
    (hcs : segmenterResult (newTrace w (ProcessVideo env ctx videoID videoURL w).2) r = some cs)
    (hi : i < (createdFor w (ProcessVideo env ctx videoID videoURL w).2 videoID r).length) :
    i < cs.length ∧
    ((createdFor w (ProcessVideo env ctx videoID videoURL w).2 videoID r)[i]?).map
      (fun seg => seg.StartTime) = some ((i : ℚ) * 10) ∧
    (i + 1 < cs.length →
      ((createdFor w (ProcessVideo env ctx videoID videoURL w).2 videoID r)[i]?).map
        (fun seg => seg.Duration) = some 10) := by
  obtain ⟨D, wd, ht, hp⟩ := ProcessVideo_probed_of_chunks env ctx videoID videoURL w r cs hcs
  have hrec := ProcessVideo_created env ctx videoID videoURL w r cs D wd ht hp hcs
  have hget := List.getElem?_eq_getElem hi
  obtain ⟨p, id, url, t, -, hs⟩ := hrec.2 i _ hget
  rw [hget]
  refine ⟨lt_of_lt_of_le hi hrec.1, by simp [hs, mkSegment_StartTime], ?_⟩
  intro hlast
  simp only [Option.map_some', Option.some.injEq]
  rw [hs, mkSegment_Duration, if_neg]
  intro hc
  have := hc.1
  omega

/-- Witness of C4: the second of three chunks of a 25 s video. -/
theorem segment_start_time_and_nominal_duration_witness :
    segmenterResult (newTrace demoWorld (demoRun 25 threeChunks).2) Resolution1080p =
      some threeChunks ∧
    1 < (createdFor demoWorld (demoRun 25 threeChunks).2 "v1" Resolution1080p).length ∧
    1 < threeChunks.length ∧
    ((createdFor demoWorld (demoRun 25 threeChunks).2 "v1" Resolution1080p)[1]?).map
      (fun seg => seg.StartTime) = some (((1 : Nat) : ℚ) * 10) ∧
    (1 + 1 < threeChunks.length →
      ((createdFor demoWorld (demoRun 25 threeChunks).2 "v1" Resolution1080p)[1]?).map
        (fun seg => seg.Duration) = some 10) :=
  have hlen : 1 < (createdFor demoWorld (demoRun 25 threeChunks).2 "v1" Resolution1080p).length := by
    rw [demoRun_length 25 threeChunks _ ladder_1080p]
    decide
  ⟨demoRun_chunks 25 threeChunks _ ladder_1080p, hlen,
    segment_start_time_and_nominal_duration (demoEnv 25 threeChunks) .background "v1"
      demoVideo.OriginalURL demoWorld Resolution1080p threeChunks 1
      (demoRun_chunks 25 threeChunks _ ladder_1080p) hlen⟩

theorem range_three {α : Type} (g : Nat → α) : (List.range 3).map g = [g 0, g 1, g 2] := by
  simp [List.range_succ]

theorem ProcessVideo_durations (env : Env) (ctx : Ctx) (videoID videoURL : String) (w : World)
    (r : Resolution) (cs : List String) (D : ℚ) (wd ht : Int)
    (hok : (ProcessVideo env ctx videoID videoURL w).1 = .ok ())
    (hp : probeResult (newTrace w (ProcessVideo env ctx videoID videoURL w).2) = some (D, wd, ht))
    (hcs : segmenterResult (newTrace w (ProcessVideo env ctx videoID videoURL w).2) r = some cs) :
    (createdFor w (ProcessVideo env ctx videoID videoURL w).2 videoID r).map
        (fun seg => seg.Duration) =
      (List.range cs.length).map (fun (k : Nat) =>
        if (k : Int) = (cs.length : Int) - 1 ∧ D - (k : ℚ) * 10 < 10 then D - (k : ℚ) * 10
        else 10) :=
  RecordsFrom_map_eq _ _ (fun _ _ _ _ _ => mkSegment_Duration _ _ _ _ _ _ _ _ _)
    (ProcessVideo_created env ctx videoID videoURL w r cs D wd ht hp hcs)
    (ProcessVideo_complete env ctx videoID videoURL w r cs hok hcs)

theorem ProcessVideo_startTimes (env : Env) (ctx : Ctx) (videoID videoURL : String) (w : World)
    (r : Resolution) (cs : List String)
    (hok : (ProcessVideo env ctx videoID videoURL w).1 = .ok ())
    (hcs : segmenterResult (newTrace w (ProcessVideo env ctx videoID videoURL w).2) r = some cs) :
    (createdFor w (ProcessVideo env ctx videoID videoURL w).2 videoID r).map
        (fun seg => seg.StartTime) = (List.range cs.length).map (fun (k : Nat) => (k : ℚ) * 10) := by
  obtain ⟨D, wd, ht, hp⟩ := ProcessVideo_probed_of_chunks env ctx videoID videoURL w r cs hcs
  exact RecordsFrom_map_eq _ _ (fun _ _ _ _ _ => mkSegment_StartTime _ _ _ _ _ _ _ _ _)
    (ProcessVideo_created env ctx videoID videoURL w r cs D wd ht hp hcs)
    (ProcessVideo_complete env ctx videoID videoURL w r cs hok hcs)

theorem ProcessVideo_indices (env : Env) (ctx : Ctx) (videoID videoURL : String) (w : World)
    (r : Resolution) (cs : List String)
    (hok : (ProcessVideo env ctx videoID videoURL w).1 = .ok ())
    (hcs : segmenterResult (newTrace w (ProcessVideo env ctx videoID videoURL w).2) r = some cs) :
    (createdFor w (ProcessVideo env ctx videoID videoURL w).2 videoID r).map
        (fun seg => seg.SegmentIndex) = (List.range cs.length).map (fun (k : Nat) => (k : Int)) := by
  obtain ⟨D, wd, ht, hp⟩ := ProcessVideo_probed_of_chunks env ctx videoID videoURL w r cs hcs
  exact RecordsFrom_map_eq _ _ (fun _ _ _ _ _ => mkSegment_SegmentIndex _ _ _ _ _ _ _ _ _)
    (ProcessVideo_created env ctx videoID videoURL w r cs D wd ht hp hcs)
    (ProcessVideo_complete env ctx videoID videoURL w r cs hok hcs)

theorem ProcessVideo_fileNames (env : Env) (ctx : Ctx) (videoID videoURL : String) (w : World)
    (r : Resolution) (cs : List String)
    (hok : (ProcessVideo env ctx videoID videoURL w).1 = .ok ())
    (hcs : segmenterResult (newTrace w (ProcessVideo env ctx videoID videoURL w).2) r = some cs) :
    (createdFor w (ProcessVideo env ctx videoID videoURL w).2 videoID r).map
        (fun seg => seg.FileName) = cs.map filepathBase := by
  obtain ⟨D, wd, ht, hp⟩ := ProcessVideo_probed_of_chunks env ctx videoID videoURL w r cs hcs
  have hrec := ProcessVideo_created env ctx videoID videoURL w r cs D wd ht hp hcs
  have hlen := ProcessVideo_complete env ctx videoID videoURL w r cs hok hcs
  apply List.ext_getElem
  · simp [hlen]
  · intro n h1 h2
    simp only [List.getElem_map]
    have hn : n < (createdFor w (ProcessVideo env ctx videoID videoURL w).2 videoID r).length := by
      simpa using h1
    have hn2 : n < cs.length := by simpa using h2
    obtain ⟨p, id, url, t, hp1, hs⟩ := hrec.2 n _ (List.getElem?_eq_getElem hn)
    rw [List.getElem?_eq_getElem hn2] at hp1
    cases hp1
    rw [hs, mkSegment_FileName]

theorem ProcessVideo_tagged (env : Env) (ctx : Ctx) (videoID videoURL : String) (w : World) :
    ∀ s ∈ newSegments w (ProcessVideo env ctx videoID videoURL w).2,
      s.VideoID = videoID ∧ s.Resolution ∈ resolutions := by
  obtain ⟨new, recs, post⟩ := ProcessVideo_spec env ctx videoID videoURL w _ rfl
  intro s hs
  have : newSegments w (ProcessVideo env ctx videoID videoURL w).2 = recs := by
    simp [newSegments, post.segments]
  rw [this] at hs
  obtain ⟨r, hr, htag⟩ := post.tagged s hs
  simp only [segTag, decide_eq_true_eq] at htag
  exact ⟨htag.1, by rw [htag.2]; exact hr⟩

/-- C5 (duration of the last segment).  For a probed duration `D > 0`, in a
successful run where the Segmenter returned `ceil(D / 10)` chunks for
resolution `r`, the Segment record of the last chunk has duration
`D - floor(D / 10) * 10` if that remainder is not zero and `10` if it is;
and for `D = 30` the durations of the records of `r` are `[10, 10, 10]`. -/
theorem last_segment_duration (env : Env) (ctx : Ctx) (videoID videoURL : String) (w : World)
    (r : Resolution) (cs : List String) (D : ℚ) (wd ht : Int)
    (hD : 0 < D)
    (hok : (ProcessVideo env ctx videoID videoURL w).1 = .ok ())
    (hp : probeResult (newTrace w (ProcessVideo env ctx videoID videoURL w).2) = some (D, wd, ht))
    (hcs : segmenterResult (newTrace w (ProcessVideo env ctx videoID videoURL w).2) r = some cs)
    (hn : cs.length = ⌈D / 10⌉₊) :
    ((createdFor w (ProcessVideo env ctx videoID videoURL w).2 videoID r)[cs.length - 1]?).map
        (fun seg => seg.Duration) =
      some (if D - (⌊D / 10⌋ : ℚ) * 10 ≠ 0 then D - (⌊D / 10⌋ : ℚ) * 10 else 10) ∧
    (D = 30 →
      (createdFor w (ProcessVideo env ctx videoID videoURL w).2 videoID r).map
        (fun seg => seg.Duration) = [10, 10, 10]) := by
  have hdur := ProcessVideo_durations env ctx videoID videoURL w r cs D wd ht hok hp hcs
  have hlen := ProcessVideo_complete env ctx videoID videoURL w r cs hok hcs
  constructor
  · have hpos : 0 < cs.length := by
      rw [hn]
      exact Nat.ceil_pos.mpr (by positivity)
    obtain ⟨m, hm⟩ : ∃ m, cs.length = m + 1 := ⟨cs.length - 1, by omega⟩
    have hlt : (m : ℚ) < D / 10 := by
      apply Nat.lt_ceil.mp
      omega
    have hle : D / 10 ≤ (m : ℚ) + 1 := by
      have := Nat.le_ceil (D / 10)
      rw [← hn, hm] at this
      exact_mod_cast this
    have hmap := congrArg (fun l => l[cs.length - 1]?) hdur
    simp only [List.getElem?_map] at hmap
    rw [hmap, hm]
    simp only [Nat.add_sub_cancel, List.getElem?_range (Nat.lt_succ_self m), Option.map_some',
      Option.some.injEq]
    rcases eq_or_lt_of_le hle with heq | hlt2
    · have hfl : ⌊D / 10⌋ = (m : Int) + 1 := by
        rw [Int.floor_eq_iff]
        constructor
        · rw [heq]; push_cast; exact le_refl _
        · rw [heq]; push_cast; linarith
      have hDm : D = ((m : ℚ) + 1) * 10 := by linarith
      rw [hfl]
      push_cast
      rw [if_neg, if_neg]
      · intro h; exact h (by linarith)
      · intro h
        have := h.2
        rw [hDm] at this
        linarith
    · have hfl : ⌊D / 10⌋ = (m : Int) := by
        rw [Int.floor_eq_iff]
        constructor
        · push_cast; exact le_of_lt hlt
        · push_cast; exact hlt2
      rw [hfl]
      push_cast
      rw [if_pos, if_pos]
      · intro h; linarith
      · exact ⟨by ring, by linarith⟩
  · intro h30
    subst h30
    have h3 : cs.length = 3 := by
      rw [hn, Nat.ceil_eq_iff (by norm_num)]
      norm_num
    rw [hdur, h3, range_three]
    norm_num

theorem ceil_30_div_10 : threeChunks.length = ⌈(30 : ℚ) / 10⌉₊ := by
  have h : ⌈(30 : ℚ) / 10⌉₊ = 3 := by
    rw [Nat.ceil_eq_iff (by norm_num)]
    norm_num
  rw [h]
  rfl

/-- Witness of C5: a 30 s video cut in three chunks. -/
theorem last_segment_duration_witness :
    (0 : ℚ) < 30 ∧
    (ProcessVideo (demoEnv 30 threeChunks) .background "v1" demoVideo.OriginalURL demoWorld).1 =
      .ok () ∧
    probeResult (newTrace demoWorld (demoRun 30 threeChunks).2) = some (30, 1920, 1080) ∧
    segmenterResult (newTrace demoWorld (demoRun 30 threeChunks).2) Resolution1080p =
      some threeChunks ∧
    threeChunks.length = ⌈(30 : ℚ) / 10⌉₊ ∧
    ((createdFor demoWorld (demoRun 30 threeChunks).2 "v1" Resolution1080p)[threeChunks.length
          - 1]?).map (fun seg => seg.Duration) =
        some (if (30 : ℚ) - (⌊(30 : ℚ) / 10⌋ : ℚ) * 10 ≠ 0
          then (30 : ℚ) - (⌊(30 : ℚ) / 10⌋ : ℚ) * 10 else 10) ∧
    ((30 : ℚ) = 30 →
      (createdFor demoWorld (demoRun 30 threeChunks).2 "v1" Resolution1080p).map
        (fun seg => seg.Duration) = [10, 10, 10]) :=
  ⟨by norm_num, demoRun_ok 30 threeChunks, demoRun_probe 30 threeChunks,
    demoRun_chunks 30 threeChunks _ ladder_1080p, ceil_30_div_10,
    last_segment_duration (demoEnv 30 threeChunks) .background "v1" demoVideo.OriginalURL
      demoWorld Resolution1080p threeChunks 30 1920 1080 (by norm_num) (demoRun_ok 30 threeChunks)
      (demoRun_probe 30 threeChunks) (demoRun_chunks 30 threeChunks _ ladder_1080p)
      ceil_30_div_10⟩

/-- C6, as stated, fails: with a probed duration of 20 s and a Segmenter that
returns three chunks, the run succeeds and the three Segment records of 1080p
have durations 10, 10 and 0; the last one is not strictly positive. -/
theorem segment_duration_can_be_zero :
    (demoRun 20 threeChunks).1 = .ok () ∧
    probeResult (newTrace demoWorld (demoRun 20 threeChunks).2) = some (20, 1920, 1080) ∧
    segmenterResult (newTrace demoWorld (demoRun 20 threeChunks).2) Resolution1080p =
      some threeChunks ∧
    (createdFor demoWorld (demoRun 20 threeChunks).2 "v1" Resolution1080p).map
      (fun seg => seg.Duration) = [10, 10, 0] ∧
    ¬ ∀ seg ∈ createdFor demoWorld (demoRun 20 threeChunks).2 "v1" Resolution1080p,
      0 < seg.Duration := by
  have hdur : (createdFor demoWorld (demoRun 20 threeChunks).2 "v1" Resolution1080p).map
      (fun seg => seg.Duration) = [10, 10, 0] := by
    rw [demoRun, ProcessVideo_durations (demoEnv 20 threeChunks) .background "v1"
      demoVideo.OriginalURL demoWorld Resolution1080p threeChunks 20 1920 1080
      (demoRun_ok 20 threeChunks) (demoRun_probe 20 threeChunks)
      (demoRun_chunks 20 threeChunks _ ladder_1080p)]
    have h3 : threeChunks.length = 3 := rfl
    rw [h3, range_three]
    norm_num
  refine ⟨demoRun_ok _ _, demoRun_probe _ _, demoRun_chunks _ _ _ ladder_1080p, hdur, ?_⟩
  intro hall
  have hmem : (0 : ℚ) ∈ (createdFor demoWorld (demoRun 20 threeChunks).2 "v1"
      Resolution1080p).map (fun seg => seg.Duration) := by
    rw [hdur]
    simp
  obtain ⟨seg, hseg, h0⟩ := List.mem_map.mp hmem
  have := hall seg hseg
  rw [h0] at this
  exact lt_irrefl _ this

/-- C6, amended (positive durations).  In every run of `ProcessVideo`, if the
probe reported `D`, the Segmenter returned the chunk list `cs` for resolution
`r` and `10 * (cs.length - 1) < D`, then every Segment record created for
`(videoID, r)` has a strictly positive duration. -/
theorem segment_duration_positive (env : Env) (ctx : Ctx) (videoID videoURL : String)
    (w : World) (r : Resolution) (cs : List String) (D : ℚ) (wd ht : Int)
    (hp : probeResult (newTrace w (ProcessVideo env ctx videoID videoURL w).2) = some (D, wd, ht))
    (hcs : segmenterResult (newTrace w (ProcessVideo env ctx videoID videoURL w).2) r = some cs)
    (hD : 10 * ((cs.length : ℚ) - 1) < D) :
    (createdFor w (ProcessVideo env ctx videoID videoURL w).2 videoID r).all
      (fun seg => decide (0 < seg.Duration)) = true := by
  have hrec := ProcessVideo_created env ctx videoID videoURL w r cs D wd ht hp hcs
  rw [List.all_eq_true]
  intro seg hseg
  obtain ⟨k, hk⟩ := List.mem_iff_getElem?.mp hseg
  obtain ⟨p, id, url, t, -, hs⟩ := hrec.2 k seg hk
  rw [decide_eq_true_eq, hs, mkSegment_Duration]
  split
  · rename_i hc
    have h1 : (((0 + k : Nat) : Int) : ℚ) = (((cs.length : Int) - 1 : Int) : ℚ) := by rw [hc.1]
    push_cast at h1
    push_cast
    rw [h1]
    linarith
  · norm_num

/-- Witness of the amended C6: a 25 s video cut in three chunks. -/
theorem segment_duration_positive_witness :
    probeResult (newTrace demoWorld (demoRun 25 threeChunks).2) = some (25, 1920, 1080) ∧
    segmenterResult (newTrace demoWorld (demoRun 25 threeChunks).2) Resolution1080p =
      some threeChunks ∧
    10 * ((threeChunks.length : ℚ) - 1) < 25 ∧
    (createdFor demoWorld (demoRun 25 threeChunks).2 "v1" Resolution1080p).all
      (fun seg => decide (0 < seg.Duration)) = true :=
  have hD : 10 * ((threeChunks.length : ℚ) - 1) < 25 := by norm_num [threeChunks]
  ⟨demoRun_probe 25 threeChunks, demoRun_chunks 25 threeChunks _ ladder_1080p, hD,
    segment_duration_positive (demoEnv 25 threeChunks) .background "v1" demoVideo.OriginalURL
      demoWorld Resolution1080p threeChunks 25 1920 1080
      (demoRun_probe 25 threeChunks) (demoRun_chunks 25 threeChunks _ ladder_1080p) hD⟩

/-- C7 (a 25 s video in three chunks).  In a successful run of `ProcessVideo`
where the probe reported a duration of 25 s and the Segmenter returned three
chunks for resolution `r`, exactly three Segment records are created for
`(videoID, r)`; in creation order their durations are 10, 10, 5, their start
times 0, 10, 20 and their indices 0, 1, 2. -/
theorem three_segments_of_25_seconds (env : Env) (ctx : Ctx) (videoID videoURL : String)
    (w : World) (r : Resolution) (cs : List String) (wd ht : Int)
    (hok : (ProcessVideo env ctx videoID videoURL w).1 = .ok ())
    (hp : probeResult (newTrace w (ProcessVideo env ctx videoID videoURL w).2) =
      some (25, wd, ht))
    (hcs : segmenterResult (newTrace w (ProcessVideo env ctx videoID videoURL w).2) r = some cs)
    (hn : cs.length = 3) :
    (createdFor w (ProcessVideo env ctx videoID videoURL w).2 videoID r).length = 3 ∧
    (createdFor w (ProcessVideo env ctx videoID videoURL w).2 videoID r).map
      (fun seg => seg.Duration) = [10, 10, 5] ∧
    (createdFor w (ProcessVideo env ctx videoID videoURL w).2 videoID r).map
      (fun seg => seg.StartTime) = [0, 10, 20] ∧
    (createdFor w (ProcessVideo env ctx videoID videoURL w).2 videoID r).map
      (fun seg => seg.SegmentIndex) = [0, 1, 2] := by
  refine ⟨?_, ?_, ?_, ?_⟩
  · rw [ProcessVideo_complete env ctx videoID videoURL w r cs hok hcs, hn]
  · rw [ProcessVideo_durations env ctx videoID videoURL w r cs 25 wd ht hok hp hcs, hn,
      range_three]
    norm_num
  · rw [ProcessVideo_startTimes env ctx videoID videoURL w r cs hok hcs, hn, range_three]
    norm_num
  · rw [ProcessVideo_indices env ctx videoID videoURL w r cs hok hcs, hn, range_three]
    norm_num

/-- Witness of C7: the run on `demoWorld` with three chunks and 25 s. -/
theorem three_segments_of_25_seconds_witness :
    (ProcessVideo (demoEnv 25 threeChunks) .background "v1" demoVideo.OriginalURL demoWorld).1 =
      .ok () ∧
    probeResult (newTrace demoWorld (demoRun 25 threeChunks).2) = some (25, 1920, 1080) ∧
    segmenterResult (newTrace demoWorld (demoRun 25 threeChunks).2) Resolution720p =
      some threeChunks ∧
    threeChunks.length = 3 ∧
    (createdFor demoWorld (demoRun 25 threeChunks).2 "v1" Resolution720p).length = 3 ∧
    (createdFor demoWorld (demoRun 25 threeChunks).2 "v1" Resolution720p).map
      (fun seg => seg.Duration) = [10, 10, 5] ∧
    (createdFor demoWorld (demoRun 25 threeChunks).2 "v1" Resolution720p).map
      (fun seg => seg.StartTime) = [0, 10, 20] ∧
    (createdFor demoWorld (demoRun 25 threeChunks).2 "v1" Resolution720p).map
      (fun seg => seg.SegmentIndex) = [0, 1, 2] :=
  have hr : Resolution720p ∈ resolutions := by simp [resolutions]
  ⟨demoRun_ok 25 threeChunks, demoRun_probe 25 threeChunks,
    demoRun_chunks 25 threeChunks _ hr, rfl,
    three_segments_of_25_seconds (demoEnv 25 threeChunks) .background "v1"
      demoVideo.OriginalURL demoWorld Resolution720p threeChunks 1920 1080
      (demoRun_ok 25 threeChunks) (demoRun_probe 25 threeChunks)
      (demoRun_chunks 25 threeChunks _ hr) rfl⟩

/-- C8 (records follow the chunk list).  In a successful run of
`ProcessVideo`, for every resolution `r` and the chunk list `cs` the Segmenter
returned for it: exactly `cs.length` Segment records are created for
`(videoID, r)`; in creation order their indices are `0, 1, ..., cs.length - 1`
and their file names the base names of the chunks of `cs`, in list order; and
every Segment record the run creates carries the run's video id and a
resolution of the ladder. -/
theorem segment_records_follow_chunk_list (env : Env) (ctx : Ctx) (videoID videoURL : String)
    (w : World) (r : Resolution) (cs : List String)
    (hok : (ProcessVideo env ctx videoID videoURL w).1 = .ok ())
    (hcs : segmenterResult (newTrace w (ProcessVideo env ctx videoID videoURL w).2) r = some cs) :
    (createdFor w (ProcessVideo env ctx videoID videoURL w).2 videoID r).length = cs.length ∧
    (createdFor w (ProcessVideo env ctx videoID videoURL w).2 videoID r).map
      (fun seg => seg.SegmentIndex) = (List.range cs.length).map (fun (k : Nat) => (k : Int)) ∧
    (createdFor w (ProcessVideo env ctx videoID videoURL w).2 videoID r).map
      (fun seg => seg.FileName) = cs.map filepathBase ∧
    (createdFor w (ProcessVideo env ctx videoID videoURL w).2 videoID r).all
      (fun seg => decide (seg.VideoID = videoID ∧ seg.Resolution = r)) = true ∧
    (newSegments w (ProcessVideo env ctx videoID videoURL w).2).all
      (fun seg => decide (seg.VideoID = videoID ∧ seg.Resolution ∈ resolutions)) = true := by
  refine ⟨ProcessVideo_complete env ctx videoID videoURL w r cs hok hcs,
    ProcessVideo_indices env ctx videoID videoURL w r cs hok hcs,
    ProcessVideo_fileNames env ctx videoID videoURL w r cs hok hcs, ?_, ?_⟩
  · rw [List.all_eq_true]
    intro seg hseg
    have := (List.mem_filter.mp hseg).2
    simpa [segTag] using this
  · rw [List.all_eq_true]
    intro seg hseg
    have := ProcessVideo_tagged env ctx videoID videoURL w seg hseg
    simpa using this

/-- Witness of C8: the run on `demoWorld` with three chunks. -/
theorem segment_records_follow_chunk_list_witness :
    (ProcessVideo (demoEnv 25 threeChunks) .background "v1" demoVideo.OriginalURL demoWorld).1 =
      .ok () ∧
    segmenterResult (newTrace demoWorld (demoRun 25 threeChunks).2) Resolution1080p =
      some threeChunks ∧
    (createdFor demoWorld (demoRun 25 threeChunks).2 "v1" Resolution1080p).length =
      threeChunks.length ∧
    (createdFor demoWorld (demoRun 25 threeChunks).2 "v1" Resolution1080p).map
      (fun seg => seg.SegmentIndex) =
        (List.range threeChunks.length).map (fun (k : Nat) => (k : Int)) ∧
    (createdFor demoWorld (demoRun 25 threeChunks).2 "v1" Resolution1080p).map
      (fun seg => seg.FileName) = threeChunks.map filepathBase ∧
    (createdFor demoWorld (demoRun 25 threeChunks).2 "v1" Resolution1080p).all
      (fun seg => decide (seg.VideoID = "v1" ∧ seg.Resolution = Resolution1080p)) = true ∧
    (newSegments demoWorld (demoRun 25 threeChunks).2).all
      (fun seg => decide (seg.VideoID = "v1" ∧ seg.Resolution ∈ resolutions)) = true :=
  ⟨demoRun_ok 25 threeChunks, demoRun_chunks 25 threeChunks _ ladder_1080p,
    segment_records_follow_chunk_list (demoEnv 25 threeChunks) .background "v1"
      demoVideo.OriginalURL demoWorld Resolution1080p threeChunks
      (demoRun_ok 25 threeChunks) (demoRun_chunks 25 threeChunks _ ladder_1080p)⟩

theorem UploadVideo_ok (env : Env) (ctx : Ctx) (input : VideoUploadInput) (w : World)
    (url : String) (out : Except String Video × World)
    (hup : env.uploadFile w.trace.length ctx (originalStoragePath (env.uuid w.uuids)
      input.FileName) input.FileData input.MimeType = .ok url)
    (hcr : env.videoCreate (w.trace.length + 1) ctx
      (newVideo (env.uuid w.uuids) input url (env.now w.ticks) (env.now (w.ticks + 1))) = none)
    (h : UploadVideo env ctx input w = out) :
    out.1 =
      .ok (newVideo (env.uuid w.uuids) input url (env.now w.ticks) (env.now (w.ticks + 1))) ∧
    out.2.trace = w.trace ++
      [⟨.storeOriginal, .uploadFile ctx (originalStoragePath (env.uuid w.uuids) input.FileName)
          input.FileData input.MimeType (.ok url)⟩,
        ⟨.createVideo, .videoCreate ctx
          (newVideo (env.uuid w.uuids) input url (env.now w.ticks) (env.now (w.ticks + 1)))
          none⟩] ∧
    out.2.videos (env.uuid w.uuids) =
      some (newVideo (env.uuid w.uuids) input url (env.now w.ticks) (env.now (w.ticks + 1))) ∧
    out.2.segments = w.segments ∧
    out.2.spawned = w.spawned ++
      [⟨newVideo (env.uuid w.uuids) input url (env.now w.ticks) (env.now (w.ticks + 1)),
        env.uuid w.uuids, url⟩] := by
  simp only [UploadVideo, bind_apply, wrapErr, uuidNew, StorageRepository.UploadFile, timeNow,
    VideoRepository.Create, goSpawn, pure_apply, drawUuid_trace, hup, log_trace,
    List.length_append, List.length_singleton, log_ticks, drawUuid_ticks, tick_ticks,
    tick_trace, hcr] at h
  subst h
  refine ⟨rfl, by simp, by simp [newVideo], by simp, by simp⟩

/-- What an upload followed by the run of its goroutine leaves behind when
every collaborator call succeeds. -/
theorem uploadAndRun_ok (env : Env) (hall : env.AllSucceed) (ctx : Ctx)
    (input : VideoUploadInput) (w : World) :
    ∃ url video w1 v1 wA outP newP recs vF,
      video = newVideo (env.uuid w.uuids) input url (env.now w.ticks) (env.now (w.ticks + 1)) ∧
      uploadAndRun env ctx input w =
        (.ok video, (backgroundRun env ⟨video, video.ID, url⟩ w1).2) ∧
      w1.trace = w.trace ++
        [⟨.storeOriginal, .uploadFile ctx (originalStoragePath video.ID input.FileName)
            input.FileData input.MimeType (.ok url)⟩,
          ⟨.createVideo, .videoCreate ctx video none⟩] ∧
      w1.videos video.ID = some video ∧
      outP.1 = .ok () ∧
      BackgroundPost env ⟨video, video.ID, url⟩ w1 (backgroundRun env ⟨video, video.ID, url⟩ w1)
        v1 none wA outP newP recs vF none := by
  obtain ⟨url, hup⟩ := hall.uploadFile w.trace.length ctx
    (originalStoragePath (env.uuid w.uuids) input.FileName) input.FileData input.MimeType
  have hcr := hall.videoCreate (w.trace.length + 1) ctx
    (newVideo (env.uuid w.uuids) input url (env.now w.ticks) (env.now (w.ticks + 1)))
  obtain ⟨hres, htr, hvid, -, hsp⟩ := UploadVideo_ok env ctx input w url _ hup hcr rfl
  generalize hU : UploadVideo env ctx input w = outU at hres htr hvid hsp
  rcases outU with ⟨resU, w1⟩
  simp only at hres htr hvid hsp
  subst hres
  obtain ⟨v1, err1, wA, outP, newP, recs, vF, errF, post⟩ :=
    backgroundRun_spec env ⟨newVideo (env.uuid w.uuids) input url (env.now w.ticks)
      (env.now (w.ticks + 1)), env.uuid w.uuids, url⟩ w1 _ rfl
  obtain ⟨he1, heF⟩ := post.succeeds hall
  subst he1
  subst heF
  have hrowA : (wA.videos (env.uuid w.uuids)).isSome = true := by
    rw [post.firstRows, hvid]
    rfl
  refine ⟨url, _, w1, v1, wA, outP, newP, recs, vF, rfl, ?_, htr, hvid,
    post.post.succeeds hall hrowA, post⟩
  simp [uploadAndRun, hU, hsp, runAll, newVideo]

theorem resolutionInfo_ne_empty (wd ht : Int) : "" ≠ fmtInt wd ++ "x" ++ fmtInt ht := by
  intro h
  have hl := congrArg String.length h
  simp only [String.length_append] at hl
  have h0 : "".length = 0 := by decide
  have h1 : "x".length = 1 := by decide
  omega

/-- C1 (the probed values survive the run) fails.  After an upload and the
complete run of its goroutine with every collaborator call succeeding, the
probe has returned some `(D, wd, ht)` and the run ended in status `complete`,
but the stored record has `Duration = 0` and `ResolutionInfo = ""`, which is
not `"{wd}x{ht}"`: the last `Update` of the goroutine writes the record
`UploadVideo` built before the probe over the values written after it. -/
theorem probed_values_overwritten (env : Env) (hall : env.AllSucceed) (ctx : Ctx)
    (input : VideoUploadInput) (w : World) :
    ∃ video row D wd ht,
      (uploadAndRun env ctx input w).1 = .ok video ∧
      probeResult (newTrace w (uploadAndRun env ctx input w).2) = some (D, wd, ht) ∧
      (uploadAndRun env ctx input w).2.videos video.ID = some row ∧
      row.Status = StatusComplete ∧
      row.Duration = 0 ∧
      row.ResolutionInfo = "" ∧
      row.ResolutionInfo ≠ fmtInt wd ++ "x" ++ fmtInt ht := by
  obtain ⟨url, video, w1, v1, wA, outP, newP, recs, vF, hvideo, hrun, htr1, hvid1, hokP, post⟩ :=
    uploadAndRun_ok env hall ctx input w
  have hid : video.ID = env.uuid w.uuids := by rw [hvideo]; rfl
  -- the probe ran
  obtain ⟨cs, hcs, -⟩ := post.post.complete hokP Resolution1080p ladder_1080p
  obtain ⟨D, wd, ht, hprobeP, -⟩ := post.post.records Resolution1080p cs hcs
  have htrace : (uploadAndRun env ctx input w).2.trace = w.trace ++
      ([⟨.storeOriginal, .uploadFile ctx (originalStoragePath video.ID input.FileName)
            input.FileData input.MimeType (.ok url)⟩,
          ⟨.createVideo, .videoCreate ctx video none⟩] ++
        ([⟨.markProcessing, .videoUpdate .background v1 none⟩] ++ (newP ++
          [⟨.markFinal, .videoUpdate .background vF none⟩]))) := by
    rw [hrun]
    simp only [post.trace, htr1, List.append_assoc]
  have hprobe : probeResult (newTrace w (uploadAndRun env ctx input w).2) = some (D, wd, ht) := by
    rw [newTrace_eq htrace, probeResult_append_right (by simp [Entry.probed]),
      probeResult_append_right (by simp [Entry.probed])]
    exact probeResult_append_of_some hprobeP
  -- the row after the last write
  have hvF : vF.ID = video.ID ∧ vF.Duration = 0 ∧ vF.ResolutionInfo = "" ∧
      vF.Status = StatusComplete := by
    rw [post.last, post.first, hokP]
    simp [resFailed, hvideo, newVideo]
  have hrowP : (outP.2.videos video.ID).isSome = true := by
    rw [post.post.rows, post.firstRows, hvid1]
    rfl
  obtain ⟨row0, hrow0⟩ := Option.isSome_iff_exists.mp hrowP
  have hfinal : (uploadAndRun env ctx input w).2.videos video.ID = some (updateRow vF row0) := by
    rw [hrun]
    simp only [post.videos rfl, updateVideo_videos, hvF.1, if_true, hrow0, Option.map_some']
  have hRI : (updateRow vF row0).ResolutionInfo = "" := hvF.2.2.1
  refine ⟨video, updateRow vF row0, D, wd, ht, by rw [hrun], hprobe, hfinal, hvF.2.2.2,
    hvF.2.1, hRI, ?_⟩
  rw [hRI]
  exact resolutionInfo_ne_empty wd ht

/-- The failing input of C1: the upload `demoInput` into an empty world, with
the collaborators of `demoEnv` (probe result 25 s, 1920x1080). -/
theorem probed_values_overwritten_witness :
    (demoEnv 25 threeChunks).AllSucceed ∧
    ∃ video row D wd ht,
      (uploadAndRun (demoEnv 25 threeChunks) (.request 0 false) demoInput emptyWorld).1 =
        .ok video ∧
      probeResult (newTrace emptyWorld
        (uploadAndRun (demoEnv 25 threeChunks) (.request 0 false) demoInput emptyWorld).2) =
          some (D, wd, ht) ∧
      (uploadAndRun (demoEnv 25 threeChunks) (.request 0 false) demoInput emptyWorld).2.videos
        video.ID = some row ∧
      row.Status = StatusComplete ∧
      row.Duration = 0 ∧
      row.ResolutionInfo = "" ∧
      row.ResolutionInfo ≠ fmtInt wd ++ "x" ++ fmtInt ht :=
  ⟨demoEnv_allSucceed 25 threeChunks,
    probed_values_overwritten (demoEnv 25 threeChunks) (demoEnv_allSucceed 25 threeChunks)
      (.request 0 false) demoInput emptyWorld⟩

theorem destutter_statuses :
    ([StatusUploaded, StatusProcessing, StatusTranscoded, StatusComplete, StatusComplete] :
      List VideoStatus).destutter (fun a b => a ≠ b) =
      [StatusUploaded, StatusProcessing, StatusTranscoded, StatusComplete] := by
  decide

theorem split_unique {α : Type} (P : α → Prop) :
    ∀ (a c : List α) {b d : List α} {x y : α}, a ++ x :: b = c ++ y :: d → P x →
      (∀ z ∈ c, ¬ P z) → (∀ z ∈ d, ¬ P z) → a = c ∧ x = y ∧ b = d := by
  intro a
  induction a with
  | nil =>
    intro c b d x y h hx hc hd
    cases c with
    | nil =>
      simp only [List.nil_append, List.cons.injEq] at h
      exact ⟨rfl, h.1, h.2⟩
    | cons z c1 =>
      simp only [List.nil_append, List.cons_append, List.cons.injEq] at h
      exact absurd hx (by rw [h.1]; exact hc z (by simp))
  | cons a0 a1 ih =>
    intro c b d x y h hx hc hd
    cases c with
    | nil =>
      simp only [List.nil_append, List.cons_append, List.cons.injEq] at h
      exact absurd hx (hd x (by rw [← h.2]; simp))
    | cons z c1 =>
      simp only [List.cons_append, List.cons.injEq] at h
      obtain ⟨h1, h2, h3⟩ := ih c1 h.2 hx (fun z hz => hc z (List.mem_cons_of_mem _ hz)) hd
      exact ⟨by rw [h.1, h1], h2, h3⟩

theorem critical_not_bestEffort (s : Site) (h : s.critical = true) : s.bestEffort = false := by
  cases s <;> simp_all [Site.critical, Site.bestEffort]

theorem getElem?_split {α : Type} {l : List α} {k : Nat} {e : α} (h : l[k]? = some e) :
    l = l.take k ++ e :: l.drop (k + 1) := by
  obtain ⟨hk, he⟩ := List.getElem?_eq_some.mp h
  rw [← he, ← List.drop_eq_getElem_cons hk, List.take_append_drop]

/-- C10 (a critical failure ends the run in `failed`).  In every run of the
goroutine of `UploadVideo`: if the call at position `k` of the run was made at
a critical-path site (download, workspace write, probe, the update after the
probe, encode, segment, chunk read, chunk upload, Segment persist) and
returned an error, then the only calls after it are the removal of the
workspace and one `Update` of the video record with status `failed`; and if
that `Update` succeeds the stored row of the video has status `failed`. -/
theorem failed_after_critical_failure (env : Env) (t : BackgroundTask) (w : World)
    (k : Nat) (e : Entry)
    (hk : (newTrace w (backgroundRun env t w).2)[k]? = some e)
    (hcrit : e.site.critical = true) (hfail : e.failed = true) :
    ∃ path err v errF,
      (newTrace w (backgroundRun env t w).2).drop (k + 1) =
        [⟨.cleanup, .removeAll path err⟩, ⟨.markFinal, .videoUpdate .background v errF⟩] ∧
      v.ID = t.video.ID ∧ v.Status = StatusFailed ∧
      (errF = none → ∀ row, (backgroundRun env t w).2.videos t.video.ID = some row →
        row.Status = StatusFailed) := by
  obtain ⟨v1, err1, wA, outP, newP, recs, vF, errF, post⟩ := backgroundRun_spec env t w _ rfl
  have hnew := newTrace_eq post.trace
  have hsplit := getElem?_split hk
  generalize (newTrace w (backgroundRun env t w).2).take k = pre at hsplit
  generalize (newTrace w (backgroundRun env t w).2).drop (k + 1) = rest at hsplit ⊢
  rw [hnew] at hsplit
  have hP : e.site.critical = true ∧ e.failed = true := ⟨hcrit, hfail⟩
  have hnotbe : ∀ x : Entry, (x.failed = true → x.site.bestEffort = true) →
      ¬ (x.site.critical = true ∧ x.failed = true) := by
    intro x hx hc
    have h1 := hx hc.2
    rw [critical_not_bestEffort _ hc.1] at h1
    cases h1
  have hmem : e ∈ [(⟨.markProcessing, .videoUpdate .background v1 err1⟩ : Entry)] ++ newP ++
      [⟨.markFinal, .videoUpdate .background vF errF⟩] := by
    rw [hsplit]
    simp
  rcases post.post.halts with ⟨body, path, err, hbody, hstops⟩ | ⟨hstops, hsites⟩
  · rcases hres : outP.1 with msg | u
    · -- the pipeline returned an error
      rw [hres] at hstops
      obtain ⟨pre0, e0, hb, hf0, hs0, hpre0⟩ := hstops
      have hfull : pre ++ e :: rest =
          ([(⟨.markProcessing, .videoUpdate .background v1 err1⟩ : Entry)] ++ pre0) ++
            e0 :: [⟨.cleanup, .removeAll path err⟩,
              ⟨.markFinal, .videoUpdate .background vF errF⟩] := by
        rw [← hsplit, hbody, hb]
        simp
      obtain ⟨-, -, hrest⟩ := split_unique (fun x : Entry => x.site.critical = true ∧
          x.failed = true) _ _ hfull hP
        (by
          intro z hz
          rcases List.mem_append.mp hz with h | h
          · simp only [List.mem_singleton] at h
            subst h
            simp [Site.critical]
          · exact hnotbe z (hpre0 z h))
        (by
          intro z hz
          simp only [List.mem_cons, List.mem_singleton, List.not_mem_nil, or_false] at hz
          rcases hz with rfl | rfl <;> simp [Site.critical])
      have hvF : vF.ID = t.video.ID ∧ vF.Status = StatusFailed := by
        rw [post.last, post.first, hres]
        exact ⟨rfl, rfl⟩
      refine ⟨path, err, vF, errF, hrest, hvF.1, hvF.2, ?_⟩
      intro hnone row hrow
      rw [post.videos hnone] at hrow
      simp only [updateVideo_videos, hvF.1, if_true] at hrow
      cases hq : outP.2.videos t.video.ID with
      | none => simp [hq] at hrow
      | some row0 =>
        simp only [hq, Option.map_some', Option.some.injEq] at hrow
        rw [← hrow]
        exact hvF.2
    · -- the pipeline returned no error: no critical call failed
      rw [hres] at hstops
      exfalso
      rw [hbody] at hmem
      simp only [List.mem_append, List.mem_singleton] at hmem
      rcases hmem with (h | h | h) | h
      · subst h; simp [Site.critical] at hcrit
      · exact hnotbe e (hstops e h) hP
      · subst h; simp [Site.critical] at hcrit
      · subst h; simp [Site.critical] at hcrit
  · exfalso
    simp only [List.mem_append, List.mem_singleton] at hmem
    rcases hmem with (h | h) | h
    · subst h; simp [Site.critical] at hcrit
    · rcases hsites e h with hs | hs <;> simp [hs, Site.critical] at hcrit
    · subst h; simp [Site.critical] at hcrit

theorem downloadFails_entry :
    (newTrace demoWorld (backgroundRun downloadFailsEnv demoTask demoWorld).2)[3]? =
      some ⟨.download, .getFile .background demoVideo.OriginalURL (.error "NoSuchKey")⟩ := by
  simp [newTrace, backgroundRun, ProcessVideo, processInTempDir, bind_apply, pure_apply,
    wrapErr, attempt, withDefer, call, VideoRepository.GetByID, VideoRepository.Update,
    StorageRepository.GetFile, osMkdirTemp, osRemoveAll, downloadFailsEnv, demoEnv, demoTask,
    demoWorld, demoVideo]

/-- Witness of C10: the download of the original fails with `NoSuchKey`. -/
theorem failed_after_critical_failure_witness :
    (newTrace demoWorld (backgroundRun downloadFailsEnv demoTask demoWorld).2)[3]? =
      some ⟨.download, .getFile .background demoVideo.OriginalURL (.error "NoSuchKey")⟩ ∧
    Site.critical .download = true ∧
    Entry.failed ⟨.download, .getFile .background demoVideo.OriginalURL (.error "NoSuchKey")⟩ =
      true ∧
    ∃ path err v errF,
      (newTrace demoWorld (backgroundRun downloadFailsEnv demoTask demoWorld).2).drop (3 + 1) =
        [⟨.cleanup, .removeAll path err⟩, ⟨.markFinal, .videoUpdate .background v errF⟩] ∧
      v.ID = demoTask.video.ID ∧ v.Status = StatusFailed ∧
      (errF = none →
        ∀ row, (backgroundRun downloadFailsEnv demoTask demoWorld).2.videos demoTask.video.ID =
          some row → row.Status = StatusFailed) :=
  ⟨downloadFails_entry, rfl, rfl,
    failed_after_critical_failure downloadFailsEnv demoTask demoWorld 3 _ downloadFails_entry
      rfl rfl⟩

theorem UploadVideo_uploadFails (env : Env) (ctx : Ctx) (input : VideoUploadInput) (w : World)
    (e : String)
    (hup : env.uploadFile w.trace.length ctx (originalStoragePath (env.uuid w.uuids)
      input.FileName) input.FileData input.MimeType = .error e) :
    UploadVideo env ctx input w =
      (.error ("failed to upload video: " ++ e),
        w.drawUuid.log .storeOriginal
          (.uploadFile ctx (originalStoragePath (env.uuid w.uuids) input.FileName)
            input.FileData input.MimeType (.error e))) := by
  simp only [UploadVideo, bind_apply, wrapErr, uuidNew, StorageRepository.UploadFile,
    drawUuid_trace, hup]

theorem UploadVideo_createFails (env : Env) (ctx : Ctx) (input : VideoUploadInput) (w : World)
    (url e : String)
    (hup : env.uploadFile w.trace.length ctx (originalStoragePath (env.uuid w.uuids)
      input.FileName) input.FileData input.MimeType = .ok url)
    (hcr : env.videoCreate (w.trace.length + 1) ctx
      (newVideo (env.uuid w.uuids) input url (env.now w.ticks) (env.now (w.ticks + 1))) = some e) :
    UploadVideo env ctx input w =
      (.error ("failed to create video record: " ++ e),
        ((w.drawUuid.log .storeOriginal
          (.uploadFile ctx (originalStoragePath (env.uuid w.uuids) input.FileName)
            input.FileData input.MimeType (.ok url))).tick.tick).log .createVideo
          (.videoCreate ctx
            (newVideo (env.uuid w.uuids) input url (env.now w.ticks) (env.now (w.ticks + 1)))
            (some e))) := by
  simp only [UploadVideo, bind_apply, wrapErr, uuidNew, StorageRepository.UploadFile, timeNow,
    VideoRepository.Create, drawUuid_trace, hup, log_trace,
    List.length_append, List.length_singleton, log_ticks, drawUuid_ticks, tick_ticks,
    tick_trace, hcr]

theorem uploadAndRun_of_not_spawned (env : Env) (ctx : Ctx) (input : VideoUploadInput)
    (w : World) (h : (UploadVideo env ctx input w).2.spawned = w.spawned) :
    uploadAndRun env ctx input w = UploadVideo env ctx input w := by
  simp [uploadAndRun, h, runAll]

/-- C12 (a failed upload starts nothing).  If the write of the original to the
artifact store fails with error `e`, or the write succeeds and the creation of
the Video record fails with error `e`, then `UploadVideo` returns an error and
no Video, stores no row, and starts no goroutine: the upload with every
goroutine it started run to its end is the upload alone, and its only calls
are the store write and the record creation (no status update, no call of
`ProcessVideo`).  When it is the store write that failed, the store write is
the only call, so the creation of the record is not even attempted. -/
theorem upload_failure_starts_nothing (env : Env) (ctx : Ctx) (input : VideoUploadInput)
    (w : World) (e : String)
    (h : env.uploadFile w.trace.length ctx (originalStoragePath (env.uuid w.uuids)
        input.FileName) input.FileData input.MimeType = .error e ∨
      ∃ url, env.uploadFile w.trace.length ctx (originalStoragePath (env.uuid w.uuids)
          input.FileName) input.FileData input.MimeType = .ok url ∧
        env.videoCreate (w.trace.length + 1) ctx
          (newVideo (env.uuid w.uuids) input url (env.now w.ticks) (env.now (w.ticks + 1))) =
            some e) :
    ((UploadVideo env ctx input w).1 = .error ("failed to upload video: " ++ e) ∨
      (UploadVideo env ctx input w).1 = .error ("failed to create video record: " ++ e)) ∧
    (UploadVideo env ctx input w).2.videos = w.videos ∧
    (UploadVideo env ctx input w).2.spawned = w.spawned ∧
    uploadAndRun env ctx input w = UploadVideo env ctx input w ∧
    (newTrace w (uploadAndRun env ctx input w).2).all
      (fun x => decide (x.site = .storeOriginal ∨ x.site = .createVideo)) = true ∧
    (env.uploadFile w.trace.length ctx (originalStoragePath (env.uuid w.uuids)
        input.FileName) input.FileData input.MimeType = .error e →
      (UploadVideo env ctx input w).1 = .error ("failed to upload video: " ++ e) ∧
      newTrace w (UploadVideo env ctx input w).2 =
        [⟨.storeOriginal, .uploadFile ctx (originalStoragePath (env.uuid w.uuids) input.FileName)
          input.FileData input.MimeType (.error e)⟩]) := by
  rcases h with hup | ⟨url, hup, hcr⟩
  · have hU := UploadVideo_uploadFails env ctx input w e hup
    have hsp : (UploadVideo env ctx input w).2.spawned = w.spawned := by rw [hU]; rfl
    rw [uploadAndRun_of_not_spawned env ctx input w hsp, hU]
    refine ⟨Or.inl rfl, rfl, rfl, rfl, ?_, fun _ => ⟨rfl, ?_⟩⟩ <;>
      simp [newTrace]
  · have hU := UploadVideo_createFails env ctx input w url e hup hcr
    have hsp : (UploadVideo env ctx input w).2.spawned = w.spawned := by rw [hU]; rfl
    rw [uploadAndRun_of_not_spawned env ctx input w hsp, hU]
    refine ⟨Or.inr rfl, rfl, rfl, rfl, ?_, fun h => ?_⟩
    · simp [newTrace]
    · rw [hup] at h
      cases h

theorem upload_failure_starts_nothing_witness :
    (uploadFailsEnv.uploadFile emptyWorld.trace.length (.request 0 false)
        (originalStoragePath (uploadFailsEnv.uuid emptyWorld.uuids) demoInput.FileName)
        demoInput.FileData demoInput.MimeType = .error "store down" ∧
      (UploadVideo uploadFailsEnv (.request 0 false) demoInput emptyWorld).2.spawned = [] ∧
      (UploadVideo uploadFailsEnv (.request 0 false) demoInput emptyWorld).2.videos =
        emptyWorld.videos) ∧
    (createFailsEnv.videoCreate (emptyWorld.trace.length + 1) (.request 0 false)
        (newVideo (createFailsEnv.uuid emptyWorld.uuids) demoInput
          ("http://store/bucket/" ++
            originalStoragePath (createFailsEnv.uuid emptyWorld.uuids) demoInput.FileName)
          (createFailsEnv.now emptyWorld.ticks) (createFailsEnv.now (emptyWorld.ticks + 1))) =
        some "database down" ∧
      (UploadVideo createFailsEnv (.request 0 false) demoInput emptyWorld).2.spawned = [] ∧
      (UploadVideo createFailsEnv (.request 0 false) demoInput emptyWorld).2.videos =
        emptyWorld.videos) :=
  ⟨⟨rfl,
      (upload_failure_starts_nothing uploadFailsEnv (.request 0 false) demoInput emptyWorld
        "store down" (Or.inl rfl)).2.2.1,
      (upload_failure_starts_nothing uploadFailsEnv (.request 0 false) demoInput emptyWorld
        "store down" (Or.inl rfl)).2.1⟩,
    ⟨rfl,
      (upload_failure_starts_nothing createFailsEnv (.request 0 false) demoInput emptyWorld
        "database down" (Or.inr ⟨_, rfl, rfl⟩)).2.2.1,
      (upload_failure_starts_nothing createFailsEnv (.request 0 false) demoInput emptyWorld
        "database down" (Or.inr ⟨_, rfl, rfl⟩)).2.1⟩⟩

/-- C15, as stated, fails: when ffmpeg exits with status zero and no file
matches the pattern `segment_*.ts`, `FFmpegService.Segment` returns the empty
list and no error. -/
theorem Segment_returns_empty_list_without_error :
    stringsReplaceFirst "/tmp/w/1080p/segment_%03d.ts" "%03d" "*" = "/tmp/w/1080p/segment_*.ts" ∧
    noChunksShell.run .background demoFFmpeg.ffmpegPath
      (demoFFmpeg.segmentArgs "/tmp/w/1080p.mp4" 10 "/tmp/w/1080p/segment_%03d.ts") = none ∧
    noChunksShell.glob "/tmp/w/1080p/segment_*.ts" = .ok [] ∧
    demoFFmpeg.Segment noChunksShell .background "/tmp/w/1080p.mp4" 10
      "/tmp/w/1080p/segment_%03d.ts" = .ok [] := by
  refine ⟨by decide, rfl, rfl, rfl⟩

/-- C15, amended (result of the Segmenter).  `FFmpegService.Segment` returns
an error in exactly three cases, tried in this order: its output directory
cannot be created; the ffmpeg process fails; the listing of the output pattern
with `%03d` replaced by `*` fails.  In every other case it returns, without an
error, exactly that listing, also when the listing is empty. -/
theorem Segment_returns_listing (s : FFmpegService) (sh : Shell) (ctx : Ctx)
    (videoPath : String) (segmentDuration : Int) (outputPattern : String) :
    (∀ e, sh.mkdirAll (filepathDir outputPattern) 0o755 = some e →
      s.Segment sh ctx videoPath segmentDuration outputPattern =
        .error ("failed to create output directory: " ++ e)) ∧
    (sh.mkdirAll (filepathDir outputPattern) 0o755 = none →
      ∀ e, sh.run ctx s.ffmpegPath (s.segmentArgs videoPath segmentDuration outputPattern) =
          some e →
        s.Segment sh ctx videoPath segmentDuration outputPattern =
          .error ("ffmpeg segment failed: " ++ e)) ∧
    (sh.mkdirAll (filepathDir outputPattern) 0o755 = none →
      sh.run ctx s.ffmpegPath (s.segmentArgs videoPath segmentDuration outputPattern) = none →
      ∀ e, sh.glob (stringsReplaceFirst outputPattern "%03d" "*") = .error e →
        s.Segment sh ctx videoPath segmentDuration outputPattern =
          .error ("failed to list segment files: " ++ e)) ∧
    (sh.mkdirAll (filepathDir outputPattern) 0o755 = none →
      sh.run ctx s.ffmpegPath (s.segmentArgs videoPath segmentDuration outputPattern) = none →
      ∀ matched, sh.glob (stringsReplaceFirst outputPattern "%03d" "*") = .ok matched →
        s.Segment sh ctx videoPath segmentDuration outputPattern = .ok matched) ∧
    (∀ matched, s.Segment sh ctx videoPath segmentDuration outputPattern = .ok matched →
      sh.mkdirAll (filepathDir outputPattern) 0o755 = none ∧
      sh.run ctx s.ffmpegPath (s.segmentArgs videoPath segmentDuration outputPattern) = none ∧
      sh.glob (stringsReplaceFirst outputPattern "%03d" "*") = .ok matched) := by
  refine ⟨?_, ?_, ?_, ?_, ?_⟩
  · intro e he
    simp [FFmpegService.Segment, he]
  · intro hdir e he
    simp [FFmpegService.Segment, hdir, he]
  · intro hdir hrun e hglob
    simp [FFmpegService.Segment, hdir, hrun, hglob]
  · intro hdir hrun matched hglob
    simp [FFmpegService.Segment, hdir, hrun, hglob]
  · intro matched h
    unfold FFmpegService.Segment at h
    rcases hdir : sh.mkdirAll (filepathDir outputPattern) 0o755 with _ | e
    · rcases hrun : sh.run ctx s.ffmpegPath
        (s.segmentArgs videoPath segmentDuration outputPattern) with _ | e
      · rcases hglob : sh.glob (stringsReplaceFirst outputPattern "%03d" "*") with e | m
        · simp [hdir, hrun, hglob] at h
        · simp only [hdir, hrun, hglob] at h
          exact ⟨rfl, rfl, by rw [Except.ok.inj h]⟩
      · simp [hdir, hrun] at h
    · simp [hdir] at h

/-- The four cases of the amended C15 on concrete systems: the directory
cannot be created, ffmpeg fails, the listing fails, the listing is empty. -/
theorem Segment_returns_listing_witness :
    demoFFmpeg.Segment mkdirFailsShell .background "/tmp/w/1080p.mp4" 10
      "/tmp/w/1080p/segment_%03d.ts" =
        .error ("failed to create output directory: " ++ "permission denied") ∧
    demoFFmpeg.Segment ffmpegFailsShell .background "/tmp/w/1080p.mp4" 10
      "/tmp/w/1080p/segment_%03d.ts" = .error ("ffmpeg segment failed: " ++ "exit status 1") ∧
    demoFFmpeg.Segment globFailsShell .background "/tmp/w/1080p.mp4" 10
      "/tmp/w/1080p/segment_%03d.ts" =
        .error ("failed to list segment files: " ++ "syntax error in pattern") ∧
    demoFFmpeg.Segment noChunksShell .background "/tmp/w/1080p.mp4" 10
      "/tmp/w/1080p/segment_%03d.ts" = .ok [] :=
  ⟨(Segment_returns_listing demoFFmpeg mkdirFailsShell .background "/tmp/w/1080p.mp4" 10
      "/tmp/w/1080p/segment_%03d.ts").1 "permission denied" rfl,
    (Segment_returns_listing demoFFmpeg ffmpegFailsShell .background "/tmp/w/1080p.mp4" 10
      "/tmp/w/1080p/segment_%03d.ts").2.1 rfl "exit status 1" rfl,
    (Segment_returns_listing demoFFmpeg globFailsShell .background "/tmp/w/1080p.mp4" 10
      "/tmp/w/1080p/segment_%03d.ts").2.2.1 rfl rfl "syntax error in pattern" rfl,
    (Segment_returns_listing demoFFmpeg noChunksShell .background "/tmp/w/1080p.mp4" 10
      "/tmp/w/1080p/segment_%03d.ts").2.2.2.1 rfl rfl [] rfl⟩

/-- C18 (resolution parameters).  `getResolutionParams` maps the tag `1080p`
to (1920, 1080), the tag `720p` to (1280, 720) and every other tag to
(1280, 720).  `Transcode` runs ffmpeg with the argument list below, whose scale
filter is `scale=W:H` for exactly these two numbers, and fails exactly when the
process fails; for the tag `1080p` the filter is `scale=1920:1080`, for `720p`
it is `scale=1280:720`. -/
theorem resolution_params_and_scale_filter (s : FFmpegService) :
    s.getResolutionParams Resolution1080p = (1920, 1080) ∧
    s.getResolutionParams Resolution720p = (1280, 720) ∧
    (∀ resolution, resolution ≠ Resolution1080p →
      s.getResolutionParams resolution = (1280, 720)) ∧
    (∀ (sh : Shell) (ctx : Ctx) (inputURL outputPath : String) (resolution : Resolution)
        (fps : Int),
      s.Transcode sh ctx inputURL outputPath resolution fps =
        (sh.run ctx s.ffmpegPath
          [ "-i", inputURL, "-c:v", "libx264",
            "-vf", "scale=" ++ fmtInt (s.getResolutionParams resolution).1 ++ ":" ++
              fmtInt (s.getResolutionParams resolution).2,
            "-r", fmtInt fps, "-c:a", "aac", "-b:a", "128k", "-movflags", "+faststart",
            "-y", outputPath ]).map (fun e => "ffmpeg transcode failed: " ++ e)) ∧
    (∀ inputURL outputPath : String,
      (s.transcodeArgs inputURL outputPath Resolution1080p 24)[5]? = some "scale=1920:1080" ∧
      (s.transcodeArgs inputURL outputPath Resolution720p 24)[5]? = some "scale=1280:720" ∧
      (s.transcodeArgs inputURL outputPath Resolution1080p 24)[4]? = some "-vf") := by
  refine ⟨rfl, rfl, ?_, ?_, ?_⟩
  · intro resolution h1
    simp only [FFmpegService.getResolutionParams, if_neg h1]
    split <;> rfl
  · intro sh ctx inputURL outputPath resolution fps
    simp only [FFmpegService.Transcode, FFmpegService.transcodeArgs]
    cases sh.run ctx s.ffmpegPath _ <;> rfl
  · intro inputURL outputPath
    refine ⟨?_, ?_, rfl⟩
    · show some ("scale=" ++ fmtInt 1920 ++ ":" ++ fmtInt 1080) = some "scale=1920:1080"
      exact congrArg some (by decide)
    · show some ("scale=" ++ fmtInt 1280 ++ ":" ++ fmtInt 720) = some "scale=1280:720"
      exact congrArg some (by decide)

theorem LadderTrace_steps : ∀ (rs : List Resolution) (l : List Entry) (ok : Bool),
    LadderTrace rs l ok → ∀ e ∈ l, ∃ r ∈ rs, e.ladderStep r = true := by
  intro rs
  induction rs with
  | nil =>
    intro l ok h e he
    obtain ⟨rfl, -⟩ := h
    cases he
  | cons r rest ih =>
    intro l ok h e he
    obtain ⟨l1, l2, ok1, rfl, hb, hrest⟩ := h
    rcases List.mem_append.mp he with h1 | h2
    · exact ⟨r, by simp, hb.steps e h1⟩
    · cases ok1 with
      | true =>
        simp only [if_true] at hrest
        obtain ⟨r1, hr1, hs⟩ := ih l2 ok hrest e h2
        exact ⟨r1, List.mem_cons_of_mem _ hr1, hs⟩
      | false =>
        simp only [Bool.false_eq_true, if_false] at hrest
        rw [hrest.1] at h2
        cases h2

/-- The calls of the resolution loop over the ladder of `ProcessVideo`: the
block for 1080p, then, if that block ended without an error, the block for
720p. -/
theorem LadderTrace_resolutions {l : List Entry} {ok : Bool}
    (h : LadderTrace resolutions l ok) :
    ∃ l1 l2 ok1, l = l1 ++ l2 ∧ BlockTrace Resolution1080p l1 ok1 ∧
      (ok1 = true → BlockTrace Resolution720p l2 ok) ∧
      (ok1 = false → l2 = [] ∧ ok = false) := by
  obtain ⟨l1, l2, ok1, rfl, hb, hrest⟩ := h
  refine ⟨l1, l2, ok1, rfl, hb, ?_, ?_⟩
  · intro h1
    subst h1
    simp only [if_true] at hrest
    obtain ⟨m1, m2, ok2, rfl, hb2, hrest2⟩ := hrest
    cases ok2 with
    | true =>
      simp only [if_true] at hrest2
      obtain ⟨rfl, rfl⟩ := hrest2
      simpa using hb2
    | false =>
      simp only [Bool.false_eq_true, if_false] at hrest2
      obtain ⟨rfl, rfl⟩ := hrest2
      simpa using hb2
  · intro h1
    subst h1
    simpa using hrest

theorem ProcessVideo_shape (env : Env) (ctx : Ctx) (videoID videoURL : String) (w : World) :
    PipelineTrace (newTrace w (ProcessVideo env ctx videoID videoURL w).2)
      (!resFailed (ProcessVideo env ctx videoID videoURL w).1) ∧
    (ProcessVideo env ctx videoID videoURL w).2.segments =
      w.segments ++ createdIn (newTrace w (ProcessVideo env ctx videoID videoURL w).2) := by
  obtain ⟨new, recs, post⟩ := ProcessVideo_spec env ctx videoID videoURL w _ rfl
  rw [newTrace_eq post.trace, ← post.created]
  exact ⟨post.shape, post.segments⟩

/-- A run of `ProcessVideo` ends with an error exactly when one of its calls
at a site that is not best-effort failed. -/
theorem ProcessVideo_fails_iff (env : Env) (ctx : Ctx) (videoID videoURL : String) (w : World) :
    resFailed (ProcessVideo env ctx videoID videoURL w).1 = true ↔
      ∃ e ∈ newTrace w (ProcessVideo env ctx videoID videoURL w).2,
        e.failed = true ∧ e.site.bestEffort = false := by
  obtain ⟨new, recs, post⟩ := ProcessVideo_spec env ctx videoID videoURL w _ rfl
  rw [newTrace_eq post.trace]
  have key : ∀ body : List Entry, Stops body (ProcessVideo env ctx videoID videoURL w).1 →
      (resFailed (ProcessVideo env ctx videoID videoURL w).1 = true ↔
        ∃ e ∈ body, e.failed = true ∧ e.site.bestEffort = false) := by
    intro body hs
    cases hres : (ProcessVideo env ctx videoID videoURL w).1 with
    | ok u =>
      rw [hres] at hs
      simp only [resFailed, Bool.false_eq_true, false_iff, not_exists, not_and]
      intro e he hf
      simp [hs e he hf]
    | error msg =>
      rw [hres] at hs
      obtain ⟨pre, e, rfl, hf, hbe, -⟩ := hs
      simp only [resFailed, true_iff]
      exact ⟨e, by simp, hf, hbe⟩
  rcases post.halts with ⟨body, path, err, rfl, hs⟩ | ⟨hs, -⟩
  · rw [key body hs]
    constructor
    · rintro ⟨e, he, hf, hbe⟩
      exact ⟨e, by simp [he], hf, hbe⟩
    · rintro ⟨e, he, hf, hbe⟩
      rcases List.mem_append.mp he with h | h
      · exact ⟨e, h, hf, hbe⟩
      · simp only [List.mem_singleton] at h
        subst h
        simp [Site.bestEffort] at hbe
  · exact key new hs

theorem ProcessVideo_statuses (env : Env) (ctx : Ctx) (videoID videoURL : String) (w : World)
    (video : Video) (hrow : w.videos videoID = some video)
    (hok : (ProcessVideo env ctx videoID videoURL w).1 = .ok ()) :
    statusWrites video.ID (newTrace w (ProcessVideo env ctx videoID videoURL w).2) =
      [StatusTranscoded, StatusComplete] := by
  obtain ⟨new, recs, post⟩ := ProcessVideo_spec env ctx videoID videoURL w _ rfl
  rw [newTrace_eq post.trace, post.statuses hok video hrow video.ID]
  simp

theorem cleanup_attempt (e : Entry) (h : e.postStep = true) (hs : e.site = .cleanup) :
    e.statusAttempted = none := by
  rcases e with ⟨site, ev⟩
  simp only at hs
  subst hs
  cases ev <;> simp_all [Entry.postStep, Entry.statusAttempted]

/-- The statuses a run of `ProcessVideo` asks the metadata store to write:
nothing, or `transcoded`, or `transcoded` and then `complete`. -/
theorem statusAttempts_of_shape {new : List Entry} {ok : Bool} (h : PipelineTrace new ok) :
    statusAttempts new <+: [StatusTranscoded, StatusComplete] := by
  obtain ⟨pre, ladder, post, rfl, -, hpost, hatt, -, hcase⟩ := h
  rw [statusAttempts_append, statusAttempts_append]
  rcases hcase with ⟨rfl, hp, hcl, -⟩ | ⟨okL, hl, hp, -, -⟩
  · rw [statusAttempts_eq_nil (fun e he => cleanup_attempt e (hpost e he) (hcl e he))]
    simp only [statusAttempts, List.filterMap_nil, List.append_nil]
    exact hp.trans ⟨[StatusComplete], rfl⟩
  · have hlad : statusAttempts ladder = [] :=
      statusAttempts_eq_nil (fun e he => by
        obtain ⟨r, -, hs⟩ := LadderTrace_steps _ _ _ hl e he
        exact (ladderStep_calls e hs).1)
    rw [hp, hlad]
    simp only [List.append_nil]
    exact (List.prefix_append_right_inj [StatusTranscoded]).mpr hatt

theorem rank_of_attempts {l : List VideoStatus} (h : l <+: [StatusTranscoded, StatusComplete])
    (s : VideoStatus) (hs : statusRank s ≤ statusRank StatusTranscoded) :
    l.all (fun st => decide (statusRank s ≤ statusRank st)) = true := by
  have h3 : statusRank StatusTranscoded = 3 := by decide
  have h5 : statusRank StatusComplete = 5 := by decide
  rw [List.all_eq_true]
  intro st hst
  have hmem := h.subset hst
  simp only [List.mem_cons, List.mem_singleton, List.not_mem_nil, or_false] at hmem
  rcases hmem with rfl | rfl
  · simpa using hs
  · simp only [decide_eq_true_eq]
    omega

/-- C11, as stated, fails: a run of `ProcessVideo` on a stored video whose
status is `complete` (or `failed`) stores the status `transcoded`, which is
earlier in the order, before it stores `complete`. -/
theorem finished_video_moved_back_to_transcoded :
    (((worldAt StatusComplete).videos "v1").map (fun v => v.Status) = some StatusComplete ∧
      statusWrites "v1" (newTrace (worldAt StatusComplete)
        (ProcessVideo (demoEnv 25 threeChunks) .background "v1" demoVideo.OriginalURL
          (worldAt StatusComplete)).2) = [StatusTranscoded, StatusComplete]) ∧
    (((worldAt StatusFailed).videos "v1").map (fun v => v.Status) = some StatusFailed ∧
      statusWrites "v1" (newTrace (worldAt StatusFailed)
        (ProcessVideo (demoEnv 25 threeChunks) .background "v1" demoVideo.OriginalURL
          (worldAt StatusFailed)).2) = [StatusTranscoded, StatusComplete]) ∧
    statusRank StatusTranscoded < statusRank StatusComplete ∧
    statusRank StatusTranscoded < statusRank StatusFailed := by
  have key : ∀ s : VideoStatus,
      statusWrites "v1" (newTrace (worldAt s)
        (ProcessVideo (demoEnv 25 threeChunks) .background "v1" demoVideo.OriginalURL
          (worldAt s)).2) = [StatusTranscoded, StatusComplete] := by
    intro s
    have hrow : (worldAt s).videos "v1" = some { demoVideo with Status := s } := by
      simp [worldAt]
    have hsome : ((worldAt s).videos "v1").isSome = true := by rw [hrow]; rfl
    have h := ProcessVideo_statuses (demoEnv 25 threeChunks) .background "v1"
      demoVideo.OriginalURL (worldAt s) _ hrow
      (ProcessVideo_succeeds _ _ _ _ _ (demoEnv_allSucceed 25 threeChunks) hsome)
    have hid : ({ demoVideo with Status := s } : Video).ID = "v1" := rfl
    rw [hid] at h
    exact h
  refine ⟨⟨by simp [worldAt], key _⟩, ⟨by simp [worldAt], key _⟩, by decide, by decide⟩

/-- C11, amended (statuses written by the pipeline).  The statuses a run of
`ProcessVideo` asks the metadata store to write are, in order, a first part
of the list transcoded, complete, whatever the stored Video holds; so for
every status `s` that is `transcoded` or earlier in the order (pending,
uploaded, processing, transcoded), in particular when the stored Video holds
such a status, no status the run writes is earlier than `s`. -/
theorem pipeline_writes_transcoded_then_complete (env : Env) (ctx : Ctx)
    (videoID videoURL : String) (w : World) (s : VideoStatus)
    (hs : statusRank s ≤ statusRank StatusTranscoded) :
    statusAttempts (newTrace w (ProcessVideo env ctx videoID videoURL w).2) <+:
      [StatusTranscoded, StatusComplete] ∧
    (statusAttempts (newTrace w (ProcessVideo env ctx videoID videoURL w).2)).all
      (fun st => decide (statusRank s ≤ statusRank st)) = true := by
  have h := statusAttempts_of_shape (ProcessVideo_shape env ctx videoID videoURL w).1
  exact ⟨h, rank_of_attempts h _ hs⟩

theorem pipeline_writes_transcoded_then_complete_witness :
    demoWorld.videos "v1" = some demoVideo ∧
    statusRank demoVideo.Status ≤ statusRank StatusTranscoded ∧
    statusAttempts (newTrace demoWorld (demoRun 25 threeChunks).2) <+:
      [StatusTranscoded, StatusComplete] ∧
    (statusAttempts (newTrace demoWorld (demoRun 25 threeChunks).2)).all
      (fun st => decide (statusRank demoVideo.Status ≤ statusRank st)) = true :=
  ⟨by simp [demoWorld], by decide,
    pipeline_writes_transcoded_then_complete (demoEnv 25 threeChunks) .background "v1"
      demoVideo.OriginalURL demoWorld demoVideo.Status (by decide)⟩

theorem ladderStep_other {r1 r : Resolution} (hne : r1 ≠ r) (e : Entry)
    (h : e.ladderStep r1 = true) :
    e.site.chunkIndex r = none ∧ e.ladderStep r = false ∧
      e.site ≠ .encode r ∧ e.site ≠ .segment r := by
  rcases e with ⟨site, ev⟩
  cases site <;> cases ev <;> simp_all [Entry.ladderStep, Site.chunkIndex]

theorem created_chunkIndex {r : Resolution} (e : Entry) (h : e.ladderStep r = true)
    (seg : Segment) (hc : e.created = some seg) : ∃ k, e.site.chunkIndex r = some k := by
  rcases e with ⟨site, ev⟩
  cases site <;> cases ev <;> simp_all [Entry.ladderStep, Site.chunkIndex, Entry.created]

theorem resolution_ne : Resolution1080p ≠ Resolution720p := by decide

/-- A run of `ProcessVideo` either ends before the resolution ladder, with an
error, or reaches it. -/
theorem PipelineTrace_reached {new : List Entry} {ok : Bool} (h : PipelineTrace new ok) :
    (ok = false ∧ ∀ e ∈ new, e.preStep = true ∨ (e.postStep = true ∧ e.site = .cleanup)) ∨
    ∃ pre l1 l2 post ok1, LadderReached new ok pre l1 l2 post ok1 := by
  obtain ⟨pre, ladder, post, rfl, hpre, hpost, hatt, hdone, hcase⟩ := h
  rcases hcase with ⟨rfl, -, hcl, hok⟩ | ⟨okL, hl, hp, hnf, hfail⟩
  · left
    refine ⟨hok, ?_⟩
    intro e he
    simp only [List.append_nil] at he
    rcases List.mem_append.mp he with h | h
    · exact Or.inl (hpre e h)
    · exact Or.inr ⟨hpost e h, hcl e h⟩
  · right
    obtain ⟨l1, l2, ok1, rfl, hb1, h2, hstop⟩ := LadderTrace_resolutions hl
    refine ⟨pre, l1, l2, post, ok1,
      { split := rfl
        before := hpre
        beforeOk := hnf
        after := hpost
        first := hb1
        second := fun h1 => ⟨okL, h2 h1, hfail⟩
        stopped := fun h1 => ⟨(hstop h1).1, hfail (hstop h1).2⟩
        attempts := ⟨hp, hatt⟩
        finished := hdone }⟩

theorem LadderReached_steps2 {new : List Entry} {ok : Bool} {pre l1 l2 post : List Entry}
    {ok1 : Bool} (h : LadderReached new ok pre l1 l2 post ok1) :
    ∀ e ∈ l2, e.ladderStep Resolution720p = true := by
  intro e he
  cases ok1 with
  | true =>
    obtain ⟨ok2, hb2, -⟩ := h.second rfl
    exact hb2.steps e he
  | false =>
    rw [(h.stopped rfl).1] at he
    cases he

/-- The chunk list of a resolution in a run that reached the ladder is the one
in the block of that resolution. -/
theorem LadderReached_segmenter {new : List Entry} {ok : Bool} {pre l1 l2 post : List Entry}
    {ok1 : Bool} (h : LadderReached new ok pre l1 l2 post ok1) :
    segmenterResult new Resolution1080p = segmenterResult l1 Resolution1080p ∧
    segmenterResult new Resolution720p = segmenterResult l2 Resolution720p ∧
    ∀ r, r ≠ Resolution1080p → r ≠ Resolution720p → segmenterResult new r = none := by
  have hpre : ∀ r, ∀ e ∈ pre, e.chunks r = none :=
    fun r e he => (preStep_facts e (h.before e he)).2.2.2.2.2.1 r
  have hpost : ∀ r, ∀ e ∈ post, e.chunks r = none :=
    fun r e he => (postStep_facts e (h.after e he)).2.2.2.2.2 r
  have h1 : ∀ r, Resolution1080p ≠ r → ∀ e ∈ l1, e.chunks r = none :=
    fun r hne e he => chunks_of_ladderStep hne e (h.first.steps e he)
  have h2 : ∀ r, Resolution720p ≠ r → ∀ e ∈ l2, e.chunks r = none :=
    fun r hne e he => chunks_of_ladderStep hne e (LadderReached_steps2 h e he)
  rw [h.split]
  refine ⟨?_, ?_, ?_⟩
  · rw [segmenterResult_middle (hpre _) (hpost _),
      segmenterResult_append_left (h2 _ (Ne.symm resolution_ne))]
  · rw [segmenterResult_middle (hpre _) (hpost _),
      segmenterResult_append_right (h1 _ resolution_ne)]
  · intro r hr1 hr2
    rw [segmenterResult_middle (hpre _) (hpost _)]
    apply segmenterResult_eq_none
    intro e he
    rcases List.mem_append.mp he with h | h
    · exact h1 r (Ne.symm hr1) e h
    · exact h2 r (Ne.symm hr2) e h

theorem segmenterResult_of_early {new : List Entry}
    (h : ∀ e ∈ new, e.preStep = true ∨ (e.postStep = true ∧ e.site = .cleanup))
    (r : Resolution) : segmenterResult new r = none := by
  apply segmenterResult_eq_none
  intro e he
  rcases h e he with h1 | ⟨h1, -⟩
  · exact (preStep_facts e h1).2.2.2.2.2.1 r
  · exact (postStep_facts e h1).2.2.2.2.2 r

/-- In a run of `ProcessVideo`, every call of the chunk loop of a resolution
carries an index below the length of the chunk list that the Segmenter
returned for the resolution. -/
theorem PipelineTrace_bounded {new : List Entry} {ok : Bool} (h : PipelineTrace new ok)
    (r : Resolution) (cs : List String) (hcs : segmenterResult new r = some cs) :
    ∀ e ∈ new, ∀ k, e.site.chunkIndex r = some k → k < cs.length := by
  rcases PipelineTrace_reached h with ⟨-, hearly⟩ | ⟨pre, l1, l2, post, ok1, hr⟩
  · rw [segmenterResult_of_early hearly r] at hcs
    cases hcs
  · obtain ⟨hs1, hs2, hs3⟩ := LadderReached_segmenter hr
    intro e he k hk
    rw [hr.split] at he
    rcases List.mem_append.mp he with h | h
    · rcases List.mem_append.mp h with h | h
      · rw [(preStep_facts e (hr.before e h)).2.2.2.2.1 r] at hk
        cases hk
      · rcases List.mem_append.mp h with h | h
        · by_cases hr1 : Resolution1080p = r
          · subst hr1
            rw [hs1] at hcs
            exact hr.first.bounded cs hcs e h k hk
          · rw [(ladderStep_other hr1 e (hr.first.steps e h)).1] at hk
            cases hk
        · by_cases hr2 : Resolution720p = r
          · subst hr2
            rw [hs2] at hcs
            cases ok1 with
            | true =>
              obtain ⟨ok2, hb2, -⟩ := hr.second rfl
              exact hb2.bounded cs hcs e h k hk
            | false =>
              rw [(hr.stopped rfl).1] at h
              cases h
          · rw [(ladderStep_other hr2 e (LadderReached_steps2 hr e h)).1] at hk
            cases hk
    · rw [(postStep_facts e (hr.after e h)).2.2.2.2.1 r] at hk
      cases hk

/-- When the Segmenter returns no chunk for a resolution, the block of the
resolution ends without an error. -/
theorem BlockTrace_empty {r : Resolution} {l : List Entry} {ok : Bool} (h : BlockTrace r l ok)
    (hcs : segmenterResult l r = some []) : ok = true ∧ createdIn l = [] := by
  have hcr : createdIn l = [] := by
    apply createdIn_eq_nil
    intro e he
    cases hc : e.created with
    | none => rfl
    | some seg =>
      obtain ⟨k, hk⟩ := created_chunkIndex e (h.steps e he) seg hc
      have := h.bounded [] hcs e he k hk
      simp at this
  exact ⟨h.done.mpr ⟨[], hcs, by simp [hcr]⟩, hcr⟩

theorem statusAttempts_ok {new : List Entry} (h : PipelineTrace new true) :
    statusAttempts new = [StatusTranscoded, StatusComplete] := by
  obtain ⟨pre, ladder, post, rfl, -, -, -, hdone, hcase⟩ := h
  rcases hcase with ⟨-, -, -, hok⟩ | ⟨okL, hl, hp, -, -⟩
  · cases hok
  · have hlad : statusAttempts ladder = [] :=
      statusAttempts_eq_nil (fun e he => by
        obtain ⟨r, -, hs⟩ := LadderTrace_steps _ _ _ hl e he
        exact (ladderStep_calls e hs).1)
    rw [statusAttempts_append, statusAttempts_append, hp, hlad, hdone rfl]
    rfl

theorem ProcessVideo_shape_ok (env : Env) (ctx : Ctx) (videoID videoURL : String) (w : World)
    (hok : (ProcessVideo env ctx videoID videoURL w).1 = .ok ()) :
    PipelineTrace (newTrace w (ProcessVideo env ctx videoID videoURL w).2) true := by
  have h := (ProcessVideo_shape env ctx videoID videoURL w).1
  rw [hok] at h
  exact h

/-- C14 (an empty chunk list).  If the Segmenter returns the empty chunk list
for resolution `r` in a run of `ProcessVideo`, the run creates no Segment
record for `r` and makes no call of the chunk loop of `r` (no chunk read, no
chunk upload, no record creation); if `r` is 1080p, the run goes on to the
next resolution: the Encoder is called for 720p.  If moreover none of the
calls of the run fails, `ProcessVideo` returns no error and its status writes
are `transcoded` and then `complete`. -/
theorem empty_chunk_list_is_skipped (env : Env) (ctx : Ctx) (videoID videoURL : String)
    (w : World) (r : Resolution)
    (hempty : segmenterResult (newTrace w (ProcessVideo env ctx videoID videoURL w).2) r =
      some []) :
    createdFor w (ProcessVideo env ctx videoID videoURL w).2 videoID r = [] ∧
    (newTrace w (ProcessVideo env ctx videoID videoURL w).2).all
      (fun e => decide (e.site.chunkIndex r = none)) = true ∧
    (r = Resolution1080p →
      (Resolution720p, 24) ∈ encodeCalls (newTrace w (ProcessVideo env ctx videoID videoURL w).2)) ∧
    ((newTrace w (ProcessVideo env ctx videoID videoURL w).2).all (fun e => !e.failed) = true →
      (ProcessVideo env ctx videoID videoURL w).1 = .ok () ∧
      statusAttempts (newTrace w (ProcessVideo env ctx videoID videoURL w).2) =
        [StatusTranscoded, StatusComplete]) := by
  have hshape := (ProcessVideo_shape env ctx videoID videoURL w).1
  refine ⟨?_, ?_, ?_, ?_⟩
  · obtain ⟨D, wd, ht, hp⟩ := ProcessVideo_probed_of_chunks env ctx videoID videoURL w r [] hempty
    have hrec := ProcessVideo_created env ctx videoID videoURL w r [] D wd ht hp hempty
    exact List.length_eq_zero.mp (Nat.le_zero.mp (by simpa using hrec.1))
  · rw [List.all_eq_true]
    intro e he
    simp only [decide_eq_true_eq]
    cases hk : e.site.chunkIndex r with
    | none => rfl
    | some k =>
      have := PipelineTrace_bounded hshape r [] hempty e he k hk
      simp at this
  · intro hr
    subst hr
    rcases PipelineTrace_reached hshape with ⟨-, hearly⟩ | ⟨pre, l1, l2, post, ok1, hreach⟩
    · rw [segmenterResult_of_early hearly _] at hempty
      cases hempty
    · rw [(LadderReached_segmenter hreach).1] at hempty
      have hok1 := (BlockTrace_empty hreach.first hempty).1
      obtain ⟨ok2, hb2, -⟩ := hreach.second hok1
      rw [hreach.split, encodeCalls_append, encodeCalls_append, encodeCalls_append, hb2.encodes]
      simp
  · intro hall
    have hres : resFailed (ProcessVideo env ctx videoID videoURL w).1 = false := by
      by_contra hne
      have hf : resFailed (ProcessVideo env ctx videoID videoURL w).1 = true := by
        simpa using hne
      obtain ⟨e, he, hfail, -⟩ := (ProcessVideo_fails_iff env ctx videoID videoURL w).mp hf
      have := List.all_eq_true.mp hall e he
      simp [hfail] at this
    have hok : (ProcessVideo env ctx videoID videoURL w).1 = .ok () := by
      cases hr : (ProcessVideo env ctx videoID videoURL w).1 with
      | ok u => rfl
      | error msg => simp [hr, resFailed] at hres
    exact ⟨hok, statusAttempts_ok (ProcessVideo_shape_ok env ctx videoID videoURL w hok)⟩

theorem emptyRun_not_failed :
    (newTrace demoWorld (demoRun 25 []).2).all (fun e => !e.failed) = true := by
  simp [newTrace, demoRun, ProcessVideo, processInTempDir, resolutionLoop, resolutions,
    processResolution, segmentLoop, thumbnailStep, bind_apply, pure_apply,
    wrapErr, attempt, withDefer, call, checkErr, errResult, VideoRepository.GetByID,
    VideoRepository.Update, StorageRepository.GetFile, StorageRepository.UploadFile,
    TranscodeRepository.Transcode, TranscodeRepository.Segment, TranscodeRepository.GetVideoInfo,
    osMkdirTemp, osRemoveAll, osWriteFile, osReadFile, osMkdirAll, demoEnv,
    demoWorld, demoVideo, Entry.failed, Event.failed, resFailed]

theorem empty_chunk_list_is_skipped_witness :
    segmenterResult (newTrace demoWorld (demoRun 25 []).2) Resolution1080p = some [] ∧
    createdFor demoWorld (demoRun 25 []).2 "v1" Resolution1080p = [] ∧
    (newTrace demoWorld (demoRun 25 []).2).all
      (fun e => decide (e.site.chunkIndex Resolution1080p = none)) = true ∧
    (Resolution720p, 24) ∈ encodeCalls (newTrace demoWorld (demoRun 25 []).2) ∧
    (demoRun 25 []).1 = .ok () ∧
    statusAttempts (newTrace demoWorld (demoRun 25 []).2) =
      [StatusTranscoded, StatusComplete] := by
  have h := empty_chunk_list_is_skipped (demoEnv 25 []) .background "v1"
    demoVideo.OriginalURL demoWorld Resolution1080p (demoRun_chunks 25 [] _ ladder_1080p)
  exact ⟨demoRun_chunks 25 [] _ ladder_1080p, h.1, h.2.1, h.2.2.1 rfl,
    h.2.2.2 emptyRun_not_failed⟩

theorem ProcessVideo_rows (env : Env) (ctx : Ctx) (videoID videoURL : String) (w : World)
    (id : String) :
    ((ProcessVideo env ctx videoID videoURL w).2.videos id).isSome = (w.videos id).isSome := by
  obtain ⟨new, recs, post⟩ := ProcessVideo_spec env ctx videoID videoURL w _ rfl
  exact post.rows id

theorem demoEnv_chunks (D : ℚ) (chunks : List String) (ctx : Ctx) (videoID videoURL : String)
    (w : World) (hok : (ProcessVideo (demoEnv D chunks) ctx videoID videoURL w).1 = .ok ())
    (r : Resolution) (hr : r ∈ resolutions) :
    segmenterResult (newTrace w (ProcessVideo (demoEnv D chunks) ctx videoID videoURL w).2) r =
      some chunks := by
  obtain ⟨cs, hcs⟩ := ProcessVideo_ladder (demoEnv D chunks) ctx videoID videoURL w r hr hok
  obtain ⟨n, ctx1, vp, d, pat, h⟩ :=
    (ProcessVideo_oracle (demoEnv D chunks) ctx videoID videoURL w).1 r cs hcs
  have : chunks = cs := by simpa [demoEnv] using h
  subst this
  exact hcs

theorem createdFor_trans {w w1 w2 : World} {recs1 recs2 : List Segment} (videoID : String)
    (r : Resolution) (h1 : w1.segments = w.segments ++ recs1)
    (h2 : w2.segments = w1.segments ++ recs2) :
    createdFor w w2 videoID r = createdFor w w1 videoID r ++ createdFor w1 w2 videoID r := by
  have h3 : w2.segments = w.segments ++ (recs1 ++ recs2) := by
    rw [h2, h1, List.append_assoc]
  rw [createdFor_eq videoID r h1, createdFor_eq videoID r h2, createdFor_eq videoID r h3,
    List.filter_append]

theorem ladder_site_facts (e : Entry) (r : Resolution)
    (h : e.site = .encode r ∨ e.site = .segment r) :
    e.preStep = false ∧ e.postStep = false := by
  rcases e with ⟨site, ev⟩
  simp only at h
  rcases h with rfl | rfl <;> cases ev <;> simp [Entry.preStep, Entry.postStep]

/-- C17 (the first ladder failure aborts the pipeline).  If, in a run of
`ProcessVideo`, the Encoder or the Segmenter fails for 1080p, the run returns
an error; its only Encoder call is the one for 1080p, it makes no call at all
for 720p (no encode, no segment, no chunk call), it creates no Segment record,
and its only status write is the one to `transcoded` made before the ladder:
status `complete` is not written. -/
theorem first_ladder_failure_aborts (env : Env) (ctx : Ctx) (videoID videoURL : String)
    (w : World) (e : Entry)
    (he : e ∈ newTrace w (ProcessVideo env ctx videoID videoURL w).2)
    (hsite : e.site = .encode Resolution1080p ∨ e.site = .segment Resolution1080p)
    (hf : e.failed = true) :
    (∃ msg, (ProcessVideo env ctx videoID videoURL w).1 = .error msg) ∧
    encodeCalls (newTrace w (ProcessVideo env ctx videoID videoURL w).2) =
      [(Resolution1080p, 24)] ∧
    (newTrace w (ProcessVideo env ctx videoID videoURL w).2).all
      (fun x => !x.ladderStep Resolution720p) = true ∧
    newSegments w (ProcessVideo env ctx videoID videoURL w).2 = [] ∧
    statusAttempts (newTrace w (ProcessVideo env ctx videoID videoURL w).2) =
      [StatusTranscoded] := by
  obtain ⟨hshape, hsegs⟩ := ProcessVideo_shape env ctx videoID videoURL w
  have hnew : newSegments w (ProcessVideo env ctx videoID videoURL w).2 =
      createdIn (newTrace w (ProcessVideo env ctx videoID videoURL w).2) := by
    simp [newSegments, hsegs]
  rw [hnew]
  generalize newTrace w (ProcessVideo env ctx videoID videoURL w).2 = new at he hshape ⊢
  obtain ⟨hnpre, hnpost⟩ := ladder_site_facts e _ hsite
  rcases PipelineTrace_reached hshape with ⟨-, hearly⟩ | ⟨pre, l1, l2, post, ok1, hr⟩
  · rcases hearly e he with h | ⟨h, -⟩
    · rw [hnpre] at h
      cases h
    · rw [hnpost] at h
      cases h
  · have hmem : e ∈ l1 := by
      rw [hr.split] at he
      rcases List.mem_append.mp he with h | h
      · rcases List.mem_append.mp h with h | h
        · have := hr.before e h
          rw [hnpre] at this
          cases this
        · rcases List.mem_append.mp h with h | h
          · exact h
          · have := ladderStep_other (Ne.symm resolution_ne) e (LadderReached_steps2 hr e h)
            rcases hsite with hs | hs
            · exact absurd hs this.2.2.1
            · exact absurd hs this.2.2.2
      · have := hr.after e h
        rw [hnpost] at this
        cases this
    have hnone := hr.first.aborted e hmem hsite hf
    have hok1 : ok1 = false := by
      cases ok1 with
      | false => rfl
      | true =>
        obtain ⟨cs, hcs, -⟩ := hr.first.done.mp rfl
        rw [hnone] at hcs
        cases hcs
    obtain ⟨hl2, hcl, hok⟩ := hr.stopped hok1
    subst hl2
    have hsplit : new = pre ++ l1 ++ post := by
      rw [hr.split]
      simp
    refine ⟨?_, ?_, ?_, ?_, ?_⟩
    · cases hres : (ProcessVideo env ctx videoID videoURL w).1 with
      | ok u => simp [hres, resFailed] at hok
      | error msg => exact ⟨msg, rfl⟩
    · rw [hsplit, encodeCalls_append, encodeCalls_append,
        encodeCalls_eq_nil (fun x hx => (preStep_facts x (hr.before x hx)).2.1),
        encodeCalls_eq_nil (fun x hx => (postStep_facts x (hr.after x hx)).2.1),
        hr.first.encodes]
      rfl
    · rw [List.all_eq_true]
      intro x hx
      rw [hsplit] at hx
      rcases List.mem_append.mp hx with h | h
      · rcases List.mem_append.mp h with h | h
        · simp [(preStep_facts x (hr.before x h)).2.2.2.1 Resolution720p]
        · simp [(ladderStep_other resolution_ne x (hr.first.steps x h)).2.1]
      · simp [(postStep_facts x (hr.after x h)).2.2.2.1 Resolution720p]
    · rw [hsplit, createdIn_append, createdIn_append,
        createdIn_eq_nil (fun x hx => (preStep_facts x (hr.before x hx)).1),
        createdIn_eq_nil (fun x hx => (postStep_facts x (hr.after x hx)).1),
        hr.first.unsegmented hnone]
      rfl
    · have hl1 : statusAttempts l1 = [] :=
        statusAttempts_eq_nil (fun x hx => (ladderStep_calls x (hr.first.steps x hx)).1)
      have hpost : statusAttempts post = [] :=
        statusAttempts_eq_nil (fun x hx => cleanup_attempt x (hr.after x hx) (hcl x hx))
      rw [hsplit, statusAttempts_append, statusAttempts_append, hr.attempts.1, hl1, hpost]
      rfl

theorem encodeFails_entry :
    (newTrace demoWorld (ProcessVideo encodeFailsEnv .background "v1" demoVideo.OriginalURL
      demoWorld).2)[6]? =
      some ⟨.encode Resolution1080p, .transcode .background
        (filepathJoin "/tmp/video-processing-v1" "original.mp4")
        (filepathJoin "/tmp/video-processing-v1" (Resolution1080p ++ ".mp4"))
        Resolution1080p 24 (some "exit status 1")⟩ := by
  simp [newTrace, ProcessVideo, processInTempDir, resolutionLoop, resolutions,
    processResolution, bind_apply, pure_apply,
    wrapErr, attempt, withDefer, call, checkErr, errResult, VideoRepository.GetByID,
    VideoRepository.Update, StorageRepository.GetFile,
    TranscodeRepository.Transcode, TranscodeRepository.GetVideoInfo,
    osMkdirTemp, osRemoveAll, osWriteFile, encodeFailsEnv, demoEnv,
    demoWorld, demoVideo]

theorem first_ladder_failure_aborts_witness :
    (newTrace demoWorld (ProcessVideo encodeFailsEnv .background "v1" demoVideo.OriginalURL
      demoWorld).2)[6]? =
      some ⟨.encode Resolution1080p, .transcode .background
        (filepathJoin "/tmp/video-processing-v1" "original.mp4")
        (filepathJoin "/tmp/video-processing-v1" (Resolution1080p ++ ".mp4"))
        Resolution1080p 24 (some "exit status 1")⟩ ∧
    (∃ msg, (ProcessVideo encodeFailsEnv .background "v1" demoVideo.OriginalURL
      demoWorld).1 = .error msg) ∧
    encodeCalls (newTrace demoWorld (ProcessVideo encodeFailsEnv .background "v1"
      demoVideo.OriginalURL demoWorld).2) = [(Resolution1080p, 24)] ∧
    (newTrace demoWorld (ProcessVideo encodeFailsEnv .background "v1" demoVideo.OriginalURL
      demoWorld).2).all (fun x => !x.ladderStep Resolution720p) = true ∧
    newSegments demoWorld (ProcessVideo encodeFailsEnv .background "v1" demoVideo.OriginalURL
      demoWorld).2 = [] ∧
    statusAttempts (newTrace demoWorld (ProcessVideo encodeFailsEnv .background "v1"
      demoVideo.OriginalURL demoWorld).2) = [StatusTranscoded] :=
  ⟨encodeFails_entry,
    first_ladder_failure_aborts encodeFailsEnv .background "v1" demoVideo.OriginalURL demoWorld
      _ (List.mem_iff_getElem?.mpr ⟨6, encodeFails_entry⟩) (Or.inl rfl) rfl⟩

/-- C19 (order of the ladder calls).  In every successful run of
`ProcessVideo` the Encoder is called exactly twice, first with tag 1080p and
then with tag 720p, each time with frame rate 24, and the Segmenter exactly
twice, each time with chunk length 10; the calls of the run are the calls
before the ladder, then all the calls for 1080p (encode, directory, segment,
chunk reads, chunk uploads, Segment creations), then all the calls for 720p,
then the calls after the ladder. -/
theorem ladder_calls_in_order (env : Env) (ctx : Ctx) (videoID videoURL : String) (w : World)
    (hok : (ProcessVideo env ctx videoID videoURL w).1 = .ok ()) :
    encodeCalls (newTrace w (ProcessVideo env ctx videoID videoURL w).2) =
      [(Resolution1080p, 24), (Resolution720p, 24)] ∧
    segmentCalls (newTrace w (ProcessVideo env ctx videoID videoURL w).2) = [10, 10] ∧
    ∃ a l1 l2 b,
      newTrace w (ProcessVideo env ctx videoID videoURL w).2 = a ++ l1 ++ l2 ++ b ∧
      l1.all (fun e => e.ladderStep Resolution1080p) = true ∧
      l2.all (fun e => e.ladderStep Resolution720p) = true ∧
      (a ++ b).all
        (fun e => !e.ladderStep Resolution1080p && !e.ladderStep Resolution720p) = true := by
  have hshape := ProcessVideo_shape_ok env ctx videoID videoURL w hok
  generalize newTrace w (ProcessVideo env ctx videoID videoURL w).2 = new at hshape ⊢
  rcases PipelineTrace_reached hshape with ⟨h, -⟩ | ⟨pre, l1, l2, post, ok1, hr⟩
  · cases h
  · have hok1 : ok1 = true := by
      cases ok1 with
      | true => rfl
      | false => exact absurd (hr.stopped rfl).2.2 (by simp)
    obtain ⟨ok2, hb2, hfail⟩ := hr.second hok1
    have hok2 : ok2 = true := by
      cases ok2 with
      | true => rfl
      | false => exact absurd (hfail rfl).2 (by simp)
    subst hok1
    subst hok2
    have hsplit : new = pre ++ l1 ++ l2 ++ post := by
      rw [hr.split]
      simp
    refine ⟨?_, ?_, pre, l1, l2, post, hsplit, ?_, ?_, ?_⟩
    · rw [hsplit, encodeCalls_append, encodeCalls_append, encodeCalls_append,
        encodeCalls_eq_nil (fun x hx => (preStep_facts x (hr.before x hx)).2.1),
        encodeCalls_eq_nil (fun x hx => (postStep_facts x (hr.after x hx)).2.1),
        hr.first.encodes, hb2.encodes]
      rfl
    · rw [hsplit, segmentCalls_append, segmentCalls_append, segmentCalls_append,
        segmentCalls_eq_nil (fun x hx => (preStep_facts x (hr.before x hx)).2.2.1),
        segmentCalls_eq_nil (fun x hx => (postStep_facts x (hr.after x hx)).2.2.1),
        hr.first.segments rfl, hb2.segments rfl]
      rfl
    · rw [List.all_eq_true]
      exact hr.first.steps
    · rw [List.all_eq_true]
      exact hb2.steps
    · rw [List.all_eq_true]
      intro x hx
      rcases List.mem_append.mp hx with h | h
      · simp [(preStep_facts x (hr.before x h)).2.2.2.1]
      · simp [(postStep_facts x (hr.after x h)).2.2.2.1]

theorem ladder_calls_in_order_witness :
    (demoRun 25 threeChunks).1 = .ok () ∧
    encodeCalls (newTrace demoWorld (demoRun 25 threeChunks).2) =
      [(Resolution1080p, 24), (Resolution720p, 24)] ∧
    segmentCalls (newTrace demoWorld (demoRun 25 threeChunks).2) = [10, 10] ∧
    ∃ a l1 l2 b,
      newTrace demoWorld (demoRun 25 threeChunks).2 = a ++ l1 ++ l2 ++ b ∧
      l1.all (fun e => e.ladderStep Resolution1080p) = true ∧
      l2.all (fun e => e.ladderStep Resolution720p) = true ∧
      (a ++ b).all
        (fun e => !e.ladderStep Resolution1080p && !e.ladderStep Resolution720p) = true :=
  ⟨demoRun_ok 25 threeChunks,
    ladder_calls_in_order (demoEnv 25 threeChunks) .background "v1" demoVideo.OriginalURL
      demoWorld (demoRun_ok 25 threeChunks)⟩

theorem AgreeOutside_append {a a1 b b1 : List Entry} (h : AgreeOutside (a ++ a1) (b ++ b1)) :
    AgreeOutside a b ∧ AgreeOutside a1 b1 :=
  ⟨fun e1 h1 e2 h2 => h e1 (List.mem_append_left _ h1) e2 (List.mem_append_left _ h2),
    fun e1 h1 e2 h2 => h e1 (List.mem_append_right _ h1) e2 (List.mem_append_right _ h2)⟩

theorem AgreeOutside_left {a b b1 : List Entry} (h : AgreeOutside a (b ++ b1)) :
    AgreeOutside a b :=
  fun e1 h1 e2 h2 => h e1 h1 e2 (List.mem_append_left _ h2)

theorem AgreeOutside_right {a a1 b : List Entry} (h : AgreeOutside (a ++ a1) b) :
    AgreeOutside a b :=
  fun e1 h1 e2 h2 => h e1 (List.mem_append_left _ h1) e2 h2

theorem criticalCalls_append (a b : List Entry) :
    criticalCalls (a ++ b) = criticalCalls a ++ criticalCalls b := by
  simp [criticalCalls]

theorem ResRel_eq {α : Type} {ra rb : Except String α} (h : ra = rb) : ResRel Eq ra rb := by
  subst h
  cases ra <;> simp [ResRel]

theorem eq_of_ResRel {α : Type} {ra rb : Except String α} (h : ResRel Eq ra rb) : ra = rb := by
  cases ra <;> cases rb <;> simp_all [ResRel]

theorem newTrace_append {w w1 w2 : World} {n n1 : List Entry} (h1 : w1.trace = w.trace ++ n)
    (h2 : w2.trace = w1.trace ++ n1) : newTrace w w2 = n ++ n1 := by
  simp [newTrace, h1, h2]

theorem SimIf_mono {α β : Type} {c c1 : Prop} {Q : α → β → Prop} {pa : M α} {pb : M β}
    (hc : c1 → c) (h : SimIf c Q pa pb) : SimIf c1 Q pa pb :=
  ⟨h.1, h.2.1, fun h1 => h.2.2 (hc h1)⟩

theorem SimIf_weaken {α β : Type} {c : Prop} {Q Q1 : α → β → Prop} {pa : M α} {pb : M β}
    (hq : ∀ a b, Q a b → Q1 a b) (h : SimIf c Q pa pb) : SimIf c Q1 pa pb := by
  refine ⟨h.1, h.2.1, fun hc wa wb hs hag => ?_⟩
  obtain ⟨hr, hsy, hcr⟩ := h.2.2 hc wa wb hs hag
  refine ⟨?_, hsy, hcr⟩
  revert hr
  cases (pa wa).1 <;> cases (pb wb).1 <;> simp only [ResRel] <;> intro hr
  · exact hr
  · exact hr
  · exact hr
  · exact hq _ _ hr

theorem SimIf_pure {α β : Type} {c : Prop} {Q : α → β → Prop} (a : α) (b : β)
    (h : c → Q a b) : SimIf c Q (pure a) (pure b) :=
  ⟨fun w => ⟨[], by simp [pure_apply]⟩, fun w => ⟨[], by simp [pure_apply]⟩,
    fun hc wa wb hs _ => ⟨h hc, hs, by simp [pure_apply, newTrace, criticalCalls]⟩⟩

theorem SimIf_bind {α β α1 β1 : Type} [Nonempty α] [Nonempty β] {c : Prop}
    {Q : α → β → Prop} {Q1 : α1 → β1 → Prop}
    {pa : M α} {pb : M β} {fa : α → M α1} {fb : β → M β1}
    (h : SimIf c Q pa pb) (hf : ∀ a b, SimIf (c ∧ Q a b) Q1 (fa a) (fb b)) :
    SimIf c Q1 (pa >>= fa) (pb >>= fb) := by
  obtain ⟨a0⟩ := ‹Nonempty α›
  obtain ⟨b0⟩ := ‹Nonempty β›
  refine ⟨?_, ?_, ?_⟩
  · intro w
    obtain ⟨n, hn⟩ := h.1 w
    rw [bind_apply]
    rcases hp : pa w with ⟨r, w1⟩
    rw [hp] at hn
    cases r with
    | error e => exact ⟨n, hn⟩
    | ok a =>
      obtain ⟨n1, hn1⟩ := (hf a b0).1 w1
      have hn0 : w1.trace = w.trace ++ n := hn
      exact ⟨n ++ n1, by rw [hn1, hn0, List.append_assoc]⟩
  · intro w
    obtain ⟨n, hn⟩ := h.2.1 w
    rw [bind_apply]
    rcases hp : pb w with ⟨r, w1⟩
    rw [hp] at hn
    cases r with
    | error e => exact ⟨n, hn⟩
    | ok b =>
      obtain ⟨n1, hn1⟩ := (hf a0 b).2.1 w1
      have hn0 : w1.trace = w.trace ++ n := hn
      exact ⟨n ++ n1, by rw [hn1, hn0, List.append_assoc]⟩
  · intro hc wa wb hs hag
    obtain ⟨na, hna⟩ := h.1 wa
    obtain ⟨nb, hnb⟩ := h.2.1 wb
    have hstep := h.2.2 hc wa wb hs
    rw [newTrace_eq hna, newTrace_eq hnb] at hstep
    rw [bind_apply, bind_apply] at hag ⊢
    rcases hpa : pa wa with ⟨ra, w1a⟩
    rcases hpb : pb wb with ⟨rb, w1b⟩
    rw [hpa] at hna hstep
    rw [hpb] at hnb hstep
    rw [hpa, hpb] at hag
    simp only at hna hnb hstep
    cases ra with
    | error ea =>
      cases rb with
      | error eb =>
        simp only at hag ⊢
        rw [newTrace_eq hna, newTrace_eq hnb] at hag ⊢
        exact hstep hag
      | ok b =>
        simp only at hag
        obtain ⟨n1, hn1⟩ := (hf a0 b).2.1 w1b
        rw [newTrace_eq hna, newTrace_append hnb hn1] at hag
        exact absurd (hstep (AgreeOutside_left hag)).1 (by simp [ResRel])
    | ok a =>
      cases rb with
      | error eb =>
        simp only at hag
        obtain ⟨n1, hn1⟩ := (hf a b0).1 w1a
        rw [newTrace_append hna hn1, newTrace_eq hnb] at hag
        exact absurd (hstep (AgreeOutside_right hag)).1 (by simp [ResRel])
      | ok b =>
        simp only at hag ⊢
        obtain ⟨n1a, hn1a⟩ := (hf a b).1 w1a
        obtain ⟨n1b, hn1b⟩ := (hf a b).2.1 w1b
        rw [newTrace_append hna hn1a, newTrace_append hnb hn1b] at hag ⊢
        obtain ⟨hag0, hag1⟩ := AgreeOutside_append hag
        obtain ⟨hq, hsy, hcr⟩ := hstep hag0
        simp only [ResRel] at hq
        have hnext := (hf a b).2.2 ⟨hc, hq⟩ w1a w1b hsy
        rw [newTrace_eq hn1a, newTrace_eq hn1b] at hnext
        obtain ⟨hr1, hsy1, hcr1⟩ := hnext hag1
        exact ⟨hr1, hsy1, by rw [criticalCalls_append, criticalCalls_append, hcr, hcr1]⟩

theorem SimIf_wrapErr {α β : Type} {c : Prop} {Q : α → β → Prop} {pa : M α} {pb : M β}
    (msg : String) (h : SimIf c Q pa pb) : SimIf c Q (wrapErr msg pa) (wrapErr msg pb) := by
  have hw : ∀ {γ : Type} (p : M γ) (w : World),
      (wrapErr msg p w).2 = (p w).2 ∧
      (wrapErr msg p w).1 = match (p w).1 with
        | .ok a => .ok a
        | .error e => .error (msg ++ e) := by
    intro γ p w
    simp only [wrapErr]
    rcases p w with ⟨r, w1⟩
    cases r <;> exact ⟨rfl, rfl⟩
  refine ⟨fun w => by rw [(hw pa w).1]; exact h.1 w, fun w => by rw [(hw pb w).1]; exact h.2.1 w,
    fun hc wa wb hs hag => ?_⟩
  rw [(hw pa wa).1, (hw pb wb).1] at hag ⊢
  obtain ⟨hr, hsy, hcr⟩ := h.2.2 hc wa wb hs hag
  refine ⟨?_, hsy, hcr⟩
  rw [(hw pa wa).2, (hw pb wb).2]
  revert hr
  cases (pa wa).1 <;> cases (pb wb).1 <;> simp only [ResRel]
  · intro hr; rw [hr]
  · exact id
  · exact id
  · exact id

theorem criticalCalls_singleton (site : Site) (ev : Event) :
    criticalCalls [⟨site, ev⟩] = if site.critical = true then [⟨site, ev⟩] else [] := by
  simp only [criticalCalls, List.filter]
  cases site.critical <;> rfl

/-- Two programs that each make one call, at the same site. -/
theorem SimIf_call {α β : Type} {c : Prop} {Q : α → β → Prop} (site : Site)
    (pa : M α) (pb : M β) (eva evb : World → Event)
    (hta : ∀ w, (pa w).2.trace = w.trace ++ [⟨site, eva w⟩])
    (htb : ∀ w, (pb w).2.trace = w.trace ++ [⟨site, evb w⟩])
    (hsync : ∀ wa wb, Sync wa wb → Sync (pa wa).2 (pb wb).2)
    (hans : c → ∀ wa wb, Sync wa wb →
      (site.bestEffort = false → (eva wa).answer = (evb wb).answer) →
      ResRel Q (pa wa).1 (pb wb).1 ∧ (site.critical = true → eva wa = evb wb)) :
    SimIf c Q pa pb := by
  refine ⟨fun w => ⟨_, hta w⟩, fun w => ⟨_, htb w⟩, fun hc wa wb hs hag => ?_⟩
  rw [newTrace_eq (hta wa), newTrace_eq (htb wb)] at hag ⊢
  obtain ⟨hr, hev⟩ := hans hc wa wb hs
    (fun hbe => hag _ (List.mem_singleton.mpr rfl) _ (List.mem_singleton.mpr rfl) rfl hbe)
  refine ⟨hr, hsync wa wb hs, ?_⟩
  rw [criticalCalls_singleton, criticalCalls_singleton]
  by_cases hcr : site.critical = true
  · rw [if_pos hcr, if_pos hcr, hev hcr]
  · rw [if_neg hcr, if_neg hcr]

theorem Sync_log {wa wb : World} (h : Sync wa wb) (s1 s2 : Site) (e1 e2 : Event) :
    Sync (wa.log s1 e1) (wb.log s2 e2) := h

theorem SimIf_GetFile (env1 env2 : Env) {c : Prop} (site : Site) (ctx : Ctx) (f1 f2 : String)
    (hbe : site.bestEffort = false) (hf : c → f1 = f2) :
    SimIf c Eq (StorageRepository.GetFile env1 site ctx f1)
      (StorageRepository.GetFile env2 site ctx f2) := by
  refine SimIf_call site _ _ (fun w => .getFile ctx f1 (env1.getFile w.trace.length ctx f1))
    (fun w => .getFile ctx f2 (env2.getFile w.trace.length ctx f2))
    (fun w => rfl) (fun w => rfl) (fun wa wb hs => hs) ?_
  intro hc wa wb _ hans
  have hf := hf hc
  subst hf
  have h := hans hbe
  simp only [Event.answer, Answer.bytes.injEq] at h
  simp only [StorageRepository.GetFile]
  exact ⟨ResRel_eq h, fun _ => by rw [h]⟩

theorem SimIf_UploadFile (env1 env2 : Env) {c : Prop} (site : Site) (ctx : Ctx)
    (f1 f2 : String) (d1 d2 : Bytes) (ct : String)
    (hbe : site.bestEffort = false) (hf : c → f1 = f2 ∧ d1 = d2) :
    SimIf c Eq (StorageRepository.UploadFile env1 site ctx f1 d1 ct)
      (StorageRepository.UploadFile env2 site ctx f2 d2 ct) := by
  refine SimIf_call site _ _
    (fun w => .uploadFile ctx f1 d1 ct (env1.uploadFile w.trace.length ctx f1 d1 ct))
    (fun w => .uploadFile ctx f2 d2 ct (env2.uploadFile w.trace.length ctx f2 d2 ct))
    (fun w => rfl) (fun w => rfl) (fun wa wb hs => hs) ?_
  intro hc wa wb _ hans
  obtain ⟨h1, h2⟩ := hf hc
  subst h1
  subst h2
  have h := hans hbe
  simp only [Event.answer, Answer.text.injEq] at h
  simp only [StorageRepository.UploadFile]
  exact ⟨ResRel_eq h, fun _ => by rw [h]⟩

theorem SimIf_Transcode (env1 env2 : Env) {c : Prop} (site : Site) (ctx : Ctx)
    (i1 i2 o1 o2 : String) (r : Resolution) (fps : Int)
    (hbe : site.bestEffort = false) (hf : c → i1 = i2 ∧ o1 = o2) :
    SimIf c Eq (TranscodeRepository.Transcode env1 site ctx i1 o1 r fps)
      (TranscodeRepository.Transcode env2 site ctx i2 o2 r fps) := by
  refine SimIf_call site _ _
    (fun w => .transcode ctx i1 o1 r fps (env1.transcode w.trace.length ctx i1 o1 r fps))
    (fun w => .transcode ctx i2 o2 r fps (env2.transcode w.trace.length ctx i2 o2 r fps))
    (fun w => rfl) (fun w => rfl) (fun wa wb hs => hs) ?_
  intro hc wa wb _ hans
  obtain ⟨h1, h2⟩ := hf hc
  subst h1
  subst h2
  have h := hans hbe
  simp only [Event.answer, Answer.err.injEq] at h
  simp only [TranscodeRepository.Transcode]
  exact ⟨ResRel_eq (by rw [h]), fun _ => by rw [h]⟩

theorem SimIf_Segment (env1 env2 : Env) {c : Prop} (site : Site) (ctx : Ctx)
    (v1 v2 : String) (d : Int) (o1 o2 : String)
    (hbe : site.bestEffort = false) (hf : c → v1 = v2 ∧ o1 = o2) :
    SimIf c Eq (TranscodeRepository.Segment env1 site ctx v1 d o1)
      (TranscodeRepository.Segment env2 site ctx v2 d o2) := by
  refine SimIf_call site _ _
    (fun w => .segment ctx v1 d o1 (env1.segment w.trace.length ctx v1 d o1))
    (fun w => .segment ctx v2 d o2 (env2.segment w.trace.length ctx v2 d o2))
    (fun w => rfl) (fun w => rfl) (fun wa wb hs => hs) ?_
  intro hc wa wb _ hans
  obtain ⟨h1, h2⟩ := hf hc
  subst h1
  subst h2
  have h := hans hbe
  simp only [Event.answer, Answer.list.injEq] at h
  simp only [TranscodeRepository.Segment]
  exact ⟨ResRel_eq h, fun _ => by rw [h]⟩

theorem SimIf_GetVideoInfo (env1 env2 : Env) {c : Prop} (site : Site) (ctx : Ctx)
    (v1 v2 : String) (hbe : site.bestEffort = false) (hf : c → v1 = v2) :
    SimIf c Eq (TranscodeRepository.GetVideoInfo env1 site ctx v1)
      (TranscodeRepository.GetVideoInfo env2 site ctx v2) := by
  refine SimIf_call site _ _
    (fun w => .getVideoInfo ctx v1 (env1.getVideoInfo w.trace.length ctx v1))
    (fun w => .getVideoInfo ctx v2 (env2.getVideoInfo w.trace.length ctx v2))
    (fun w => rfl) (fun w => rfl) (fun wa wb hs => hs) ?_
  intro hc wa wb _ hans
  have h1 := hf hc
  subst h1
  have h := hans hbe
  simp only [Event.answer, Answer.info.injEq] at h
  simp only [TranscodeRepository.GetVideoInfo]
  exact ⟨ResRel_eq h, fun _ => by rw [h]⟩

theorem SimIf_MkdirTemp (env1 env2 : Env) {c : Prop} (site : Site) (dir pattern : String)
    (hbe : site.bestEffort = false) :
    SimIf c Eq (osMkdirTemp env1 site dir pattern) (osMkdirTemp env2 site dir pattern) := by
  refine SimIf_call site _ _
    (fun w => .mkdirTemp dir pattern (env1.mkdirTemp w.trace.length dir pattern))
    (fun w => .mkdirTemp dir pattern (env2.mkdirTemp w.trace.length dir pattern))
    (fun w => rfl) (fun w => rfl) (fun wa wb hs => hs) ?_
  intro hc wa wb _ hans
  have h := hans hbe
  simp only [Event.answer, Answer.text.injEq] at h
  simp only [osMkdirTemp]
  exact ⟨ResRel_eq h, fun _ => by rw [h]⟩

theorem SimIf_WriteFile (env1 env2 : Env) {c : Prop} (site : Site) (n1 n2 : String)
    (d1 d2 : Bytes) (perm : Nat) (hbe : site.bestEffort = false)
    (hf : c → n1 = n2 ∧ d1 = d2) :
    SimIf c Eq (osWriteFile env1 site n1 d1 perm) (osWriteFile env2 site n2 d2 perm) := by
  refine SimIf_call site _ _
    (fun w => .writeFile n1 d1 perm (env1.writeFile w.trace.length n1 d1 perm))
    (fun w => .writeFile n2 d2 perm (env2.writeFile w.trace.length n2 d2 perm))
    (fun w => rfl) (fun w => rfl) (fun wa wb hs => hs) ?_
  intro hc wa wb _ hans
  obtain ⟨h1, h2⟩ := hf hc
  subst h1
  subst h2
  have h := hans hbe
  simp only [Event.answer, Answer.err.injEq] at h
  simp only [osWriteFile]
  exact ⟨ResRel_eq (by rw [h]), fun _ => by rw [h]⟩

theorem SimIf_ReadFile (env1 env2 : Env) {c : Prop} (site : Site) (n1 n2 : String)
    (hbe : site.bestEffort = false) (hf : c → n1 = n2) :
    SimIf c Eq (osReadFile env1 site n1) (osReadFile env2 site n2) := by
  refine SimIf_call site _ _
    (fun w => .readFile n1 (env1.readFile w.trace.length n1))
    (fun w => .readFile n2 (env2.readFile w.trace.length n2))
    (fun w => rfl) (fun w => rfl) (fun wa wb hs => hs) ?_
  intro hc wa wb _ hans
  have h1 := hf hc
  subst h1
  have h := hans hbe
  simp only [Event.answer, Answer.bytes.injEq] at h
  simp only [osReadFile]
  exact ⟨ResRel_eq h, fun _ => by rw [h]⟩

theorem SimIf_MkdirAll (env1 env2 : Env) {c : Prop} (site : Site) (p1 p2 : String)
    (perm : Nat) (hbe : site.bestEffort = false) (hf : c → p1 = p2) :
    SimIf c Eq (osMkdirAll env1 site p1 perm) (osMkdirAll env2 site p2 perm) := by
  refine SimIf_call site _ _
    (fun w => .mkdirAll p1 perm (env1.mkdirAll w.trace.length p1 perm))
    (fun w => .mkdirAll p2 perm (env2.mkdirAll w.trace.length p2 perm))
    (fun w => rfl) (fun w => rfl) (fun wa wb hs => hs) ?_
  intro hc wa wb _ hans
  have h1 := hf hc
  subst h1
  have h := hans hbe
  simp only [Event.answer, Answer.err.injEq] at h
  simp only [osMkdirAll]
  exact ⟨ResRel_eq (by rw [h]), fun _ => by rw [h]⟩

theorem SimIf_SegmentCreate (env1 env2 : Env) {c : Prop} (site : Site) (ctx : Ctx)
    (s1 s2 : Segment) (hbe : site.bestEffort = false) (hf : c → s1 = s2) :
    SimIf c Eq (SegmentRepository.Create env1 site ctx s1)
      (SegmentRepository.Create env2 site ctx s2) := by
  have htr : ∀ (env : Env) (s : Segment) (w : World),
      (SegmentRepository.Create env site ctx s w).2.trace = w.trace ++
        [⟨site, .segmentCreate ctx s (env.segmentCreate w.trace.length ctx s)⟩] ∧
      (SegmentRepository.Create env site ctx s w).2.ticks = w.ticks ∧
      (SegmentRepository.Create env site ctx s w).2.uuids = w.uuids ∧
      (SegmentRepository.Create env site ctx s w).1 =
        errResult (env.segmentCreate w.trace.length ctx s) := by
    intro env s w
    simp only [SegmentRepository.Create]
    cases env.segmentCreate w.trace.length ctx s <;> exact ⟨rfl, rfl, rfl, rfl⟩
  refine SimIf_call site _ _
    (fun w => .segmentCreate ctx s1 (env1.segmentCreate w.trace.length ctx s1))
    (fun w => .segmentCreate ctx s2 (env2.segmentCreate w.trace.length ctx s2))
    (fun w => (htr env1 s1 w).1) (fun w => (htr env2 s2 w).1) ?_ ?_
  · intro wa wb hs
    exact ⟨by rw [(htr env1 s1 wa).2.1, (htr env2 s2 wb).2.1]; exact hs.1,
      by rw [(htr env1 s1 wa).2.2.1, (htr env2 s2 wb).2.2.1]; exact hs.2⟩
  · intro hc wa wb _ hans
    have h1 := hf hc
    subst h1
    have h := hans hbe
    simp only [Event.answer, Answer.err.injEq] at h
    rw [(htr env1 s1 wa).2.2.2, (htr env2 s1 wb).2.2.2]
    exact ⟨ResRel_eq (by rw [h]), fun _ => by simp only [h]⟩

theorem SimIf_timeNow (env1 env2 : Env) (hnow : env1.now = env2.now) {c : Prop} :
    SimIf c Eq (timeNow env1) (timeNow env2) := by
  refine ⟨fun w => ⟨[], by simp [timeNow]⟩, fun w => ⟨[], by simp [timeNow]⟩,
    fun _ wa wb hs _ => ?_⟩
  refine ⟨?_, ?_, ?_⟩
  · simp [timeNow, ResRel, hnow, hs.1]
  · simp [timeNow, Sync, hs.1, hs.2]
  · simp [timeNow, newTrace, criticalCalls]

theorem SimIf_uuidNew (env1 env2 : Env) (huuid : env1.uuid = env2.uuid) {c : Prop} :
    SimIf c Eq (uuidNew env1) (uuidNew env2) := by
  refine ⟨fun w => ⟨[], by simp [uuidNew]⟩, fun w => ⟨[], by simp [uuidNew]⟩,
    fun _ wa wb hs _ => ?_⟩
  refine ⟨?_, ?_, ?_⟩
  · simp [uuidNew, ResRel, huuid, hs.2]
  · simp [uuidNew, Sync, hs.1, hs.2]
  · simp [uuidNew, newTrace, criticalCalls]

theorem SimIf_checkErr {c : Prop} (msg : String) (e1 e2 : Option String) (h : c → e1 = e2) :
    SimIf c Eq (checkErr msg e1) (checkErr msg e2) := by
  have hw : ∀ (e : Option String) (w : World), (checkErr msg e w).2 = w := by
    intro e w
    cases e <;> rfl
  refine ⟨fun w => ⟨[], by rw [hw]; simp⟩, fun w => ⟨[], by rw [hw]; simp⟩,
    fun hc wa wb hs _ => ?_⟩
  have := h hc
  subst this
  rw [hw, hw]
  refine ⟨ResRel_eq ?_, hs, by simp [newTrace, criticalCalls]⟩
  cases e1 <;> rfl

theorem criticalCalls_eq_nil {l : List Entry} (h : ∀ e ∈ l, e.site.critical = false) :
    criticalCalls l = [] := by
  simp only [criticalCalls, List.filter_eq_nil_iff]
  intro e he
  simp [h e he]

theorem SimIf_of_imp {α β : Type} {c : Prop} {Q : α → β → Prop} {pa : M α} {pb : M β}
    (hea : ∀ w, ∃ n, (pa w).2.trace = w.trace ++ n)
    (heb : ∀ w, ∃ n, (pb w).2.trace = w.trace ++ n)
    (h : c → SimIf True Q pa pb) : SimIf c Q pa pb :=
  ⟨hea, heb, fun hc => (h hc).2.2 trivial⟩

/-- What `VideoRepository.Update` does, called from the use case. -/
theorem Update_call (env : Env) (site : Site) (ctx : Ctx) (v : Video) (w : World) :
    (call (VideoRepository.Update env site ctx v) w).1 =
      .ok ({ v with UpdatedAt := env.now w.ticks },
        env.videoUpdate w.trace.length ctx { v with UpdatedAt := env.now w.ticks }) ∧
    (call (VideoRepository.Update env site ctx v) w).2.trace = w.trace ++
      [⟨site, .videoUpdate ctx { v with UpdatedAt := env.now w.ticks }
        (env.videoUpdate w.trace.length ctx { v with UpdatedAt := env.now w.ticks })⟩] ∧
    (call (VideoRepository.Update env site ctx v) w).2.ticks = w.ticks + 1 ∧
    (call (VideoRepository.Update env site ctx v) w).2.uuids = w.uuids := by
  simp only [call, VideoRepository.Update, tick_trace]
  cases env.videoUpdate w.trace.length ctx { v with UpdatedAt := env.now w.ticks } <;>
    exact ⟨rfl, rfl, rfl, rfl⟩

/-- Two status writes of records that are equal up to the time of the last
update. -/
theorem SimIf_Update_same (env1 env2 : Env) (hnow : env1.now = env2.now) {c : Prop}
    (site : Site) (ctx : Ctx) (v1 v2 : Video) (hbe : site.bestEffort = false)
    (hv : c → ∀ x, ({ v1 with UpdatedAt := x } : Video) = { v2 with UpdatedAt := x }) :
    SimIf c Eq (call (VideoRepository.Update env1 site ctx v1))
      (call (VideoRepository.Update env2 site ctx v2)) := by
  refine SimIf_call site _ _
    (fun w => .videoUpdate ctx { v1 with UpdatedAt := env1.now w.ticks }
      (env1.videoUpdate w.trace.length ctx { v1 with UpdatedAt := env1.now w.ticks }))
    (fun w => .videoUpdate ctx { v2 with UpdatedAt := env2.now w.ticks }
      (env2.videoUpdate w.trace.length ctx { v2 with UpdatedAt := env2.now w.ticks }))
    (fun w => (Update_call env1 site ctx v1 w).2.1)
    (fun w => (Update_call env2 site ctx v2 w).2.1) ?_ ?_
  · intro wa wb hs
    exact ⟨by rw [(Update_call env1 site ctx v1 wa).2.2.1,
        (Update_call env2 site ctx v2 wb).2.2.1, hs.1],
      by rw [(Update_call env1 site ctx v1 wa).2.2.2,
        (Update_call env2 site ctx v2 wb).2.2.2, hs.2]⟩
  · intro hc wa wb hs hans
    have h := hans hbe
    simp only [Event.answer, Answer.err.injEq] at h
    have hrec : ({ v1 with UpdatedAt := env1.now wa.ticks } : Video) =
        { v2 with UpdatedAt := env2.now wb.ticks } := by
      rw [hnow, hs.1]
      exact hv hc _
    rw [(Update_call env1 site ctx v1 wa).1, (Update_call env2 site ctx v2 wb).1]
    refine ⟨ResRel_eq ?_, fun _ => ?_⟩
    · rw [h, hrec]
    · beta_reduce
      rw [h, hrec]

/-- Two status writes at a site that is neither best-effort nor on the
critical path: they fail alike. -/
theorem SimIf_Update_any (env1 env2 : Env) {c : Prop}
    (site : Site) (ctx : Ctx) (v1 v2 : Video) (hbe : site.bestEffort = false)
    (hcr : site.critical = false) :
    SimIf c (fun x y => x.2 = y.2) (call (VideoRepository.Update env1 site ctx v1))
      (call (VideoRepository.Update env2 site ctx v2)) := by
  refine SimIf_call site _ _
    (fun w => .videoUpdate ctx { v1 with UpdatedAt := env1.now w.ticks }
      (env1.videoUpdate w.trace.length ctx { v1 with UpdatedAt := env1.now w.ticks }))
    (fun w => .videoUpdate ctx { v2 with UpdatedAt := env2.now w.ticks }
      (env2.videoUpdate w.trace.length ctx { v2 with UpdatedAt := env2.now w.ticks }))
    (fun w => (Update_call env1 site ctx v1 w).2.1)
    (fun w => (Update_call env2 site ctx v2 w).2.1) ?_ ?_
  · intro wa wb hs
    exact ⟨by rw [(Update_call env1 site ctx v1 wa).2.2.1,
        (Update_call env2 site ctx v2 wb).2.2.1, hs.1],
      by rw [(Update_call env1 site ctx v1 wa).2.2.2,
        (Update_call env2 site ctx v2 wb).2.2.2, hs.2]⟩
  · intro hc wa wb hs hans
    have h := hans hbe
    simp only [Event.answer, Answer.err.injEq] at h
    rw [(Update_call env1 site ctx v1 wa).1, (Update_call env2 site ctx v2 wb).1]
    refine ⟨?_, fun h1 => ?_⟩
    · simp only [ResRel]
      exact h
    · rw [hcr] at h1
      cases h1

theorem thumbnailStep_frame (env : Env) (ctx : Ctx) (videoID tempDir : String) (video : Video)
    (w : World) :
    (thumbnailStep env ctx videoID tempDir video w).2.ticks = w.ticks ∧
    (thumbnailStep env ctx videoID tempDir video w).2.uuids = w.uuids := by
  simp only [thumbnailStep, bind_apply, attempt, osReadFile, StorageRepository.UploadFile,
    pure_apply]
  cases env.readFile w.trace.length (filepathJoin tempDir "thumbnail.jpg") with
  | error e => exact ⟨rfl, rfl⟩
  | ok d =>
    simp only [log_trace, bind_apply, attempt, StorageRepository.UploadFile]
    cases env.uploadFile (w.trace ++ [_]).length ctx (thumbnailStoragePath videoID)
      d "image/jpeg" <;> exact ⟨rfl, rfl⟩

theorem thumbStep_not_critical (e : Entry) (h : e.thumbStep = true) :
    e.site.critical = false ∧ e.site ≠ .markFinal := by
  rcases e with ⟨site, ev⟩
  cases site <;> cases ev <;> simp_all [Entry.thumbStep, Site.critical]

/-- The thumbnail step of two runs: whatever it does, it does not fail the
run and makes no critical-path call. -/
theorem SimIf_thumbnailStep (env1 env2 : Env) {c : Prop} (ctx : Ctx) (videoID d1 d2 : String)
    (v1 v2 : Video) :
    SimIf c (fun _ _ => True) (thumbnailStep env1 ctx videoID d1 v1)
      (thumbnailStep env2 ctx videoID d2 v2) := by
  refine ⟨fun w => ?_, fun w => ?_, fun _ wa wb hs _ => ?_⟩
  · obtain ⟨new, url, -, htr, -⟩ := thumbnailStep_spec env1 ctx videoID d1 v1 w _ rfl
    exact ⟨new, htr⟩
  · obtain ⟨new, url, -, htr, -⟩ := thumbnailStep_spec env2 ctx videoID d2 v2 w _ rfl
    exact ⟨new, htr⟩
  · obtain ⟨na, ua, hra, htra, -, -, -, hsa⟩ :=
      thumbnailStep_spec env1 ctx videoID d1 v1 wa _ rfl
    obtain ⟨nb, ub, hrb, htrb, -, -, -, hsb⟩ :=
      thumbnailStep_spec env2 ctx videoID d2 v2 wb _ rfl
    rw [newTrace_eq htra, newTrace_eq htrb, hra, hrb,
      criticalCalls_eq_nil (fun e he => (thumbStep_not_critical e (hsa e he)).1),
      criticalCalls_eq_nil (fun e he => (thumbStep_not_critical e (hsb e he)).1)]
    refine ⟨trivial, ⟨?_, ?_⟩, rfl⟩
    · rw [(thumbnailStep_frame env1 ctx videoID d1 v1 wa).1,
        (thumbnailStep_frame env2 ctx videoID d2 v2 wb).1]
      exact hs.1
    · rw [(thumbnailStep_frame env1 ctx videoID d1 v1 wa).2,
        (thumbnailStep_frame env2 ctx videoID d2 v2 wb).2]
      exact hs.2

/-- The deferred removal of the workspace of two runs. -/
theorem SimIf_withDefer (env1 env2 : Env) {α β : Type} {c : Prop} {Q : α → β → Prop}
    {pa : M α} {pb : M β} (d1 d2 : String) (h : SimIf c Q pa pb) :
    SimIf c Q (withDefer (osRemoveAll env1 .cleanup d1) pa)
      (withDefer (osRemoveAll env2 .cleanup d2) pb) := by
  have hw : ∀ {γ : Type} (env : Env) (d : String) (p : M γ) (w : World),
      (withDefer (osRemoveAll env .cleanup d) p w).1 = (p w).1 ∧
      (withDefer (osRemoveAll env .cleanup d) p w).2 =
        (p w).2.log .cleanup (.removeAll d (env.removeAll (p w).2.trace.length d)) := by
    intro γ env d p w
    exact ⟨rfl, rfl⟩
  refine ⟨fun w => ?_, fun w => ?_, fun hc wa wb hs hag => ?_⟩
  · obtain ⟨n, hn⟩ := h.1 w
    exact ⟨n ++ [_], by rw [(hw env1 d1 pa w).2, log_trace, hn, List.append_assoc]⟩
  · obtain ⟨n, hn⟩ := h.2.1 w
    exact ⟨n ++ [_], by rw [(hw env2 d2 pb w).2, log_trace, hn, List.append_assoc]⟩
  · obtain ⟨na, hna⟩ := h.1 wa
    obtain ⟨nb, hnb⟩ := h.2.1 wb
    have hta : (withDefer (osRemoveAll env1 .cleanup d1) pa wa).2.trace = wa.trace ++
        (na ++ [⟨.cleanup, .removeAll d1 (env1.removeAll (pa wa).2.trace.length d1)⟩]) := by
      rw [(hw env1 d1 pa wa).2, log_trace, hna, List.append_assoc]
    have htb : (withDefer (osRemoveAll env2 .cleanup d2) pb wb).2.trace = wb.trace ++
        (nb ++ [⟨.cleanup, .removeAll d2 (env2.removeAll (pb wb).2.trace.length d2)⟩]) := by
      rw [(hw env2 d2 pb wb).2, log_trace, hnb, List.append_assoc]
    rw [newTrace_eq hta, newTrace_eq htb] at hag ⊢
    have hstep := h.2.2 hc wa wb hs
    rw [newTrace_eq hna, newTrace_eq hnb] at hstep
    obtain ⟨hr, hsy, hcr⟩ := hstep (AgreeOutside_append hag).1
    rw [(hw env1 d1 pa wa).1, (hw env2 d2 pb wb).1, (hw env1 d1 pa wa).2,
      (hw env2 d2 pb wb).2, criticalCalls_append, criticalCalls_append, hcr]
    exact ⟨hr, hsy, by simp [criticalCalls, Site.critical]⟩

theorem segmentLoop_extends (env : Env) (ctx : Ctx) (videoID : String) (r : Resolution)
    (D : ℚ) (len i : Nat) (files : List String) (w : World) :
    ∃ n, (segmentLoop env ctx videoID r D len i files w).2.trace = w.trace ++ n := by
  obtain ⟨new, recs, post⟩ := segmentLoop_spec env ctx videoID r D len files i w _ rfl
  exact ⟨new, post.trace⟩

theorem processResolution_extends (env : Env) (ctx : Ctx) (videoID tempDir orig : String)
    (D : ℚ) (r : Resolution) (w : World) :
    ∃ n, (processResolution env ctx videoID tempDir orig D r w).2.trace = w.trace ++ n := by
  obtain ⟨new, recs, post⟩ := processResolution_spec env ctx videoID tempDir orig D r w _ rfl
  exact ⟨new, post.trace⟩

theorem resolutionLoop_extends (env : Env) (ctx : Ctx) (videoID tempDir orig : String)
    (D : ℚ) (w : World) :
    ∃ n, (resolutionLoop env ctx videoID tempDir orig D resolutions w).2.trace =
      w.trace ++ n := by
  obtain ⟨new, recs, post⟩ :=
    resolutionLoop_spec env ctx videoID tempDir orig D resolutions resolutions_nodup w _ rfl
  exact ⟨new, post.trace⟩

/-- The chunk loops of two runs over the same chunk list. -/
theorem SimIf_segmentLoop (env1 env2 : Env) (hnow : env1.now = env2.now)
    (huuid : env1.uuid = env2.uuid) (ctx : Ctx) (videoID : String) (r : Resolution) (D : ℚ)
    (len : Nat) :
    ∀ (files : List String) (i : Nat),
      SimIf True Eq (segmentLoop env1 ctx videoID r D len i files)
        (segmentLoop env2 ctx videoID r D len i files) := by
  intro files
  induction files with
  | nil =>
    intro i
    simp only [segmentLoop]
    exact SimIf_pure () () (fun _ => rfl)
  | cons p rest ih =>
    intro i
    simp only [segmentLoop]
    refine SimIf_bind (SimIf_wrapErr _ (SimIf_ReadFile env1 env2 _ p p rfl (fun _ => rfl)))
      (fun d1 d2 => ?_)
    refine SimIf_bind (SimIf_wrapErr _ (SimIf_UploadFile env1 env2 _ ctx _ _ d1 d2 _ rfl
      (fun h => ⟨rfl, h.2⟩))) (fun u1 u2 => ?_)
    refine SimIf_bind (SimIf_uuidNew env1 env2 huuid) (fun id1 id2 => ?_)
    refine SimIf_bind (SimIf_timeNow env1 env2 hnow) (fun t1 t2 => ?_)
    refine SimIf_bind (SimIf_wrapErr _ (SimIf_SegmentCreate env1 env2 _ ctx _ _ rfl
      (fun h => by
        obtain ⟨⟨⟨⟨-, h1⟩, h2⟩, h3⟩, h4⟩ := h
        subst h1
        subst h2
        subst h3
        subst h4
        rfl))) (fun _ _ => ?_)
    exact SimIf_mono (fun _ => trivial) (ih (i + 1))

/-- One iteration of the resolution ladder in two runs. -/
theorem SimIf_processResolution (env1 env2 : Env) (hnow : env1.now = env2.now)
    (huuid : env1.uuid = env2.uuid) (ctx : Ctx) (videoID tempDir orig : String) (D : ℚ)
    (r : Resolution) :
    SimIf True Eq (processResolution env1 ctx videoID tempDir orig D r)
      (processResolution env2 ctx videoID tempDir orig D r) := by
  simp only [processResolution]
  refine SimIf_bind (SimIf_wrapErr _ (SimIf_Transcode env1 env2 _ ctx _ _ _ _ r 24 rfl
    (fun _ => ⟨rfl, rfl⟩))) (fun _ _ => ?_)
  refine SimIf_bind (SimIf_wrapErr _ (SimIf_MkdirAll env1 env2 _ _ _ _ rfl (fun _ => rfl)))
    (fun _ _ => ?_)
  refine SimIf_bind (SimIf_wrapErr _ (SimIf_Segment env1 env2 _ ctx _ _ 10 _ _ rfl
    (fun _ => ⟨rfl, rfl⟩))) (fun cs1 cs2 => ?_)
  refine SimIf_of_imp (segmentLoop_extends env1 ctx videoID r D _ 0 cs1)
    (segmentLoop_extends env2 ctx videoID r D _ 0 cs2) (fun h => ?_)
  obtain ⟨-, h1⟩ := h
  subst h1
  exact SimIf_segmentLoop env1 env2 hnow huuid ctx videoID r D _ cs1 0

/-- The resolution loop of two runs. -/
theorem SimIf_resolutionLoop (env1 env2 : Env) (hnow : env1.now = env2.now)
    (huuid : env1.uuid = env2.uuid) (ctx : Ctx) (videoID tempDir orig : String) (D : ℚ) :
    SimIf True Eq (resolutionLoop env1 ctx videoID tempDir orig D resolutions)
      (resolutionLoop env2 ctx videoID tempDir orig D resolutions) := by
  simp only [resolutions, resolutionLoop]
  refine SimIf_bind (SimIf_processResolution env1 env2 hnow huuid ctx videoID tempDir orig D _)
    (fun _ _ => ?_)
  refine SimIf_bind (SimIf_mono (fun _ => trivial)
    (SimIf_processResolution env1 env2 hnow huuid ctx videoID tempDir orig D _)) (fun _ _ => ?_)
  exact SimIf_pure () () (fun _ => rfl)

theorem processInTempDir_extends (env : Env) (ctx : Ctx) (videoID videoURL : String)
    (video : Video) (tempDir : String) (w : World) :
    ∃ n, (processInTempDir env ctx videoID videoURL video tempDir w).2.trace = w.trace ++ n := by
  obtain ⟨new, recs, post⟩ := processInTempDir_spec env ctx videoID videoURL video tempDir w _ rfl
  exact ⟨new, post.trace⟩

/-- The body of `ProcessVideo` in two runs, on records that differ at most in
the columns the body overwrites. -/
theorem SimIf_processInTempDir (env1 env2 : Env) (hnow : env1.now = env2.now)
    (huuid : env1.uuid = env2.uuid) {c : Prop} (ctx : Ctx) (videoID videoURL : String)
    (va vb : Video) (d1 d2 : String) (h : c → va.sameCore vb ∧ d1 = d2) :
    SimIf c Eq (processInTempDir env1 ctx videoID videoURL va d1)
      (processInTempDir env2 ctx videoID videoURL vb d2) := by
  simp only [processInTempDir]
  refine SimIf_bind (SimIf_wrapErr _ (SimIf_GetFile env1 env2 _ ctx _ _ rfl (fun _ => rfl)))
    (fun data1 data2 => ?_)
  refine SimIf_bind (SimIf_wrapErr _ (SimIf_WriteFile env1 env2 _ _ _ data1 data2 _ rfl
    (fun hc => ⟨by rw [(h hc.1).2], hc.2⟩))) (fun _ _ => ?_)
  refine SimIf_bind (SimIf_wrapErr _ (SimIf_GetVideoInfo env1 env2 _ ctx _ _ rfl
    (fun hc => by rw [(h hc.1.1).2]))) (fun x y => ?_)
  rcases x with ⟨D1, w1, h1⟩
  rcases y with ⟨D2, w2, h2⟩
  simp only []
  refine SimIf_bind (SimIf_Update_same env1 env2 hnow _ ctx _ _ rfl (fun hc x => ?_))
    (fun p q => ?_)
  · obtain ⟨⟨⟨hc0, -⟩, -⟩, hx⟩ := hc
    simp only [Prod.mk.injEq] at hx
    obtain ⟨rfl, rfl, rfl⟩ := hx
    exact (h hc0).1 D1 (fmtInt w1 ++ "x" ++ fmtInt h1) StatusTranscoded x
  refine SimIf_bind (SimIf_checkErr _ p.2 q.2 (fun hc => by rw [hc.2])) (fun _ _ => ?_)
  refine SimIf_bind ((SimIf_of_imp
    (resolutionLoop_extends env1 ctx videoID d1 (filepathJoin d1 "original.mp4") D1)
    (resolutionLoop_extends env2 ctx videoID d2 (filepathJoin d2 "original.mp4") D2)
    (fun hc => ?_)) : SimIf _ Eq _ _) (fun _ _ => ?_)
  · obtain ⟨⟨⟨⟨⟨hc0, -⟩, -⟩, hx⟩, -⟩, -⟩ := hc
    simp only [Prod.mk.injEq] at hx
    obtain ⟨rfl, -, -⟩ := hx
    obtain ⟨-, rfl⟩ := h hc0
    exact SimIf_resolutionLoop env1 env2 hnow huuid ctx videoID d1 _ D1
  refine SimIf_bind (SimIf_thumbnailStep env1 env2 ctx videoID d1 d2 p.1 q.1) (fun v1 v2 => ?_)
  refine SimIf_bind (SimIf_Update_any env1 env2 _ ctx _ _ rfl rfl) (fun p2 q2 => ?_)
  exact SimIf_checkErr _ p2.2 q2.2 (fun hc => hc.2)

/-- The part of `ProcessVideo` after the load of the record, in two runs. -/
theorem SimIf_processLoaded (env1 env2 : Env) (hnow : env1.now = env2.now)
    (huuid : env1.uuid = env2.uuid) (ctx : Ctx) (videoID videoURL : String) (va vb : Video) :
    SimIf (va.sameCore vb) Eq (processLoaded env1 ctx videoID videoURL va)
      (processLoaded env2 ctx videoID videoURL vb) := by
  simp only [processLoaded]
  refine SimIf_bind (SimIf_wrapErr _ (SimIf_MkdirTemp env1 env2 _ _ _ rfl)) (fun d1 d2 => ?_)
  exact SimIf_withDefer env1 env2 d1 d2
    (SimIf_processInTempDir env1 env2 hnow huuid ctx videoID videoURL va vb d1 d2 (fun hc => hc))

theorem ProcessVideo_eq (env : Env) (ctx : Ctx) (videoID videoURL : String) :
    ProcessVideo env ctx videoID videoURL =
      (wrapErr "failed to get video: " (VideoRepository.GetByID env .loadVideo ctx videoID) >>=
        processLoaded env ctx videoID videoURL) := rfl

/-- The first step of `ProcessVideo`: the load of the record. -/
theorem ProcessVideo_load (env : Env) (ctx : Ctx) (videoID videoURL : String) (w : World) :
    ∃ res : Except String Video,
      (∀ video, res = .ok video → w.videos videoID = some video) ∧
      ProcessVideo env ctx videoID videoURL w =
        match res with
        | .ok video => processLoaded env ctx videoID videoURL video
            (w.log .loadVideo (.videoGetByID ctx videoID res))
        | .error e => (.error ("failed to get video: " ++ e),
            w.log .loadVideo (.videoGetByID ctx videoID res)) := by
  rw [ProcessVideo_eq, bind_apply]
  simp only [wrapErr, VideoRepository.GetByID]
  cases env.videoGetByID w.trace.length ctx videoID with
  | some e => exact ⟨.error e, by simp, rfl⟩
  | none =>
    cases hrow : w.videos videoID with
    | none => exact ⟨.error ("video with ID " ++ videoID ++ " not found"), by simp, rfl⟩
    | some video => exact ⟨.ok video, by simp, rfl⟩

theorem processLoaded_extends (env : Env) (ctx : Ctx) (videoID videoURL : String)
    (video : Video) (w : World) :
    ∃ n, (processLoaded env ctx videoID videoURL video w).2.trace = w.trace ++ n :=
  (SimIf_processLoaded env env rfl rfl ctx videoID videoURL video video).1 w

/-- Two runs of `ProcessVideo` from worlds whose rows for the video differ at
most in the columns the pipeline overwrites: if the calls they make agree
outside the best-effort steps, they return the same result and make the same
critical-path calls. -/
theorem ProcessVideo_sim (env1 env2 : Env) (hnow : env1.now = env2.now)
    (huuid : env1.uuid = env2.uuid) (ctx : Ctx) (videoID videoURL : String) (wa wb : World)
    (hs : Sync wa wb)
    (hrows : ∀ va vb, wa.videos videoID = some va → wb.videos videoID = some vb →
      va.sameCore vb)
    (hag : AgreeOutside (newTrace wa (ProcessVideo env1 ctx videoID videoURL wa).2)
      (newTrace wb (ProcessVideo env2 ctx videoID videoURL wb).2)) :
    (ProcessVideo env1 ctx videoID videoURL wa).1 = (ProcessVideo env2 ctx videoID videoURL wb).1 ∧
    Sync (ProcessVideo env1 ctx videoID videoURL wa).2 (ProcessVideo env2 ctx videoID videoURL wb).2 ∧
    criticalCalls (newTrace wa (ProcessVideo env1 ctx videoID videoURL wa).2) =
      criticalCalls (newTrace wb (ProcessVideo env2 ctx videoID videoURL wb).2) := by
  obtain ⟨ra, hra, hPa⟩ := ProcessVideo_load env1 ctx videoID videoURL wa
  obtain ⟨rb, hrb, hPb⟩ := ProcessVideo_load env2 ctx videoID videoURL wb
  rw [hPa, hPb] at hag ⊢
  have hload : ∀ e : Entry, e.site = .loadVideo → criticalCalls [e] = [] := by
    intro e he
    simp [criticalCalls, he, Site.critical]
  cases ra with
  | error ea =>
    cases rb with
    | error eb =>
      simp only at hag ⊢
      have h := hag ⟨.loadVideo, .videoGetByID ctx videoID (.error ea)⟩ (by simp [newTrace])
        ⟨.loadVideo, .videoGetByID ctx videoID (.error eb)⟩ (by simp [newTrace]) rfl rfl
      simp only [Event.answer, Except.map, Answer.loaded.injEq, Except.error.injEq] at h
      subst h
      refine ⟨rfl, hs, ?_⟩
      simp [newTrace, criticalCalls, Site.critical]
    | ok vb =>
      simp only at hag
      obtain ⟨nb, hnb⟩ := processLoaded_extends env2 ctx videoID videoURL vb
        (wb.log .loadVideo (.videoGetByID ctx videoID (.ok vb)))
      have h := hag ⟨.loadVideo, .videoGetByID ctx videoID (.error ea)⟩ (by simp [newTrace])
        ⟨.loadVideo, .videoGetByID ctx videoID (.ok vb)⟩
        (by rw [newTrace, hnb]; simp) rfl rfl
      simp [Event.answer, Except.map] at h
  | ok va =>
    obtain ⟨na, hna⟩ := processLoaded_extends env1 ctx videoID videoURL va
      (wa.log .loadVideo (.videoGetByID ctx videoID (.ok va)))
    cases rb with
    | error eb =>
      simp only at hag
      have h := hag ⟨.loadVideo, .videoGetByID ctx videoID (.ok va)⟩
        (by rw [newTrace, hna]; simp)
        ⟨.loadVideo, .videoGetByID ctx videoID (.error eb)⟩ (by simp [newTrace]) rfl rfl
      simp [Event.answer, Except.map] at h
    | ok vb =>
      obtain ⟨nb, hnb⟩ := processLoaded_extends env2 ctx videoID videoURL vb
        (wb.log .loadVideo (.videoGetByID ctx videoID (.ok vb)))
      simp only at hag ⊢
      have hta : (processLoaded env1 ctx videoID videoURL va
          (wa.log .loadVideo (.videoGetByID ctx videoID (.ok va)))).2.trace =
          wa.trace ++ ([⟨.loadVideo, .videoGetByID ctx videoID (.ok va)⟩] ++ na) := by
        rw [hna, log_trace, List.append_assoc]
      have htb : (processLoaded env2 ctx videoID videoURL vb
          (wb.log .loadVideo (.videoGetByID ctx videoID (.ok vb)))).2.trace =
          wb.trace ++ ([⟨.loadVideo, .videoGetByID ctx videoID (.ok vb)⟩] ++ nb) := by
        rw [hnb, log_trace, List.append_assoc]
      rw [newTrace_eq hta, newTrace_eq htb] at hag ⊢
      have hsim := (SimIf_processLoaded env1 env2 hnow huuid ctx videoID videoURL va vb).2.2
        (hrows va vb (hra va rfl) (hrb vb rfl))
        (wa.log .loadVideo (.videoGetByID ctx videoID (.ok va)))
        (wb.log .loadVideo (.videoGetByID ctx videoID (.ok vb))) hs
      rw [newTrace_eq hna, newTrace_eq hnb] at hsim
      obtain ⟨hr, hsy, hcr⟩ := hsim (AgreeOutside_append hag).2
      refine ⟨eq_of_ResRel hr, hsy, ?_⟩
      rw [criticalCalls_append, criticalCalls_append, hload _ rfl, hload _ rfl, hcr]

theorem sameCore_refl (a : Video) : a.sameCore a := fun _ _ _ _ => rfl

theorem sameCore_join {a b c : Video} (h1 : a.sameCore c) (h2 : b.sameCore c) :
    a.sameCore b := fun D i s x => (h1 D i s x).trans (h2 D i s x).symm

/-- The row of a video after a status write with the record of the goroutine
differs from the row before it at most in status and time of update. -/
theorem sameCore_updateRow (row tv : Video) (s : VideoStatus) (x : Time)
    (h : row.sameCore tv) :
    (updateRow { tv with Status := s, UpdatedAt := x } row).sameCore tv := by
  intro D i s1 x1
  have h0 := h D i s1 x1
  simp only [Video.mk.injEq] at h0
  simp only [updateRow, Video.mk.injEq]
  obtain ⟨h1, h2, h3, h4, h5, h6, h7, h8, h9, h10, h11, h12, h13⟩ := h0
  exact ⟨h1, trivial, trivial, trivial, trivial, trivial, trivial, trivial, trivial, h10,
    trivial, h12, trivial⟩

theorem Update_frame (env : Env) (site : Site) (ctx : Ctx) (v : Video) (w : World) :
    (VideoRepository.Update env site ctx v w).2.ticks = w.ticks + 1 ∧
    (VideoRepository.Update env site ctx v w).2.uuids = w.uuids ∧
    ((VideoRepository.Update env site ctx v w).2.videos =
        (w.updateVideo { v with UpdatedAt := env.now w.ticks }).videos ∨
      (VideoRepository.Update env site ctx v w).2.videos = w.videos) := by
  simp only [VideoRepository.Update, tick_trace]
  cases env.videoUpdate w.trace.length ctx { v with UpdatedAt := env.now w.ticks }
  · exact ⟨rfl, rfl, Or.inl rfl⟩
  · exact ⟨rfl, rfl, Or.inr rfl⟩

theorem site_ne_markFinal (e : Entry)
    (h : e.preStep = true ∨ e.postStep = true ∨ ∃ r, e.ladderStep r = true) :
    e.site ≠ .markFinal ∧ e.site.critical = e.site.critical := by
  rcases e with ⟨site, ev⟩
  refine ⟨?_, rfl⟩
  rcases h with h | h | ⟨r, h⟩ <;>
    cases site <;> cases ev <;> simp_all [Entry.preStep, Entry.postStep, Entry.ladderStep]

theorem PipelineTrace_not_final {new : List Entry} {ok : Bool} (h : PipelineTrace new ok) :
    ∀ e ∈ new, e.site ≠ .markFinal := by
  obtain ⟨pre, ladder, post, rfl, hpre, hpost, -, -, hcase⟩ := h
  intro e he
  rcases List.mem_append.mp he with h1 | h1
  · rcases List.mem_append.mp h1 with h2 | h2
    · exact (site_ne_markFinal e (Or.inl (hpre e h2))).1
    · rcases hcase with ⟨rfl, -⟩ | ⟨okL, hl, -⟩
      · cases h2
      · obtain ⟨r, -, hs⟩ := LadderTrace_steps _ _ _ hl e h2
        exact (site_ne_markFinal e (Or.inr (Or.inr ⟨r, hs⟩))).1
  · exact (site_ne_markFinal e (Or.inr (Or.inl (hpost e h1)))).1

/-- The calls of a run of the goroutine: the status write to `processing`,
the calls of `ProcessVideo`, the last status write, which carries `failed` if
`ProcessVideo` returned an error and `complete` if not. -/
theorem backgroundRun_calls (env : Env) (t : BackgroundTask) (w : World) :
    ∃ v1 err1 wA newP vF errF,
      ((v1, err1), wA) = VideoRepository.Update env .markProcessing .background
        { t.video with Status := StatusProcessing } w ∧
      newTrace wA (ProcessVideo env .background t.videoID t.uploadURL wA).2 = newP ∧
      newTrace w (backgroundRun env t w).2 =
        [⟨.markProcessing, .videoUpdate .background v1 err1⟩] ++ newP ++
          [⟨.markFinal, .videoUpdate .background vF errF⟩] ∧
      vF.Status = (if resFailed (pipelineResult env t w) then StatusFailed else StatusComplete) ∧
      finalStatus (newTrace w (backgroundRun env t w).2) = some vF.Status ∧
      criticalCalls (newTrace w (backgroundRun env t w).2) = criticalCalls newP := by
  obtain ⟨v1, err1, wA, outP, newP, recs, vF, errF, post⟩ := backgroundRun_spec env t w _ rfl
  have hpipe : pipelineResult env t w = outP.1 := by
    unfold pipelineResult
    rw [← post.start]
    exact congrArg Prod.fst post.pipeline
  have hnewP : newTrace wA (ProcessVideo env .background t.videoID t.uploadURL wA).2 = newP := by
    rw [post.pipeline]
    exact newTrace_eq post.post.trace
  have hfin : ∀ e ∈ newP, e.site ≠ .markFinal := PipelineTrace_not_final post.post.shape
  refine ⟨v1, err1, wA, newP, vF, errF, post.start, hnewP, newTrace_eq post.trace, ?_, ?_, ?_⟩
  · rw [hpipe, post.last]
  · rw [newTrace_eq post.trace]
    have hmid : newP.filterMap
        (fun e => if e.site = .markFinal then e.statusAttempted else none) = [] := by
      rw [List.filterMap_eq_nil_iff]
      intro e he
      rw [if_neg (hfin e he)]
    unfold finalStatus
    rw [List.filterMap_append, List.filterMap_append, hmid]
    rfl
  · rw [newTrace_eq post.trace, criticalCalls_append, criticalCalls_append]
    simp [criticalCalls, Site.critical]

theorem AgreeOutside_middle {a x b d y e : List Entry}
    (h : AgreeOutside (a ++ x ++ b) (d ++ y ++ e)) : AgreeOutside x y :=
  fun e1 h1 e2 h2 =>
    h e1 (List.mem_append_left _ (List.mem_append_right _ h1))
      e2 (List.mem_append_left _ (List.mem_append_right _ h2))

/-- The row of the video after the status write to `processing`, whether the
write succeeded or not. -/
theorem row_after_first_write (env : Env) (t : BackgroundTask) (w : World)
    (hrow : ∀ row, w.videos t.videoID = some row → row.sameCore t.video)
    (v1 : Video) (err1 : Option String) (wA : World)
    (hA : ((v1, err1), wA) = VideoRepository.Update env .markProcessing .background
      { t.video with Status := StatusProcessing } w) :
    (wA.ticks = w.ticks + 1 ∧ wA.uuids = w.uuids) ∧
    ∀ row, wA.videos t.videoID = some row → row.sameCore t.video := by
  obtain ⟨ht, hu, hv⟩ := Update_frame env .markProcessing .background
    { t.video with Status := StatusProcessing } w
  rw [← hA] at ht hu hv
  refine ⟨⟨ht, hu⟩, ?_⟩
  intro row hr
  rcases hv with hv | hv
  · simp only at hv
    rw [hv, updateVideo_videos] at hr
    simp only at hr
    split at hr
    · cases h0 : w.videos t.videoID with
      | none => simp [h0] at hr
      | some row0 =>
        simp only [h0, Option.map_some', Option.some.injEq] at hr
        subst hr
        exact sameCore_updateRow row0 t.video StatusProcessing (env.now w.ticks) (hrow row0 h0)
    · exact hrow row hr
  · simp only at hv
    rw [hv] at hr
    exact hrow row hr

/-- C20 (best-effort failures do not change the outcome).  Take two runs of
the goroutine of `UploadVideo` for the same task from the same world, with the
same clock and uuid generator, the stored row agreeing with the record of the
goroutine on every column the pipeline does not overwrite.  If the two runs
differ at most in what their best-effort calls return (the status write to
`processing`, the thumbnail read and upload, the removal of the workspace,
the last status write), every other call made at the same site in both runs
having returned the same, then the two runs make the same critical-path
calls, with the same arguments and results, in the same order; `ProcessVideo`
returns the same result in both; and the last status write carries the same
status in both, `failed` if `ProcessVideo` returned an error and `complete`
if not. -/
theorem best_effort_failures_keep_outcome (env1 env2 : Env) (t : BackgroundTask) (w : World)
    (hnow : env1.now = env2.now) (huuid : env1.uuid = env2.uuid)
    (hrow : ∀ row, w.videos t.videoID = some row → row.sameCore t.video)
    (hagree : AgreeOutside (newTrace w (backgroundRun env1 t w).2)
      (newTrace w (backgroundRun env2 t w).2)) :
    criticalCalls (newTrace w (backgroundRun env1 t w).2) =
      criticalCalls (newTrace w (backgroundRun env2 t w).2) ∧
    pipelineResult env1 t w = pipelineResult env2 t w ∧
    finalStatus (newTrace w (backgroundRun env1 t w).2) =
      finalStatus (newTrace w (backgroundRun env2 t w).2) ∧
    finalStatus (newTrace w (backgroundRun env1 t w).2) =
      some (if resFailed (pipelineResult env1 t w) then StatusFailed else StatusComplete) := by
  obtain ⟨va, ea, wA, nA, fa, efa, hA, hnA, htA, hfa, hfinA, hcrA⟩ :=
    backgroundRun_calls env1 t w
  obtain ⟨vb, eb, wB, nB, fb, efb, hB, hnB, htB, hfb, hfinB, hcrB⟩ :=
    backgroundRun_calls env2 t w
  obtain ⟨⟨hta, hua⟩, hra⟩ := row_after_first_write env1 t w hrow va ea wA hA
  obtain ⟨⟨htb, hub⟩, hrb⟩ := row_after_first_write env2 t w hrow vb eb wB hB
  rw [htA, htB] at hagree
  have hag : AgreeOutside
      (newTrace wA (ProcessVideo env1 .background t.videoID t.uploadURL wA).2)
      (newTrace wB (ProcessVideo env2 .background t.videoID t.uploadURL wB).2) := by
    rw [hnA, hnB]
    exact AgreeOutside_middle hagree
  obtain ⟨hres, -, hcr⟩ := ProcessVideo_sim env1 env2 hnow huuid .background t.videoID
    t.uploadURL wA wB ⟨by rw [hta, htb], by rw [hua, hub]⟩
    (fun ra rb h1 h2 => sameCore_join (hra ra h1) (hrb rb h2)) hag
  have hpa : pipelineResult env1 t w =
      (ProcessVideo env1 .background t.videoID t.uploadURL wA).1 := by
    unfold pipelineResult
    rw [← hA]
  have hpb : pipelineResult env2 t w =
      (ProcessVideo env2 .background t.videoID t.uploadURL wB).1 := by
    unfold pipelineResult
    rw [← hB]
  have hpipe : pipelineResult env1 t w = pipelineResult env2 t w := by
    rw [hpa, hpb, hres]
  refine ⟨?_, hpipe, ?_, ?_⟩
  · rw [hcrA, hcrB, ← hnA, ← hnB, hcr]
  · rw [hfinA, hfinB, hfa, hfb, hpipe]
  · rw [hfinA, hfa]

theorem flaky_agree :
    AgreeOutside (newTrace demoWorld (backgroundRun (demoEnv 25 []) demoTask demoWorld).2)
      (newTrace demoWorld (backgroundRun flakyEnv demoTask demoWorld).2) := by
  simp [AgreeOutside, newTrace, backgroundRun, ProcessVideo, processInTempDir, resolutionLoop,
    resolutions, processResolution, segmentLoop, thumbnailStep, bind_apply, pure_apply,
    wrapErr, attempt, withDefer, call, checkErr, errResult, VideoRepository.GetByID,
    VideoRepository.Update, StorageRepository.GetFile, StorageRepository.UploadFile,
    TranscodeRepository.Transcode, TranscodeRepository.Segment, TranscodeRepository.GetVideoInfo,
    osMkdirTemp, osRemoveAll, osWriteFile, osReadFile, osMkdirAll, flakyEnv, demoEnv,
    demoTask, demoWorld, demoVideo, Site.bestEffort, Event.answer, Except.map]

theorem flaky_lengths :
    (newTrace demoWorld (backgroundRun (demoEnv 25 []) demoTask demoWorld).2).length = 18 ∧
    (newTrace demoWorld (backgroundRun flakyEnv demoTask demoWorld).2).length = 17 := by
  simp [newTrace, backgroundRun, ProcessVideo, processInTempDir, resolutionLoop,
    resolutions, processResolution, segmentLoop, thumbnailStep, bind_apply, pure_apply,
    wrapErr, attempt, withDefer, call, checkErr, errResult, VideoRepository.GetByID,
    VideoRepository.Update, StorageRepository.GetFile, StorageRepository.UploadFile,
    TranscodeRepository.Transcode, TranscodeRepository.Segment, TranscodeRepository.GetVideoInfo,
    osMkdirTemp, osRemoveAll, osWriteFile, osReadFile, osMkdirAll, flakyEnv, demoEnv,
    demoTask, demoWorld, demoVideo]

theorem best_effort_failures_keep_outcome_witness :
    AgreeOutside (newTrace demoWorld (backgroundRun (demoEnv 25 []) demoTask demoWorld).2)
      (newTrace demoWorld (backgroundRun flakyEnv demoTask demoWorld).2) ∧
    (newTrace demoWorld (backgroundRun (demoEnv 25 []) demoTask demoWorld).2).length = 18 ∧
    (newTrace demoWorld (backgroundRun flakyEnv demoTask demoWorld).2).length = 17 ∧
    criticalCalls (newTrace demoWorld (backgroundRun (demoEnv 25 []) demoTask demoWorld).2) =
      criticalCalls (newTrace demoWorld (backgroundRun flakyEnv demoTask demoWorld).2) ∧
    pipelineResult (demoEnv 25 []) demoTask demoWorld =
      pipelineResult flakyEnv demoTask demoWorld ∧
    finalStatus (newTrace demoWorld (backgroundRun (demoEnv 25 []) demoTask demoWorld).2) =
      finalStatus (newTrace demoWorld (backgroundRun flakyEnv demoTask demoWorld).2) ∧
    finalStatus (newTrace demoWorld (backgroundRun (demoEnv 25 []) demoTask demoWorld).2) =
      some (if resFailed (pipelineResult (demoEnv 25 []) demoTask demoWorld) then StatusFailed
        else StatusComplete) :=
  ⟨flaky_agree, flaky_lengths.1, flaky_lengths.2,
    best_effort_failures_keep_outcome (demoEnv 25 []) flakyEnv demoTask demoWorld rfl rfl
      (fun row h => by
        have hrow : row = demoVideo := by
          simpa [demoWorld, demoTask] using h.symm
        rw [hrow]
        exact sameCore_refl _)
      flaky_agree⟩

/-- C21 (not-found abort).  If the metadata store holds no row for the video
id, `ProcessVideo` returns an error right after the load: the load is the only
collaborator call of the run (no download, no probe, no encode or segment
call, no upload, no Video or Segment write), no row and no Segment record
changes, and nothing is started.  The error is the one of the load; when the
database reports no fault it is the not-found error of `GetByID`. -/
theorem not_found_aborts_immediately (env : Env) (ctx : Ctx) (videoID videoURL : String)
    (w : World) (hrow : w.videos videoID = none) :
    ∃ e, (ProcessVideo env ctx videoID videoURL w).1 = .error ("failed to get video: " ++ e) ∧
      newTrace w (ProcessVideo env ctx videoID videoURL w).2 =
        [⟨.loadVideo, .videoGetByID ctx videoID (.error e)⟩] ∧
      (ProcessVideo env ctx videoID videoURL w).2.videos = w.videos ∧
      (ProcessVideo env ctx videoID videoURL w).2.segments = w.segments ∧
      (ProcessVideo env ctx videoID videoURL w).2.spawned = w.spawned ∧
      (env.videoGetByID w.trace.length ctx videoID = none →
        e = "video with ID " ++ videoID ++ " not found") := by
  simp only [ProcessVideo, bind_apply, wrapErr, VideoRepository.GetByID, hrow]
  cases hf : env.videoGetByID w.trace.length ctx videoID with
  | some e => exact ⟨e, rfl, by simp [newTrace], rfl, rfl, rfl, by simp⟩
  | none =>
    exact ⟨"video with ID " ++ videoID ++ " not found", rfl, by simp [newTrace], rfl, rfl, rfl,
      fun _ => rfl⟩

/-- Witness of C21: a run for video `v1` on a metadata store with no rows. -/
theorem not_found_aborts_immediately_witness :
    emptyWorld.videos "v1" = none ∧
    ∃ e, (ProcessVideo (demoEnv 25 threeChunks) .background "v1" demoVideo.OriginalURL
        emptyWorld).1 = .error ("failed to get video: " ++ e) ∧
      newTrace emptyWorld (ProcessVideo (demoEnv 25 threeChunks) .background "v1"
        demoVideo.OriginalURL emptyWorld).2 =
        [⟨.loadVideo, .videoGetByID .background "v1" (.error e)⟩] ∧
      (ProcessVideo (demoEnv 25 threeChunks) .background "v1" demoVideo.OriginalURL
        emptyWorld).2.videos = emptyWorld.videos ∧
      (ProcessVideo (demoEnv 25 threeChunks) .background "v1" demoVideo.OriginalURL
        emptyWorld).2.segments = emptyWorld.segments ∧
      (ProcessVideo (demoEnv 25 threeChunks) .background "v1" demoVideo.OriginalURL
        emptyWorld).2.spawned = emptyWorld.spawned ∧
      ((demoEnv 25 threeChunks).videoGetByID emptyWorld.trace.length .background "v1" = none →
        e = "video with ID " ++ "v1" ++ " not found") :=
  ⟨rfl, not_found_aborts_immediately (demoEnv 25 threeChunks) .background "v1"
    demoVideo.OriginalURL emptyWorld rfl⟩

theorem id_of_first_slash (a b x y : List Char) (ha : '/' ∉ a) (hb : '/' ∉ b)
    (h : a ++ '/' :: x = b ++ '/' :: y) : a = b := by
  induction a generalizing b with
  | nil =>
    cases b with
    | nil => rfl
    | cons c b =>
      simp only [List.nil_append, List.cons_append, List.cons.injEq] at h
      exact absurd (h.1 ▸ List.mem_cons_self _ _) hb
  | cons c a ih =>
    cases b with
    | nil =>
      simp only [List.nil_append, List.cons_append, List.cons.injEq] at h
      exact absurd (h.1 ▸ List.mem_cons_self _ _) ha
    | cons d b =>
      simp only [List.cons_append, List.cons.injEq] at h
      rw [h.1, ih b (fun hm => ha (List.mem_cons_of_mem _ hm))
        (fun hm => hb (List.mem_cons_of_mem _ hm)) h.2]

/-- Every artifact path of a video is `uploads/<id>/...` or `videos/<id>/...`. -/
theorem ArtifactPath_shape {videoID p : String} (h : ArtifactPath videoID p) :
    ∃ (pre : List Char) (rest : List Char), (pre = "uploads/".data ∨ pre = "videos/".data) ∧
      p.data = pre ++ (videoID.data ++ '/' :: rest) := by
  cases h with
  | original fileName =>
    refine ⟨_, "original/".data ++ (filepathBase fileName).data, Or.inl rfl, ?_⟩
    simp only [originalStoragePath, String.data_append]
    simp
  | chunk r name =>
    refine ⟨_, r.data ++ "/".data ++ name.data, Or.inr rfl, ?_⟩
    simp only [chunkStoragePath, String.data_append]
    simp
  | thumbnail =>
    refine ⟨_, "thumbnail.jpg".data, Or.inr rfl, ?_⟩
    simp only [thumbnailStoragePath, String.data_append]
    simp

/-- C23 (storage paths of different videos).  For two distinct video ids that
contain no `/`, no artifact path written for the first (the original under
`uploads/<id>/original/`, a chunk `videos/<id>/<resolution>/<chunkFileName>`,
the thumbnail `videos/<id>/thumbnail.jpg`) equals an artifact path written for
the second, whatever the file names, resolutions and chunk file names. -/
theorem storage_paths_of_distinct_videos_differ (id1 id2 p1 p2 : String) (hne : id1 ≠ id2)
    (h1 : '/' ∉ id1.toList) (h2 : '/' ∉ id2.toList)
    (hp1 : ArtifactPath id1 p1) (hp2 : ArtifactPath id2 p2) : p1 ≠ p2 := by
  intro heq
  obtain ⟨pre1, rest1, hpre1, hd1⟩ := ArtifactPath_shape hp1
  obtain ⟨pre2, rest2, hpre2, hd2⟩ := ArtifactPath_shape hp2
  rw [heq, hd2] at hd1
  have hu : "uploads/".data = ['u', 'p', 'l', 'o', 'a', 'd', 's', '/'] := rfl
  have hv : "videos/".data = ['v', 'i', 'd', 'e', 'o', 's', '/'] := rfl
  have hids : id2.data ++ '/' :: rest2 = id1.data ++ '/' :: rest1 := by
    rcases hpre1 with rfl | rfl <;> rcases hpre2 with rfl | rfl
    · exact List.append_cancel_left hd1
    · rw [hu, hv] at hd1
      simp at hd1
    · rw [hu, hv] at hd1
      simp at hd1
    · exact List.append_cancel_left hd1
  exact hne (String.ext (id_of_first_slash _ _ _ _ h1 h2 hids.symm))

/-- Witness of C23: the original of `v1` against a chunk of `v2`. -/
theorem storage_paths_of_distinct_videos_differ_witness :
    "v1" ≠ "v2" ∧ '/' ∉ "v1".toList ∧ '/' ∉ "v2".toList ∧
      originalStoragePath "v1" "clip.mp4" ≠ chunkStoragePath "v2" "1080p" "segment_000.ts" :=
  ⟨by decide, by decide, by decide,
    storage_paths_of_distinct_videos_differ "v1" "v2" _ _ (by decide) (by decide) (by decide)
      (.original "clip.mp4") (.chunk "1080p" "segment_000.ts")⟩

theorem dropWhile_head {α : Type} (p : α → Bool) (l : List α) (a : α) (r : List α)
    (h : l.dropWhile p = a :: r) : p a = false := by
  induction l with
  | nil => simp at h
  | cons x xs ih =>
    rw [List.dropWhile_cons] at h
    split at h
    · exact ih h
    · simp only [List.cons.injEq] at h
      rw [← h.1]
      simpa using ‹¬ p x = true›

theorem filepathBase_cases (path : String) :
    (path = "" ∧ filepathBase path = ".") ∨
    (path ≠ "" ∧ (∀ c ∈ path.toList, c = '/') ∧ filepathBase path = "/") ∨
    (path ≠ "" ∧ (∃ c ∈ path.toList, c ≠ '/') ∧
      (filepathBase path).toList ≠ [] ∧ '/' ∉ (filepathBase path).toList) := by
  by_cases h0 : path = ""
  · left
    exact ⟨h0, by rw [h0]; decide⟩
  right
  simp only [filepathBase, h0, if_false, List.reverse_reverse, List.reverse_eq_nil_iff]
  rcases hd : path.toList.reverse.dropWhile (fun c => c == '/') with _ | ⟨a, r⟩
  · left
    refine ⟨h0, ?_, by simp⟩
    rw [List.dropWhile_eq_nil_iff] at hd
    intro c hc
    simpa using hd c (List.mem_reverse.mpr hc)
  · right
    have ha : (a == '/') = false := dropWhile_head _ _ a r hd
    have ha2 : (a != '/') = true := by simpa using ha
    have hne : List.takeWhile (fun c => c != '/') (a :: r) ≠ [] := by
      rw [List.takeWhile_cons, ha2]
      simp
    refine ⟨h0, ?_, ?_⟩
    · by_contra hall
      push_neg at hall
      have : path.toList.reverse.dropWhile (fun c => c == '/') = [] := by
        rw [List.dropWhile_eq_nil_iff]
        intro c hc
        simpa using hall c (List.mem_reverse.mp hc)
      rw [this] at hd
      exact absurd hd (by simp)
    · rw [if_neg hne]
      refine ⟨by simpa using hne, ?_⟩
      intro hm
      have hm2 : '/' ∈ List.takeWhile (fun c => c != '/') (a :: r) := by simpa using hm
      have := List.mem_takeWhile_imp hm2
      simp at this

theorem UploadVideo_first_call (env : Env) (ctx : Ctx) (input : VideoUploadInput) (w : World) :
    ∃ res rest, newTrace w (UploadVideo env ctx input w).2 =
      ⟨.storeOriginal, .uploadFile ctx (originalStoragePath (env.uuid w.uuids) input.FileName)
        input.FileData input.MimeType res⟩ :: rest := by
  rcases hup : env.uploadFile w.trace.length ctx (originalStoragePath (env.uuid w.uuids)
    input.FileName) input.FileData input.MimeType with e | url
  · rw [UploadVideo_uploadFails env ctx input w e hup]
    exact ⟨.error e, [], by simp [newTrace]⟩
  · rcases hcr : env.videoCreate (w.trace.length + 1) ctx
      (newVideo (env.uuid w.uuids) input url (env.now w.ticks) (env.now (w.ticks + 1))) with _ | e
    · obtain ⟨-, htr, -⟩ := UploadVideo_ok env ctx input w url _ hup hcr rfl
      exact ⟨_, _, by rw [newTrace_eq htr]⟩
    · rw [UploadVideo_createFails env ctx input w url e hup hcr]
      exact ⟨.ok url, [⟨.createVideo, .videoCreate ctx
        (newVideo (env.uuid w.uuids) input url (env.now w.ticks) (env.now (w.ticks + 1)))
        (some e)⟩], by simp [newTrace]⟩

/-- C24 (path of the original) does not hold of the code.  `UploadVideo`
passes the file name of the client through `filepath.Base` and nothing else,
and `filepath.Base` lets `..` through: an upload with the file name `..`
succeeds and stores the original at `uploads/id-0/original/..`, so the name
under `original/` is `..`.  Likewise the name is `.` for the empty file name
and `/`, the path separator itself, for the file name `/`. -/
theorem original_name_can_be_dot_dot :
    newTrace emptyWorld (UploadVideo (demoEnv 25 threeChunks) (.request 0 false)
        { demoInput with FileName := ".." } emptyWorld).2 =
      [⟨.storeOriginal, .uploadFile (.request 0 false) "uploads/id-0/original/.." [0, 0, 0, 24]
          "video/mp4" (.ok "http://store/bucket/uploads/id-0/original/..")⟩,
        ⟨.createVideo, .videoCreate (.request 0 false)
          (newVideo "id-0" { demoInput with FileName := ".." }
            "http://store/bucket/uploads/id-0/original/.." 0 1) none⟩] ∧
    filepathBase ".." = ".." ∧
    originalStoragePath "id-0" "" = "uploads/id-0/original/." ∧
    originalStoragePath "id-0" "/" = "uploads/id-0/original//" ∧
    filepathBase "/" = "/" := by
  refine ⟨?_, by decide, by decide, by decide, by decide⟩
  obtain ⟨-, htr, -⟩ := UploadVideo_ok (demoEnv 25 threeChunks) (.request 0 false)
    { demoInput with FileName := ".." } emptyWorld
    "http://store/bucket/uploads/id-0/original/.." _
    (by
      have hb : "http://store/bucket/" ++ originalStoragePath ("id-" ++ toString 0) ".." =
          "http://store/bucket/uploads/id-0/original/.." := by decide
      simp only [demoEnv, emptyWorld, hb]) rfl rfl
  rw [newTrace_eq htr]
  have hp : originalStoragePath ((demoEnv 25 threeChunks).uuid emptyWorld.uuids) ".." =
      "uploads/id-0/original/.." := by simp only [demoEnv, emptyWorld]; decide
  have hid : (demoEnv 25 threeChunks).uuid emptyWorld.uuids = "id-0" := by
    simp only [demoEnv, emptyWorld]; decide
  simp only [hid] at hp ⊢
  simp only [hp]
  rfl

/-- The path of the original as `UploadVideo` builds it.  For every upload,
the first collaborator call of `UploadVideo` is the write of the original at
`uploads/<videoId>/original/<name>`, where `<videoId>` is the id drawn for the
video and `<name>` is `filepath.Base` of the file name: `<name>` depends on
the file name alone, is never empty, is `.` for the empty file name, is `/`
exactly when the file name is not empty and consists of separators only, and
contains no separator in every other case. -/
theorem original_path_is_base_name (env : Env) (ctx : Ctx) (input : VideoUploadInput)
    (w : World) :
    (∃ res rest, newTrace w (UploadVideo env ctx input w).2 =
      ⟨.storeOriginal, .uploadFile ctx (originalStoragePath (env.uuid w.uuids) input.FileName)
        input.FileData input.MimeType res⟩ :: rest) ∧
    originalStoragePath (env.uuid w.uuids) input.FileName =
      "uploads/" ++ env.uuid w.uuids ++ "/original/" ++ filepathBase input.FileName ∧
    filepathBase input.FileName ≠ "" ∧
    (input.FileName = "" → filepathBase input.FileName = ".") ∧
    (filepathBase input.FileName = "/" ↔
      input.FileName ≠ "" ∧ ∀ c ∈ input.FileName.toList, c = '/') ∧
    (filepathBase input.FileName ≠ "/" → '/' ∉ (filepathBase input.FileName).toList) := by
  refine ⟨UploadVideo_first_call env ctx input w, rfl, ?_, ?_, ?_, ?_⟩
  all_goals generalize input.FileName = fileName
  · rcases filepathBase_cases fileName with h | h | h
    · rw [h.2]; decide
    · rw [h.2.2]; decide
    · intro he
      rw [he] at h
      exact h.2.2.1 rfl
  · intro h
    rcases filepathBase_cases fileName with h1 | h1 | h1
    · exact h1.2
    · exact absurd h h1.1
    · exact absurd h h1.1
  · constructor
    · intro h
      rcases filepathBase_cases fileName with h1 | h1 | h1
      · rw [h1.2] at h
        exact absurd h (by decide)
      · exact ⟨h1.1, h1.2.1⟩
      · rw [h] at h1
        exact absurd (by decide) h1.2.2.2
    · intro h
      rcases filepathBase_cases fileName with h1 | h1 | h1
      · exact absurd h1.1 h.1
      · exact h1.2.2
      · obtain ⟨c, hc, hne⟩ := h1.2.1
        exact absurd (h.2 c hc) hne
  · intro h
    rcases filepathBase_cases fileName with h1 | h1 | h1
    · rw [h1.2]; decide
    · exact absurd h1.2.2 h
    · exact h1.2.2.2

theorem nominal_sum (D : ℚ) (n : Nat) : ∀ m, m < n →
    ((List.range m).map (fun (k : Nat) =>
      if (k : Int) = (n : Int) - 1 ∧ D - (k : ℚ) * 10 < 10 then D - (k : ℚ) * 10 else 10)).sum =
      10 * (m : ℚ) := by
  intro m
  induction m with
  | zero => intro _; simp
  | succ m ih =>
    intro hm
    rw [List.range_succ, List.map_append, List.sum_append, ih (by omega)]
    have hne : ¬ ((m : Int) = (n : Int) - 1 ∧ D - (m : ℚ) * 10 < 10) := by
      intro h
      have := h.1
      omega
    simp only [List.map_cons, List.map_nil, List.sum_cons, List.sum_nil, if_neg hne]
    push_cast
    ring

theorem durations_sum (D : ℚ) (n : Nat) :
    ((List.range (n + 1)).map (fun (k : Nat) =>
      if (k : Int) = ((n + 1 : Nat) : Int) - 1 ∧ D - (k : ℚ) * 10 < 10 then D - (k : ℚ) * 10
      else 10)).sum =
      if D - (n : ℚ) * 10 < 10 then D else 10 * ((n : ℚ) + 1) := by
  rw [List.range_succ, List.map_append, List.sum_append, nominal_sum D (n + 1) n (by omega)]
  simp only [List.map_cons, List.map_nil, List.sum_cons, List.sum_nil]
  by_cases h : D - (n : ℚ) * 10 < 10
  · rw [if_pos ⟨by push_cast; ring, h⟩, if_pos h]
    ring
  · rw [if_neg (fun hc => h hc.2), if_neg h]
    ring

theorem ceil_15_div_10 : ⌈(15 : ℚ) / 10⌉₊ = 2 := by
  rw [Nat.ceil_eq_iff (by norm_num)]
  norm_num

/-- C28, as stated, fails in its last part: with a probed duration of 15 s and
a Segmenter that returns three chunks, which is not `ceil(15 / 10) = 2`, the
run succeeds and the three Segment records of 1080p have durations 10, 10 and
-5, whose sum is exactly 15. -/
theorem durations_sum_to_duration_with_extra_chunk :
    (demoRun 15 threeChunks).1 = .ok () ∧
    probeResult (newTrace demoWorld (demoRun 15 threeChunks).2) = some (15, 1920, 1080) ∧
    segmenterResult (newTrace demoWorld (demoRun 15 threeChunks).2) Resolution1080p =
      some threeChunks ∧
    threeChunks.length ≠ ⌈(15 : ℚ) / 10⌉₊ ∧
    (createdFor demoWorld (demoRun 15 threeChunks).2 "v1" Resolution1080p).map
      (fun seg => seg.Duration) = [10, 10, -5] ∧
    ((createdFor demoWorld (demoRun 15 threeChunks).2 "v1" Resolution1080p).map
      (fun seg => seg.Duration)).sum = 15 := by
  have hdur : (createdFor demoWorld (demoRun 15 threeChunks).2 "v1" Resolution1080p).map
      (fun seg => seg.Duration) = [10, 10, -5] := by
    rw [demoRun, ProcessVideo_durations (demoEnv 15 threeChunks) .background "v1"
      demoVideo.OriginalURL demoWorld Resolution1080p threeChunks 15 1920 1080
      (demoRun_ok 15 threeChunks) (demoRun_probe 15 threeChunks)
      (demoRun_chunks 15 threeChunks _ ladder_1080p)]
    have h3 : threeChunks.length = 3 := rfl
    rw [h3, range_three]
    norm_num
  refine ⟨demoRun_ok _ _, demoRun_probe _ _, demoRun_chunks _ _ _ ladder_1080p, ?_, hdur, ?_⟩
  · rw [ceil_15_div_10]
    decide
  · rw [hdur]
    norm_num

/-- C28, amended (sum of the durations).  In a successful run with probed
duration `D > 0` in which the Segmenter returned `n` chunks for resolution
`r`: the Segment records of `r` start at `0, 10, 20, ...`; every record but
the last has duration 10, so each record starts where the one before it ends;
if `n = ceil(D / 10)` the durations sum to exactly `D`; if `n < ceil(D / 10)`
they sum to `10 * n`, which is less than `D`. -/
theorem segment_durations_sum (env : Env) (ctx : Ctx) (videoID videoURL : String) (w : World)
    (r : Resolution) (cs : List String) (D : ℚ) (wd ht : Int)
    (hD : 0 < D)
    (hok : (ProcessVideo env ctx videoID videoURL w).1 = .ok ())
    (hp : probeResult (newTrace w (ProcessVideo env ctx videoID videoURL w).2) = some (D, wd, ht))
    (hcs : segmenterResult (newTrace w (ProcessVideo env ctx videoID videoURL w).2) r = some cs) :
    (createdFor w (ProcessVideo env ctx videoID videoURL w).2 videoID r).map
        (fun seg => seg.StartTime) = (List.range cs.length).map (fun (k : Nat) => (k : ℚ) * 10) ∧
    (∀ i a b, (createdFor w (ProcessVideo env ctx videoID videoURL w).2 videoID r)[i]? = some a →
      (createdFor w (ProcessVideo env ctx videoID videoURL w).2 videoID r)[i + 1]? = some b →
      a.Duration = 10 ∧ b.StartTime = a.StartTime + a.Duration) ∧
    (cs.length = ⌈D / 10⌉₊ →
      ((createdFor w (ProcessVideo env ctx videoID videoURL w).2 videoID r).map
        (fun seg => seg.Duration)).sum = D) ∧
    (cs.length < ⌈D / 10⌉₊ →
      ((createdFor w (ProcessVideo env ctx videoID videoURL w).2 videoID r).map
        (fun seg => seg.Duration)).sum = 10 * (cs.length : ℚ) ∧
      ((createdFor w (ProcessVideo env ctx videoID videoURL w).2 videoID r).map
        (fun seg => seg.Duration)).sum < D) := by
  have hdur := ProcessVideo_durations env ctx videoID videoURL w r cs D wd ht hok hp hcs
  have hlen := ProcessVideo_complete env ctx videoID videoURL w r cs hok hcs
  have hrec := ProcessVideo_created env ctx videoID videoURL w r cs D wd ht hp hcs
  refine ⟨ProcessVideo_startTimes env ctx videoID videoURL w r cs hok hcs, ?_, ?_, ?_⟩
  · intro i a b ha hb
    obtain ⟨p, id, url, t, -, hsa⟩ := hrec.2 i a ha
    obtain ⟨p1, id1, url1, t1, -, hsb⟩ := hrec.2 (i + 1) b hb
    have hi : i + 1 < cs.length := by
      have := (List.getElem?_eq_some_iff.mp hb).1
      omega
    have hda : a.Duration = 10 := by
      rw [hsa, mkSegment_Duration, if_neg]
      intro hc
      have := hc.1
      omega
    refine ⟨hda, ?_⟩
    rw [hda, hsa, hsb, mkSegment_StartTime, mkSegment_StartTime]
    push_cast
    ring
  · intro hceil
    have hn : ⌈D / 10⌉₊ ≤ cs.length := hceil.ge
    have hpos : 0 < ⌈D / 10⌉₊ := Nat.ceil_pos.mpr (by positivity)
    obtain ⟨m, hm⟩ : ∃ m, cs.length = m + 1 := ⟨cs.length - 1, by omega⟩
    have hle : D / 10 ≤ ((m + 1 : Nat) : ℚ) := by
      rw [hm] at hn
      exact Nat.ceil_le.mp hn
    push_cast at hle
    rw [hdur, hm, durations_sum]
    split
    · rfl
    · linarith
  · intro hn
    have hlt : (cs.length : ℚ) < D / 10 := Nat.lt_ceil.mp hn
    rcases Nat.eq_zero_or_pos cs.length with h0 | hpos
    · rw [hdur, h0]
      simp only [List.range_zero, List.map_nil, List.sum_nil, Nat.cast_zero, mul_zero]
      exact ⟨trivial, hD⟩
    · obtain ⟨m, hm⟩ : ∃ m, cs.length = m + 1 := ⟨cs.length - 1, by omega⟩
      rw [hm] at hlt
      push_cast at hlt
      rw [hdur, hm, durations_sum, if_neg (by linarith)]
      push_cast
      exact ⟨rfl, by linarith⟩

/-- Witness of the amended C28: a 25 s video cut in three chunks. -/
theorem segment_durations_sum_witness :
    (0 : ℚ) < 25 ∧
    (ProcessVideo (demoEnv 25 threeChunks) .background "v1" demoVideo.OriginalURL demoWorld).1 =
      .ok () ∧
    probeResult (newTrace demoWorld (demoRun 25 threeChunks).2) = some (25, 1920, 1080) ∧
    segmenterResult (newTrace demoWorld (demoRun 25 threeChunks).2) Resolution1080p =
      some threeChunks ∧
    threeChunks.length = ⌈(25 : ℚ) / 10⌉₊ ∧
    (createdFor demoWorld (demoRun 25 threeChunks).2 "v1" Resolution1080p).map
        (fun seg => seg.StartTime) =
      (List.range threeChunks.length).map (fun (k : Nat) => (k : ℚ) * 10) ∧
    (∀ i a b, (createdFor demoWorld (demoRun 25 threeChunks).2 "v1" Resolution1080p)[i]? = some a →
      (createdFor demoWorld (demoRun 25 threeChunks).2 "v1" Resolution1080p)[i + 1]? = some b →
      a.Duration = 10 ∧ b.StartTime = a.StartTime + a.Duration) ∧
    (threeChunks.length = ⌈(25 : ℚ) / 10⌉₊ →
      ((createdFor demoWorld (demoRun 25 threeChunks).2 "v1" Resolution1080p).map
        (fun seg => seg.Duration)).sum = 25) ∧
    (threeChunks.length < ⌈(25 : ℚ) / 10⌉₊ →
      ((createdFor demoWorld (demoRun 25 threeChunks).2 "v1" Resolution1080p).map
        (fun seg => seg.Duration)).sum = 10 * (threeChunks.length : ℚ) ∧
      ((createdFor demoWorld (demoRun 25 threeChunks).2 "v1" Resolution1080p).map
        (fun seg => seg.Duration)).sum < 25) :=
  ⟨by norm_num, demoRun_ok 25 threeChunks, demoRun_probe 25 threeChunks,
    demoRun_chunks 25 threeChunks _ ladder_1080p,
    by rw [ceil_25_div_10]; rfl,
    segment_durations_sum (demoEnv 25 threeChunks) .background "v1" demoVideo.OriginalURL
      demoWorld Resolution1080p threeChunks 25 1920 1080 (by norm_num) (demoRun_ok 25 threeChunks)
      (demoRun_probe 25 threeChunks) (demoRun_chunks 25 threeChunks _ ladder_1080p)⟩

theorem parseBool_true (v : String) (h : strconvParseBool v = some true) :
    stringsToLower v ∈ ["yes", "y", "true", "t", "1"] := by
  unfold strconvParseBool at h
  split at h
  · rename_i hm
    simp only [List.mem_cons, List.mem_singleton, List.not_mem_nil, or_false] at hm
    rcases hm with rfl | rfl | rfl | rfl | rfl | rfl <;> decide
  · split at h <;> simp at h

theorem parseBool_false (v : String) (h : strconvParseBool v = some false) :
    stringsToLower v ∉ ["yes", "y", "true", "t", "1"] := by
  unfold strconvParseBool at h
  split at h
  · simp at h
  · split at h
    · rename_i hm
      simp only [List.mem_cons, List.mem_singleton, List.not_mem_nil, or_false] at hm
      rcases hm with rfl | rfl | rfl | rfl | rfl | rfl <;> decide
    · simp at h

theorem getEnvBool_eq (environ : Environ) (key : String) (d : Bool)
    (hne : osGetenv environ key ≠ "") :
    getEnvBoolOrDefault environ key d =
      decide (stringsToLower (osGetenv environ key) ∈ ["yes", "y", "true", "t", "1"]) := by
  unfold getEnvBoolOrDefault
  simp only [hne, if_false]
  rcases hp : strconvParseBool (osGetenv environ key) with _ | b
  · simp only
    split <;> simp_all
  · simp only
    cases b with
    | true => simp [parseBool_true _ hp]
    | false => simp [parseBool_false _ hp]

/-- C29, as stated, fails for `getEnvBoolOrDefault` taken by itself: with
`FEATURE_FLAG=maybe`, a value that `strconv.ParseBool` rejects and that is
none of `yes`, `y`, `true`, `t`, `1`, and with the default `true`, the
function returns `false`, not the default. -/
theorem unrecognised_boolean_ignores_default :
    osGetenv maybeEnviron "FEATURE_FLAG" = "maybe" ∧
    strconvParseBool "maybe" = none ∧
    stringsToLower "maybe" ∉ ["yes", "y", "true", "t", "1"] ∧
    getEnvBoolOrDefault maybeEnviron "FEATURE_FLAG" true = false := by
  refine ⟨by decide, by decide, by decide, by decide⟩

/-- C29, amended (environment helpers).  `getEnvBoolOrDefault` returns the
default when the variable is unset or empty, `true` when the value is one of
`1`, `t`, `true`, `y`, `yes` in any letter case, and `false` when it is `0`,
`f` or `false`.  Called with the default `false`, as in its only call, the one
for `STORAGE_USE_SSL` in `Load`, it returns the default for every other
non-empty value as well: `Storage.UseSSL` is `true` exactly when the variable
spells `true`, and is the default `false` otherwise.  `getEnvIntOrDefault`
returns the default when the variable is unset, empty or not a decimal integer
in the range of `int`, and the integer otherwise. -/
theorem env_helpers_return_default_or_value (environ : Environ) (key : String) :
    (∀ d, environ key = none ∨ environ key = some "" → getEnvBoolOrDefault environ key d = d) ∧
    (∀ d, stringsToLower (osGetenv environ key) ∈ ["1", "t", "true", "y", "yes"] →
      getEnvBoolOrDefault environ key d = true) ∧
    (∀ d, osGetenv environ key ∈ ["0", "f", "false"] →
      getEnvBoolOrDefault environ key d = false) ∧
    (stringsToLower (osGetenv environ key) ∉ ["1", "t", "true", "y", "yes"] →
      getEnvBoolOrDefault environ key false = false) ∧
    (loadUseSSL environ = true ↔
      stringsToLower (osGetenv environ "STORAGE_USE_SSL") ∈ ["1", "t", "true", "y", "yes"]) ∧
    (∀ n, environ key = none ∨ environ key = some "" ∨ strconvAtoi (osGetenv environ key) = none →
      getEnvIntOrDefault environ key n = n) ∧
    (∀ n value, osGetenv environ key ≠ "" → strconvAtoi (osGetenv environ key) = some value →
      getEnvIntOrDefault environ key n = value) := by
  have hfalse : ∀ k, stringsToLower (osGetenv environ k) ∉ ["1", "t", "true", "y", "yes"] →
      getEnvBoolOrDefault environ k false = false := by
    intro k h
    by_cases hne : osGetenv environ k = ""
    · simp [getEnvBoolOrDefault, hne]
    · rw [getEnvBool_eq environ k false hne]
      simp only [List.mem_cons, List.mem_singleton, List.not_mem_nil, or_false] at h
      simp only [decide_eq_false_iff_not, List.mem_cons, List.mem_singleton, List.not_mem_nil,
        or_false]
      tauto
  have htrue : ∀ k d, stringsToLower (osGetenv environ k) ∈ ["1", "t", "true", "y", "yes"] →
      getEnvBoolOrDefault environ k d = true := by
    intro k d h
    have hne : osGetenv environ k ≠ "" := by
      intro h0
      rw [h0] at h
      exact absurd h (by decide)
    rw [getEnvBool_eq environ k d hne]
    simp only [List.mem_cons, List.mem_singleton, List.not_mem_nil, or_false] at h
    simp only [decide_eq_true_eq, List.mem_cons, List.mem_singleton, List.not_mem_nil, or_false]
    tauto
  refine ⟨?_, htrue key, ?_, hfalse key, ?_, ?_, ?_⟩
  · intro d h
    have : osGetenv environ key = "" := by
      rcases h with h | h <;> simp [osGetenv, h]
    simp [getEnvBoolOrDefault, this]
  · intro d h
    have hne : osGetenv environ key ≠ "" := by
      intro h0
      rw [h0] at h
      exact absurd h (by decide)
    rw [getEnvBool_eq environ key d hne]
    simp only [List.mem_cons, List.mem_singleton, List.not_mem_nil, or_false] at h
    rcases h with h | h | h <;> rw [h] <;> decide
  · constructor
    · intro h
      by_contra hn
      have := hfalse "STORAGE_USE_SSL" hn
      rw [loadUseSSL] at h
      rw [h] at this
      exact absurd this (by decide)
    · intro h
      exact htrue "STORAGE_USE_SSL" false h
  · intro n h
    unfold getEnvIntOrDefault
    rcases h with h | h | h
    · simp [osGetenv, h]
    · simp [osGetenv, h]
    · simp only [h]
      split <;> rfl
  · intro n value hne h
    unfold getEnvIntOrDefault
    simp only [hne, if_false, h]

/-- Witness of the amended C29: with `FEATURE_FLAG=maybe` and the default
`false`, `getEnvBoolOrDefault` returns the default. -/
theorem env_helpers_return_default_or_value_witness :
    stringsToLower (osGetenv maybeEnviron "FEATURE_FLAG") ∉ ["1", "t", "true", "y", "yes"] ∧
    getEnvBoolOrDefault maybeEnviron "FEATURE_FLAG" false = false :=
  ⟨by decide,
    (env_helpers_return_default_or_value maybeEnviron "FEATURE_FLAG").2.2.2.1 (by decide)⟩

theorem wrapInt_of_range (x : Int) (h0 : 0 ≤ x) (h1 : x < 2 ^ 63) : wrapInt x = x := by
  unfold wrapInt
  have h63 : (2 : Int) ^ 63 = 9223372036854775808 := by norm_num
  have h64 : (2 : Int) ^ 64 = 18446744073709551616 := by norm_num
  rw [h63, h64] at *
  omega

theorem pages_are_ceil (T limit : Int) (hT : 0 ≤ T) (hl : 1 ≤ limit) :
    ∃ k : Int, k = (if Int.tmod T limit ≠ 0 then Int.tdiv T limit + 1 else Int.tdiv T limit) ∧
      0 ≤ k ∧ k ≤ T ∧ T ≤ k * limit ∧ (∀ j : Int, T ≤ j * limit → k ≤ j) ∧
      k = ⌈(T : ℚ) / (limit : ℚ)⌉ := by
  have hl0 : (0 : Int) < limit := by omega
  have hdiv : Int.tdiv T limit = T / limit := Int.tdiv_eq_ediv hT (by omega)
  have hmod : Int.tmod T limit = T % limit := Int.tmod_eq_emod hT (by omega)
  have hdm := Int.ediv_add_emod T limit
  have hm0 := Int.emod_nonneg T (by omega : limit ≠ 0)
  have hm1 := Int.emod_lt_of_pos T hl0
  have hq0 : 0 ≤ T / limit := Int.ediv_nonneg hT (by omega)
  have hmul : limit * (T / limit) = (T / limit) * limit := mul_comm _ _
  have hqle : T / limit ≤ T := Int.ediv_le_self _ hT
  rw [hdiv, hmod]
  by_cases hz : T % limit = 0
  · refine ⟨T / limit, by simp [hz], hq0, hqle, ?_, ?_, ?_⟩
    · rw [← hmul]; omega
    · intro j hj
      by_contra hlt
      push_neg at hlt
      have : (j + 1) * limit ≤ (T / limit) * limit :=
        Int.mul_le_mul_of_nonneg_right (by omega) (by omega)
      have h2 : (j + 1) * limit = j * limit + limit := by ring
      omega
    · symm
      rw [Int.ceil_eq_iff]
      have hlq : (0 : ℚ) < (limit : ℚ) := by exact_mod_cast hl0
      have hTq : (T : ℚ) = ((T / limit : Int) : ℚ) * (limit : ℚ) := by
        have : T = (T / limit) * limit := by rw [← hmul]; omega
        exact_mod_cast this
      constructor
      · rw [lt_div_iff₀ hlq]
        rw [hTq]
        have : ((T / limit : Int) : ℚ) - 1 < ((T / limit : Int) : ℚ) := by linarith
        nlinarith
      · rw [div_le_iff₀ hlq]
        exact le_of_eq hTq
  · have hmpos : 0 < T % limit := by omega
    have hl2 : 2 ≤ limit := by
      by_contra h
      have h1 : limit = 1 := by omega
      rw [h1] at hz
      exact hz (Int.emod_one T)
    have hqT : T / limit + 1 ≤ T := by
      have h2 : 2 * (T / limit) ≤ limit * (T / limit) :=
        Int.mul_le_mul_of_nonneg_right hl2 hq0
      omega
    refine ⟨T / limit + 1, by simp [hz], by omega, hqT, ?_, ?_, ?_⟩
    · have : (T / limit + 1) * limit = (T / limit) * limit + limit := by ring
      rw [this, ← hmul]; omega
    · intro j hj
      by_contra hlt
      push_neg at hlt
      have : j * limit ≤ (T / limit) * limit :=
        Int.mul_le_mul_of_nonneg_right (by omega) (by omega)
      rw [← hmul] at this
      omega
    · symm
      rw [Int.ceil_eq_iff]
      have hlq : (0 : ℚ) < (limit : ℚ) := by exact_mod_cast hl0
      have hTq : (T : ℚ) = ((T / limit : Int) : ℚ) * (limit : ℚ) + ((T % limit : Int) : ℚ) := by
        have : T = (T / limit) * limit + T % limit := by rw [← hmul]; omega
        exact_mod_cast this
      have hmq : (0 : ℚ) < ((T % limit : Int) : ℚ) := by exact_mod_cast hmpos
      have hmq1 : ((T % limit : Int) : ℚ) < (limit : ℚ) := by exact_mod_cast hm1
      push_cast
      constructor
      · rw [lt_div_iff₀ hlq]
        rw [hTq]
        nlinarith
      · rw [div_le_iff₀ hlq]
        rw [hTq]
        nlinarith

/-- C30, as stated, fails: for page `2^62 + 1` and limit `2`, both valid `int`
values, the offset `(page - 1) * limit` is `2^63`, which wraps to `-2^63`:
`ListUsers` queries the repository with a negative offset, and a database
that rejects a negative `OFFSET` makes it fail. -/
theorem offset_can_be_negative :
    wrapInt (wrapInt ((2 ^ 62 + 1 : Int) - 1) * 2) = -2 ^ 63 ∧
    ListUsers strictUsers .background (2 ^ 62 + 1) 2 = .error "OFFSET must not be negative" ∧
    ListUsers strictUsers .background 1 2 =
      .ok { Users := [], TotalCount := 25, Page := 1, Limit := 2, TotalPages := 13 } := by
  refine ⟨by decide, ?_, ?_⟩
  · rfl
  · rfl

/-- C30, amended (pagination).  For `int` values `page` and `limit`,
`ListUsers` uses `page' = page` if `page ≥ 1` and `1` otherwise, and
`limit' = limit` if `limit ≥ 1` and `10` otherwise.  Whenever the product
`(page' - 1) * limit'` is below `2^63`, it queries the repository with
`limit'` and the offset `(page' - 1) * limit'`, which is not negative; it
returns the error of the repository, if any; and for a total count `T` with
`0 ≤ T < 2^63` it reports the users and `T` as returned, `page'`, `limit'`,
and `TotalPages = ceil(T / limit')`, the least `k` with `k * limit' ≥ T`. -/
theorem ListUsers_pagination (userRepo : UserLister) (ctx : Ctx) (page limit : Int)
    (hpage : page < 2 ^ 63)
    (hfit : ((if page < 1 then 1 else page) - 1) * (if limit < 1 then 10 else limit) < 2 ^ 63) :
    0 ≤ ((if page < 1 then 1 else page) - 1) * (if limit < 1 then 10 else limit) ∧
    (∀ e, userRepo ctx (if limit < 1 then 10 else limit)
        (((if page < 1 then 1 else page) - 1) * (if limit < 1 then 10 else limit)) = .error e →
      ListUsers userRepo ctx page limit = .error e) ∧
    (∀ users T, userRepo ctx (if limit < 1 then 10 else limit)
        (((if page < 1 then 1 else page) - 1) * (if limit < 1 then 10 else limit)) =
          .ok (users, T) →
      0 ≤ T → T < 2 ^ 63 →
      ∃ k : Int, ListUsers userRepo ctx page limit =
          .ok { Users := users
                TotalCount := T
                Page := if page < 1 then 1 else page
                Limit := if limit < 1 then 10 else limit
                TotalPages := k } ∧
        T ≤ k * (if limit < 1 then 10 else limit) ∧
        (∀ j : Int, T ≤ j * (if limit < 1 then 10 else limit) → k ≤ j) ∧
        k = ⌈(T : ℚ) / ((if limit < 1 then 10 else limit : Int) : ℚ)⌉ ∧
        (T = 0 → k = 0)) := by
  obtain ⟨p, hp⟩ : ∃ p : Int, p = if page < 1 then 1 else page := ⟨_, rfl⟩
  obtain ⟨l, hl⟩ : ∃ l : Int, l = if limit < 1 then 10 else limit := ⟨_, rfl⟩
  rw [← hp, ← hl] at hfit ⊢
  have hp1 : 1 ≤ p := by rw [hp]; split <;> omega
  have hl1 : 1 ≤ l := by rw [hl]; split <;> omega
  have hp2 : p < 2 ^ 63 := by rw [hp]; split <;> [norm_num; exact hpage]
  have hoff0 : 0 ≤ (p - 1) * l := mul_nonneg (by omega) (by omega)
  have hw1 : wrapInt (p - 1) = p - 1 := wrapInt_of_range _ (by omega) (by omega)
  have hw2 : wrapInt ((p - 1) * l) = (p - 1) * l := wrapInt_of_range _ hoff0 hfit
  have hcall : ∀ res, userRepo ctx l ((p - 1) * l) = res →
      ListUsers userRepo ctx page limit =
        match res with
        | .error err => .error err
        | .ok (users, totalCount) =>
          .ok { Users := users
                TotalCount := totalCount
                Page := p
                Limit := l
                TotalPages :=
                  if Int.tmod totalCount l ≠ 0 then wrapInt (wrapInt (Int.tdiv totalCount l) + 1)
                  else wrapInt (Int.tdiv totalCount l) } := by
    intro res hres
    simp only [ListUsers, ← hp, ← hl, hw1, hw2, hres]
  refine ⟨hoff0, fun e he => by rw [hcall _ he], fun users T hres hT0 hT1 => ?_⟩
  obtain ⟨k, hk, hk0, hkT, hkle, hkleast, hkceil⟩ := pages_are_ceil T l hT0 hl1
  have hq0 : 0 ≤ Int.tdiv T l := by
    rw [Int.tdiv_eq_ediv hT0 (by omega)]
    exact Int.ediv_nonneg hT0 (by omega)
  have hwq : wrapInt (Int.tdiv T l) = Int.tdiv T l := by
    apply wrapInt_of_range _ hq0
    split at hk <;> omega
  have hkk : (if Int.tmod T l ≠ 0 then wrapInt (Int.tdiv T l + 1) else Int.tdiv T l) = k := by
    rw [hk]
    split
    · rename_i hmod
      exact wrapInt_of_range _ (by omega) (by
        have : Int.tdiv T l + 1 = k := by rw [hk, if_pos hmod]
        omega)
    · rfl
  refine ⟨k, ?_, hkle, hkleast, hkceil, ?_⟩
  · rw [hcall _ hres]
    simp only [hwq, hkk]
  · intro h0
    subst h0
    omega

/-- Witness of the amended C30: the third page of ten of a table of 25 users. -/
theorem ListUsers_pagination_witness :
    (3 : Int) < 2 ^ 63 ∧
    ((if (3 : Int) < 1 then 1 else 3) - 1) * (if (10 : Int) < 1 then 10 else 10) < (2 : Int) ^ 63 ∧
    (0 : Int) ≤ ((if (3 : Int) < 1 then 1 else 3) - 1) * (if (10 : Int) < 1 then 10 else 10) ∧
    ∃ k : Int, ListUsers demoUsers .background 3 10 =
        .ok { Users := []
              TotalCount := 25
              Page := if (3 : Int) < 1 then 1 else 3
              Limit := if (10 : Int) < 1 then 10 else 10
              TotalPages := k } ∧
      25 ≤ k * (if (10 : Int) < 1 then 10 else 10) ∧
      (∀ j : Int, 25 ≤ j * (if (10 : Int) < 1 then 10 else 10) → k ≤ j) ∧
      k = ⌈((25 : Int) : ℚ) / ((if (10 : Int) < 1 then 10 else 10 : Int) : ℚ)⌉ ∧
      ((25 : Int) = 0 → k = 0) :=
  have h := ListUsers_pagination demoUsers .background 3 10 (by norm_num) (by norm_num)
  ⟨by norm_num, by norm_num, h.1, h.2.2 [] 25 rfl (by norm_num) (by norm_num)⟩

theorem digitChar_lt (a b : Nat) (hab : a < b) (hb : b < 10) :
    Nat.digitChar a < Nat.digitChar b := by
  interval_cases b <;> interval_cases a <;> decide

theorem chunkFile_toList (dir : String) (k : Nat) :
    (chunkFile dir k).toList = dir.toList ++ ("/segment_".toList ++ ((fmtPad3 k).toList ++
      ".ts".toList)) := by
  simp [chunkFile, filepathJoin, String.toList, String.data_append]

theorem chunkFile_lt_of_suffix (dir : String) (i j : Nat)
    (h : (fmtPad3 i).toList ++ ".ts".toList < (fmtPad3 j).toList ++ ".ts".toList) :
    chunkFile dir i < chunkFile dir j := by
  rw [String.lt_iff_toList_lt, chunkFile_toList, chunkFile_toList]
  exact List.Lex.append_left _ (List.Lex.append_left _ h _) _

/-- Below 1000 the file names are in chunk order. -/
theorem chunkFile_lt (dir : String) (i j : Nat) (hij : i < j) (hj : j < 1000) :
    chunkFile dir i < chunkFile dir j := by
  apply chunkFile_lt_of_suffix
  have hi : i < 1000 := by omega
  simp only [fmtPad3, hi, hj, if_true, String.toList, List.cons_append, List.nil_append]
  by_cases h2 : i / 100 < j / 100
  · exact List.Lex.rel (digitChar_lt _ _ h2 (by omega))
  · have e2 : i / 100 = j / 100 := by omega
    rw [e2]
    apply List.Lex.cons
    by_cases h1 : i / 10 % 10 < j / 10 % 10
    · exact List.Lex.rel (digitChar_lt _ _ h1 (by omega))
    · have e1 : i / 10 % 10 = j / 10 % 10 := by omega
      rw [e1]
      apply List.Lex.cons
      exact List.Lex.rel (digitChar_lt _ _ (by omega) (by omega))

theorem chunkFile_100_1000 (dir : String) : chunkFile dir 100 < chunkFile dir 1000 :=
  chunkFile_lt_of_suffix dir 100 1000 (by decide)

theorem chunkFile_1000_101 (dir : String) : chunkFile dir 1000 < chunkFile dir 101 :=
  chunkFile_lt_of_suffix dir 1000 101 (by decide)

theorem sortStrings_sorted (l : List String) : (sortStrings l).Sorted (fun a b => a ≤ b) :=
  List.sorted_insertionSort _ l

theorem sortStrings_perm (l : List String) : (sortStrings l).Perm l :=
  List.perm_insertionSort _ l

/-- Up to 1000 chunk files, the sorted listing is the list of the files in
chunk order. -/
theorem sortStrings_chunks (dir : String) (n : Nat) (hn : n ≤ 1000) :
    sortStrings ((List.range n).map (chunkFile dir)) = (List.range n).map (chunkFile dir) := by
  apply List.Sorted.insertionSort_eq
  rw [List.Sorted, List.pairwise_map]
  refine List.Pairwise.imp_of_mem ?_ (List.pairwise_lt_range n)
  intro a b _ hb hab
  exact le_of_lt (chunkFile_lt dir a b hab (by
    have := List.mem_range.mp hb
    omega))

theorem Segment_chunkShell (s : FFmpegService) (ctx : Ctx) (videoPath : String) (n : Nat) :
    s.Segment (chunkShell chunkDir n) ctx videoPath 10 (filepathJoin chunkDir "segment_%03d.ts") =
      .ok (sortStrings ((List.range n).map (chunkFile chunkDir))) := by
  have hpat : stringsReplaceFirst (filepathJoin chunkDir "segment_%03d.ts") "%03d" "*" =
      filepathJoin chunkDir "segment_*.ts" := by decide
  simp only [FFmpegService.Segment, chunkShell, hpat, if_true]

/-- Up to 1000 chunks, `Segment` returns the chunk files in chunk order. -/
theorem Segment_in_chunk_order (s : FFmpegService) (ctx : Ctx) (videoPath : String) (n : Nat)
    (hn : n ≤ 1000) :
    s.Segment (chunkShell chunkDir n) ctx videoPath 10 (filepathJoin chunkDir "segment_%03d.ts") =
      .ok ((List.range n).map (chunkFile chunkDir)) := by
  rw [Segment_chunkShell, sortStrings_chunks chunkDir n hn]

/-- The sorted listing of 1001 chunk files: the file of chunk 1000 comes
right after the file of chunk 100. -/
theorem sortStrings_1001 (dir : String) :
    sortStrings ((List.range 1001).map (chunkFile dir)) =
      (List.range 101 ++ 1000 :: List.range' 101 899).map (chunkFile dir) := by
  refine @List.eq_of_perm_of_sorted String (fun a b => a ≤ b) _ _ _ ?_ (sortStrings_sorted _) ?_
  rotate_left
  · rw [List.Sorted, List.pairwise_map, List.pairwise_append, List.pairwise_cons]
    refine ⟨?_, ⟨?_, ?_⟩, ?_⟩
    · refine List.Pairwise.imp_of_mem ?_ (List.pairwise_lt_range 101)
      intro a b _ hb hab
      exact le_of_lt (chunkFile_lt dir a b hab (by
        have := List.mem_range.mp hb
        omega))
    · intro b hb
      have hb2 := List.mem_range'_1.mp hb
      rcases Nat.eq_or_lt_of_le hb2.1 with h | h
      · rw [← h]
        exact le_of_lt (chunkFile_1000_101 dir)
      · exact le_of_lt (lt_trans (chunkFile_1000_101 dir)
          (chunkFile_lt dir 101 b h (by omega)))
    · refine List.Pairwise.imp_of_mem ?_ (List.pairwise_lt_range' 101 899)
      intro a b _ hb hab
      exact le_of_lt (chunkFile_lt dir a b hab (by
        have := List.mem_range'_1.mp hb
        omega))
    · intro a ha b hb
      have ha2 := List.mem_range.mp ha
      have h100 : chunkFile dir a ≤ chunkFile dir 100 := by
        rcases Nat.eq_or_lt_of_le (by omega : a ≤ 100) with h | h
        · rw [h]
        · exact le_of_lt (chunkFile_lt dir a 100 h (by omega))
      rcases List.mem_cons.mp hb with h | h
      · rw [h]
        exact le_trans h100 (le_of_lt (chunkFile_100_1000 dir))
      · have hb2 := List.mem_range'_1.mp h
        exact le_of_lt (chunkFile_lt dir a b (by omega) (by omega))
  · refine (sortStrings_perm _).trans (List.Perm.map _ ?_)
    have h1 : List.range 1001 = List.range 101 ++ (List.range' 101 899 ++ [1000]) := by
      have ha := List.range'_append 0 101 900 1
      have hb := List.range'_append 101 899 1 1
      simp only [Nat.zero_add, Nat.one_mul] at ha hb
      rw [List.range_eq_range', List.range_eq_range', ← ha, ← hb]
      rfl
    rw [h1]
    exact List.Perm.append_left _ (List.perm_append_singleton _ _)

theorem sorted_1001_at (dir : String) :
    (sortStrings ((List.range 1001).map (chunkFile dir)))[101]? = some (chunkFile dir 1000) ∧
    (sortStrings ((List.range 1001).map (chunkFile dir)))[102]? = some (chunkFile dir 101) := by
  rw [sortStrings_1001, List.map_append, List.map_cons]
  constructor
  · rw [List.getElem?_append_right (by simp)]
    simp
  · have hr : List.range' 101 899 = 101 :: List.range' 102 898 := List.range'_succ 101 898 1
    rw [List.getElem?_append_right (by simp), hr]
    simp

/-- C27 (order of the chunk files).  When ffmpeg has written `n > 1000` chunk
files under the pattern `segment_%03d.ts`, `Segment` succeeds and returns the
sorted listing, which holds exactly the `n` chunk files but not in chunk
order: it cannot hold the file of chunk 101 at position 101 and the file of
chunk 1000 at position 1000.  For `n = 1001` the file at position 101 is the
file of chunk 1000 and the file of chunk 101 is at position 102; and a run of
`ProcessVideo` on that list stores, for 1080p, a Segment record with
`SegmentIndex` 101 and `StartTime` 1010 for the file `segment_1000.ts`. -/
theorem Segment_misorders_from_chunk_1000 (s : FFmpegService) (ctx : Ctx) (videoPath : String)
    (n : Nat) (hn : 1000 < n) :
    ∃ l, s.Segment (chunkShell chunkDir n) ctx videoPath 10
        (filepathJoin chunkDir "segment_%03d.ts") = .ok l ∧
      l.Perm ((List.range n).map (chunkFile chunkDir)) ∧
      ¬ (l[101]? = some (chunkFile chunkDir 101) ∧ l[1000]? = some (chunkFile chunkDir 1000)) ∧
      (n = 1001 →
        l[101]? = some (chunkFile chunkDir 1000) ∧
        l[102]? = some (chunkFile chunkDir 101) ∧
        (demoRun 10010 l).1 = .ok () ∧
        segmenterResult (newTrace demoWorld (demoRun 10010 l).2) Resolution1080p = some l ∧
        ((createdFor demoWorld (demoRun 10010 l).2 "v1" Resolution1080p)[101]?).map
          (fun seg => seg.FileName) = some "segment_1000.ts" ∧
        ((createdFor demoWorld (demoRun 10010 l).2 "v1" Resolution1080p)[101]?).map
          (fun seg => seg.SegmentIndex) = some 101 ∧
        ((createdFor demoWorld (demoRun 10010 l).2 "v1" Resolution1080p)[101]?).map
          (fun seg => seg.StartTime) = some 1010) := by
  refine ⟨_, Segment_chunkShell s ctx videoPath n, sortStrings_perm _, ?_, ?_⟩
  · intro h
    have hs := sortStrings_sorted ((List.range n).map (chunkFile chunkDir))
    obtain ⟨h1, e1⟩ := List.getElem?_eq_some_iff.mp h.1
    obtain ⟨h2, e2⟩ := List.getElem?_eq_some_iff.mp h.2
    have hle := List.pairwise_iff_getElem.mp hs 101 1000 h1 h2 (by decide)
    rw [e1, e2] at hle
    exact absurd (chunkFile_1000_101 chunkDir) (not_lt.mpr hle)
  · intro h1001
    subst h1001
    have hat := sorted_1001_at chunkDir
    have hok := demoRun_ok 10010 (sortStrings ((List.range 1001).map (chunkFile chunkDir)))
    have hcs := demoRun_chunks 10010 (sortStrings ((List.range 1001).map (chunkFile chunkDir)))
      _ ladder_1080p
    have hlen : (sortStrings ((List.range 1001).map (chunkFile chunkDir))).length = 1001 := by
      rw [(sortStrings_perm _).length_eq]
      simp
    have hnames := ProcessVideo_fileNames _ _ _ _ _ _ _ hok hcs
    have hidx := ProcessVideo_indices _ _ _ _ _ _ _ hok hcs
    have hst := ProcessVideo_startTimes _ _ _ _ _ _ _ hok hcs
    refine ⟨hat.1, hat.2, hok, hcs, ?_, ?_, ?_⟩
    · have h := congrArg (fun x => x[101]?) hnames
      simp only [List.getElem?_map, hat.1, Option.map_some'] at h
      rw [demoRun, h]
      decide
    · have h := congrArg (fun x => x[101]?) hidx
      simp only [List.getElem?_map, hlen] at h
      rw [demoRun, h]
      simp only [List.getElem?_range (by decide : 101 < 1001), Option.map_some']
      rfl
    · have h := congrArg (fun x => x[101]?) hst
      simp only [List.getElem?_map, hlen] at h
      rw [demoRun, h]
      simp only [List.getElem?_range (by decide : 101 < 1001), Option.map_some']
      norm_num

/-- The failing input of C27: 1001 chunk files. -/
theorem Segment_misorders_from_chunk_1000_witness :
    1000 < 1001 ∧
    ∃ l, demoFFmpeg.Segment (chunkShell chunkDir 1001) .background
        "/tmp/video-processing-v1/1080p.mp4" 10 (filepathJoin chunkDir "segment_%03d.ts") =
          .ok l ∧
      l.Perm ((List.range 1001).map (chunkFile chunkDir)) ∧
      ¬ (l[101]? = some (chunkFile chunkDir 101) ∧ l[1000]? = some (chunkFile chunkDir 1000)) ∧
      (1001 = 1001 →
        l[101]? = some (chunkFile chunkDir 1000) ∧
        l[102]? = some (chunkFile chunkDir 101) ∧
        (demoRun 10010 l).1 = .ok () ∧
        segmenterResult (newTrace demoWorld (demoRun 10010 l).2) Resolution1080p = some l ∧
        ((createdFor demoWorld (demoRun 10010 l).2 "v1" Resolution1080p)[101]?).map
          (fun seg => seg.FileName) = some "segment_1000.ts" ∧
        ((createdFor demoWorld (demoRun 10010 l).2 "v1" Resolution1080p)[101]?).map
          (fun seg => seg.SegmentIndex) = some 101 ∧
        ((createdFor demoWorld (demoRun 10010 l).2 "v1" Resolution1080p)[101]?).map
          (fun seg => seg.StartTime) = some 1010) :=
  ⟨by decide, Segment_misorders_from_chunk_1000 demoFFmpeg .background
    "/tmp/video-processing-v1/1080p.mp4" 1001 (by decide)⟩

theorem alike_refl (w : World) : World.alike w w := ⟨rfl, rfl, rfl, rfl, rfl, rfl⟩

theorem Emits_mono {α : Type} {P Q : Entry → Prop} {p : M α} (h : Emits P p)
    (hPQ : ∀ e, P e → Q e) : Emits Q p := by
  intro wa wb hw
  obtain ⟨n, h1, h2, h3, h4, h5⟩ := h wa wb hw
  exact ⟨n, h1, h2, h3, h4, fun e he => hPQ e (h5 e he)⟩

theorem Emits_pure {α : Type} (P : Entry → Prop) (a : α) : Emits P (pure a : M α) := by
  intro wa wb hw
  exact ⟨[], by simp [pure_apply], by simp [pure_apply], rfl, hw, by simp⟩

theorem Emits_bind {α β : Type} {P : Entry → Prop} {m : M α} {f : α → M β}
    (hm : Emits P m) (hf : ∀ a, Emits P (f a)) : Emits P (m >>= f) := by
  intro wa wb hw
  obtain ⟨n, h1, h2, h3, h4, h5⟩ := hm wa wb hw
  rw [bind_apply, bind_apply]
  generalize m wa = outa at h1 h3 h4 ⊢
  generalize m wb = outb at h2 h3 h4 ⊢
  rcases outa with ⟨ra, wa1⟩
  rcases outb with ⟨rb, wb1⟩
  simp only at h1 h2 h3 h4
  subst h3
  cases ra with
  | error e => exact ⟨n, h1, h2, rfl, h4, h5⟩
  | ok a =>
    obtain ⟨n1, g1, g2, g3, g4, g5⟩ := hf a wa1 wb1 h4
    refine ⟨n ++ n1, ?_, ?_, g3, g4, ?_⟩
    · simp only []
      rw [g1, h1, List.append_assoc]
    · simp only []
      rw [g2, h2, List.append_assoc]
    · intro e he
      rcases List.mem_append.mp he with h | h
      · exact h5 e h
      · exact g5 e h

theorem Emits_wrapErr {α : Type} {P : Entry → Prop} {m : M α} (msg : String)
    (hm : Emits P m) : Emits P (wrapErr msg m) := by
  intro wa wb hw
  obtain ⟨n, h1, h2, h3, h4, h5⟩ := hm wa wb hw
  simp only [wrapErr]
  generalize m wa = outa at h1 h3 h4 ⊢
  generalize m wb = outb at h2 h3 h4 ⊢
  rcases outa with ⟨ra, wa1⟩
  rcases outb with ⟨rb, wb1⟩
  simp only at h1 h2 h3 h4
  subst h3
  cases ra <;> exact ⟨n, h1, h2, rfl, h4, h5⟩

theorem Emits_attempt {α : Type} {P : Entry → Prop} {m : M α}
    (hm : Emits P m) : Emits P (attempt m) := by
  intro wa wb hw
  obtain ⟨n, h1, h2, h3, h4, h5⟩ := hm wa wb hw
  exact ⟨n, h1, h2, by simp only [attempt]; rw [h3], h4, h5⟩

theorem Emits_checkErr (P : Entry → Prop) (msg : String) (err : Option String) :
    Emits P (checkErr msg err) := by
  intro wa wb hw
  cases err with
  | none => exact ⟨[], by simp [checkErr], by simp [checkErr], rfl, hw, by simp⟩
  | some e => exact ⟨[], by simp [checkErr], by simp [checkErr], rfl, hw, by simp⟩

/-- A call that asks an oracle at the current length of the trace and logs
what it was asked and what it answered. -/
theorem Emits_logged {α : Type} {P : Entry → Prop} (p : M α) (site : Site)
    (r : Nat → Except String α) (ev : Nat → Event)
    (h : ∀ w, p w = (r w.trace.length, w.log site (ev w.trace.length)))
    (hP : ∀ n, P ⟨site, ev n⟩) : Emits P p := by
  intro wa wb hw
  obtain ⟨hv, hs, ht, hk, hu, hp⟩ := hw
  rw [h wa, h wb, ht]
  exact ⟨[⟨site, ev wb.trace.length⟩], rfl, rfl, rfl,
    ⟨hv, hs, by simp [ht], hk, hu, hp⟩, by simpa using hP _⟩

theorem Emits_GetFile (env : Env) {P : Entry → Prop} (site : Site) (ctx : Ctx) (f : String)
    (hP : ∀ res, P ⟨site, .getFile ctx f res⟩) :
    Emits P (StorageRepository.GetFile env site ctx f) :=
  Emits_logged _ site (fun n => env.getFile n ctx f)
    (fun n => .getFile ctx f (env.getFile n ctx f)) (fun _ => rfl) (fun _ => hP _)

theorem Emits_UploadFile (env : Env) {P : Entry → Prop} (site : Site) (ctx : Ctx)
    (f : String) (d : Bytes) (ct : String)
    (hP : ∀ res, P ⟨site, .uploadFile ctx f d ct res⟩) :
    Emits P (StorageRepository.UploadFile env site ctx f d ct) :=
  Emits_logged _ site (fun n => env.uploadFile n ctx f d ct)
    (fun n => .uploadFile ctx f d ct (env.uploadFile n ctx f d ct)) (fun _ => rfl)
    (fun _ => hP _)

theorem Emits_Transcode (env : Env) {P : Entry → Prop} (site : Site) (ctx : Ctx)
    (i o : String) (r : Resolution) (fps : Int)
    (hP : ∀ err, P ⟨site, .transcode ctx i o r fps err⟩) :
    Emits P (TranscodeRepository.Transcode env site ctx i o r fps) :=
  Emits_logged _ site (fun n => errResult (env.transcode n ctx i o r fps))
    (fun n => .transcode ctx i o r fps (env.transcode n ctx i o r fps)) (fun _ => rfl)
    (fun _ => hP _)

theorem Emits_Segment (env : Env) {P : Entry → Prop} (site : Site) (ctx : Ctx)
    (v : String) (d : Int) (o : String)
    (hP : ∀ res, P ⟨site, .segment ctx v d o res⟩) :
    Emits P (TranscodeRepository.Segment env site ctx v d o) :=
  Emits_logged _ site (fun n => env.segment n ctx v d o)
    (fun n => .segment ctx v d o (env.segment n ctx v d o)) (fun _ => rfl) (fun _ => hP _)

theorem Emits_GetVideoInfo (env : Env) {P : Entry → Prop} (site : Site) (ctx : Ctx)
    (v : String) (hP : ∀ res, P ⟨site, .getVideoInfo ctx v res⟩) :
    Emits P (TranscodeRepository.GetVideoInfo env site ctx v) :=
  Emits_logged _ site (fun n => env.getVideoInfo n ctx v)
    (fun n => .getVideoInfo ctx v (env.getVideoInfo n ctx v)) (fun _ => rfl) (fun _ => hP _)

theorem Emits_MkdirTemp (env : Env) {P : Entry → Prop} (site : Site) (dir pattern : String)
    (hP : ∀ res, P ⟨site, .mkdirTemp dir pattern res⟩) :
    Emits P (osMkdirTemp env site dir pattern) :=
  Emits_logged _ site (fun n => env.mkdirTemp n dir pattern)
    (fun n => .mkdirTemp dir pattern (env.mkdirTemp n dir pattern)) (fun _ => rfl)
    (fun _ => hP _)

theorem Emits_WriteFile (env : Env) {P : Entry → Prop} (site : Site) (name : String)
    (d : Bytes) (perm : Nat) (hP : ∀ err, P ⟨site, .writeFile name d perm err⟩) :
    Emits P (osWriteFile env site name d perm) :=
  Emits_logged _ site (fun n => errResult (env.writeFile n name d perm))
    (fun n => .writeFile name d perm (env.writeFile n name d perm)) (fun _ => rfl)
    (fun _ => hP _)

theorem Emits_ReadFile (env : Env) {P : Entry → Prop} (site : Site) (name : String)
    (hP : ∀ res, P ⟨site, .readFile name res⟩) :
    Emits P (osReadFile env site name) :=
  Emits_logged _ site (fun n => env.readFile n name)
    (fun n => .readFile name (env.readFile n name)) (fun _ => rfl) (fun _ => hP _)

theorem Emits_MkdirAll (env : Env) {P : Entry → Prop} (site : Site) (path : String)
    (perm : Nat) (hP : ∀ err, P ⟨site, .mkdirAll path perm err⟩) :
    Emits P (osMkdirAll env site path perm) :=
  Emits_logged _ site (fun n => errResult (env.mkdirAll n path perm))
    (fun n => .mkdirAll path perm (env.mkdirAll n path perm)) (fun _ => rfl) (fun _ => hP _)

theorem Emits_GetByID (env : Env) {P : Entry → Prop} (site : Site) (ctx : Ctx) (id : String)
    (hP : ∀ res, P ⟨site, .videoGetByID ctx id res⟩) :
    Emits P (VideoRepository.GetByID env site ctx id) := by
  intro wa wb hw
  obtain ⟨hv, hs, ht, hk, hu, hp⟩ := hw
  simp only [VideoRepository.GetByID, hv, ht]
  exact ⟨[_], rfl, rfl, trivial, ⟨hv, hs, by simp [ht], hk, hu, hp⟩, by simpa using hP _⟩

theorem Emits_SegmentCreate (env : Env) {P : Entry → Prop} (site : Site) (ctx : Ctx)
    (seg : Segment) (hP : ∀ err, P ⟨site, .segmentCreate ctx seg err⟩) :
    Emits P (SegmentRepository.Create env site ctx seg) := by
  intro wa wb hw
  obtain ⟨hv, hs, ht, hk, hu, hp⟩ := hw
  simp only [SegmentRepository.Create, ht]
  cases env.segmentCreate wb.trace.length ctx seg with
  | none =>
    exact ⟨[_], rfl, rfl, rfl, ⟨hv, by simp [hs], by simp [ht], hk, hu, hp⟩, by simpa using hP _⟩
  | some e =>
    exact ⟨[_], rfl, rfl, rfl, ⟨hv, hs, by simp [ht], hk, hu, hp⟩, by simpa using hP _⟩

theorem Emits_timeNow (env : Env) (P : Entry → Prop) : Emits P (timeNow env) := by
  intro wa wb hw
  obtain ⟨hv, hs, ht, hk, hu, hp⟩ := hw
  simp only [timeNow, hk]
  exact ⟨[], by simp, by simp, trivial, ⟨hv, hs, ht, by simp [hk], hu, hp⟩, by simp⟩

theorem Emits_uuidNew (env : Env) (P : Entry → Prop) : Emits P (uuidNew env) := by
  intro wa wb hw
  obtain ⟨hv, hs, ht, hk, hu, hp⟩ := hw
  simp only [uuidNew, hu]
  exact ⟨[], by simp, by simp, trivial, ⟨hv, hs, ht, hk, by simp [hu], hp⟩, by simp⟩

theorem Emits_Update (env : Env) {P : Entry → Prop} (site : Site) (ctx : Ctx) (video : Video)
    (hP : ∀ v err, P ⟨site, .videoUpdate ctx v err⟩) :
    Emits P (call (VideoRepository.Update env site ctx video)) := by
  intro wa wb hw
  obtain ⟨hv, hs, ht, hk, hu, hp⟩ := hw
  simp only [call, VideoRepository.Update, tick_trace, ht, hk]
  cases env.videoUpdate wb.trace.length ctx { video with UpdatedAt := env.now wb.ticks } with
  | none =>
    exact ⟨[_], rfl, rfl, rfl, ⟨by simp [hv], hs, by simp [ht], by simp [hk], hu, hp⟩,
      by simpa using hP _ _⟩
  | some e =>
    exact ⟨[_], rfl, rfl, rfl, ⟨hv, hs, by simp [ht], by simp [hk], hu, hp⟩,
      by simpa using hP _ _⟩

theorem Emits_withDefer {α : Type} (env : Env) {P : Entry → Prop} {p : M α} (site : Site)
    (path : String) (hp : Emits P p) (hP : ∀ err, P ⟨site, .removeAll path err⟩) :
    Emits P (withDefer (osRemoveAll env site path) p) := by
  intro wa wb hw
  obtain ⟨n, h1, h2, h3, h4, h5⟩ := hp wa wb hw
  obtain ⟨hv, hs, ht, hk, hu, hsp⟩ := h4
  simp only [withDefer, osRemoveAll, ht]
  refine ⟨n ++ [⟨site, .removeAll path (env.removeAll (p wb).2.trace.length path)⟩], ?_, ?_, h3,
    ⟨hv, hs, by simp [ht], hk, hu, hsp⟩, ?_⟩
  · rw [log_trace, h1, List.append_assoc]
  · rw [log_trace, h2, List.append_assoc]
  · intro e he
    rcases List.mem_append.mp he with h | h
    · exact h5 e h
    · simp only [List.mem_singleton] at h
      rw [h]
      exact hP _

/-- The chunk loop makes calls of the body only. -/
theorem Emits_segmentLoop (env : Env) (ctx : Ctx) (videoID : String) (r : Resolution) (D : ℚ)
    (len : Nat) : ∀ (files : List String) (i : Nat),
    Emits (fun e => e.bodyCall ctx = true) (segmentLoop env ctx videoID r D len i files) := by
  intro files
  induction files with
  | nil =>
    intro i
    simp only [segmentLoop]
    exact Emits_pure _ ()
  | cons p rest ih =>
    intro i
    simp only [segmentLoop]
    refine Emits_bind (Emits_wrapErr _ (Emits_ReadFile env _ _ (fun _ => rfl))) (fun d => ?_)
    refine Emits_bind (Emits_wrapErr _ (Emits_UploadFile env _ ctx _ _ _
      (fun _ => by simp [Entry.bodyCall]))) (fun u => ?_)
    refine Emits_bind (Emits_uuidNew env _) (fun id => ?_)
    refine Emits_bind (Emits_timeNow env _) (fun t => ?_)
    refine Emits_bind (Emits_wrapErr _ (Emits_SegmentCreate env _ ctx _
      (fun _ => by simp [Entry.bodyCall]))) (fun _ => ?_)
    exact ih (i + 1)

theorem Emits_processResolution (env : Env) (ctx : Ctx) (videoID tempDir orig : String) (D : ℚ)
    (r : Resolution) :
    Emits (fun e => e.bodyCall ctx = true) (processResolution env ctx videoID tempDir orig D r) := by
  simp only [processResolution]
  refine Emits_bind (Emits_wrapErr _ (Emits_Transcode env _ ctx _ _ _ _
    (fun _ => by simp [Entry.bodyCall]))) (fun _ => ?_)
  refine Emits_bind (Emits_wrapErr _ (Emits_MkdirAll env _ _ _ (fun _ => rfl))) (fun _ => ?_)
  refine Emits_bind (Emits_wrapErr _ (Emits_Segment env _ ctx _ _ _
    (fun _ => by simp [Entry.bodyCall]))) (fun cs => ?_)
  exact Emits_segmentLoop env ctx videoID r D _ cs 0

theorem Emits_resolutionLoop (env : Env) (ctx : Ctx) (videoID tempDir orig : String) (D : ℚ) :
    ∀ rs : List Resolution,
    Emits (fun e => e.bodyCall ctx = true) (resolutionLoop env ctx videoID tempDir orig D rs) := by
  intro rs
  induction rs with
  | nil =>
    simp only [resolutionLoop]
    exact Emits_pure _ ()
  | cons r rest ih =>
    simp only [resolutionLoop]
    exact Emits_bind (Emits_processResolution env ctx videoID tempDir orig D r) (fun _ => ih)

theorem Emits_thumbnailStep (env : Env) (ctx : Ctx) (videoID tempDir : String) (video : Video) :
    Emits (fun e => e.bodyCall ctx = true) (thumbnailStep env ctx videoID tempDir video) := by
  simp only [thumbnailStep]
  refine Emits_bind (Emits_attempt (Emits_ReadFile env _ _ (fun _ => rfl))) (fun d => ?_)
  cases d with
  | error e => exact Emits_pure _ _
  | ok d =>
    refine Emits_bind (Emits_attempt (Emits_UploadFile env _ ctx _ _ _
      (fun _ => by simp [Entry.bodyCall]))) (fun u => ?_)
    cases u with
    | error e => exact Emits_pure _ _
    | ok u => exact Emits_pure _ _

theorem Emits_processUpdated (env : Env) (ctx : Ctx) (videoID tempDir orig : String) (D : ℚ)
    (video : Video) :
    Emits (fun e => e.bodyCall ctx = true)
      (processUpdated env ctx videoID tempDir orig D video) := by
  simp only [processUpdated]
  refine Emits_bind (Emits_resolutionLoop env ctx videoID tempDir orig D _) (fun _ => ?_)
  refine Emits_bind (Emits_thumbnailStep env ctx videoID tempDir video) (fun v => ?_)
  refine Emits_bind (Emits_Update env _ ctx _ (fun _ _ => by simp [Entry.bodyCall]))
    (fun p => ?_)
  exact Emits_checkErr _ _ _

theorem Emits_processProbed (env : Env) (ctx : Ctx) (videoID tempDir orig : String)
    (video : Video) (D : ℚ) (wd ht : Int) :
    Emits (fun e => e.bodyCall ctx = true)
      (processProbed env ctx videoID tempDir orig video D wd ht) := by
  simp only [processProbed]
  refine Emits_bind (Emits_Update env _ ctx _ (fun _ _ => by simp [Entry.bodyCall]))
    (fun p => ?_)
  refine Emits_bind (Emits_checkErr _ _ _) (fun _ => ?_)
  exact Emits_processUpdated env ctx videoID tempDir orig D _

theorem processInTempDir_eq (env : Env) (ctx : Ctx) (videoID videoURL : String)
    (video : Video) (tempDir : String) :
    processInTempDir env ctx videoID videoURL video tempDir =
      (wrapErr "failed to download video: "
          (StorageRepository.GetFile env .download ctx videoURL) >>= fun videoData =>
        wrapErr "failed to save video to temp dir: "
          (osWriteFile env .writeOriginal (filepathJoin tempDir "original.mp4") videoData
            0o644) >>= fun _ =>
        wrapErr "failed to get video info: "
          (TranscodeRepository.GetVideoInfo env .probe ctx
            (filepathJoin tempDir "original.mp4")) >>= fun x =>
        processProbed env ctx videoID tempDir (filepathJoin tempDir "original.mp4") video
          x.1 x.2.1 x.2.2) := rfl

theorem Emits_processInTempDir (env : Env) (ctx : Ctx) (videoID videoURL : String)
    (video : Video) (tempDir : String) :
    Emits (fun e => e.bodyCall ctx = true)
      (processInTempDir env ctx videoID videoURL video tempDir) := by
  rw [processInTempDir_eq]
  refine Emits_bind (Emits_wrapErr _ (Emits_GetFile env _ ctx _
    (fun _ => by simp [Entry.bodyCall]))) (fun d => ?_)
  refine Emits_bind (Emits_wrapErr _ (Emits_WriteFile env _ _ _ _ (fun _ => rfl))) (fun _ => ?_)
  refine Emits_bind (Emits_wrapErr _ (Emits_GetVideoInfo env _ ctx _
    (fun _ => by simp [Entry.bodyCall]))) (fun x => ?_)
  exact Emits_processProbed env ctx videoID tempDir _ video _ _ _

theorem bodyCall_usesCtx (ctx : Ctx) (e : Entry) (h : e.bodyCall ctx = true) :
    e.usesCtx ctx := by
  intro c hc
  rcases e with ⟨site, ev⟩
  cases ev <;> cases site <;>
    simp_all [Entry.bodyCall, Event.ctx]

theorem bodyCall_facts (ctx : Ctx) (e : Entry) (h : e.bodyCall ctx = true) :
    e.site ≠ .loadVideo ∧ e.site ≠ .makeTempDir ∧ e.site ≠ .cleanup ∧
    e.site ≠ .markProcessing ∧ e.site ≠ .markFinal ∧
    (∀ d p r, e.event ≠ .mkdirTemp d p r) ∧ (∀ p err, e.event ≠ .removeAll p err) := by
  rcases e with ⟨site, ev⟩
  cases ev <;> cases site <;>
    simp_all [Entry.bodyCall]

/-- Every call of `ProcessVideo` is made with the context it was given. -/
theorem Emits_ProcessVideo (env : Env) (ctx : Ctx) (videoID videoURL : String) :
    Emits (fun e => e.usesCtx ctx) (ProcessVideo env ctx videoID videoURL) := by
  simp only [ProcessVideo]
  refine Emits_bind (Emits_wrapErr _ (Emits_GetByID env _ ctx _
    (fun _ c hc => by simpa [Event.ctx] using hc.symm))) (fun video => ?_)
  refine Emits_bind (Emits_wrapErr _ (Emits_MkdirTemp env _ _ _
    (fun _ c hc => by simp [Event.ctx] at hc))) (fun tempDir => ?_)
  exact Emits_withDefer env _ _
    (Emits_mono (Emits_processInTempDir env ctx videoID videoURL video tempDir)
      (bodyCall_usesCtx ctx))
    (fun _ c hc => by simp [Event.ctx] at hc)

/-- The goroutine of `UploadVideo` makes every call with the background
context, and does not depend on the entries of the trace it starts from. -/
theorem Emits_backgroundRun (env : Env) (t : BackgroundTask) :
    Emits (fun e => e.usesCtx .background) (backgroundRun env t) := by
  simp only [backgroundRun]
  refine Emits_bind (Emits_Update env _ _ _
    (fun _ _ c hc => by simpa [Event.ctx] using hc.symm)) (fun p => ?_)
  refine Emits_bind (Emits_attempt (Emits_ProcessVideo env .background t.videoID t.uploadURL))
    (fun r => ?_)
  refine Emits_bind (Emits_Update env _ _ _
    (fun _ _ c hc => by simpa [Event.ctx] using hc.symm)) (fun q => ?_)
  exact Emits_pure _ ()

theorem heldAfter_bodyCall (ctx : Ctx) (held : List String) (e : Entry)
    (h : e.bodyCall ctx = true) : heldAfter held e = held := by
  rcases e with ⟨site, ev⟩
  cases ev <;> cases site <;> simp_all [Entry.bodyCall, heldAfter]

theorem foldl_heldAfter_body (ctx : Ctx) (l : List Entry) (h : ∀ e ∈ l, e.bodyCall ctx = true) :
    ∀ held, l.foldl heldAfter held = held := by
  induction l with
  | nil => intro held; rfl
  | cons e rest ih =>
    intro held
    rw [List.foldl_cons, heldAfter_bodyCall ctx held e (h e (List.mem_cons_self _ _))]
    exact ih (fun x hx => h x (List.mem_cons_of_mem _ hx)) held

/-- The calls of a run of `ProcessVideo`: the load alone, if it fails; the
load and the failed creation of the workspace; or the load, the creation of
the workspace `tempDir`, calls of the body, and the removal of `tempDir`. -/
theorem ProcessVideo_workspace (env : Env) (ctx : Ctx) (videoID videoURL : String) (w : World) :
    (∃ e, newTrace w (ProcessVideo env ctx videoID videoURL w).2 =
        [⟨.loadVideo, .videoGetByID ctx videoID (.error e)⟩]) ∨
    (∃ video e, newTrace w (ProcessVideo env ctx videoID videoURL w).2 =
        [⟨.loadVideo, .videoGetByID ctx videoID (.ok video)⟩,
          ⟨.makeTempDir, .mkdirTemp "" ("video-processing-" ++ videoID) (.error e)⟩]) ∨
    (∃ video tempDir body err, newTrace w (ProcessVideo env ctx videoID videoURL w).2 =
        [⟨.loadVideo, .videoGetByID ctx videoID (.ok video)⟩,
          ⟨.makeTempDir, .mkdirTemp "" ("video-processing-" ++ videoID) (.ok tempDir)⟩] ++
          body ++ [⟨.cleanup, .removeAll tempDir err⟩] ∧
      (∀ e ∈ body, e.bodyCall ctx = true) ∧
      (ProcessVideo env ctx videoID videoURL w).1 =
        (processInTempDir env ctx videoID videoURL video tempDir
          ((w.log .loadVideo (.videoGetByID ctx videoID (.ok video))).log .makeTempDir
            (.mkdirTemp "" ("video-processing-" ++ videoID) (.ok tempDir)))).1 ∧
      (processInTempDir env ctx videoID videoURL video tempDir
          ((w.log .loadVideo (.videoGetByID ctx videoID (.ok video))).log .makeTempDir
            (.mkdirTemp "" ("video-processing-" ++ videoID) (.ok tempDir)))).2.trace =
        ((w.log .loadVideo (.videoGetByID ctx videoID (.ok video))).log .makeTempDir
          (.mkdirTemp "" ("video-processing-" ++ videoID) (.ok tempDir))).trace ++ body ∧
      w.videos videoID = some video) := by
  obtain ⟨res, hres, hPV⟩ := ProcessVideo_load env ctx videoID videoURL w
  rw [hPV]
  cases res with
  | error e => exact Or.inl ⟨e, by simp [newTrace]⟩
  | ok video =>
    right
    simp only [processLoaded, bind_apply, wrapErr, osMkdirTemp, withDefer, osRemoveAll]
    rcases env.mkdirTemp (w.log Site.loadVideo (Event.videoGetByID ctx videoID
      (Except.ok video))).trace.length "" ("video-processing-" ++ videoID) with e | tempDir
    · exact Or.inl ⟨video, e, by simp [newTrace]⟩
    · right
      simp only []
      obtain ⟨n, hn, -, -, -, hbody⟩ :=
        Emits_processInTempDir env ctx videoID videoURL video tempDir _ _
          (alike_refl ((w.log .loadVideo (.videoGetByID ctx videoID (.ok video))).log .makeTempDir
            (.mkdirTemp "" ("video-processing-" ++ videoID) (.ok tempDir))))
      refine ⟨video, tempDir, n, env.removeAll
        (processInTempDir env ctx videoID videoURL video tempDir
          ((w.log .loadVideo (.videoGetByID ctx videoID (.ok video))).log .makeTempDir
            (.mkdirTemp "" ("video-processing-" ++ videoID) (.ok tempDir)))).2.trace.length
        tempDir, ?_, hbody, rfl, hn, hres video rfl⟩
      rw [newTrace, log_trace, hn]
      simp

/-- C22, as stated, fails: with collaborators that all succeed except the
removal of directories, the run of `ProcessVideo` for `v1` returns without an
error, its last call is the removal of the workspace
`/tmp/video-processing-v1`, that removal failed, and the workspace is still
held when the run returns. -/
theorem workspace_held_after_failed_removal :
    (ProcessVideo removeFailsEnv .background "v1" demoVideo.OriginalURL demoWorld).1 = .ok () ∧
    (newTrace demoWorld
        (ProcessVideo removeFailsEnv .background "v1" demoVideo.OriginalURL demoWorld).2).getLast? =
      some ⟨.cleanup, .removeAll "/tmp/video-processing-v1" (some "device or resource busy")⟩ ∧
    workspacesHeld (newTrace demoWorld
        (ProcessVideo removeFailsEnv .background "v1" demoVideo.OriginalURL demoWorld).2) =
      ["/tmp/video-processing-v1"] := by
  have hdir : "/tmp/" ++ ("video-processing-" ++ "v1") = "/tmp/video-processing-v1" := by decide
  simp [newTrace, ProcessVideo, processInTempDir, resolutionLoop, resolutions,
    processResolution, segmentLoop, thumbnailStep, bind_apply, pure_apply,
    wrapErr, attempt, withDefer, call, checkErr, errResult, VideoRepository.GetByID,
    VideoRepository.Update, StorageRepository.GetFile, StorageRepository.UploadFile,
    TranscodeRepository.Transcode, TranscodeRepository.Segment, TranscodeRepository.GetVideoInfo,
    osMkdirTemp, osRemoveAll, osWriteFile, osReadFile, osMkdirAll, removeFailsEnv, demoEnv,
    demoWorld, demoVideo, workspacesHeld, heldAfter, hdir]

/-- C22, amended (release of the workspace).  In every run of `ProcessVideo`
that acquired a workspace `tempDir`, whether the run ends with or without an
error, the last call before `ProcessVideo` returns is the removal of
`tempDir`; no other call of the run is a removal or is made at that site; the
result of the removal is not inspected, and the workspace is released exactly
when the removal reports no error: it is still held when the removal
failed. -/
theorem workspace_removal_is_last_call (env : Env) (ctx : Ctx) (videoID videoURL : String)
    (w : World) (tempDir : String)
    (hacq : (⟨.makeTempDir, .mkdirTemp "" ("video-processing-" ++ videoID) (.ok tempDir)⟩ : Entry) ∈
      newTrace w (ProcessVideo env ctx videoID videoURL w).2) :
    ∃ body err,
      newTrace w (ProcessVideo env ctx videoID videoURL w).2 =
        body ++ [⟨.cleanup, .removeAll tempDir err⟩] ∧
      (∀ e ∈ body, e.site ≠ .cleanup ∧ ∀ p x, e.event ≠ .removeAll p x) ∧
      (err = none → workspacesHeld (newTrace w (ProcessVideo env ctx videoID videoURL w).2) = []) ∧
      (err ≠ none →
        workspacesHeld (newTrace w (ProcessVideo env ctx videoID videoURL w).2) = [tempDir]) := by
  rcases ProcessVideo_workspace env ctx videoID videoURL w with
    ⟨e, h⟩ | ⟨video, e, h⟩ | ⟨video, dir, body, err, h, hbody, -⟩
  · rw [h] at hacq
    simp at hacq
  · rw [h] at hacq
    simp at hacq
  · rw [h] at hacq ⊢
    have hdir : dir = tempDir := by
      simp only [List.mem_append, List.mem_cons, List.mem_singleton, List.not_mem_nil,
        or_false] at hacq
      rcases hacq with (h1 | h1) | h1
      · rcases h1 with h1 | h1
        · simp at h1
        · simp only [Entry.mk.injEq, Event.mkdirTemp.injEq, Except.ok.injEq, true_and] at h1
          exact h1.symm
      · have := (bodyCall_facts ctx _ (hbody _ h1)).2.1
        simp at this
      · simp at h1
    subst hdir
    have hfold : ∀ x, workspacesHeld
        ([⟨.loadVideo, .videoGetByID ctx videoID (.ok video)⟩,
          ⟨.makeTempDir, .mkdirTemp "" ("video-processing-" ++ videoID) (.ok dir)⟩] ++
          body ++ [⟨.cleanup, .removeAll dir x⟩]) =
        heldAfter [dir] ⟨.cleanup, .removeAll dir x⟩ := by
      intro x
      simp only [workspacesHeld, List.foldl_append, List.foldl_cons, List.foldl_nil]
      rw [foldl_heldAfter_body ctx body hbody]
      rfl
    refine ⟨_, err, rfl, ?_, ?_, ?_⟩
    · intro e he
      rcases List.mem_append.mp he with h1 | h1
      · simp only [List.mem_cons, List.mem_singleton, List.not_mem_nil, or_false] at h1
        rcases h1 with rfl | rfl <;> simp
      · have hf := bodyCall_facts ctx e (hbody e h1)
        exact ⟨hf.2.2.1, hf.2.2.2.2.2.2⟩
    · intro hnone
      subst hnone
      rw [hfold]
      simp [heldAfter]
    · intro hsome
      rw [hfold]
      cases err with
      | none => exact absurd rfl hsome
      | some x => rfl

/-- Witness of the amended C22: a run in which every call succeeds. -/
theorem workspace_removal_is_last_call_witness :
    (⟨.makeTempDir, .mkdirTemp "" ("video-processing-" ++ "v1") (.ok "/tmp/video-processing-v1")⟩ :
        Entry) ∈ newTrace demoWorld (demoRun 25 []).2 ∧
    ∃ body err,
      newTrace demoWorld (demoRun 25 []).2 =
        body ++ [⟨.cleanup, .removeAll "/tmp/video-processing-v1" err⟩] ∧
      (∀ e ∈ body, e.site ≠ .cleanup ∧ ∀ p x, e.event ≠ .removeAll p x) ∧
      (err = none → workspacesHeld (newTrace demoWorld (demoRun 25 []).2) = []) ∧
      (err ≠ none →
        workspacesHeld (newTrace demoWorld (demoRun 25 []).2) = ["/tmp/video-processing-v1"]) :=
  have hacq : (⟨.makeTempDir, .mkdirTemp "" ("video-processing-" ++ "v1")
      (.ok "/tmp/video-processing-v1")⟩ : Entry) ∈ newTrace demoWorld (demoRun 25 []).2 := by
    have hdir : "/tmp/" ++ ("video-processing-" ++ "v1") = "/tmp/video-processing-v1" := by
      decide
    simp [newTrace, demoRun, ProcessVideo, processInTempDir, resolutionLoop, resolutions,
      processResolution, segmentLoop, thumbnailStep, bind_apply, pure_apply,
      wrapErr, attempt, withDefer, call, checkErr, errResult, VideoRepository.GetByID,
      VideoRepository.Update, StorageRepository.GetFile, StorageRepository.UploadFile,
      TranscodeRepository.Transcode, TranscodeRepository.Segment,
      TranscodeRepository.GetVideoInfo, osMkdirTemp, osRemoveAll, osWriteFile, osReadFile,
      osMkdirAll, demoEnv, demoWorld, demoVideo, hdir]
  ⟨hacq, workspace_removal_is_last_call (demoEnv 25 []) .background "v1" demoVideo.OriginalURL
    demoWorld "/tmp/video-processing-v1" hacq⟩

theorem UploadVideo_world (env : Env) (ctx : Ctx) (input : VideoUploadInput) (w : World)
    (url : String)
    (hup : env.uploadFile w.trace.length ctx (originalStoragePath (env.uuid w.uuids)
      input.FileName) input.FileData input.MimeType = .ok url)
    (hcr : env.videoCreate (w.trace.length + 1) ctx
      (newVideo (env.uuid w.uuids) input url (env.now w.ticks) (env.now (w.ticks + 1))) = none) :
    UploadVideo env ctx input w =
      (.ok (newVideo (env.uuid w.uuids) input url (env.now w.ticks) (env.now (w.ticks + 1))),
        (((((w.drawUuid.log .storeOriginal
          (.uploadFile ctx (originalStoragePath (env.uuid w.uuids) input.FileName)
            input.FileData input.MimeType (.ok url))).tick.tick).log .createVideo
          (.videoCreate ctx
            (newVideo (env.uuid w.uuids) input url (env.now w.ticks) (env.now (w.ticks + 1)))
            none)).insertVideo
          (newVideo (env.uuid w.uuids) input url (env.now w.ticks)
            (env.now (w.ticks + 1)))).spawn
          ⟨newVideo (env.uuid w.uuids) input url (env.now w.ticks) (env.now (w.ticks + 1)),
            env.uuid w.uuids, url⟩)) := by
  simp only [UploadVideo, bind_apply, wrapErr, uuidNew, StorageRepository.UploadFile, timeNow,
    VideoRepository.Create, goSpawn, pure_apply, drawUuid_trace, hup, log_trace,
    List.length_append, List.length_singleton, log_ticks, drawUuid_ticks, tick_ticks,
    tick_trace, hcr]

theorem newTrace_self (w : World) : newTrace w w = [] := by simp [newTrace]

/-- C25 (the background run is detached from the request).  For any two
contexts passed to `UploadVideo`, for instance the contexts of two requests
one of which is already cancelled, with the same input, the same state and
collaborators that answer the two uploads alike: the two uploads return the
same result and start the same goroutine, the goroutines make the same
collaborator calls with the same arguments and results, every one of these
calls that takes a context is given `context.Background()`, which is neither
of the two request contexts, and the stored rows and Segment records end up
the same.  After a successful upload the background run does make calls. -/
theorem background_run_is_detached (env : Env) (ctx1 ctx2 : Ctx) (input : VideoUploadInput)
    (w : World)
    (hup : ∀ n f d c, env.uploadFile n ctx1 f d c = env.uploadFile n ctx2 f d c)
    (hcr : ∀ n v, env.videoCreate n ctx1 v = env.videoCreate n ctx2 v) :
    (uploadAndRun env ctx1 input w).1 = (uploadAndRun env ctx2 input w).1 ∧
    (UploadVideo env ctx1 input w).2.spawned = (UploadVideo env ctx2 input w).2.spawned ∧
    newTrace (UploadVideo env ctx1 input w).2 (uploadAndRun env ctx1 input w).2 =
      newTrace (UploadVideo env ctx2 input w).2 (uploadAndRun env ctx2 input w).2 ∧
    (∀ e ∈ newTrace (UploadVideo env ctx1 input w).2 (uploadAndRun env ctx1 input w).2,
      ∀ c, e.event.ctx = some c → c = Ctx.background) ∧
    (uploadAndRun env ctx1 input w).2.videos = (uploadAndRun env ctx2 input w).2.videos ∧
    (uploadAndRun env ctx1 input w).2.segments = (uploadAndRun env ctx2 input w).2.segments ∧
    (∀ v, (UploadVideo env ctx1 input w).1 = .ok v →
      newTrace (UploadVideo env ctx1 input w).2 (uploadAndRun env ctx1 input w).2 ≠ []) := by
  rcases hup1 : env.uploadFile w.trace.length ctx1 (originalStoragePath (env.uuid w.uuids)
    input.FileName) input.FileData input.MimeType with e | url
  · have hup2 := hup1
    rw [hup] at hup2
    have hU1 := UploadVideo_uploadFails env ctx1 input w e hup1
    have hU2 := UploadVideo_uploadFails env ctx2 input w e hup2
    have hs1 : (UploadVideo env ctx1 input w).2.spawned = w.spawned := by rw [hU1]; rfl
    have hs2 : (UploadVideo env ctx2 input w).2.spawned = w.spawned := by rw [hU2]; rfl
    rw [uploadAndRun_of_not_spawned env ctx1 input w hs1,
      uploadAndRun_of_not_spawned env ctx2 input w hs2, newTrace_self, newTrace_self, hs1, hs2]
    refine ⟨by rw [hU1, hU2], rfl, rfl, by simp, by rw [hU1, hU2]; rfl, by rw [hU1, hU2]; rfl, ?_⟩
    intro v hv
    rw [hU1] at hv
    cases hv
  · have hup2 := hup1
    rw [hup] at hup2
    rcases hcr1 : env.videoCreate (w.trace.length + 1) ctx1
      (newVideo (env.uuid w.uuids) input url (env.now w.ticks) (env.now (w.ticks + 1))) with _ | e
    · have hcr2 := hcr1
      rw [hcr] at hcr2
      have hU1 := UploadVideo_world env ctx1 input w url hup1 hcr1
      have hU2 := UploadVideo_world env ctx2 input w url hup2 hcr2
      obtain ⟨t, ht⟩ : ∃ t : BackgroundTask, t =
          ⟨newVideo (env.uuid w.uuids) input url (env.now w.ticks) (env.now (w.ticks + 1)),
            env.uuid w.uuids, url⟩ := ⟨_, rfl⟩
      rw [← ht] at hU1 hU2
      obtain ⟨w1, hw1⟩ : ∃ w1, w1 = (UploadVideo env ctx1 input w).2 := ⟨_, rfl⟩
      obtain ⟨w2, hw2⟩ : ∃ w2, w2 = (UploadVideo env ctx2 input w).2 := ⟨_, rfl⟩
      have ha : World.alike w1 w2 := by
        rw [hw1, hw2, hU1, hU2]
        exact ⟨by simp, by simp, by simp, by simp, by simp, by simp⟩
      have hsp1 : w1.spawned.drop w.spawned.length = [t] := by
        rw [hw1, hU1]
        simp
      have hsp2 : w2.spawned.drop w.spawned.length = [t] := by
        rw [hw2, hU2]
        simp
      have hR1 : uploadAndRun env ctx1 input w =
          ((UploadVideo env ctx1 input w).1, (backgroundRun env t w1).2) := by
        simp only [uploadAndRun, ← hw1, hsp1, runAll, List.foldl_cons, List.foldl_nil]
      have hR2 : uploadAndRun env ctx2 input w =
          ((UploadVideo env ctx2 input w).1, (backgroundRun env t w2).2) := by
        simp only [uploadAndRun, ← hw2, hsp2, runAll, List.foldl_cons, List.foldl_nil]
      obtain ⟨n, hn1, hn2, -, hal, hP⟩ := Emits_backgroundRun env t w1 w2 ha
      obtain ⟨v1, err1, wA, outP, newP, recs, vF, errF, post⟩ :=
        backgroundRun_spec env t w1 _ rfl
      have hne : n ≠ [] := by
        have h := post.trace
        rw [hn1] at h
        have h2 := List.append_cancel_left h
        rw [h2]
        simp
      rw [hR1, hR2, ← hw1, ← hw2]
      simp only []
      rw [newTrace_eq hn1, newTrace_eq hn2]
      refine ⟨by rw [hU1, hU2], ?_, rfl, hP, hal.1, hal.2.1, fun _ _ => hne⟩
      rw [hw1, hw2, hU1, hU2]
      simp
    · have hcr2 := hcr1
      rw [hcr] at hcr2
      have hU1 := UploadVideo_createFails env ctx1 input w url e hup1 hcr1
      have hU2 := UploadVideo_createFails env ctx2 input w url e hup2 hcr2
      have hs1 : (UploadVideo env ctx1 input w).2.spawned = w.spawned := by rw [hU1]; rfl
      have hs2 : (UploadVideo env ctx2 input w).2.spawned = w.spawned := by rw [hU2]; rfl
      rw [uploadAndRun_of_not_spawned env ctx1 input w hs1,
        uploadAndRun_of_not_spawned env ctx2 input w hs2, newTrace_self, newTrace_self, hs1, hs2]
      refine ⟨by rw [hU1, hU2], rfl, rfl, by simp, by rw [hU1, hU2]; rfl, by rw [hU1, hU2]; rfl,
        ?_⟩
      intro v hv
      rw [hU1] at hv
      cases hv

/-- Witness of C25: the same upload under the context of a request that is
already cancelled and under the context of a live request. -/
theorem background_run_is_detached_witness :
    (∀ n f d c, (demoEnv 25 threeChunks).uploadFile n (.request 1 true) f d c =
      (demoEnv 25 threeChunks).uploadFile n (.request 2 false) f d c) ∧
    (∀ n v, (demoEnv 25 threeChunks).videoCreate n (.request 1 true) v =
      (demoEnv 25 threeChunks).videoCreate n (.request 2 false) v) ∧
    (uploadAndRun (demoEnv 25 threeChunks) (.request 1 true) demoInput emptyWorld).1 =
      (uploadAndRun (demoEnv 25 threeChunks) (.request 2 false) demoInput emptyWorld).1 ∧
    (UploadVideo (demoEnv 25 threeChunks) (.request 1 true) demoInput emptyWorld).2.spawned =
      (UploadVideo (demoEnv 25 threeChunks) (.request 2 false) demoInput emptyWorld).2.spawned ∧
    newTrace (UploadVideo (demoEnv 25 threeChunks) (.request 1 true) demoInput emptyWorld).2
        (uploadAndRun (demoEnv 25 threeChunks) (.request 1 true) demoInput emptyWorld).2 =
      newTrace (UploadVideo (demoEnv 25 threeChunks) (.request 2 false) demoInput emptyWorld).2
        (uploadAndRun (demoEnv 25 threeChunks) (.request 2 false) demoInput emptyWorld).2 ∧
    (∀ e ∈ newTrace (UploadVideo (demoEnv 25 threeChunks) (.request 1 true) demoInput
          emptyWorld).2
        (uploadAndRun (demoEnv 25 threeChunks) (.request 1 true) demoInput emptyWorld).2,
      ∀ c, e.event.ctx = some c → c = Ctx.background) ∧
    (uploadAndRun (demoEnv 25 threeChunks) (.request 1 true) demoInput emptyWorld).2.videos =
      (uploadAndRun (demoEnv 25 threeChunks) (.request 2 false) demoInput emptyWorld).2.videos ∧
    (uploadAndRun (demoEnv 25 threeChunks) (.request 1 true) demoInput emptyWorld).2.segments =
      (uploadAndRun (demoEnv 25 threeChunks) (.request 2 false) demoInput emptyWorld).2.segments ∧
    (∀ v, (UploadVideo (demoEnv 25 threeChunks) (.request 1 true) demoInput emptyWorld).1 =
        .ok v →
      newTrace (UploadVideo (demoEnv 25 threeChunks) (.request 1 true) demoInput emptyWorld).2
        (uploadAndRun (demoEnv 25 threeChunks) (.request 1 true) demoInput emptyWorld).2 ≠ []) :=
  ⟨fun _ _ _ _ => rfl, fun _ _ => rfl,
    background_run_is_detached (demoEnv 25 threeChunks) (.request 1 true) (.request 2 false)
      demoInput emptyWorld (fun _ _ _ _ => rfl) (fun _ _ => rfl)⟩

/-- The update that follows the probe, and what follows the update. -/
theorem processProbed_calls (env : Env) (ctx : Ctx) (videoID tempDir orig : String)
    (video : Video) (D : ℚ) (wd ht : Int) (w : World) :
    ∃ err rest,
      (processProbed env ctx videoID tempDir orig video D wd ht w).2.trace =
        w.trace ++
          (⟨.updateInfo, .videoUpdate ctx
            { video with
              Duration := D
              ResolutionInfo := fmtInt wd ++ "x" ++ fmtInt ht
              Status := StatusTranscoded
              UpdatedAt := env.now w.ticks } err⟩ :: rest) ∧
      (∀ e ∈ rest, e.bodyCall ctx = true) ∧
      (∀ e, err = some e →
        (processProbed env ctx videoID tempDir orig video D wd ht w).1 =
          .error ("failed to update video info: " ++ e) ∧ rest = []) := by
  simp only [processProbed, bind_apply, call]
  generalize hU : VideoRepository.Update env Site.updateInfo ctx _ w = outU
  obtain ⟨hv1, htr, -⟩ := Update_spec _ _ _ _ _ _ hU
  rcases outU with ⟨⟨v1, err⟩, w4⟩
  simp only at hv1 htr ⊢
  subst hv1
  cases err with
  | none =>
    simp only [checkErr]
    obtain ⟨n, hn, -, -, -, hbody⟩ :=
      Emits_processUpdated env ctx videoID tempDir orig D
        { video with
          Duration := D
          ResolutionInfo := fmtInt wd ++ "x" ++ fmtInt ht
          Status := StatusTranscoded
          UpdatedAt := env.now w.ticks } w4 w4 (alike_refl w4)
    refine ⟨none, n, ?_, hbody, fun e he => by cases he⟩
    rw [hn, htr, List.append_assoc]
    rfl
  | some e =>
    simp only [checkErr]
    exact ⟨some e, [], htr, by simp, fun e1 he => by cases he; exact ⟨rfl, rfl⟩⟩

/-- The calls of the body of `ProcessVideo`: either no probe succeeds, or the
download, the write of the original and the probe succeed and the next call
is the update of the record. -/
theorem processInTempDir_calls (env : Env) (ctx : Ctx) (videoID videoURL : String)
    (video : Video) (tempDir : String) (w : World) (body : List Entry)
    (hb : (processInTempDir env ctx videoID videoURL video tempDir w).2.trace = w.trace ++ body) :
    probeResult body = none ∨
    ∃ data D wd ht err rest,
      body =
        [⟨.download, .getFile ctx videoURL (.ok data)⟩,
          ⟨.writeOriginal, .writeFile (filepathJoin tempDir "original.mp4") data 0o644 none⟩,
          ⟨.probe, .getVideoInfo ctx (filepathJoin tempDir "original.mp4") (.ok (D, wd, ht))⟩,
          ⟨.updateInfo, .videoUpdate ctx
            { video with
              Duration := D
              ResolutionInfo := fmtInt wd ++ "x" ++ fmtInt ht
              Status := StatusTranscoded
              UpdatedAt := env.now w.ticks } err⟩] ++ rest ∧
      (∀ e ∈ rest, e.bodyCall ctx = true) ∧
      (∀ e, err = some e →
        (processInTempDir env ctx videoID videoURL video tempDir w).1 =
          .error ("failed to update video info: " ++ e) ∧ rest = []) := by
  rw [processInTempDir_eq] at hb ⊢
  simp only [bind_apply, wrapErr, StorageRepository.GetFile, osWriteFile,
    TranscodeRepository.GetVideoInfo, log_trace, List.length_append, List.length_singleton]
    at hb ⊢
  rcases h1 : env.getFile w.trace.length ctx videoURL with e | data
  · simp only [h1, log_trace] at hb
    have := List.append_cancel_left hb
    subst this
    left
    simp [probeResult, Entry.probed]
  simp only [h1, log_trace, List.length_append, List.length_singleton] at hb ⊢
  rcases h2 : env.writeFile (w.trace.length + 1) (filepathJoin tempDir "original.mp4") data 0o644
    with _ | e
  swap
  · simp only [h2, errResult, log_trace, List.append_assoc] at hb
    have := List.append_cancel_left hb
    subst this
    left
    simp [probeResult, Entry.probed]
  simp only [h2, errResult, log_trace, List.length_append, List.length_singleton] at hb ⊢
  rcases h3 : env.getVideoInfo (w.trace.length + 1 + 1) ctx (filepathJoin tempDir "original.mp4")
    with e | ⟨D, wd, ht⟩
  · simp only [h3, log_trace, List.append_assoc] at hb
    have := List.append_cancel_left hb
    subst this
    left
    simp [probeResult, Entry.probed]
  simp only [h3] at hb ⊢
  right
  obtain ⟨err, rest, htr, hbody, herr⟩ := processProbed_calls env ctx videoID tempDir
    (filepathJoin tempDir "original.mp4") video D wd ht
    (((w.log .download (.getFile ctx videoURL (.ok data))).log .writeOriginal
      (.writeFile (filepathJoin tempDir "original.mp4") data 0o644 none)).log .probe
      (.getVideoInfo ctx (filepathJoin tempDir "original.mp4") (.ok (D, wd, ht))))
  rw [htr] at hb
  simp only [log_trace, log_ticks, List.append_assoc] at hb
  have := List.append_cancel_left hb
  subst this
  exact ⟨data, D, wd, ht, err, rest, by simp, hbody, herr⟩

/-- C26 (the update after the probe).  In every run of `ProcessVideo` in which
the probe returned `(D, wd, ht)`: the calls before the probe are the load of
the record `video`, the creation of the workspace, the download and the write
of the original, none of which is a Video write; the call right after the
probe is an update of the Video record, and the record written is `video` with
`Duration = D`, `ResolutionInfo` the decimal of `wd`, an `x` and the decimal
of `ht`, and `Status = transcoded`; its id, title, description, original
reference, thumbnail reference, file size, MIME type, user id and creation
time are as loaded, and its update time is the time of the write.  If that
write fails, `ProcessVideo` returns the error of the write, the only call
after it is the removal of the workspace, and no encode call is made. -/
theorem probe_is_followed_by_update (env : Env) (ctx : Ctx) (videoID videoURL : String)
    (w : World) (D : ℚ) (wd ht : Int)
    (hp : probeResult (newTrace w (ProcessVideo env ctx videoID videoURL w).2) =
      some (D, wd, ht)) :
    ∃ video tempDir data now err rest,
      w.videos videoID = some video ∧
      newTrace w (ProcessVideo env ctx videoID videoURL w).2 =
        [⟨.loadVideo, .videoGetByID ctx videoID (.ok video)⟩,
          ⟨.makeTempDir, .mkdirTemp "" ("video-processing-" ++ videoID) (.ok tempDir)⟩,
          ⟨.download, .getFile ctx videoURL (.ok data)⟩,
          ⟨.writeOriginal, .writeFile (filepathJoin tempDir "original.mp4") data 0o644 none⟩,
          ⟨.probe, .getVideoInfo ctx (filepathJoin tempDir "original.mp4") (.ok (D, wd, ht))⟩,
          ⟨.updateInfo, .videoUpdate ctx
            { video with
              Duration := D
              ResolutionInfo := fmtInt wd ++ "x" ++ fmtInt ht
              Status := StatusTranscoded
              UpdatedAt := now } err⟩] ++ rest ∧
      (∀ e, err = some e →
        (ProcessVideo env ctx videoID videoURL w).1 =
          .error ("failed to update video info: " ++ e) ∧
        (∃ x, rest = [⟨.cleanup, .removeAll tempDir x⟩]) ∧
        encodeCalls (newTrace w (ProcessVideo env ctx videoID videoURL w).2) = []) := by
  rcases ProcessVideo_workspace env ctx videoID videoURL w with
    ⟨e, h⟩ | ⟨video, e, h⟩ | ⟨video, tempDir, body, x, h, hbody, hres, htr, hrow⟩
  · rw [h] at hp
    simp [probeResult, Entry.probed] at hp
  · rw [h] at hp
    simp [probeResult, Entry.probed] at hp
  · rw [h] at hp ⊢
    rcases processInTempDir_calls env ctx videoID videoURL video tempDir _ body htr with
      hnone | ⟨data, D1, wd1, ht1, err, rest, hb, hrest, herr⟩
    · have : probeResult
          ([⟨.loadVideo, .videoGetByID ctx videoID (.ok video)⟩,
            ⟨.makeTempDir, .mkdirTemp "" ("video-processing-" ++ videoID) (.ok tempDir)⟩] ++
            body ++ [⟨.cleanup, .removeAll tempDir x⟩]) = none := by
        simp only [probeResult, List.filterMap_append, List.head?_eq_none_iff,
          List.append_eq_nil] at hnone ⊢
        simp [hnone, Entry.probed]
      rw [this] at hp
      cases hp
    · subst hb
      have hx : (D1, wd1, ht1) = (D, wd, ht) := by
        simpa [probeResult, Entry.probed] using hp
      cases hx
      simp only [log_ticks] at herr ⊢
      refine ⟨video, tempDir, data, env.now w.ticks, err,
        rest ++ [⟨.cleanup, .removeAll tempDir x⟩], hrow, by simp, ?_⟩
      intro e he
      obtain ⟨hres1, hrest1⟩ := herr e he
      subst hrest1
      refine ⟨by rw [hres, hres1], ⟨x, rfl⟩, ?_⟩
      simp [encodeCalls, Entry.encodeCall]

theorem updateFails_probe :
    probeResult (newTrace demoWorld
      (ProcessVideo updateFailsEnv .background "v1" demoVideo.OriginalURL demoWorld).2) =
      some (25, 1920, 1080) := by
  simp [newTrace, ProcessVideo, processInTempDir, resolutionLoop, resolutions,
    processResolution, segmentLoop, thumbnailStep, bind_apply, pure_apply,
    wrapErr, attempt, withDefer, call, checkErr, errResult, VideoRepository.GetByID,
    VideoRepository.Update, StorageRepository.GetFile, StorageRepository.UploadFile,
    TranscodeRepository.Transcode, TranscodeRepository.Segment, TranscodeRepository.GetVideoInfo,
    osMkdirTemp, osRemoveAll, osWriteFile, osReadFile, osMkdirAll, updateFailsEnv, demoEnv,
    demoWorld, demoVideo, probeResult, Entry.probed]

/-- Witness of C26: a run in which the update after the probe fails. -/
theorem probe_is_followed_by_update_witness :
    probeResult (newTrace demoWorld
      (ProcessVideo updateFailsEnv .background "v1" demoVideo.OriginalURL demoWorld).2) =
      some (25, 1920, 1080) ∧
    ∃ video tempDir data now err rest,
      demoWorld.videos "v1" = some video ∧
      newTrace demoWorld
          (ProcessVideo updateFailsEnv .background "v1" demoVideo.OriginalURL demoWorld).2 =
        [⟨.loadVideo, .videoGetByID .background "v1" (.ok video)⟩,
          ⟨.makeTempDir, .mkdirTemp "" ("video-processing-" ++ "v1") (.ok tempDir)⟩,
          ⟨.download, .getFile .background demoVideo.OriginalURL (.ok data)⟩,
          ⟨.writeOriginal, .writeFile (filepathJoin tempDir "original.mp4") data 0o644 none⟩,
          ⟨.probe, .getVideoInfo .background (filepathJoin tempDir "original.mp4")
            (.ok (25, 1920, 1080))⟩,
          ⟨.updateInfo, .videoUpdate .background
            { video with
              Duration := 25
              ResolutionInfo := fmtInt 1920 ++ "x" ++ fmtInt 1080
              Status := StatusTranscoded
              UpdatedAt := now } err⟩] ++ rest ∧
      (∀ e, err = some e →
        (ProcessVideo updateFailsEnv .background "v1" demoVideo.OriginalURL demoWorld).1 =
          .error ("failed to update video info: " ++ e) ∧
        (∃ x, rest = [⟨.cleanup, .removeAll tempDir x⟩]) ∧
        encodeCalls (newTrace demoWorld
          (ProcessVideo updateFailsEnv .background "v1" demoVideo.OriginalURL demoWorld).2) =
          []) :=
  ⟨updateFails_probe,
    probe_is_followed_by_update updateFailsEnv .background "v1" demoVideo.OriginalURL demoWorld
      25 1920 1080 updateFails_probe⟩

theorem Paths_segmentLoop (env : Env) (ctx : Ctx) (videoID : String) (r : Resolution) (D : ℚ)
    (len : Nat) : ∀ (files : List String) (i : Nat),
    Emits (fun e => e.writesUnder videoID) (segmentLoop env ctx videoID r D len i files) := by
  intro files
  induction files with
  | nil =>
    intro i
    simp only [segmentLoop]
    exact Emits_pure _ ()
  | cons p rest ih =>
    intro i
    simp only [segmentLoop]
    refine Emits_bind (Emits_wrapErr _ (Emits_ReadFile env _ _
      (fun _ _ _ _ _ _ h => by cases h))) (fun d => ?_)
    refine Emits_bind (Emits_wrapErr _ (Emits_UploadFile env _ ctx _ _ _
      (fun _ _ _ _ _ _ h => by cases h; exact .chunk _ _))) (fun u => ?_)
    refine Emits_bind (Emits_uuidNew env _) (fun id => ?_)
    refine Emits_bind (Emits_timeNow env _) (fun t => ?_)
    refine Emits_bind (Emits_wrapErr _ (Emits_SegmentCreate env _ ctx _
      (fun _ _ _ _ _ _ h => by cases h))) (fun _ => ?_)
    exact ih (i + 1)

theorem Paths_processResolution (env : Env) (ctx : Ctx) (videoID tempDir orig : String) (D : ℚ)
    (r : Resolution) :
    Emits (fun e => e.writesUnder videoID)
      (processResolution env ctx videoID tempDir orig D r) := by
  simp only [processResolution]
  refine Emits_bind (Emits_wrapErr _ (Emits_Transcode env _ ctx _ _ _ _
    (fun _ _ _ _ _ _ h => by cases h))) (fun _ => ?_)
  refine Emits_bind (Emits_wrapErr _ (Emits_MkdirAll env _ _ _
    (fun _ _ _ _ _ _ h => by cases h))) (fun _ => ?_)
  refine Emits_bind (Emits_wrapErr _ (Emits_Segment env _ ctx _ _ _
    (fun _ _ _ _ _ _ h => by cases h))) (fun cs => ?_)
  exact Paths_segmentLoop env ctx videoID r D _ cs 0

theorem Paths_resolutionLoop (env : Env) (ctx : Ctx) (videoID tempDir orig : String) (D : ℚ) :
    ∀ rs : List Resolution,
    Emits (fun e => e.writesUnder videoID)
      (resolutionLoop env ctx videoID tempDir orig D rs) := by
  intro rs
  induction rs with
  | nil =>
    simp only [resolutionLoop]
    exact Emits_pure _ ()
  | cons r rest ih =>
    simp only [resolutionLoop]
    exact Emits_bind (Paths_processResolution env ctx videoID tempDir orig D r) (fun _ => ih)

theorem Paths_thumbnailStep (env : Env) (ctx : Ctx) (videoID tempDir : String) (video : Video) :
    Emits (fun e => e.writesUnder videoID) (thumbnailStep env ctx videoID tempDir video) := by
  simp only [thumbnailStep]
  refine Emits_bind (Emits_attempt (Emits_ReadFile env _ _
    (fun _ _ _ _ _ _ h => by cases h))) (fun d => ?_)
  cases d with
  | error e => exact Emits_pure _ _
  | ok d =>
    refine Emits_bind (Emits_attempt (Emits_UploadFile env _ ctx _ _ _
      (fun _ _ _ _ _ _ h => by cases h; exact .thumbnail))) (fun u => ?_)
    cases u with
    | error e => exact Emits_pure _ _
    | ok u => exact Emits_pure _ _

theorem Paths_processInTempDir (env : Env) (ctx : Ctx) (videoID videoURL : String)
    (video : Video) (tempDir : String) :
    Emits (fun e => e.writesUnder videoID)
      (processInTempDir env ctx videoID videoURL video tempDir) := by
  rw [processInTempDir_eq]
  refine Emits_bind (Emits_wrapErr _ (Emits_GetFile env _ ctx _
    (fun _ _ _ _ _ _ h => by cases h))) (fun d => ?_)
  refine Emits_bind (Emits_wrapErr _ (Emits_WriteFile env _ _ _ _
    (fun _ _ _ _ _ _ h => by cases h))) (fun _ => ?_)
  refine Emits_bind (Emits_wrapErr _ (Emits_GetVideoInfo env _ ctx _
    (fun _ _ _ _ _ _ h => by cases h))) (fun x => ?_)
  simp only [processProbed, processUpdated]
  refine Emits_bind (Emits_Update env _ ctx _ (fun _ _ _ _ _ _ _ h => by cases h)) (fun p => ?_)
  refine Emits_bind (Emits_checkErr _ _ _) (fun _ => ?_)
  refine Emits_bind (Paths_resolutionLoop env ctx videoID tempDir _ _ _) (fun _ => ?_)
  refine Emits_bind (Paths_thumbnailStep env ctx videoID tempDir _) (fun v => ?_)
  refine Emits_bind (Emits_Update env _ ctx _ (fun _ _ _ _ _ _ _ h => by cases h)) (fun q => ?_)
  exact Emits_checkErr _ _ _

theorem Paths_backgroundRun (env : Env) (t : BackgroundTask) :
    Emits (fun e => e.writesUnder t.videoID) (backgroundRun env t) := by
  simp only [backgroundRun, ProcessVideo]
  refine Emits_bind (Emits_Update env _ _ _ (fun _ _ _ _ _ _ _ h => by cases h)) (fun p => ?_)
  refine Emits_bind (Emits_attempt ?_) (fun r => ?_)
  · refine Emits_bind (Emits_wrapErr _ (Emits_GetByID env _ _ _
      (fun _ _ _ _ _ _ h => by cases h))) (fun video => ?_)
    refine Emits_bind (Emits_wrapErr _ (Emits_MkdirTemp env _ _ _
      (fun _ _ _ _ _ _ h => by cases h))) (fun tempDir => ?_)
    exact Emits_withDefer env _ _ (Paths_processInTempDir env _ _ _ video tempDir)
      (fun _ _ _ _ _ _ h => by cases h)
  refine Emits_bind (Emits_Update env _ _ _ (fun _ _ _ _ _ _ _ h => by cases h)) (fun q => ?_)
  exact Emits_pure _ ()

/-- Every write to the artifact store made by an upload and by the goroutine
it starts is at an artifact path of the video id drawn for the upload. -/
theorem written_paths_are_artifact_paths (env : Env) (ctx : Ctx) (input : VideoUploadInput)
    (w : World) :
    ∀ e ∈ newTrace w (uploadAndRun env ctx input w).2, e.writesUnder (env.uuid w.uuids) := by
  rcases hup : env.uploadFile w.trace.length ctx (originalStoragePath (env.uuid w.uuids)
    input.FileName) input.FileData input.MimeType with e | url
  · have hU := UploadVideo_uploadFails env ctx input w e hup
    have hs : (UploadVideo env ctx input w).2.spawned = w.spawned := by rw [hU]; rfl
    rw [uploadAndRun_of_not_spawned env ctx input w hs, hU]
    intro x hx
    simp only [newTrace, log_trace, drawUuid_trace, List.drop_left, List.mem_singleton] at hx
    subst hx
    intro _ _ _ _ _ h
    cases h
    exact .original _
  · rcases hcr : env.videoCreate (w.trace.length + 1) ctx
      (newVideo (env.uuid w.uuids) input url (env.now w.ticks) (env.now (w.ticks + 1))) with _ | e
    · have hU := UploadVideo_world env ctx input w url hup hcr
      obtain ⟨t, ht⟩ : ∃ t : BackgroundTask, t =
          ⟨newVideo (env.uuid w.uuids) input url (env.now w.ticks) (env.now (w.ticks + 1)),
            env.uuid w.uuids, url⟩ := ⟨_, rfl⟩
      rw [← ht] at hU
      obtain ⟨w1, hw1⟩ : ∃ w1, w1 = (UploadVideo env ctx input w).2 := ⟨_, rfl⟩
      have hsp : w1.spawned.drop w.spawned.length = [t] := by
        rw [hw1, hU]
        simp
      have hR : uploadAndRun env ctx input w =
          ((UploadVideo env ctx input w).1, (backgroundRun env t w1).2) := by
        simp only [uploadAndRun, ← hw1, hsp, runAll, List.foldl_cons, List.foldl_nil]
      obtain ⟨n, hn, -, -, -, hP⟩ := Paths_backgroundRun env t w1 w1 (alike_refl w1)
      have htid : t.videoID = env.uuid w.uuids := by rw [ht]
      rw [htid] at hP
      have htr1 : w1.trace = w.trace ++
          [⟨.storeOriginal, .uploadFile ctx (originalStoragePath (env.uuid w.uuids)
              input.FileName) input.FileData input.MimeType (.ok url)⟩,
            ⟨.createVideo, .videoCreate ctx
              (newVideo (env.uuid w.uuids) input url (env.now w.ticks) (env.now (w.ticks + 1)))
              none⟩] := by
        rw [hw1, hU]
        simp
      rw [hR]
      simp only []
      rw [newTrace, hn, htr1]
      intro x hx
      simp only [List.append_assoc, List.drop_left, List.mem_append, List.mem_cons,
        List.mem_singleton, List.not_mem_nil, or_false] at hx
      rcases hx with (rfl | rfl) | hx
      · intro _ _ _ _ _ h
        cases h
        exact .original _
      · intro _ _ _ _ _ h
        cases h
      · exact hP x hx
    · have hU := UploadVideo_createFails env ctx input w url e hup hcr
      have hs : (UploadVideo env ctx input w).2.spawned = w.spawned := by rw [hU]; rfl
      rw [uploadAndRun_of_not_spawned env ctx input w hs, hU]
      intro x hx
      simp only [newTrace, log_trace, drawUuid_trace, tick_trace, List.append_assoc,
        List.drop_left, List.mem_append, List.mem_singleton] at hx
      rcases hx with rfl | rfl
      · intro _ _ _ _ _ h
        cases h
        exact .original _
      · intro _ _ _ _ _ h
        cases h

/-! ## The rows of `videos` are the replay of the writes -/

theorem Replays_pure {α : Type} (a : α) : Replays (pure a : M α) := by
  intro w
  exact ⟨[], by simp [pure_apply], by simp [pure_apply]⟩

theorem Replays_bind {α β : Type} {m : M α} {f : α → M β}
    (hm : Replays m) (hf : ∀ a, Replays (f a)) : Replays (m >>= f) := by
  intro w
  obtain ⟨n, h1, h2⟩ := hm w
  rw [bind_apply]
  generalize m w = out at h1 h2 ⊢
  rcases out with ⟨r, w1⟩
  simp only at h1 h2
  cases r with
  | error e => exact ⟨n, h1, h2⟩
  | ok a =>
    obtain ⟨n1, g1, g2⟩ := hf a w1
    refine ⟨n ++ n1, ?_, ?_⟩
    · simp only []
      rw [g1, h1, List.append_assoc]
    · simp only []
      rw [g2, h2, List.foldl_append]

theorem Replays_wrapErr {α : Type} {m : M α} (msg : String) (hm : Replays m) :
    Replays (wrapErr msg m) := by
  intro w
  obtain ⟨n, h1, h2⟩ := hm w
  simp only [wrapErr]
  generalize m w = out at h1 h2 ⊢
  rcases out with ⟨r, w1⟩
  cases r <;> exact ⟨n, h1, h2⟩

theorem Replays_attempt {α : Type} {m : M α} (hm : Replays m) : Replays (attempt m) := by
  intro w
  obtain ⟨n, h1, h2⟩ := hm w
  exact ⟨n, h1, h2⟩

theorem Replays_checkErr (msg : String) (err : Option String) : Replays (checkErr msg err) := by
  intro w
  cases err with
  | none => exact ⟨[], by simp [checkErr], by simp [checkErr]⟩
  | some e => exact ⟨[], by simp [checkErr], by simp [checkErr]⟩

/-- A call that logs an event which is no write to `videos` and leaves the
table alone. -/
theorem Replays_logged {α : Type} (p : M α) (site : Site)
    (r : Nat → Except String α) (ev : Nat → Event)
    (h : ∀ w, p w = (r w.trace.length, w.log site (ev w.trace.length)))
    (hev : ∀ n videos, rowsAfter videos ⟨site, ev n⟩ = videos) : Replays p := by
  intro w
  rw [h w]
  exact ⟨[⟨site, ev w.trace.length⟩], rfl, by simp [hev, World.log]⟩

theorem Replays_GetFile (env : Env) (site : Site) (ctx : Ctx) (f : String) :
    Replays (StorageRepository.GetFile env site ctx f) :=
  Replays_logged _ site (fun n => env.getFile n ctx f)
    (fun n => .getFile ctx f (env.getFile n ctx f)) (fun _ => rfl) (fun _ _ => rfl)

theorem Replays_UploadFile (env : Env) (site : Site) (ctx : Ctx)
    (f : String) (d : Bytes) (ct : String) :
    Replays (StorageRepository.UploadFile env site ctx f d ct) :=
  Replays_logged _ site (fun n => env.uploadFile n ctx f d ct)
    (fun n => .uploadFile ctx f d ct (env.uploadFile n ctx f d ct)) (fun _ => rfl)
    (fun _ _ => rfl)

theorem Replays_Transcode (env : Env) (site : Site) (ctx : Ctx)
    (i o : String) (r : Resolution) (fps : Int) :
    Replays (TranscodeRepository.Transcode env site ctx i o r fps) :=
  Replays_logged _ site (fun n => errResult (env.transcode n ctx i o r fps))
    (fun n => .transcode ctx i o r fps (env.transcode n ctx i o r fps)) (fun _ => rfl)
    (fun _ _ => rfl)

theorem Replays_Segment (env : Env) (site : Site) (ctx : Ctx)
    (v : String) (d : Int) (o : String) :
    Replays (TranscodeRepository.Segment env site ctx v d o) :=
  Replays_logged _ site (fun n => env.segment n ctx v d o)
    (fun n => .segment ctx v d o (env.segment n ctx v d o)) (fun _ => rfl) (fun _ _ => rfl)

theorem Replays_GetVideoInfo (env : Env) (site : Site) (ctx : Ctx) (v : String) :
    Replays (TranscodeRepository.GetVideoInfo env site ctx v) :=
  Replays_logged _ site (fun n => env.getVideoInfo n ctx v)
    (fun n => .getVideoInfo ctx v (env.getVideoInfo n ctx v)) (fun _ => rfl) (fun _ _ => rfl)

theorem Replays_MkdirTemp (env : Env) (site : Site) (dir pattern : String) :
    Replays (osMkdirTemp env site dir pattern) :=
  Replays_logged _ site (fun n => env.mkdirTemp n dir pattern)
    (fun n => .mkdirTemp dir pattern (env.mkdirTemp n dir pattern)) (fun _ => rfl)
    (fun _ _ => rfl)

theorem Replays_WriteFile (env : Env) (site : Site) (name : String) (d : Bytes) (perm : Nat) :
    Replays (osWriteFile env site name d perm) :=
  Replays_logged _ site (fun n => errResult (env.writeFile n name d perm))
    (fun n => .writeFile name d perm (env.writeFile n name d perm)) (fun _ => rfl)
    (fun _ _ => rfl)

theorem Replays_ReadFile (env : Env) (site : Site) (name : String) :
    Replays (osReadFile env site name) :=
  Replays_logged _ site (fun n => env.readFile n name)
    (fun n => .readFile name (env.readFile n name)) (fun _ => rfl) (fun _ _ => rfl)

theorem Replays_MkdirAll (env : Env) (site : Site) (path : String) (perm : Nat) :
    Replays (osMkdirAll env site path perm) :=
  Replays_logged _ site (fun n => errResult (env.mkdirAll n path perm))
    (fun n => .mkdirAll path perm (env.mkdirAll n path perm)) (fun _ => rfl) (fun _ _ => rfl)

theorem Replays_GetByID (env : Env) (site : Site) (ctx : Ctx) (id : String) :
    Replays (VideoRepository.GetByID env site ctx id) := by
  intro w
  simp only [VideoRepository.GetByID]
  exact ⟨[_], rfl, rfl⟩

theorem Replays_SegmentCreate (env : Env) (site : Site) (ctx : Ctx) (seg : Segment) :
    Replays (SegmentRepository.Create env site ctx seg) := by
  intro w
  simp only [SegmentRepository.Create]
  cases env.segmentCreate w.trace.length ctx seg with
  | none => exact ⟨[_], rfl, rfl⟩
  | some e => exact ⟨[_], rfl, rfl⟩

theorem Replays_timeNow (env : Env) : Replays (timeNow env) := by
  intro w
  exact ⟨[], by simp [timeNow], by simp [timeNow, World.tick]⟩

theorem Replays_uuidNew (env : Env) : Replays (uuidNew env) := by
  intro w
  exact ⟨[], by simp [uuidNew], by simp [uuidNew, World.drawUuid]⟩

theorem Replays_goSpawn (t : BackgroundTask) : Replays (goSpawn t) := by
  intro w
  exact ⟨[], by simp [goSpawn, World.spawn], by simp [goSpawn, World.spawn]⟩

theorem Replays_Create (env : Env) (site : Site) (ctx : Ctx) (video : Video) :
    Replays (VideoRepository.Create env site ctx video) := by
  intro w
  simp only [VideoRepository.Create]
  rcases h : env.videoCreate w.trace.length ctx video with _ | e
  · exact ⟨[_], rfl, rfl⟩
  · exact ⟨[_], rfl, rfl⟩

theorem Replays_Update (env : Env) (site : Site) (ctx : Ctx) (video : Video) :
    Replays (call (VideoRepository.Update env site ctx video)) := by
  intro w
  simp only [call, VideoRepository.Update, tick_trace]
  rcases h : env.videoUpdate w.trace.length ctx { video with UpdatedAt := env.now w.ticks }
    with _ | e
  · exact ⟨[_], rfl, rfl⟩
  · exact ⟨[_], rfl, rfl⟩

theorem Replays_withDefer {α : Type} (env : Env) {p : M α} (site : Site)
    (path : String) (hp : Replays p) :
    Replays (withDefer (osRemoveAll env site path) p) := by
  intro w
  obtain ⟨n, h1, h2⟩ := hp w
  simp only [withDefer, osRemoveAll]
  refine ⟨n ++ [⟨site, .removeAll path (env.removeAll (p w).2.trace.length path)⟩], ?_, ?_⟩
  · rw [log_trace, h1, List.append_assoc]
  · rw [List.foldl_append, ← h2]
    rfl
theorem Replays_segmentLoop (env : Env) (ctx : Ctx) (videoID : String) (r : Resolution) (D : ℚ)
    (len : Nat) : ∀ (files : List String) (i : Nat),
    Replays (segmentLoop env ctx videoID r D len i files) := by
  intro files
  induction files with
  | nil =>
    intro i
    simp only [segmentLoop]
    exact Replays_pure ()
  | cons p rest ih =>
    intro i
    simp only [segmentLoop]
    refine Replays_bind (Replays_wrapErr _ (Replays_ReadFile env _ _)) (fun d => ?_)
    refine Replays_bind (Replays_wrapErr _ (Replays_UploadFile env _ ctx _ _ _)) (fun u => ?_)
    refine Replays_bind (Replays_uuidNew env) (fun id => ?_)
    refine Replays_bind (Replays_timeNow env) (fun t => ?_)
    refine Replays_bind (Replays_wrapErr _ (Replays_SegmentCreate env _ ctx _)) (fun _ => ?_)
    exact ih (i + 1)

theorem Replays_processResolution (env : Env) (ctx : Ctx) (videoID tempDir orig : String)
    (D : ℚ) (r : Resolution) :
    Replays (processResolution env ctx videoID tempDir orig D r) := by
  simp only [processResolution]
  refine Replays_bind (Replays_wrapErr _ (Replays_Transcode env _ ctx _ _ _ _)) (fun _ => ?_)
  refine Replays_bind (Replays_wrapErr _ (Replays_MkdirAll env _ _ _)) (fun _ => ?_)
  refine Replays_bind (Replays_wrapErr _ (Replays_Segment env _ ctx _ _ _)) (fun cs => ?_)
  exact Replays_segmentLoop env ctx videoID r D _ cs 0

theorem Replays_resolutionLoop (env : Env) (ctx : Ctx) (videoID tempDir orig : String) (D : ℚ) :
    ∀ rs : List Resolution, Replays (resolutionLoop env ctx videoID tempDir orig D rs) := by
  intro rs
  induction rs with
  | nil =>
    simp only [resolutionLoop]
    exact Replays_pure ()
  | cons r rest ih =>
    simp only [resolutionLoop]
    exact Replays_bind (Replays_processResolution env ctx videoID tempDir orig D r) (fun _ => ih)

theorem Replays_thumbnailStep (env : Env) (ctx : Ctx) (videoID tempDir : String)
    (video : Video) : Replays (thumbnailStep env ctx videoID tempDir video) := by
  simp only [thumbnailStep]
  refine Replays_bind (Replays_attempt (Replays_ReadFile env _ _)) (fun d => ?_)
  cases d with
  | error e => exact Replays_pure _
  | ok d =>
    refine Replays_bind (Replays_attempt (Replays_UploadFile env _ ctx _ _ _)) (fun u => ?_)
    cases u with
    | error e => exact Replays_pure _
    | ok u => exact Replays_pure _

theorem Replays_processInTempDir (env : Env) (ctx : Ctx) (videoID videoURL : String)
    (video : Video) (tempDir : String) :
    Replays (processInTempDir env ctx videoID videoURL video tempDir) := by
  rw [processInTempDir_eq]
  refine Replays_bind (Replays_wrapErr _ (Replays_GetFile env _ ctx _)) (fun d => ?_)
  refine Replays_bind (Replays_wrapErr _ (Replays_WriteFile env _ _ _ _)) (fun _ => ?_)
  refine Replays_bind (Replays_wrapErr _ (Replays_GetVideoInfo env _ ctx _)) (fun x => ?_)
  simp only [processProbed, processUpdated]
  refine Replays_bind (Replays_Update env _ ctx _) (fun p => ?_)
  refine Replays_bind (Replays_checkErr _ _) (fun _ => ?_)
  refine Replays_bind (Replays_resolutionLoop env ctx videoID tempDir _ _ _) (fun _ => ?_)
  refine Replays_bind (Replays_thumbnailStep env ctx videoID tempDir _) (fun v => ?_)
  refine Replays_bind (Replays_Update env _ ctx _) (fun q => ?_)
  exact Replays_checkErr _ _

/-- The table `videos` after a run of `ProcessVideo` is the table before it
with the successful writes of the run applied in order. -/
theorem Replays_ProcessVideo (env : Env) (ctx : Ctx) (videoID videoURL : String) :
    Replays (ProcessVideo env ctx videoID videoURL) := by
  simp only [ProcessVideo]
  refine Replays_bind (Replays_wrapErr _ (Replays_GetByID env _ ctx _)) (fun video => ?_)
  refine Replays_bind (Replays_wrapErr _ (Replays_MkdirTemp env _ _ _)) (fun tempDir => ?_)
  exact Replays_withDefer env _ _ (Replays_processInTempDir env ctx videoID videoURL video tempDir)

theorem Replays_backgroundRun (env : Env) (t : BackgroundTask) :
    Replays (backgroundRun env t) := by
  simp only [backgroundRun]
  refine Replays_bind (Replays_Update env _ _ _) (fun p => ?_)
  refine Replays_bind (Replays_attempt (Replays_ProcessVideo env .background t.videoID
    t.uploadURL)) (fun r => ?_)
  refine Replays_bind (Replays_Update env _ _ _) (fun q => ?_)
  exact Replays_pure ()

theorem Replays_UploadVideo (env : Env) (ctx : Ctx) (input : VideoUploadInput) :
    Replays (UploadVideo env ctx input) := by
  simp only [UploadVideo]
  refine Replays_bind (Replays_uuidNew env) (fun id => ?_)
  refine Replays_bind (Replays_wrapErr _ (Replays_UploadFile env _ ctx _ _ _)) (fun u => ?_)
  refine Replays_bind (Replays_timeNow env) (fun t1 => ?_)
  refine Replays_bind (Replays_timeNow env) (fun t2 => ?_)
  refine Replays_bind (Replays_wrapErr _ (Replays_Create env _ ctx _)) (fun _ => ?_)
  refine Replays_bind (Replays_goSpawn _) (fun _ => ?_)
  exact Replays_pure _

theorem Replays_runAll (env : Env) : ∀ (tasks : List BackgroundTask) (w : World),
    ∃ n, (runAll env tasks w).trace = w.trace ++ n ∧
      (runAll env tasks w).videos = n.foldl rowsAfter w.videos := by
  intro tasks
  induction tasks with
  | nil => intro w; exact ⟨[], by simp [runAll], by simp [runAll]⟩
  | cons t rest ih =>
    intro w
    obtain ⟨n, h1, h2⟩ := Replays_backgroundRun env t w
    obtain ⟨n1, g1, g2⟩ := ih (backgroundRun env t w).2
    refine ⟨n ++ n1, ?_, ?_⟩
    · simp only [runAll, List.foldl_cons] at g1 ⊢
      rw [g1, h1, List.append_assoc]
    · simp only [runAll, List.foldl_cons] at g2 ⊢
      rw [g2, h2, List.foldl_append]

/-- The table `videos` after an upload and the run of its goroutine is the
table before the upload with the successful writes made since applied in
order. -/
theorem uploadAndRun_replays (env : Env) (ctx : Ctx) (input : VideoUploadInput) (w : World) :
    (uploadAndRun env ctx input w).2.videos =
      (newTrace w (uploadAndRun env ctx input w).2).foldl rowsAfter w.videos := by
  obtain ⟨n, h1, h2⟩ := Replays_UploadVideo env ctx input w
  obtain ⟨n1, g1, g2⟩ := Replays_runAll env
    ((UploadVideo env ctx input w).2.spawned.drop w.spawned.length) (UploadVideo env ctx input w).2
  have htr : (uploadAndRun env ctx input w).2.trace = w.trace ++ (n ++ n1) := by
    simp only [uploadAndRun]
    rw [g1, h1, List.append_assoc]
  rw [newTrace_eq htr, List.foldl_append, ← h2]
  simp only [uploadAndRun]
  exact g2

theorem storedStatuses_append (id : String) : ∀ (a b : List Entry)
    (videos : String → Option Video),
    storedStatuses id videos (a ++ b) =
      storedStatuses id videos a ++ storedStatuses id (a.foldl rowsAfter videos) b := by
  intro a
  induction a with
  | nil => intro b videos; simp [storedStatuses]
  | cons e rest ih =>
    intro b videos
    simp only [List.cons_append, storedStatuses, List.foldl_cons, List.append_eq, ih,
      List.append_assoc]

/-- Once the row of a video exists, every successful write to it stores the
status the write carries. -/
theorem storedStatuses_of_row (id : String) : ∀ (l : List Entry)
    (videos : String → Option Video), (videos id).isSome = true →
    storedStatuses id videos l = statusWrites id l ∧
      ((l.foldl rowsAfter videos) id).isSome = true := by
  intro l
  induction l with
  | nil => intro videos h; exact ⟨by simp [storedStatuses, statusWrites], h⟩
  | cons e rest ih =>
    intro videos h
    obtain ⟨row, hrow⟩ := Option.isSome_iff_exists.mp h
    rcases e with ⟨site, ev⟩
    have key : (rowsAfter videos ⟨site, ev⟩ id).isSome = true ∧
        (if (ev.statusWritten id).isSome then
            ((rowsAfter videos ⟨site, ev⟩ id).map (fun row => row.Status)).toList
          else []) = (ev.statusWritten id).toList := by
      cases ev with
      | videoCreate c v err =>
        cases err with
        | none =>
          by_cases hv : v.ID = id
          · subst hv
            simp [rowsAfter, Event.statusWritten]
          · have hv2 : ¬ id = v.ID := fun h => hv h.symm
            simp [rowsAfter, Event.statusWritten, hv, hv2, h]
        | some e => simp [rowsAfter, Event.statusWritten, h]
      | videoUpdate c v err =>
        cases err with
        | none =>
          by_cases hv : v.ID = id
          · subst hv
            simp [rowsAfter, Event.statusWritten, hrow, updateRow]
          · have hv2 : ¬ id = v.ID := fun h => hv h.symm
            simp [rowsAfter, Event.statusWritten, hv, hv2, h]
        | some e => simp [rowsAfter, Event.statusWritten, h]
      | _ => simp [rowsAfter, Event.statusWritten, h]
    obtain ⟨ih1, ih2⟩ := ih (rowsAfter videos ⟨site, ev⟩) key.1
    refine ⟨?_, by simpa using ih2⟩
    simp only [storedStatuses, ih1, key.2, statusWrites, List.filterMap_cons]
    cases hs : ev.statusWritten id <;> simp
/-- Once the row of a video exists, its status after a trace is the status
carried by the last successful write to it, and its old status if there was
none. -/
theorem row_status_after (id : String) : ∀ (l : List Entry) (videos : String → Option Video)
    (row : Video), videos id = some row →
    ((l.foldl rowsAfter videos) id).map (fun r => r.Status) =
      some ((statusWrites id l).getLastD row.Status) := by
  intro l
  induction l with
  | nil => intro videos row h; simp [statusWrites, h]
  | cons e rest ih =>
    intro videos row h
    rcases e with ⟨site, ev⟩
    obtain ⟨row1, hrow1, hst1⟩ : ∃ row1, rowsAfter videos ⟨site, ev⟩ id = some row1 ∧
        row1.Status = (ev.statusWritten id).getD row.Status := by
      cases ev with
      | videoCreate c v err =>
        cases err with
        | none =>
          by_cases hv : v.ID = id
          · subst hv
            exact ⟨v, by simp [rowsAfter], by simp [Event.statusWritten]⟩
          · have hv2 : ¬ id = v.ID := fun h => hv h.symm
            exact ⟨row, by simp [rowsAfter, hv2, h], by simp [Event.statusWritten, hv]⟩
        | some e => exact ⟨row, by simp [rowsAfter, h], by simp [Event.statusWritten]⟩
      | videoUpdate c v err =>
        cases err with
        | none =>
          by_cases hv : v.ID = id
          · subst hv
            exact ⟨updateRow v row, by simp [rowsAfter, h], by simp [Event.statusWritten, updateRow]⟩
          · have hv2 : ¬ id = v.ID := fun h => hv h.symm
            exact ⟨row, by simp [rowsAfter, hv2, h], by simp [Event.statusWritten, hv]⟩
        | some e => exact ⟨row, by simp [rowsAfter, h], by simp [Event.statusWritten]⟩
      | _ => exact ⟨row, by simp [rowsAfter, h], by simp [Event.statusWritten]⟩
    have hsw : statusWrites id (⟨site, ev⟩ :: rest) =
        (ev.statusWritten id).toList ++ statusWrites id rest := by
      simp only [statusWrites, List.filterMap_cons]
      cases ev.statusWritten id <;> rfl
    rw [List.foldl_cons, ih _ row1 hrow1, hst1, hsw]
    cases ev.statusWritten id with
    | none => rfl
    | some s =>
      generalize statusWrites id rest = L
      cases L <;> rfl
/-- C9 (status sequence of a successful upload).  When every collaborator call
succeeds, the upload returns the created video, whose row is stored with
status `uploaded`.  The table `videos` after the run of the goroutine is the
table before the upload with the successful writes of the run applied in
order, and the statuses that the row of the video holds after each of these
writes are, in order, uploaded, processing, transcoded, complete, complete;
with consecutive repeats collapsed: uploaded, processing, transcoded,
complete.  In the worlds the run passes through, the row holds `uploaded` when
`UploadVideo` returns, `processing` after the first status write of the
goroutine, `complete` when `ProcessVideo` returns and `complete` when the
goroutine ends.  The statuses carried by the successful write calls are the
same list. -/
theorem status_sequence_of_successful_upload (env : Env) (hall : env.AllSucceed) (ctx : Ctx)
    (input : VideoUploadInput) (w : World) :
    ∃ video,
      (uploadAndRun env ctx input w).1 = .ok video ∧
      (UploadVideo env ctx input w).2.videos video.ID = some video ∧
      video.Status = StatusUploaded ∧
      (uploadAndRun env ctx input w).2.videos =
        (newTrace w (uploadAndRun env ctx input w).2).foldl rowsAfter w.videos ∧
      storedStatuses video.ID w.videos (newTrace w (uploadAndRun env ctx input w).2) =
        [StatusUploaded, StatusProcessing, StatusTranscoded, StatusComplete, StatusComplete] ∧
      (storedStatuses video.ID w.videos
          (newTrace w (uploadAndRun env ctx input w).2)).destutter (fun a b => a ≠ b) =
        [StatusUploaded, StatusProcessing, StatusTranscoded, StatusComplete] ∧
      ((VideoRepository.Update env .markProcessing .background
          { video with Status := StatusProcessing }
          (UploadVideo env ctx input w).2).2.videos video.ID).map (fun row => row.Status) =
        some StatusProcessing ∧
      ((ProcessVideo env .background video.ID video.OriginalURL
          (VideoRepository.Update env .markProcessing .background
            { video with Status := StatusProcessing }
            (UploadVideo env ctx input w).2).2).2.videos video.ID).map
          (fun row => row.Status) = some StatusComplete ∧
      ((uploadAndRun env ctx input w).2.videos video.ID).map (fun row => row.Status) =
        some StatusComplete ∧
      statusWrites video.ID (newTrace w (uploadAndRun env ctx input w).2) =
        [StatusUploaded, StatusProcessing, StatusTranscoded, StatusComplete, StatusComplete] ∧
      (statusWrites video.ID (newTrace w (uploadAndRun env ctx input w).2)).destutter
          (fun a b => a ≠ b) =
        [StatusUploaded, StatusProcessing, StatusTranscoded, StatusComplete] := by
  obtain ⟨url, hup⟩ := hall.uploadFile w.trace.length ctx
    (originalStoragePath (env.uuid w.uuids) input.FileName) input.FileData input.MimeType
  have hcr := hall.videoCreate (w.trace.length + 1) ctx
    (newVideo (env.uuid w.uuids) input url (env.now w.ticks) (env.now (w.ticks + 1)))
  obtain ⟨hres, htr1, hvid1, -, hsp⟩ := UploadVideo_ok env ctx input w url _ hup hcr rfl
  obtain ⟨video, hvideo⟩ : ∃ video, video =
    newVideo (env.uuid w.uuids) input url (env.now w.ticks) (env.now (w.ticks + 1)) := ⟨_, rfl⟩
  rw [← hvideo] at hres htr1 hvid1 hsp
  have hid : video.ID = env.uuid w.uuids := by rw [hvideo]; rfl
  rw [← hid] at htr1 hvid1 hsp
  obtain ⟨v1, err1, wA, outP, newP, recs, vF, errF, post⟩ :=
    backgroundRun_spec env ⟨video, video.ID, url⟩ (UploadVideo env ctx input w).2 _ rfl
  obtain ⟨he1, heF⟩ := post.succeeds hall
  subst he1
  subst heF
  have hrun : uploadAndRun env ctx input w =
      (.ok video, (backgroundRun env ⟨video, video.ID, url⟩ (UploadVideo env ctx input w).2).2) := by
    simp only [uploadAndRun, hsp, hres, runAll, List.drop_left, List.foldl_cons, List.foldl_nil]
  have hrowA0 : (wA.videos video.ID).isSome = true := by
    rw [post.firstRows, hvid1]
    rfl
  have hokP : outP.1 = .ok () := post.post.succeeds hall hrowA0
  have htrace : (uploadAndRun env ctx input w).2.trace = w.trace ++
      ([⟨.storeOriginal, .uploadFile ctx (originalStoragePath video.ID input.FileName)
            input.FileData input.MimeType (.ok url)⟩,
          ⟨.createVideo, .videoCreate ctx video none⟩] ++
        ([⟨.markProcessing, .videoUpdate .background v1 none⟩] ++ (newP ++
          [⟨.markFinal, .videoUpdate .background vF none⟩]))) := by
    rw [hrun]
    simp only [post.trace, htr1, List.append_assoc]
  have hst : video.Status = StatusUploaded := by rw [hvideo]; rfl
  have hv1 : v1.ID = video.ID ∧ v1.Status = StatusProcessing := by
    rw [post.first]
    exact ⟨rfl, rfl⟩
  have hvF : vF.ID = video.ID ∧ vF.Status = StatusComplete := by
    rw [post.last, post.first, hokP]
    exact ⟨rfl, rfl⟩
  have hrowA : wA.videos video.ID = some (updateRow v1 video) := by
    rw [post.firstVideos rfl]
    simp only [updateVideo_videos, hv1.1, if_true, hvid1, Option.map_some']
  have hP : statusWrites video.ID newP = [StatusTranscoded, StatusComplete] := by
    have := post.post.statuses hokP (updateRow v1 video) hrowA video.ID
    simpa [updateRow] using this
  have hseq : statusWrites video.ID (newTrace w (uploadAndRun env ctx input w).2) =
      [StatusUploaded, StatusProcessing, StatusTranscoded, StatusComplete, StatusComplete] := by
    rw [newTrace_eq htrace, statusWrites_append, statusWrites_append, statusWrites_append, hP]
    simp [statusWrites, Event.statusWritten, hst, hv1.1, hv1.2, hvF.1, hvF.2]
  -- the statuses held by the row
  have hrest : statusWrites video.ID ([⟨.markProcessing, .videoUpdate .background v1 none⟩] ++
      (newP ++ [⟨.markFinal, .videoUpdate .background vF none⟩])) =
      [StatusProcessing, StatusTranscoded, StatusComplete, StatusComplete] := by
    rw [statusWrites_append, statusWrites_append, hP]
    simp [statusWrites, Event.statusWritten, hv1.1, hv1.2, hvF.1, hvF.2]
  have hstored : storedStatuses video.ID w.videos
      (newTrace w (uploadAndRun env ctx input w).2) =
      [StatusUploaded, StatusProcessing, StatusTranscoded, StatusComplete, StatusComplete] := by
    rw [newTrace_eq htrace, storedStatuses_append]
    have hrow1 : ((List.foldl rowsAfter w.videos
        [⟨.storeOriginal, .uploadFile ctx (originalStoragePath video.ID input.FileName)
            input.FileData input.MimeType (.ok url)⟩,
          ⟨.createVideo, .videoCreate ctx video none⟩]) video.ID).isSome = true := by
      simp [rowsAfter]
    rw [(storedStatuses_of_row video.ID _ _ hrow1).1, hrest]
    simp [storedStatuses, rowsAfter, Event.statusWritten, hst]
  -- the row after the last write
  have hrowP : (outP.2.videos video.ID).isSome = true := by
    rw [post.post.rows, hrowA0]
  obtain ⟨row0, hrow0⟩ := Option.isSome_iff_exists.mp hrowP
  have hfinal : (uploadAndRun env ctx input w).2.videos video.ID = some (updateRow vF row0) := by
    rw [hrun]
    simp only [post.videos rfl, updateVideo_videos, hvF.1, if_true, hrow0, Option.map_some']
  -- the worlds after the first status write and after the pipeline
  have hA2 : wA = (VideoRepository.Update env .markProcessing .background
      { video with Status := StatusProcessing } (UploadVideo env ctx input w).2).2 :=
    congrArg Prod.snd post.start
  have hurl : video.OriginalURL = url := by rw [hvideo]; rfl
  have hPeq : ProcessVideo env .background video.ID url wA = outP := post.pipeline
  have hafterP : (outP.2.videos video.ID).map (fun row => row.Status) = some StatusComplete := by
    obtain ⟨n, hn1, hn2⟩ := Replays_ProcessVideo env .background video.ID url wA
    rw [hPeq] at hn1 hn2
    have hn : n = newP := List.append_cancel_left (hn1.symm.trans post.post.trace)
    rw [hn2, row_status_after video.ID n wA.videos (updateRow v1 video) hrowA, hn, hP]
    rfl
  refine ⟨video, by rw [hrun], hvid1, hst, uploadAndRun_replays env ctx input w, hstored, ?_, ?_,
    ?_, ?_, hseq, ?_⟩
  · rw [hstored]
    exact destutter_statuses
  · rw [← hA2, hrowA]
    simp only [Option.map_some']
    exact congrArg some hv1.2
  · rw [← hA2, hurl, hPeq]
    exact hafterP
  · rw [hfinal]
    simp only [Option.map_some']
    exact congrArg some hvF.2
  · rw [hseq]
    exact destutter_statuses

/-- Witness of C9: the upload `demoInput` into an empty world. -/
theorem status_sequence_of_successful_upload_witness :
    (demoEnv 25 threeChunks).AllSucceed ∧
    ∃ video,
      (uploadAndRun (demoEnv 25 threeChunks) (.request 0 false) demoInput emptyWorld).1 =
        .ok video ∧
      (UploadVideo (demoEnv 25 threeChunks) (.request 0 false) demoInput emptyWorld).2.videos
        video.ID = some video ∧
      video.Status = StatusUploaded ∧
      (uploadAndRun (demoEnv 25 threeChunks) (.request 0 false) demoInput emptyWorld).2.videos =
        (newTrace emptyWorld (uploadAndRun (demoEnv 25 threeChunks) (.request 0 false) demoInput
          emptyWorld).2).foldl rowsAfter emptyWorld.videos ∧
      storedStatuses video.ID emptyWorld.videos (newTrace emptyWorld
        (uploadAndRun (demoEnv 25 threeChunks) (.request 0 false) demoInput emptyWorld).2) =
        [StatusUploaded, StatusProcessing, StatusTranscoded, StatusComplete, StatusComplete] ∧
      (storedStatuses video.ID emptyWorld.videos (newTrace emptyWorld
        (uploadAndRun (demoEnv 25 threeChunks) (.request 0 false) demoInput
          emptyWorld).2)).destutter (fun a b => a ≠ b) =
        [StatusUploaded, StatusProcessing, StatusTranscoded, StatusComplete] ∧
      ((VideoRepository.Update (demoEnv 25 threeChunks) .markProcessing .background
          { video with Status := StatusProcessing }
          (UploadVideo (demoEnv 25 threeChunks) (.request 0 false) demoInput
            emptyWorld).2).2.videos video.ID).map (fun row => row.Status) =
        some StatusProcessing ∧
      ((ProcessVideo (demoEnv 25 threeChunks) .background video.ID video.OriginalURL
          (VideoRepository.Update (demoEnv 25 threeChunks) .markProcessing .background
            { video with Status := StatusProcessing }
            (UploadVideo (demoEnv 25 threeChunks) (.request 0 false) demoInput
              emptyWorld).2).2).2.videos video.ID).map
          (fun row => row.Status) = some StatusComplete ∧
      ((uploadAndRun (demoEnv 25 threeChunks) (.request 0 false) demoInput emptyWorld).2.videos
        video.ID).map (fun row => row.Status) = some StatusComplete ∧
      statusWrites video.ID (newTrace emptyWorld
        (uploadAndRun (demoEnv 25 threeChunks) (.request 0 false) demoInput emptyWorld).2) =
        [StatusUploaded, StatusProcessing, StatusTranscoded, StatusComplete, StatusComplete] ∧
      (statusWrites video.ID (newTrace emptyWorld
        (uploadAndRun (demoEnv 25 threeChunks) (.request 0 false) demoInput emptyWorld).2)).destutter
          (fun a b => a ≠ b) =
        [StatusUploaded, StatusProcessing, StatusTranscoded, StatusComplete] :=
  ⟨demoEnv_allSucceed 25 threeChunks,
    status_sequence_of_successful_upload (demoEnv 25 threeChunks)
      (demoEnv_allSucceed 25 threeChunks) (.request 0 false) demoInput emptyWorld⟩

/-! ## The artifact store is the replay of the uploads -/

theorem chunkBytesEnv_stored (bytes : Bytes) (w : World) (row : Video)
    (hrow : w.videos "v1" = some row) :
    (ProcessVideo (chunkBytesEnv bytes) .background "v1" demoVideo.OriginalURL w).1 = .ok () ∧
    (newTrace w (ProcessVideo (chunkBytesEnv bytes) .background "v1" demoVideo.OriginalURL
        w).2).filterMap Entry.stored =
      [("videos/v1/1080p/segment_000.ts", ⟨bytes, "video/mp2t"⟩),
        ("videos/v1/720p/segment_000.ts", ⟨bytes, "video/mp2t"⟩),
        ("videos/v1/thumbnail.jpg", ⟨bytes, "image/jpeg"⟩)] := by
  have h1 : chunkStoragePath "v1" Resolution1080p (filepathBase "/tmp/w/segment_000.ts") =
      "videos/v1/1080p/segment_000.ts" := by decide
  have h2 : chunkStoragePath "v1" Resolution720p (filepathBase "/tmp/w/segment_000.ts") =
      "videos/v1/720p/segment_000.ts" := by decide
  have h3 : thumbnailStoragePath "v1" = "videos/v1/thumbnail.jpg" := by decide
  simp [newTrace, ProcessVideo, processInTempDir, resolutionLoop, resolutions,
    processResolution, segmentLoop, thumbnailStep, bind_apply, pure_apply,
    wrapErr, attempt, withDefer, call, checkErr, errResult, VideoRepository.GetByID,
    VideoRepository.Update, StorageRepository.GetFile, StorageRepository.UploadFile,
    TranscodeRepository.Transcode, TranscodeRepository.Segment, TranscodeRepository.GetVideoInfo,
    SegmentRepository.Create, uuidNew, timeNow,
    osMkdirTemp, osRemoveAll, osWriteFile, osReadFile, osMkdirAll, chunkBytesEnv, demoEnv,
    oneChunk, hrow, Entry.stored, h1, h2, h3]
/-- Every write of `ProcessVideo` to the artifact store is at an artifact path
of its video id. -/
theorem Paths_ProcessVideo (env : Env) (ctx : Ctx) (videoID videoURL : String) :
    Emits (fun e => e.writesUnder videoID) (ProcessVideo env ctx videoID videoURL) := by
  simp only [ProcessVideo]
  refine Emits_bind (Emits_wrapErr _ (Emits_GetByID env _ _ _
    (fun _ _ _ _ _ _ h => by cases h))) (fun video => ?_)
  refine Emits_bind (Emits_wrapErr _ (Emits_MkdirTemp env _ _ _
    (fun _ _ _ _ _ _ h => by cases h))) (fun tempDir => ?_)
  exact Emits_withDefer env _ _ (Paths_processInTempDir env _ _ _ video tempDir)
    (fun _ _ _ _ _ _ h => by cases h)

theorem ProcessVideo_paths (env : Env) (ctx : Ctx) (videoID videoURL : String) (w : World) :
    ∀ e ∈ newTrace w (ProcessVideo env ctx videoID videoURL w).2, e.writesUnder videoID := by
  obtain ⟨n, hn, -, -, -, hP⟩ := Paths_ProcessVideo env ctx videoID videoURL w w (alike_refl w)
  rw [newTrace_eq hn]
  exact hP

theorem stored_writesUnder {videoID : String} {e : Entry} (h : e.writesUnder videoID)
    (x : String × S3Object) (hx : e.stored = some x) : ArtifactPath videoID x.1 := by
  rcases e with ⟨site, ev⟩
  cases ev with
  | uploadFile c f d ct res =>
    cases res with
    | ok u =>
      simp only [Entry.stored, Option.some.injEq] at hx
      subst hx
      exact h c f d ct (.ok u) rfl
    | error err => simp [Entry.stored] at hx
  | _ => simp [Entry.stored] at hx

theorem artifactsAfter_append (b : Bucket) (l1 l2 : List Entry) :
    artifactsAfter b (l1 ++ l2) = artifactsAfter (artifactsAfter b l1) l2 := by
  simp only [artifactsAfter, List.filterMap_append, List.foldl_append]

theorem artifactsAfter_cons (b : Bucket) (e : Entry) (l : List Entry) :
    artifactsAfter b (e :: l) =
      artifactsAfter (match e.stored with
        | some x => (putObject none x.1 x.2 b).2
        | none => b) l := by
  simp only [artifactsAfter, List.filterMap_cons]
  cases e.stored <;> rfl

/-- A path to which a trace makes no successful upload keeps its object. -/
theorem artifactsAfter_kept (key : String) : ∀ (l : List Entry) (b : Bucket),
    (∀ e ∈ l, ∀ x, e.stored = some x → x.1 ≠ key) → artifactsAfter b l key = b key := by
  intro l
  induction l with
  | nil => intro b _; rfl
  | cons e rest ih =>
    intro b h
    rw [artifactsAfter_cons, ih _ (fun x hx => h x (List.mem_cons_of_mem _ hx))]
    cases hs : e.stored with
    | none => rfl
    | some x =>
      have hne := h e (List.mem_cons_self _ _) x hs
      simp only [putObject]
      rw [if_neg (fun hk => hne hk.symm)]

/-- No call deletes an object. -/
theorem artifactsAfter_isSome (key : String) : ∀ (l : List Entry) (b : Bucket),
    (b key).isSome = true → (artifactsAfter b l key).isSome = true := by
  intro l
  induction l with
  | nil => intro b h; exact h
  | cons e rest ih =>
    intro b h
    rw [artifactsAfter_cons]
    apply ih
    cases hs : e.stored with
    | none => exact h
    | some x =>
      simp only [putObject]
      split
      · rfl
      · exact h

/-- The object under a path after a trace is the one of the last successful
upload to that path, whatever the path held before. -/
theorem artifactsAfter_last (b : Bucket) (l1 l2 : List Entry) (e : Entry) (key : String)
    (obj : S3Object) (he : e.stored = some (key, obj))
    (h2 : ∀ x ∈ l2, ∀ y, x.stored = some y → y.1 ≠ key) :
    artifactsAfter b (l1 ++ e :: l2) key = some obj := by
  rw [artifactsAfter_append, artifactsAfter_cons, artifactsAfter_kept key l2 _ h2, he]
  simp [putObject]

theorem ProcessVideo_trace_append (env : Env) (ctx : Ctx) (videoID videoURL : String)
    (w : World) :
    (ProcessVideo env ctx videoID videoURL w).2.trace =
      w.trace ++ newTrace w (ProcessVideo env ctx videoID videoURL w).2 := by
  obtain ⟨n, hn, -⟩ := Replays_ProcessVideo env ctx videoID videoURL w
  rw [newTrace_eq hn, hn]

theorem rerun_trace (env1 env2 : Env) (ctx1 ctx2 : Ctx) (videoID url1 url2 : String)
    (w : World) :
    newTrace w (rerun env1 env2 ctx1 ctx2 videoID url1 url2 w).2 =
      newTrace w (ProcessVideo env1 ctx1 videoID url1 w).2 ++
        newTrace (ProcessVideo env1 ctx1 videoID url1 w).2
          (rerun env1 env2 ctx1 ctx2 videoID url1 url2 w).2 := by
  have h1 := ProcessVideo_trace_append env1 ctx1 videoID url1 w
  have h2 := ProcessVideo_trace_append env2 ctx2 videoID url2
    (ProcessVideo env1 ctx1 videoID url1 w).2
  have h3 : (rerun env1 env2 ctx1 ctx2 videoID url1 url2 w).2.trace = w.trace ++
      (newTrace w (ProcessVideo env1 ctx1 videoID url1 w).2 ++
        newTrace (ProcessVideo env1 ctx1 videoID url1 w).2
          (rerun env1 env2 ctx1 ctx2 videoID url1 url2 w).2) := by
    unfold rerun
    rw [← List.append_assoc, ← h1]
    exact h2
  exact newTrace_eq h3
/-- C16, as stated, fails for the artifacts: a second run on the same video id
uploads its chunks to the storage paths the first run used and replaces the
objects stored there.  With one chunk per resolution, holding the byte 71 in
the first run and the byte 72 in the second, both runs succeed; the path
`videos/v1/1080p/segment_000.ts` holds the object with the byte 71 after the
first run and the object with the byte 72 after the second, while the two
Segment records of 1080p both remain. -/
theorem rerun_replaces_stored_chunk :
    (ProcessVideo (chunkBytesEnv [71]) .background "v1" demoVideo.OriginalURL demoWorld).1 =
      .ok () ∧
    (rerun (chunkBytesEnv [71]) (chunkBytesEnv [72]) .background .background "v1"
      demoVideo.OriginalURL demoVideo.OriginalURL demoWorld).1 = .ok () ∧
    artifactsAfter (fun _ => none)
        (newTrace demoWorld (ProcessVideo (chunkBytesEnv [71]) .background "v1"
          demoVideo.OriginalURL demoWorld).2) "videos/v1/1080p/segment_000.ts" =
      some ⟨[71], "video/mp2t"⟩ ∧
    artifactsAfter (fun _ => none)
        (newTrace demoWorld (rerun (chunkBytesEnv [71]) (chunkBytesEnv [72]) .background
          .background "v1" demoVideo.OriginalURL demoVideo.OriginalURL demoWorld).2)
        "videos/v1/1080p/segment_000.ts" =
      some ⟨[72], "video/mp2t"⟩ ∧
    (createdFor demoWorld (rerun (chunkBytesEnv [71]) (chunkBytesEnv [72]) .background
      .background "v1" demoVideo.OriginalURL demoVideo.OriginalURL demoWorld).2 "v1"
      Resolution1080p).length = 2 := by
  obtain ⟨hok1, hst1⟩ := chunkBytesEnv_stored [71] demoWorld demoVideo (by simp [demoWorld])
  have hrow : ((ProcessVideo (chunkBytesEnv [71]) .background "v1" demoVideo.OriginalURL
      demoWorld).2.videos "v1").isSome = true := by
    rw [ProcessVideo_rows]
    simp [demoWorld]
  obtain ⟨row, hrow⟩ := Option.isSome_iff_exists.mp hrow
  obtain ⟨hok2, hst2⟩ := chunkBytesEnv_stored [72] _ row hrow
  have hrr : rerun (chunkBytesEnv [71]) (chunkBytesEnv [72]) .background .background "v1"
      demoVideo.OriginalURL demoVideo.OriginalURL demoWorld =
      ProcessVideo (chunkBytesEnv [72]) .background "v1" demoVideo.OriginalURL
        (ProcessVideo (chunkBytesEnv [71]) .background "v1" demoVideo.OriginalURL demoWorld).2 :=
    rfl
  have hseg1 : segmenterResult (newTrace demoWorld (ProcessVideo (chunkBytesEnv [71])
      .background "v1" demoVideo.OriginalURL demoWorld).2) Resolution1080p = some oneChunk := by
    obtain ⟨cs, hcs⟩ := ProcessVideo_ladder (chunkBytesEnv [71]) .background "v1"
      demoVideo.OriginalURL demoWorld Resolution1080p ladder_1080p hok1
    obtain ⟨n, ctx, vp, d, pat, h⟩ := (ProcessVideo_oracle (chunkBytesEnv [71]) .background "v1"
      demoVideo.OriginalURL demoWorld).1 Resolution1080p cs hcs
    have : oneChunk = cs := by simpa [chunkBytesEnv, demoEnv] using h
    rw [this]
    exact hcs
  have hseg2 : segmenterResult (newTrace (ProcessVideo (chunkBytesEnv [71])
      .background "v1" demoVideo.OriginalURL demoWorld).2
      (ProcessVideo (chunkBytesEnv [72]) .background "v1" demoVideo.OriginalURL
        (ProcessVideo (chunkBytesEnv [71]) .background "v1" demoVideo.OriginalURL
          demoWorld).2).2) Resolution1080p = some oneChunk := by
    obtain ⟨cs, hcs⟩ := ProcessVideo_ladder (chunkBytesEnv [72]) .background "v1"
      demoVideo.OriginalURL _ Resolution1080p ladder_1080p hok2
    obtain ⟨n, ctx, vp, d, pat, h⟩ := (ProcessVideo_oracle (chunkBytesEnv [72]) .background "v1"
      demoVideo.OriginalURL _).1 Resolution1080p cs hcs
    have : oneChunk = cs := by simpa [chunkBytesEnv, demoEnv] using h
    rw [this]
    exact hcs
  refine ⟨hok1, by rw [hrr]; exact hok2, ?_, ?_, ?_⟩
  · simp only [artifactsAfter, hst1, List.foldl_cons, List.foldl_nil, putObject]
    decide
  · rw [rerun_trace, artifactsAfter, List.filterMap_append, hst1, hrr, hst2]
    simp only [List.cons_append, List.nil_append, List.foldl_cons, List.foldl_nil, putObject]
    decide
  · have h1 := (ProcessVideo_shape (chunkBytesEnv [71]) .background "v1" demoVideo.OriginalURL
      demoWorld).2
    have h2 := (ProcessVideo_shape (chunkBytesEnv [72]) .background "v1" demoVideo.OriginalURL
      (ProcessVideo (chunkBytesEnv [71]) .background "v1" demoVideo.OriginalURL demoWorld).2).2
    rw [hrr, createdFor_trans "v1" Resolution1080p h1 h2, List.length_append,
      ProcessVideo_complete _ _ _ _ _ _ oneChunk hok1 hseg1,
      ProcessVideo_complete _ _ _ _ _ _ oneChunk hok2 hseg2]
    rfl
/-- C16, amended (records are only added, objects can be replaced).  After any
run of `ProcessVideo`, failed or successful, the segments table is the table
before the run followed by the records the run created, in creation order: no
row is removed, changed or merged.  The same holds for a second run on the
same video id, so when both runs succeed and the Segmenter returns `n` chunks
for resolution `r` in each, the two runs leave `2 * n` Segment records for
`r`.  For the artifact store, with any bucket `b` before the run: no object is
deleted; a path that is no artifact path of the video id, and any path the run
makes no successful upload to, keeps its object; a path the run uploads to
holds the object of the last successful upload to it, whatever it held before;
and the bucket after a second run is the bucket after the first with the
uploads of the second applied to it. -/
theorem segment_records_added_objects_replaced (env1 env2 : Env) (ctx1 ctx2 : Ctx)
    (videoID url1 url2 : String) (w : World) (b : Bucket) :
    (ProcessVideo env1 ctx1 videoID url1 w).2.segments =
      w.segments ++ createdIn (newTrace w (ProcessVideo env1 ctx1 videoID url1 w).2) ∧
    (rerun env1 env2 ctx1 ctx2 videoID url1 url2 w).2.segments =
      w.segments ++ createdIn (newTrace w (ProcessVideo env1 ctx1 videoID url1 w).2) ++
        createdIn (newTrace (ProcessVideo env1 ctx1 videoID url1 w).2
          (rerun env1 env2 ctx1 ctx2 videoID url1 url2 w).2) ∧
    (∀ (r : Resolution) (cs1 cs2 : List String),
      (ProcessVideo env1 ctx1 videoID url1 w).1 = .ok () →
      (rerun env1 env2 ctx1 ctx2 videoID url1 url2 w).1 = .ok () →
      segmenterResult (newTrace w (ProcessVideo env1 ctx1 videoID url1 w).2) r = some cs1 →
      segmenterResult (newTrace (ProcessVideo env1 ctx1 videoID url1 w).2
        (rerun env1 env2 ctx1 ctx2 videoID url1 url2 w).2) r = some cs2 →
      cs1.length = cs2.length →
      (createdFor w (rerun env1 env2 ctx1 ctx2 videoID url1 url2 w).2 videoID r).length =
        2 * cs1.length) ∧
    (∀ key, (b key).isSome = true →
      (artifactsAfter b (newTrace w (ProcessVideo env1 ctx1 videoID url1 w).2) key).isSome =
        true) ∧
    (∀ key, ¬ ArtifactPath videoID key →
      artifactsAfter b (newTrace w (ProcessVideo env1 ctx1 videoID url1 w).2) key = b key) ∧
    (∀ key, (∀ e ∈ newTrace w (ProcessVideo env1 ctx1 videoID url1 w).2,
        ∀ x, e.stored = some x → x.1 ≠ key) →
      artifactsAfter b (newTrace w (ProcessVideo env1 ctx1 videoID url1 w).2) key = b key) ∧
    (∀ l1 e l2 key obj,
      newTrace w (ProcessVideo env1 ctx1 videoID url1 w).2 = l1 ++ e :: l2 →
      e.stored = some (key, obj) →
      (∀ x ∈ l2, ∀ y, x.stored = some y → y.1 ≠ key) →
      artifactsAfter b (newTrace w (ProcessVideo env1 ctx1 videoID url1 w).2) key = some obj) ∧
    artifactsAfter b (newTrace w (rerun env1 env2 ctx1 ctx2 videoID url1 url2 w).2) =
      artifactsAfter
        (artifactsAfter b (newTrace w (ProcessVideo env1 ctx1 videoID url1 w).2))
        (newTrace (ProcessVideo env1 ctx1 videoID url1 w).2
          (rerun env1 env2 ctx1 ctx2 videoID url1 url2 w).2) := by
  have h1 := (ProcessVideo_shape env1 ctx1 videoID url1 w).2
  have h2 := (ProcessVideo_shape env2 ctx2 videoID url2 (ProcessVideo env1 ctx1 videoID url1 w).2).2
  refine ⟨h1, ?_, ?_, ?_, ?_, ?_, ?_, ?_⟩
  · unfold rerun
    rw [h2, h1]
  · intro r cs1 cs2 hok1 hok2 hcs1 hcs2 hlen
    unfold rerun at hok2 hcs2 ⊢
    rw [createdFor_trans videoID r h1 h2, List.length_append,
      ProcessVideo_complete env1 ctx1 videoID url1 w r cs1 hok1 hcs1,
      ProcessVideo_complete env2 ctx2 videoID url2 _ r cs2 hok2 hcs2]
    omega
  · intro key hkey
    exact artifactsAfter_isSome key _ b hkey
  · intro key hkey
    apply artifactsAfter_kept
    intro e he x hx hk
    have := stored_writesUnder (ProcessVideo_paths env1 ctx1 videoID url1 w e he) x hx
    rw [hk] at this
    exact hkey this
  · intro key hkey
    exact artifactsAfter_kept key _ b hkey
  · intro l1 e l2 key obj hsplit he hl2
    rw [hsplit]
    exact artifactsAfter_last b l1 l2 e key obj he hl2
  · rw [rerun_trace, artifactsAfter_append]

/-- Witness of the amended C16: two runs on `demoWorld` with three chunks per
resolution leave six Segment records for 1080p, and the bucket after the two
runs is the bucket after the first with the uploads of the second applied. -/
theorem segment_records_added_objects_replaced_witness :
    (demoRun 25 threeChunks).1 = .ok () ∧
    (rerun (demoEnv 25 threeChunks) (demoEnv 25 threeChunks) .background .background "v1"
      demoVideo.OriginalURL demoVideo.OriginalURL demoWorld).1 = .ok () ∧
    (createdFor demoWorld
      (rerun (demoEnv 25 threeChunks) (demoEnv 25 threeChunks) .background .background "v1"
        demoVideo.OriginalURL demoVideo.OriginalURL demoWorld).2 "v1" Resolution1080p).length =
      2 * threeChunks.length ∧
    artifactsAfter (fun _ => none) (newTrace demoWorld
        (rerun (demoEnv 25 threeChunks) (demoEnv 25 threeChunks) .background .background "v1"
          demoVideo.OriginalURL demoVideo.OriginalURL demoWorld).2) =
      artifactsAfter
        (artifactsAfter (fun _ => none) (newTrace demoWorld
          (ProcessVideo (demoEnv 25 threeChunks) .background "v1" demoVideo.OriginalURL
            demoWorld).2))
        (newTrace (ProcessVideo (demoEnv 25 threeChunks) .background "v1"
            demoVideo.OriginalURL demoWorld).2
          (rerun (demoEnv 25 threeChunks) (demoEnv 25 threeChunks) .background .background "v1"
            demoVideo.OriginalURL demoVideo.OriginalURL demoWorld).2) := by
  have hok2 : (rerun (demoEnv 25 threeChunks) (demoEnv 25 threeChunks) .background .background
      "v1" demoVideo.OriginalURL demoVideo.OriginalURL demoWorld).1 = .ok () := by
    unfold rerun
    apply ProcessVideo_succeeds _ _ _ _ _ (demoEnv_allSucceed 25 threeChunks)
    rw [ProcessVideo_rows]
    simp [demoWorld]
  have h := segment_records_added_objects_replaced (demoEnv 25 threeChunks)
    (demoEnv 25 threeChunks) .background .background "v1" demoVideo.OriginalURL
    demoVideo.OriginalURL demoWorld (fun _ => none)
  refine ⟨demoRun_ok 25 threeChunks, hok2, ?_, h.2.2.2.2.2.2.2⟩
  exact h.2.2.1 Resolution1080p threeChunks threeChunks (demoRun_ok 25 threeChunks) hok2
    (demoRun_chunks 25 threeChunks _ ladder_1080p)
    (demoEnv_chunks 25 threeChunks .background "v1" demoVideo.OriginalURL _ hok2 _ ladder_1080p)
    rfl

/-! ## The record behind the pointer returned by `UploadVideo` -/

theorem Update_record (env : Env) (site : Site) (ctx : Ctx) (video : Video) (w : World) :
    (VideoRepository.Update env site ctx video w).1.1 =
      { video with UpdatedAt := env.now w.ticks } := by
  simp only [VideoRepository.Update]
  split <;> rfl

/-- The record behind the pointer that `UploadVideo` returns, as its goroutine
leaves it after each of its four assignments; the two `Update` calls of the
goroutine carry the second and the fourth of these contents. -/
theorem sharedRecord_spec (env : Env) (t : BackgroundTask) (w : World) :
    ∃ v2 v3 v4 err1 newP errF,
      sharedRecord env t w = [{ t.video with Status := StatusProcessing }, v2, v3, v4] ∧
      v2 = { t.video with Status := StatusProcessing, UpdatedAt := env.now w.ticks } ∧
      (v3 = { v2 with Status := StatusFailed } ∨ v3 = { v2 with Status := StatusComplete }) ∧
      v4.Status = v3.Status ∧ v4.ID = t.video.ID ∧
      newTrace w (backgroundRun env t w).2 =
        [⟨.markProcessing, .videoUpdate .background v2 err1⟩] ++ newP ++
          [⟨.markFinal, .videoUpdate .background v4 errF⟩] := by
  obtain ⟨v1p, err1, wA, outP, newP, recs, vF, errF, post⟩ := backgroundRun_spec env t w _ rfl
  have hA1 : v1p = (VideoRepository.Update env .markProcessing .background
      { t.video with Status := StatusProcessing } w).1.1 := congrArg (fun x => x.1.1) post.start
  have hA2 : wA = (VideoRepository.Update env .markProcessing .background
      { t.video with Status := StatusProcessing } w).2 := congrArg (fun x => x.2) post.start
  have hP : ProcessVideo env .background t.videoID t.uploadURL
      (VideoRepository.Update env .markProcessing .background
        { t.video with Status := StatusProcessing } w).2 = outP := by
    rw [← hA2]
    exact post.pipeline
  have hv2 : v1p = { t.video with Status := StatusProcessing, UpdatedAt := env.now w.ticks } :=
    post.first
  refine ⟨v1p, { v1p with Status := if resFailed outP.1 then StatusFailed else StatusComplete },
    vF, err1, newP, errF, ?_, hv2, ?_, ?_, ?_, ?_⟩
  · simp only [sharedRecord, hP, ← hA1, Update_record]
    rw [post.last]
    rcases outP with ⟨resP, wP⟩
    cases resP <;> simp [resFailed]
  · cases h : resFailed outP.1 <;> simp
  · rw [post.last]
  · rw [post.last, post.first]
  · rw [newTrace_eq post.trace]

/-- C13 (a successful upload) does not hold of the code as the caller of
`UploadVideo` sees it.  When the write of the original returns the reference
`url` and the creation of the record succeeds, `UploadVideo` returns, without
error, the record it stored under its id, with status `uploaded`, the uuid
drawn by this call as id, `OriginalURL` equal to `url`, title, description,
file size, MIME type and user id taken from the input, duration 0 and empty
`resolution_info`, and it starts exactly one goroutine, for that id and that
reference.  But what it returns is the pointer to the record that this
goroutine assigns to: behind the pointer the status is `processing` after the
first assignment of the goroutine and `failed` or `complete` after the third,
and the two `Update` calls of the goroutine carry this very record.  The
handler reads the status through the pointer after `UploadVideo` has returned:
it answers `uploaded` only if it reads before the first assignment of the
goroutine, `processing` right after it, and never `uploaded` later. -/
theorem returned_record_is_assigned_by_goroutine (env : Env) (ctx : Ctx)
    (input : VideoUploadInput) (w : World) (url : String)
    (hup : env.uploadFile w.trace.length ctx (originalStoragePath (env.uuid w.uuids)
      input.FileName) input.FileData input.MimeType = .ok url)
    (hcr : env.videoCreate (w.trace.length + 1) ctx
      (newVideo (env.uuid w.uuids) input url (env.now w.ticks) (env.now (w.ticks + 1))) = none) :
    ∃ video,
      (UploadVideo env ctx input w).1 = .ok video ∧
      (UploadVideo env ctx input w).2.videos video.ID = some video ∧
      video.Status = StatusUploaded ∧
      video.ID = env.uuid w.uuids ∧
      (UploadVideo env ctx input w).2.uuids = w.uuids + 1 ∧
      video.OriginalURL = url ∧
      video.Title = input.Title ∧
      video.Description = input.Description ∧
      video.FileSize = input.FileSize ∧
      video.MimeType = input.MimeType ∧
      video.UserID = input.UserID ∧
      video.Duration = 0 ∧
      video.ResolutionInfo = "" ∧
      (UploadVideo env ctx input w).2.spawned = w.spawned ++ [⟨video, video.ID, url⟩] ∧
      uploadAndRun env ctx input w =
        (.ok video,
          (backgroundRun env ⟨video, video.ID, url⟩ (UploadVideo env ctx input w).2).2) ∧
      (∃ v2 v3 v4 err1 newP errF,
        sharedRecord env ⟨video, video.ID, url⟩ (UploadVideo env ctx input w).2 =
          [{ video with Status := StatusProcessing }, v2, v3, v4] ∧
        v2 = { video with
          Status := StatusProcessing
          UpdatedAt := env.now (UploadVideo env ctx input w).2.ticks } ∧
        (v3 = { v2 with Status := StatusFailed } ∨ v3 = { v2 with Status := StatusComplete }) ∧
        v4.Status = v3.Status ∧
        newTrace (UploadVideo env ctx input w).2
            (backgroundRun env ⟨video, video.ID, url⟩ (UploadVideo env ctx input w).2).2 =
          [⟨.markProcessing, .videoUpdate .background v2 err1⟩] ++ newP ++
            [⟨.markFinal, .videoUpdate .background v4 errF⟩]) ∧
      VideoHandler.UploadVideo env ctx input 0 w = .ok ⟨video.ID, StatusUploaded⟩ ∧
      VideoHandler.UploadVideo env ctx input 1 w = .ok ⟨video.ID, StatusProcessing⟩ ∧
      ∀ k, 1 ≤ k → ∃ s, VideoHandler.UploadVideo env ctx input k w = .ok ⟨video.ID, s⟩ ∧
        s ≠ StatusUploaded ∧
        (s = StatusProcessing ∨ s = StatusFailed ∨ s = StatusComplete) := by
  obtain ⟨hres, -, hvid, -, hsp⟩ := UploadVideo_ok env ctx input w url _ hup hcr rfl
  obtain ⟨video, hvideo⟩ : ∃ video, video =
    newVideo (env.uuid w.uuids) input url (env.now w.ticks) (env.now (w.ticks + 1)) := ⟨_, rfl⟩
  have hid : video.ID = env.uuid w.uuids := by rw [hvideo]; rfl
  have hst : video.Status = StatusUploaded := by rw [hvideo]; rfl
  rw [← hvideo] at hres hvid hsp
  rw [← hid] at hvid hsp
  obtain ⟨v2, v3, v4, err1, newP, errF, hrec, hv2, hv3, hv4, hv4id, htr⟩ :=
    sharedRecord_spec env ⟨video, video.ID, url⟩ (UploadVideo env ctx input w).2
  have hdrop : ((UploadVideo env ctx input w).2.spawned.drop w.spawned.length).head? =
      some ⟨video, video.ID, url⟩ := by
    rw [hsp]
    simp
  have hread : ∀ k, VideoHandler.UploadVideo env ctx input k w =
      .ok ⟨(((video :: [{ video with Status := StatusProcessing }, v2, v3, v4]).take
          (k + 1)).getLastD video).ID,
        (((video :: [{ video with Status := StatusProcessing }, v2, v3, v4]).take
          (k + 1)).getLastD video).Status⟩ := by
    intro k
    unfold VideoHandler.UploadVideo
    generalize hU : UploadVideo env ctx input w = outU at hres hdrop hrec
    rcases outU with ⟨resU, w1⟩
    simp only at hres hdrop hrec
    subst hres
    simp only [hdrop, hrec]
  have hv2s : v2.Status = StatusProcessing ∧ v2.ID = video.ID := by
    rw [hv2]
    exact ⟨rfl, rfl⟩
  have hv3s : (v3.Status = StatusFailed ∨ v3.Status = StatusComplete) ∧ v3.ID = video.ID := by
    rcases hv3 with h | h <;> rw [h]
    · exact ⟨Or.inl rfl, hv2s.2⟩
    · exact ⟨Or.inr rfl, hv2s.2⟩
  refine ⟨video, hres, hvid, hst, hid, ?_, by rw [hvideo]; rfl, by rw [hvideo]; rfl,
    by rw [hvideo]; rfl, by rw [hvideo]; rfl, by rw [hvideo]; rfl, by rw [hvideo]; rfl,
    by rw [hvideo]; rfl, by rw [hvideo]; rfl, hsp, ?_, ?_, ?_, ?_, ?_⟩
  · simp only [UploadVideo, bind_apply, wrapErr, uuidNew, StorageRepository.UploadFile, timeNow,
      VideoRepository.Create, goSpawn, pure_apply, drawUuid_trace, hup, log_trace,
      List.length_append, List.length_singleton, log_ticks, drawUuid_ticks, tick_ticks,
      tick_trace, hcr]
    rfl
  · simp only [uploadAndRun, hsp, hres, runAll, List.drop_left, List.foldl_cons, List.foldl_nil]
  · exact ⟨v2, v3, v4, err1, newP, errF, hrec, hv2, hv3, hv4, htr⟩
  · rw [hread 0]
    simp [hst]
  · rw [hread 1]
    simp
  · intro k hk
    have hne : StatusProcessing ≠ StatusUploaded ∧ StatusFailed ≠ StatusUploaded ∧
        StatusComplete ≠ StatusUploaded := by decide
    rw [hread k]
    obtain ⟨j, rfl⟩ : ∃ j, k = j + 1 := ⟨k - 1, by omega⟩
    rcases j with _ | _ | _ | _ | j
    · exact ⟨_, by simp, by simpa using hne.1, Or.inl rfl⟩
    · refine ⟨v2.Status, by simp [hv2s.2], by rw [hv2s.1]; exact hne.1, Or.inl hv2s.1⟩
    · refine ⟨v3.Status, by simp [hv3s.2], ?_, Or.inr hv3s.1⟩
      rcases hv3s.1 with h | h <;> rw [h]
      · exact hne.2.1
      · exact hne.2.2
    · refine ⟨v4.Status, by simp [hv4id], ?_, Or.inr (hv4 ▸ hv3s.1)⟩
      rw [hv4]
      rcases hv3s.1 with h | h <;> rw [h]
      · exact hne.2.1
      · exact hne.2.2
    · refine ⟨v4.Status, by simp [hv4id], ?_, Or.inr (hv4 ▸ hv3s.1)⟩
      rw [hv4]
      rcases hv3s.1 with h | h <;> rw [h]
      · exact hne.2.1
      · exact hne.2.2

/-- The failing input of C13: the upload `demoInput` into an empty world.  The
handler answers with status `uploaded` if it reads the record before the
goroutine has assigned to it, and with status `processing` if it reads right
after the first assignment of the goroutine. -/
theorem returned_record_is_assigned_by_goroutine_witness :
    (demoEnv 25 threeChunks).uploadFile emptyWorld.trace.length (.request 0 false)
        (originalStoragePath ((demoEnv 25 threeChunks).uuid emptyWorld.uuids) demoInput.FileName)
        demoInput.FileData demoInput.MimeType =
      .ok ("http://store/bucket/" ++
        originalStoragePath ((demoEnv 25 threeChunks).uuid emptyWorld.uuids)
          demoInput.FileName) ∧
    ∃ video,
      (UploadVideo (demoEnv 25 threeChunks) (.request 0 false) demoInput emptyWorld).1 =
        .ok video ∧
      (UploadVideo (demoEnv 25 threeChunks) (.request 0 false) demoInput emptyWorld).2.videos
        video.ID = some video ∧
      video.Status = StatusUploaded ∧
      (UploadVideo (demoEnv 25 threeChunks) (.request 0 false) demoInput emptyWorld).2.spawned =
        [⟨video, video.ID, "http://store/bucket/" ++
          originalStoragePath ((demoEnv 25 threeChunks).uuid emptyWorld.uuids)
            demoInput.FileName⟩] ∧
      VideoHandler.UploadVideo (demoEnv 25 threeChunks) (.request 0 false) demoInput 0
        emptyWorld = .ok ⟨video.ID, StatusUploaded⟩ ∧
      VideoHandler.UploadVideo (demoEnv 25 threeChunks) (.request 0 false) demoInput 1
        emptyWorld = .ok ⟨video.ID, StatusProcessing⟩ := by
  refine ⟨rfl, ?_⟩
  obtain ⟨video, h1, h2, h3, -, -, -, -, -, -, -, -, -, -, h4, -, -, h5, h6, -⟩ :=
    returned_record_is_assigned_by_goroutine (demoEnv 25 threeChunks) (.request 0 false)
      demoInput emptyWorld _ rfl rfl
  exact ⟨video, h1, h2, h3, h4, h5, h6⟩

end VideoBackend
